import Mathlib

/-!
# Dense attribute storage (`src/H5Adense.c`)

A shallow embedding of the dense attribute store of HDF5.  The orchestrating
routines `H5A_dense_*` are translated from `src/src/H5Adense.c`.  The
collaborators they call (fractal heap `H5HF_*`, v2 B-tree `H5B2_*`, shared
message table `H5SM_*`, object-header message layer `H5O_*`) are not part of
the translated file; each of them is modelled from the interface description
of the specification and marked as such.

Conventions of the embedding:

* a file `H5F_t` is passed explicitly and returned by every routine that can
  change it; a failing routine returns the file as it is at the point of
  failure (the C code has no roll back);
* `herr_t`/`htri_t` are integers (`SUCCEED = 0`, `FAIL = -1`, `TRUE = 1`);
* an address is `Option Nat`, `none` being `HADDR_UNDEF`;
* a heap handle is the address of the heap it was opened on; the handle of the
  shared message heap is a flag telling whether it is non-`NULL`;
* `dxpl_id` is threaded through the C code unchanged and is omitted.
-/

set_option autoImplicit false

/-! ## Basic types -/

/-- File addresses; `none` is `HADDR_UNDEF`. -/
abbrev haddr_t := Option Nat

/-- Status return type. -/
abbrev herr_t := Int

/-- Three-valued return type. -/
abbrev htri_t := Int

/-- Heap identifiers (`H5O_fheap_id_t`). -/
abbrev H5O_fheap_id_t := Nat

@[reducible] def SUCCEED : Int := 0

@[reducible] def FAIL : Int := -1

@[reducible] def TRUE : Int := 1

@[reducible] def FALSE : Int := 0

@[reducible] def H5_ITER_ERROR : Int := -1

@[reducible] def H5_ITER_CONT : Int := 0

@[reducible] def H5_ITER_STOP : Int := 1

/-- The macro `H5F_addr_defined`. -/
def H5F_addr_defined (a : haddr_t) : Bool := a.isSome

/-- Index selector `H5_index_t` (the two values the store accepts). -/
inductive H5_index_t where
  | H5_INDEX_NAME
  | H5_INDEX_CRT_ORDER
deriving DecidableEq, Repr

/-- Iteration order `H5_iter_order_t`. -/
inductive H5_iter_order_t where
  | H5_ITER_INC
  | H5_ITER_DEC
  | H5_ITER_NATIVE
deriving DecidableEq, Repr

/-- Modelled from the spec: the message flags of a record.  The bit values are
declared in headers outside the translated file; the specification gives the
record as `flags: {SHARED}`, so `mesg_flags |= H5O_MSG_FLAG_SHARED` sets the
field and `flags & H5O_MSG_FLAG_SHARED` reads it. -/
structure H5O_mesg_flags where
  SHARED : Bool
deriving DecidableEq, Repr

/-- Sharing state of a message (`H5O_shared_t.type`). -/
inductive H5O_share_type_t where
  | H5O_SHARE_TYPE_UNSHARED
  | H5O_SHARE_TYPE_SOHM
deriving DecidableEq, Repr

/-- Shared message location (`H5O_shared_t`): the sharing state and the heap
ID in the shared message heap (`u.heap_id`). -/
structure H5O_shared_t where
  type : H5O_share_type_t
  heap_id : H5O_fheap_id_t
deriving DecidableEq, Repr

/-- An attribute in memory (`H5A_t`): the fields the dense store reads or
writes.  `body` stands for datatype, dataspace and raw value, which the store
never inspects. -/
structure H5A_t where
  sh_loc : H5O_shared_t
  name : String
  version : Nat
  crt_idx : Nat
  body : List Nat
deriving DecidableEq, Repr

/-- Modelled from the spec: a serialized attribute message.  Encoding and
decoding belong to the host object layer; the serialized form is represented
by what it carries: version, name and body.  The creation order and the
sharing state are not part of it (`H5A_dense_copy_fh_cb` sets both after
decoding). -/
structure H5A_mesg where
  version : Nat
  name : String
  body : List Nat
deriving DecidableEq, Repr

/-- Modelled from the spec: `H5O_msg_encode` for attribute messages. -/
def H5O_msg_encode (attr : H5A_t) : H5A_mesg :=
  { version := attr.version, name := attr.name, body := attr.body }

/-- Modelled from the spec: `H5O_msg_decode` for attribute messages; a decoded
attribute is unshared and has creation order 0 until the caller sets them. -/
def H5O_msg_decode (m : H5A_mesg) : H5A_t :=
  { sh_loc := { type := H5O_share_type_t.H5O_SHARE_TYPE_UNSHARED, heap_id := 0 },
    name := m.name, version := m.version, crt_idx := 0, body := m.body }

/-- Modelled from the spec: `H5O_msg_is_shared` for attribute messages. -/
def H5O_msg_is_shared (attr : H5A_t) : Bool :=
  decide (attr.sh_loc.type = H5O_share_type_t.H5O_SHARE_TYPE_SOHM)

/-- Character-wise comparison of two strings, as its sign. -/
def HDstrcmp_chars : List Char → List Char → Int
  | [], [] => 0
  | [], _ :: _ => -1
  | _ :: _, [] => 1
  | c :: cs, d :: ds =>
    if c.toNat < d.toNat then -1
    else if d.toNat < c.toNat then 1
    else HDstrcmp_chars cs ds

/-- Modelled from the spec: `HDstrcmp`, as the sign of the comparison. -/
def HDstrcmp (a b : String) : Int := HDstrcmp_chars a.data b.data

/-- Name index record (`H5A_dense_bt2_name_rec_t`). -/
structure H5A_dense_bt2_name_rec_t where
  id : H5O_fheap_id_t
  flags : H5O_mesg_flags
  corder : Nat
  hash : Nat
deriving DecidableEq, Repr

/-- Creation order index record (`H5A_dense_bt2_corder_rec_t`); its fields
are the leading fields of the name index record. -/
structure H5A_dense_bt2_corder_rec_t where
  id : H5O_fheap_id_t
  flags : H5O_mesg_flags
  corder : Nat
deriving DecidableEq, Repr

/-- The view of a name index record through the leading fields it has in
common with a creation order record; the B-tree callbacks that serve both
indexes read records through this view. -/
def H5A_dense_bt2_name_rec_t.common (r : H5A_dense_bt2_name_rec_t) :
    H5A_dense_bt2_corder_rec_t :=
  { id := r.id, flags := r.flags, corder := r.corder }

/-- Modelled from the spec: a fractal heap ("Attribute Heap"): a store of
serialized attributes returning a stable reference per stored value.  A heap
ID is the position of the object; a removed object leaves an empty slot. -/
abbrev H5HF_t := List (Option H5A_mesg)

/-- Modelled from the spec: a slot of the shared message table: the
serialized message and its reference count. -/
structure H5SM_mesg_t where
  mesg : H5A_mesg
  ref_count : Nat
deriving DecidableEq, Repr

/-- Modelled from the spec: a v2 B-tree ("Ordered Index"): its creation
parameters and its records in index order. -/
structure H5B2_t (ρ : Type) where
  node_size : Nat
  rrec_size : Nat
  split_percent : Nat
  merge_percent : Nat
  recs : List ρ

/-- Adjustments of the reference counts of an attribute's owned components
(`H5O_attr_link`, `H5O_attr_delete`), kept as a log, newest first. -/
inductive H5O_attr_event where
  | link (attr : H5A_t)
  | delete (attr : H5A_t)
deriving DecidableEq, Repr

/-- The file.  The first group of fields are library functions and constants
that are declared outside the translated file and are taken as parameters;
the second group is the mutable state: heaps and B-trees by address, the
shared message table of attribute messages, and the log of component
reference adjustments. -/
structure H5F_t where
  H5_checksum_lookup3 : String → Nat
  attr_sharable : Bool
  H5SM_can_share : H5A_mesg → Bool
  H5O_msg_raw_size : H5A_t → Nat
  H5A_get_version : H5A_t → Nat
  H5O_FHEAP_ID_LEN : Nat
  eoa : Nat
  fheaps : Nat → Option H5HF_t
  name_bt2 : Nat → Option (H5B2_t H5A_dense_bt2_name_rec_t)
  corder_bt2 : Nat → Option (H5B2_t H5A_dense_bt2_corder_rec_t)
  sohm : List (Option H5SM_mesg_t)
  oh_log : List H5O_attr_event

/-- Attribute storage information of one object (`H5O_ainfo_t`). -/
structure H5O_ainfo_t where
  index_corder : Bool
  fheap_addr : haddr_t
  name_bt2_addr : haddr_t
  corder_bt2_addr : haddr_t
deriving DecidableEq, Repr

/-! ## Collaborators: fractal heap -/

/-- Replace the heap stored at address `a`. -/
def H5F_t.set_fheap (f : H5F_t) (a : Nat) (h : Option H5HF_t) : H5F_t :=
  { f with fheaps := fun b => if b = a then h else f.fheaps b }

/-- Replace the name index stored at address `a`. -/
def H5F_t.set_name_bt2 (f : H5F_t) (a : Nat)
    (t : Option (H5B2_t H5A_dense_bt2_name_rec_t)) : H5F_t :=
  { f with name_bt2 := fun b => if b = a then t else f.name_bt2 b }

/-- Replace the creation order index stored at address `a`. -/
def H5F_t.set_corder_bt2 (f : H5F_t) (a : Nat)
    (t : Option (H5B2_t H5A_dense_bt2_corder_rec_t)) : H5F_t :=
  { f with corder_bt2 := fun b => if b = a then t else f.corder_bt2 b }

/-- Modelled from the spec: `H5HF_create` allocates an empty heap at the end
of the allocated space and returns its address (`H5HF_get_heap_addr`). -/
def H5HF_create (f : H5F_t) : H5F_t × Nat :=
  ({ f.set_fheap f.eoa (some []) with eoa := f.eoa + 1 }, f.eoa)

/-- Modelled from the spec: `H5HF_open` ("open by address"): succeeds when a
heap is stored at the address; the handle is the address. -/
def H5HF_open (f : H5F_t) (addr : haddr_t) : Option Nat :=
  match addr with
  | none => none
  | some a =>
    match f.fheaps a with
    | none => none
    | some _ => some a

/-- Modelled from the spec: reading the object with a heap ID in a heap
(`read(ref) -> bytes`): fails on an empty or unknown slot. -/
def H5HF_read (h : H5HF_t) (id : H5O_fheap_id_t) : Option H5A_mesg :=
  match h[id]? with
  | some (some obj) => some obj
  | _ => none

/-- Modelled from the spec: `H5HF_insert` (`insert(bytes) -> ref`): stores
the object in a new slot and returns its heap ID. -/
def H5HF_insert (f : H5F_t) (fheap : Nat) (obj : H5A_mesg) :
    Option (H5F_t × H5O_fheap_id_t) :=
  match f.fheaps fheap with
  | none => none
  | some h => some (f.set_fheap fheap (some (h ++ [some obj])), h.length)

/-- Modelled from the spec: `H5HF_op` on an object's private heap: hands the
stored object to the callback. -/
def H5HF_op (f : H5F_t) (fheap : Nat) (id : H5O_fheap_id_t) : Option H5A_mesg :=
  match f.fheaps fheap with
  | none => none
  | some h => H5HF_read h id

/-- Modelled from the spec: `H5HF_remove` (`remove(ref)`): frees the slot of
a stored object. -/
def H5HF_remove (f : H5F_t) (fheap : Nat) (id : H5O_fheap_id_t) : Option H5F_t :=
  match f.fheaps fheap with
  | none => none
  | some h =>
    match H5HF_read h id with
    | none => none
    | some _ => some (f.set_fheap fheap (some (h.set id none)))

/-- Modelled from the spec: the length of a stored object.  The heap holds
serialized messages, and the raw size of a message is the length of its
serialized form; the serialized form carries neither the creation order nor
the sharing state, so the length is taken from the message as decoded. -/
def H5HF_obj_size (f : H5F_t) (obj : H5A_mesg) : Nat :=
  f.H5O_msg_raw_size (H5O_msg_decode obj)

/-- Modelled from the spec: `H5HF_get_obj_len` (`object_length(ref) -> size`):
the length of the object stored under a heap ID. -/
def H5HF_get_obj_len (f : H5F_t) (fheap : Nat) (id : H5O_fheap_id_t) : Option Nat :=
  match H5HF_op f fheap id with
  | none => none
  | some obj => some (H5HF_obj_size f obj)

/-- Modelled from the spec: `H5HF_write` (`update(ref, bytes) -> changed`,
"size-preserving, in-place only"): overwrites a stored object in place with an
object of the same length and reports the change.  The routine is given no
length: it rewrites the length the object has, so there is no update to an
object of another length. -/
def H5HF_write (f : H5F_t) (fheap : Nat) (id : H5O_fheap_id_t) (obj : H5A_mesg) :
    Option (H5F_t × Bool) :=
  match f.fheaps fheap with
  | none => none
  | some h =>
    match H5HF_read h id with
    | none => none
    | some stored =>
      if H5HF_obj_size f obj = H5HF_obj_size f stored then
        some (f.set_fheap fheap (some (h.set id (some obj))), true)
      else none

/-- Modelled from the spec: `H5HF_delete` (`delete_all()`): removes the heap
stored at an address. -/
def H5HF_delete (f : H5F_t) (addr : haddr_t) : Option H5F_t :=
  match addr with
  | none => none
  | some a =>
    match f.fheaps a with
    | none => none
    | some _ => some (f.set_fheap a none)

/-! ## Collaborators: shared message table -/

/-- Modelled from the spec: `H5SM_type_shared` (`is_type_sharable`) for
attribute messages. -/
def H5SM_type_shared (f : H5F_t) : Bool := f.attr_sharable

/-- Modelled from the spec: `H5SM_get_fheap_addr`: the heap of shared
messages has a defined address while it holds a message. -/
def H5SM_get_fheap_addr (f : H5F_t) : haddr_t :=
  if f.sohm.any Option.isSome then some 0 else none

/-- Modelled from the spec: reading a shared message through the handle of
the shared message heap; a `NULL` handle cannot be read. -/
def H5HF_op_shared (f : H5F_t) (shared_fheap : Bool) (id : H5O_fheap_id_t) :
    Option H5A_mesg :=
  if shared_fheap then
    match f.sohm[id]? with
    | some (some e) => some e.mesg
    | _ => none
  else none

/-- Position of the first live slot holding a given serialized message. -/
def H5SM_lookup (m : H5A_mesg) : List (Option H5SM_mesg_t) → Option Nat
  | [] => none
  | s :: rest =>
    match s with
    | some e => if e.mesg = m then some 0 else (H5SM_lookup m rest).map (· + 1)
    | none => (H5SM_lookup m rest).map (· + 1)

/-- Modelled from the spec: `H5SM_try_share` (`try_share(value) ->
(accepted, ref)`).  The table may decline; on acceptance an equal message
already in the table gets one more reference, otherwise the message is
stored with reference count 1; the attribute's shared location and the
`SHARED` flag are set. -/
def H5SM_try_share (f : H5F_t) (attr : H5A_t) (mesg_flags : H5O_mesg_flags) :
    H5F_t × H5A_t × H5O_mesg_flags :=
  if f.attr_sharable && f.H5SM_can_share (H5O_msg_encode attr) then
    match H5SM_lookup (H5O_msg_encode attr) f.sohm with
    | some i =>
      let rc : Nat :=
        match f.sohm[i]? with
        | some (some e) => e.ref_count + 1
        | _ => 1
      let slot : H5SM_mesg_t := { mesg := H5O_msg_encode attr, ref_count := rc }
      ({ f with sohm := f.sohm.set i (some slot) },
       { attr with sh_loc := { type := H5O_share_type_t.H5O_SHARE_TYPE_SOHM, heap_id := i } },
       { mesg_flags with SHARED := true })
    | none =>
      let slot : H5SM_mesg_t := { mesg := H5O_msg_encode attr, ref_count := 1 }
      ({ f with sohm := f.sohm ++ [some slot] },
       { attr with sh_loc := { type := H5O_share_type_t.H5O_SHARE_TYPE_SOHM,
                               heap_id := f.sohm.length } },
       { mesg_flags with SHARED := true })
  else (f, attr, mesg_flags)

/-- Modelled from the spec: `H5SM_reconstitute`: the shared location of a
heap ID in the shared message heap. -/
def H5SM_reconstitute (id : H5O_fheap_id_t) : H5O_shared_t :=
  { type := H5O_share_type_t.H5O_SHARE_TYPE_SOHM, heap_id := id }

/-- Modelled from the spec: `H5SM_get_refcount`. -/
def H5SM_get_refcount (f : H5F_t) (sh_loc : H5O_shared_t) : Option Nat :=
  match f.sohm[sh_loc.heap_id]? with
  | some (some e) => some e.ref_count
  | _ => none

/-- Modelled from the spec: `H5SM_delete` (`delete(ref)`: decrement; free at
0). -/
def H5SM_delete (f : H5F_t) (sh_loc : H5O_shared_t) : Option H5F_t :=
  match f.sohm[sh_loc.heap_id]? with
  | some (some e) =>
    if e.ref_count ≤ 1 then
      some { f with sohm := f.sohm.set sh_loc.heap_id none }
    else
      let slot : H5SM_mesg_t := { e with ref_count := e.ref_count - 1 }
      some { f with sohm := f.sohm.set sh_loc.heap_id (some slot) }
  | _ => none

/-! ## Collaborators: object header messages -/

/-- Modelled from the spec: `H5O_attr_link`: one more reference on the
attribute's owned components. -/
def H5O_attr_link (f : H5F_t) (attr : H5A_t) : H5F_t :=
  { f with oh_log := H5O_attr_event.link attr :: f.oh_log }

/-- Modelled from the spec: `H5O_attr_delete`: release of the attribute's
owned components. -/
def H5O_attr_delete (f : H5F_t) (attr : H5A_t) : H5F_t :=
  { f with oh_log := H5O_attr_event.delete attr :: f.oh_log }

/-! ## Collaborators: v2 B-trees and their record classes -/

/-- Creation parameters of the name index (local macros of the file). -/
def H5A_NAME_BT2_NODE_SIZE : Nat := 512

def H5A_NAME_BT2_MERGE_PERC : Nat := 40

def H5A_NAME_BT2_SPLIT_PERC : Nat := 100

/-- Creation parameters of the creation order index (local macros). -/
def H5A_CORDER_BT2_NODE_SIZE : Nat := 512

def H5A_CORDER_BT2_MERGE_PERC : Nat := 40

def H5A_CORDER_BT2_SPLIT_PERC : Nat := 100

/-- Common B-tree user data (`H5A_bt2_ud_common_t`).  The `found_op` slot is
either `NULL` or `H5A_dense_fnd_cb`, which hands the located attribute to the
caller; the embedding returns the located attribute from the lookup and the
caller takes it or not. -/
structure H5A_bt2_ud_common_t where
  fheap : Nat
  shared_fheap : Bool
  name : String
  name_hash : Nat
  flags : H5O_mesg_flags
  corder : Nat

/-- Fractal heap callback making a copy of a stored attribute for the calling
routine: decode, set the creation order from the record, reconstitute the
shared location of a shared record. -/
def H5A_dense_copy_fh_cb (obj : H5A_mesg) (record : H5A_dense_bt2_corder_rec_t) : H5A_t :=
  let attr := { H5O_msg_decode obj with crt_idx := record.corder }
  if record.flags.SHARED then { attr with sh_loc := H5SM_reconstitute record.id } else attr

/-- The heap access shared by the B-tree callbacks: pick the shared message
heap for a record flagged `SHARED` and the object's heap otherwise, and run
`H5HF_op` with `H5A_dense_copy_fh_cb` on the record's heap ID. -/
def H5A_dense_heap_op (f : H5F_t) (fheap : Nat) (shared_fheap : Bool)
    (record : H5A_dense_bt2_corder_rec_t) : Option H5A_t :=
  match (if record.flags.SHARED then H5HF_op_shared f shared_fheap record.id
         else H5HF_op f fheap record.id) with
  | none => none
  | some obj => some (H5A_dense_copy_fh_cb obj record)

/-- Modelled from the spec: the comparator of the name index: "compares hash
first, name only on hash equality", fetching the stored attribute through the
record's heap reference.  `none` when the stored attribute cannot be read. -/
def H5A_dense_btree2_name_compare (f : H5F_t) (udata : H5A_bt2_ud_common_t)
    (rec : H5A_dense_bt2_name_rec_t) : Option Int :=
  if udata.name_hash < rec.hash then some (-1)
  else if rec.hash < udata.name_hash then some 1
  else
    match H5A_dense_heap_op f udata.fheap udata.shared_fheap rec.common with
    | none => none
    | some attr => some (HDstrcmp udata.name attr.name)

/-- Modelled from the spec: the comparator of the creation order index. -/
def H5A_dense_btree2_corder_compare (corder : Nat) (rec : H5A_dense_bt2_corder_rec_t) : Int :=
  if corder < rec.corder then -1 else if rec.corder < corder then 1 else 0

/-- Modelled from the spec: position of a new record in index order: before
the first record the key is smaller than. -/
def H5B2_insert_sorted {ρ : Type} (lt : ρ → Bool) (new : ρ) : List ρ → List ρ
  | [] => [new]
  | r :: rs => if lt r then new :: r :: rs else r :: H5B2_insert_sorted lt new rs

/-- Modelled from the spec: `H5B2_create` for the name index. -/
def H5B2_create_name (f : H5F_t) (node_size rrec_size split_percent merge_percent : Nat) :
    H5F_t × Nat :=
  let t : H5B2_t H5A_dense_bt2_name_rec_t :=
    { node_size := node_size, rrec_size := rrec_size, split_percent := split_percent,
      merge_percent := merge_percent, recs := [] }
  ({ f.set_name_bt2 f.eoa (some t) with eoa := f.eoa + 1 }, f.eoa)

/-- Modelled from the spec: `H5B2_create` for the creation order index. -/
def H5B2_create_corder (f : H5F_t) (node_size rrec_size split_percent merge_percent : Nat) :
    H5F_t × Nat :=
  let t : H5B2_t H5A_dense_bt2_corder_rec_t :=
    { node_size := node_size, rrec_size := rrec_size, split_percent := split_percent,
      merge_percent := merge_percent, recs := [] }
  ({ f.set_corder_bt2 f.eoa (some t) with eoa := f.eoa + 1 }, f.eoa)

/-- The records of the name index at an address. -/
def H5B2_name_recs (f : H5F_t) (addr : haddr_t) : Option (List H5A_dense_bt2_name_rec_t) :=
  match addr with
  | none => none
  | some a =>
    match f.name_bt2 a with
    | none => none
    | some t => some t.recs

/-- The records of the creation order index at an address. -/
def H5B2_corder_recs (f : H5F_t) (addr : haddr_t) : Option (List H5A_dense_bt2_corder_rec_t) :=
  match addr with
  | none => none
  | some a =>
    match f.corder_bt2 a with
    | none => none
    | some t => some t.recs

/-- Whether a name index record compares equal to the key in `udata`. -/
def H5A_dense_name_match (f : H5F_t) (udata : H5A_bt2_ud_common_t)
    (rec : H5A_dense_bt2_name_rec_t) : Bool :=
  decide (H5A_dense_btree2_name_compare f udata rec = some 0)

/-- Modelled from the spec: `H5B2_find` on the name index
(`find(key, comparator) -> record | NotFound`): the record comparing equal
to the key, with the attribute the comparator read for it. -/
def H5B2_find_name (f : H5F_t) (addr : haddr_t) (udata : H5A_bt2_ud_common_t) :
    Option (H5A_dense_bt2_name_rec_t × H5A_t) :=
  match addr with
  | none => none
  | some a =>
    match f.name_bt2 a with
    | none => none
    | some t =>
      match t.recs.find? (H5A_dense_name_match f udata) with
      | none => none
      | some rec =>
        match H5A_dense_heap_op f udata.fheap udata.shared_fheap rec.common with
        | none => none
        | some attr => some (rec, attr)

/-- Modelled from the spec: `H5B2_insert` on the name index (`insert(record)`,
`DuplicateKeyError` on collision).  The stored record takes its fields from
the insertion user data. -/
def H5B2_insert_name (f : H5F_t) (addr : haddr_t) (udata : H5A_bt2_ud_common_t)
    (id : H5O_fheap_id_t) : Option H5F_t :=
  match addr with
  | none => none
  | some a =>
    match f.name_bt2 a with
    | none => none
    | some t =>
      if t.recs.any (H5A_dense_name_match f udata) then none
      else
        let new : H5A_dense_bt2_name_rec_t :=
          { id := id, flags := udata.flags, corder := udata.corder, hash := udata.name_hash }
        let lt : H5A_dense_bt2_name_rec_t → Bool := fun r =>
          match H5A_dense_btree2_name_compare f udata r with
          | some c => decide (c < 0)
          | none => false
        some (f.set_name_bt2 a (some { t with recs := H5B2_insert_sorted lt new t.recs }))

/-- Modelled from the spec: `H5B2_insert` on the creation order index. -/
def H5B2_insert_corder (f : H5F_t) (addr : haddr_t) (udata : H5A_bt2_ud_common_t)
    (id : H5O_fheap_id_t) : Option H5F_t :=
  match addr with
  | none => none
  | some a =>
    match f.corder_bt2 a with
    | none => none
    | some t =>
      if t.recs.any (fun r => decide (H5A_dense_btree2_corder_compare udata.corder r = 0)) then none
      else
        let new : H5A_dense_bt2_corder_rec_t :=
          { id := id, flags := udata.flags, corder := udata.corder }
        let lt : H5A_dense_bt2_corder_rec_t → Bool := fun r =>
          decide (H5A_dense_btree2_corder_compare udata.corder r < 0)
        some (f.set_corder_bt2 a (some { t with recs := H5B2_insert_sorted lt new t.recs }))

/-- Modelled from the spec: `H5B2_remove` on the creation order index with no
callback (`remove(key, pre_remove_callback)`). -/
def H5B2_remove_corder (f : H5F_t) (addr : haddr_t) (corder : Nat) : Option H5F_t :=
  match addr with
  | none => none
  | some a =>
    match f.corder_bt2 a with
    | none => none
    | some t =>
      if t.recs.any (fun r => decide (H5A_dense_btree2_corder_compare corder r = 0)) then
        let recs := t.recs.eraseP
          (fun r => decide (H5A_dense_btree2_corder_compare corder r = 0))
        some (f.set_corder_bt2 a (some { t with recs := recs }))
      else none

/-- Modelled from the spec: `H5B2_remove` on the name index.  The callback,
when there is one, runs on the located record (with the attribute handed over
by `H5A_dense_fnd_cb`) before the record is taken out; when it fails the
record stays. -/
def H5B2_remove_name (f : H5F_t) (addr : haddr_t) (udata : H5A_bt2_ud_common_t)
    (op : Option (H5F_t → H5A_dense_bt2_name_rec_t → H5A_t → herr_t × H5F_t)) :
    herr_t × H5F_t :=
  match addr with
  | none => (FAIL, f)
  | some a =>
    match f.name_bt2 a with
    | none => (FAIL, f)
    | some t =>
      match H5B2_find_name f addr udata with
      | none => (FAIL, f)
      | some (rec, attr) =>
        let r : herr_t × H5F_t :=
          match op with
          | none => (SUCCEED, f)
          | some cb => cb f rec attr
        if r.1 < 0 then (FAIL, r.2)
        else
          let recs := t.recs.eraseP (H5A_dense_name_match f udata)
          (SUCCEED, r.2.set_name_bt2 a (some { t with recs := recs }))

/-- Modelled from the spec: the forward position `H5B2_remove_by_idx` and
`H5B2_index` use for position `n` in an order (`remove_by_position`). -/
def H5B2_idx (order : H5_iter_order_t) (nrec n : Nat) : Nat :=
  if order = H5_iter_order_t.H5_ITER_DEC then nrec - (n + 1) else n

/-- Modelled from the spec: `H5B2_remove_by_idx` on the name index. -/
def H5B2_remove_by_idx_name (f : H5F_t) (addr : haddr_t) (order : H5_iter_order_t) (n : Nat)
    (op : H5F_t → H5A_dense_bt2_corder_rec_t → herr_t × H5F_t) : herr_t × H5F_t :=
  match addr with
  | none => (FAIL, f)
  | some a =>
    match f.name_bt2 a with
    | none => (FAIL, f)
    | some t =>
      if t.recs.length ≤ n then (FAIL, f)
      else
        match t.recs[H5B2_idx order t.recs.length n]? with
        | none => (FAIL, f)
        | some rec =>
          let r := op f rec.common
          if r.1 < 0 then (FAIL, r.2)
          else
            let recs := t.recs.eraseIdx (H5B2_idx order t.recs.length n)
            (SUCCEED, r.2.set_name_bt2 a (some { t with recs := recs }))

/-- Modelled from the spec: `H5B2_remove_by_idx` on the creation order
index. -/
def H5B2_remove_by_idx_corder (f : H5F_t) (addr : haddr_t) (order : H5_iter_order_t) (n : Nat)
    (op : H5F_t → H5A_dense_bt2_corder_rec_t → herr_t × H5F_t) : herr_t × H5F_t :=
  match addr with
  | none => (FAIL, f)
  | some a =>
    match f.corder_bt2 a with
    | none => (FAIL, f)
    | some t =>
      if t.recs.length ≤ n then (FAIL, f)
      else
        match t.recs[H5B2_idx order t.recs.length n]? with
        | none => (FAIL, f)
        | some rec =>
          let r := op f rec
          if r.1 < 0 then (FAIL, r.2)
          else
            let recs := t.recs.eraseIdx (H5B2_idx order t.recs.length n)
            (SUCCEED, r.2.set_corder_bt2 a (some { t with recs := recs }))

/-- Modelled from the spec: `H5B2_iterate` (`iterate(native_order, visitor)`):
visits the records in index order until the visitor returns non-zero. -/
def H5B2_iterate {ρ υ : Type} (op : ρ → υ → Int × υ) : List ρ → υ → Int × υ
  | [], u => (0, u)
  | r :: rs, u =>
    if (op r u).1 ≠ 0 then op r u else H5B2_iterate op rs (op r u).2

/-! ## The dense attribute store (`H5Adense.c`) -/

/-- The handle of the shared message heap as the routines of the store obtain
it: non-`NULL` when attributes are sharable in the file and the shared
message heap has a defined address. -/
def H5A_dense_shared_fheap (f : H5F_t) : Bool :=
  if H5SM_type_shared f then H5F_addr_defined (H5SM_get_fheap_addr f) else false

/-- Translation of `H5A_dense_create`: creates the heap, the name index and,
when `index_corder` is set, the creation order index, storing their addresses
in `ainfo`. -/
def H5A_dense_create (f : H5F_t) (ainfo : H5O_ainfo_t) : herr_t × H5F_t × H5O_ainfo_t :=
  let c1 := H5HF_create f
  let ainfo1 : H5O_ainfo_t := { ainfo with fheap_addr := some c1.2 }
  let name_rrec_size := 4 + 4 + 1 + f.H5O_FHEAP_ID_LEN
  let c2 := H5B2_create_name c1.1 H5A_NAME_BT2_NODE_SIZE name_rrec_size
    H5A_NAME_BT2_SPLIT_PERC H5A_NAME_BT2_MERGE_PERC
  let ainfo2 : H5O_ainfo_t := { ainfo1 with name_bt2_addr := some c2.2 }
  if ainfo.index_corder then
    let corder_rrec_size := 4 + 1 + f.H5O_FHEAP_ID_LEN
    let c3 := H5B2_create_corder c2.1 H5A_CORDER_BT2_NODE_SIZE corder_rrec_size
      H5A_CORDER_BT2_SPLIT_PERC H5A_CORDER_BT2_MERGE_PERC
    (SUCCEED, c3.1, { ainfo2 with corder_bt2_addr := some c3.2 })
  else (SUCCEED, c2.1, ainfo2)

/-- Translation of `H5A_dense_open`: `none` is the `NULL` return. -/
def H5A_dense_open (f : H5F_t) (ainfo : H5O_ainfo_t) (name : String) : Option H5A_t :=
  match H5HF_open f ainfo.fheap_addr with
  | none => none
  | some fheap =>
    let udata : H5A_bt2_ud_common_t :=
      { fheap := fheap, shared_fheap := H5A_dense_shared_fheap f, name := name,
        name_hash := f.H5_checksum_lookup3 name, flags := { SHARED := false }, corder := 0 }
    match H5B2_find_name f ainfo.name_bt2_addr udata with
    | none => none
    | some found => some found.2

/-- Translation of `H5A_dense_insert`.  Returns the status, the file and the
attribute (whose shared location `H5SM_try_share` may have set). -/
def H5A_dense_insert (f : H5F_t) (ainfo : H5O_ainfo_t) (attr : H5A_t) :
    herr_t × H5F_t × H5A_t :=
  let mesg_flags : H5O_mesg_flags := { SHARED := false }
  let attr_sharable := H5SM_type_shared f
  let sh : H5F_t × H5A_t × H5O_mesg_flags :=
    if attr_sharable then
      if H5O_msg_is_shared attr then (f, attr, { mesg_flags with SHARED := true })
      else H5SM_try_share f attr mesg_flags
    else (f, attr, mesg_flags)
  let f1 := sh.1
  let attr1 := sh.2.1
  let mesg_flags1 := sh.2.2
  let shared_fheap : Bool :=
    if attr_sharable then H5F_addr_defined (H5SM_get_fheap_addr f1) else false
  match H5HF_open f1 ainfo.fheap_addr with
  | none => (FAIL, f1, attr1)
  | some fheap =>
    let stored : Option (H5F_t × H5O_fheap_id_t) :=
      if mesg_flags1.SHARED then some (f1, attr1.sh_loc.heap_id)
      else if f1.H5O_msg_raw_size attr1 = 0 then none
      else H5HF_insert f1 fheap (H5O_msg_encode attr1)
    match stored with
    | none => (FAIL, f1, attr1)
    | some (f2, id) =>
      let udata : H5A_bt2_ud_common_t :=
        { fheap := fheap, shared_fheap := shared_fheap, name := attr1.name,
          name_hash := f.H5_checksum_lookup3 attr1.name, flags := mesg_flags1,
          corder := attr1.crt_idx }
      match H5B2_insert_name f2 ainfo.name_bt2_addr udata id with
      | none => (FAIL, f2, attr1)
      | some f3 =>
        if ainfo.index_corder then
          match H5B2_insert_corder f3 ainfo.corder_bt2_addr udata id with
          | none => (FAIL, f3, attr1)
          | some f4 => (SUCCEED, f4, attr1)
        else (SUCCEED, f3, attr1)

/-- Translation of `H5A_dense_exists`. -/
def H5A_dense_exists (f : H5F_t) (ainfo : H5O_ainfo_t) (name : String) : htri_t :=
  match H5HF_open f ainfo.fheap_addr with
  | none => FAIL
  | some fheap =>
    let udata : H5A_bt2_ud_common_t :=
      { fheap := fheap, shared_fheap := H5A_dense_shared_fheap f, name := name,
        name_hash := f.H5_checksum_lookup3 name, flags := { SHARED := false }, corder := 0 }
    match H5B2_find_name f ainfo.name_bt2_addr udata with
    | none => FALSE
    | some _ => TRUE

/-- User data of the removal callback (`H5A_bt2_ud_rm_t`). -/
structure H5A_bt2_ud_rm_t where
  common : H5A_bt2_ud_common_t
  corder_bt2_addr : haddr_t

/-- Translation of `H5A_dense_remove_bt2_cb`: removes the mirrored record
from the creation order index when that index exists, then releases the
storage of the attribute by the record's flag. -/
def H5A_dense_remove_bt2_cb (udata : H5A_bt2_ud_rm_t) (f : H5F_t)
    (record : H5A_dense_bt2_name_rec_t) (attr : H5A_t) : herr_t × H5F_t :=
  let removed : Option H5F_t :=
    if H5F_addr_defined udata.corder_bt2_addr then
      H5B2_remove_corder f udata.corder_bt2_addr attr.crt_idx
    else some f
  match removed with
  | none => (FAIL, f)
  | some f1 =>
    if record.flags.SHARED then
      match H5SM_delete f1 attr.sh_loc with
      | none => (FAIL, f1)
      | some f2 => (SUCCEED, f2)
    else
      match H5HF_remove (H5O_attr_delete f1 attr) udata.common.fheap record.id with
      | none => (FAIL, H5O_attr_delete f1 attr)
      | some f3 => (SUCCEED, f3)

/-- Translation of `H5A_dense_remove`. -/
def H5A_dense_remove (f : H5F_t) (ainfo : H5O_ainfo_t) (name : String) : herr_t × H5F_t :=
  match H5HF_open f ainfo.fheap_addr with
  | none => (FAIL, f)
  | some fheap =>
    let udata : H5A_bt2_ud_rm_t :=
      { common :=
          { fheap := fheap, shared_fheap := H5A_dense_shared_fheap f, name := name,
            name_hash := f.H5_checksum_lookup3 name, flags := { SHARED := false }, corder := 0 },
        corder_bt2_addr := ainfo.corder_bt2_addr }
    H5B2_remove_name f ainfo.name_bt2_addr udata.common (some (H5A_dense_remove_bt2_cb udata))

/-- Translation of `H5A_dense_rename`. -/
def H5A_dense_rename (f : H5F_t) (ainfo : H5O_ainfo_t) (old_name new_name : String) :
    herr_t × H5F_t :=
  let shared_fheap := H5A_dense_shared_fheap f
  match H5HF_open f ainfo.fheap_addr with
  | none => (FAIL, f)
  | some fheap =>
    let udata : H5A_bt2_ud_common_t :=
      { fheap := fheap, shared_fheap := shared_fheap, name := old_name,
        name_hash := f.H5_checksum_lookup3 old_name, flags := { SHARED := false }, corder := 0 }
    match H5B2_find_name f ainfo.name_bt2_addr udata with
    | none => (FAIL, f)
    | some found =>
      let attr_copy := found.2
      let attr_copy1 : H5A_t :=
        if H5O_msg_is_shared attr_copy then
          { attr_copy with sh_loc :=
              { attr_copy.sh_loc with type := H5O_share_type_t.H5O_SHARE_TYPE_UNSHARED } }
        else attr_copy
      let attr_copy2 : H5A_t := { attr_copy1 with name := new_name }
      let attr_copy3 : H5A_t := { attr_copy2 with version := f.H5A_get_version attr_copy2 }
      let ins := H5A_dense_insert f ainfo attr_copy3
      if ins.1 < 0 then (FAIL, ins.2.1)
      else
        let attr_copy4 := ins.2.2
        let linked : Option H5F_t :=
          if H5O_msg_is_shared attr_copy4 then
            match H5SM_get_refcount ins.2.1 attr_copy4.sh_loc with
            | none => none
            | some attr_rc =>
              if attr_rc = 1 then some (H5O_attr_link ins.2.1 attr_copy4) else some ins.2.1
          else some (H5O_attr_link ins.2.1 attr_copy4)
        match linked with
        | none => (FAIL, ins.2.1)
        | some f2 =>
          let rm := H5A_dense_remove f2 ainfo old_name
          if rm.1 < 0 then (FAIL, rm.2) else (SUCCEED, rm.2)

/-- User data of the iteration callback (`H5A_bt2_ud_it_t`); `op_data` is the
callback's own data. -/
structure H5A_bt2_ud_it_t (σ : Type) where
  fheap : Nat
  shared_fheap : Bool
  count : Nat
  skip : Nat
  op_data : σ

/-- Translation of `H5A_dense_iterate_bt2_cb`.  The three kinds of callback
(`H5A_ATTR_OP_APP2`, `H5A_ATTR_OP_APP`, `H5A_ATTR_OP_LIB`) all receive data of
the copied attribute, so the callback is a function of the attribute and of
its own data, returning its return value and its data. -/
def H5A_dense_iterate_bt2_cb {σ : Type} (f : H5F_t) (attr_op : H5A_t → σ → Int × σ)
    (record : H5A_dense_bt2_corder_rec_t) (bt2_udata : H5A_bt2_ud_it_t σ) :
    Int × H5A_bt2_ud_it_t σ :=
  if 0 < bt2_udata.skip then
    (H5_ITER_CONT, { bt2_udata with skip := bt2_udata.skip - 1, count := bt2_udata.count + 1 })
  else
    match H5A_dense_heap_op f bt2_udata.fheap bt2_udata.shared_fheap record with
    | none => (H5_ITER_ERROR, bt2_udata)
    | some attr =>
      let r := attr_op attr bt2_udata.op_data
      (r.1, { bt2_udata with op_data := r.2, count := bt2_udata.count + 1 })

/-- Modelled from the spec: the order of an attribute table
(`H5A_attr_sort_table`): by name or by creation order, increasing or
decreasing; no sorting for the native order. -/
def H5A_attr_sort_table (atable : List H5A_t) (idx_type : H5_index_t) (order : H5_iter_order_t) :
    List H5A_t :=
  match idx_type, order with
  | H5_index_t.H5_INDEX_NAME, H5_iter_order_t.H5_ITER_INC =>
    atable.insertionSort (fun a b => HDstrcmp a.name b.name ≤ 0)
  | H5_index_t.H5_INDEX_NAME, H5_iter_order_t.H5_ITER_DEC =>
    atable.insertionSort (fun a b => 0 ≤ HDstrcmp a.name b.name)
  | H5_index_t.H5_INDEX_CRT_ORDER, H5_iter_order_t.H5_ITER_INC =>
    atable.insertionSort (fun a b => a.crt_idx ≤ b.crt_idx)
  | H5_index_t.H5_INDEX_CRT_ORDER, H5_iter_order_t.H5_ITER_DEC =>
    atable.insertionSort (fun a b => b.crt_idx ≤ a.crt_idx)
  | _, H5_iter_order_t.H5_ITER_NATIVE => atable

/-- Modelled from the spec: `H5A_dense_build_table` ("Table Builder"): walks
the name index in native order, copying every attribute (a shared one through
the shared message heap), then sorts by the key of `idx_type` per `order`. -/
def H5A_dense_build_table (f : H5F_t) (ainfo : H5O_ainfo_t) (idx_type : H5_index_t)
    (order : H5_iter_order_t) : Option (List H5A_t) :=
  match H5HF_open f ainfo.fheap_addr with
  | none => none
  | some fheap =>
    match H5B2_name_recs f ainfo.name_bt2_addr with
    | none => none
    | some recs =>
      let udata : H5A_bt2_ud_it_t (List H5A_t) :=
        { fheap := fheap, shared_fheap := H5A_dense_shared_fheap f, count := 0, skip := 0,
          op_data := [] }
      let r := H5B2_iterate
        (H5A_dense_iterate_bt2_cb f (fun attr tbl => (H5_ITER_CONT, tbl ++ [attr])))
        (recs.map H5A_dense_bt2_name_rec_t.common) udata
      if r.1 < 0 then none else some (H5A_attr_sort_table r.2.op_data idx_type order)

/-- The loop of `H5A_attr_iterate_table`: calls the callback on the entries
while it returns 0, counting the entries passed through. -/
def H5A_attr_iterate_table_loop {σ : Type} (attr_op : H5A_t → σ → Int × σ) :
    List H5A_t → Nat → σ → Int × Nat × σ
  | [], n, d => (H5_ITER_CONT, n, d)
  | attr :: rest, n, d =>
    if (attr_op attr d).1 ≠ 0 then ((attr_op attr d).1, n + 1, (attr_op attr d).2)
    else H5A_attr_iterate_table_loop attr_op rest (n + 1) (attr_op attr d).2

/-- Modelled from the spec: `H5A_attr_iterate_table`: the first `skip` entries
are counted but not delivered; the count is stored through `last_attr` when
that pointer is not `NULL`. -/
def H5A_attr_iterate_table {σ : Type} (atable : List H5A_t) (skip : Nat)
    (last_attr : Option Nat) (attr_op : H5A_t → σ → Int × σ) (op_data : σ) :
    herr_t × Option Nat × σ :=
  let r := H5A_attr_iterate_table_loop attr_op (atable.drop skip) skip op_data
  (r.1, last_attr.map (fun _ => r.2.1), r.2.2)

/-- Translation of `H5A_dense_iterate`.  `last_attr` is `none` for a `NULL`
pointer and `some v` for a pointer to a location holding `v`; the result
carries the return value, the location after the call and the callback's
data. -/
def H5A_dense_iterate {σ : Type} (f : H5F_t) (ainfo : H5O_ainfo_t) (idx_type : H5_index_t)
    (order : H5_iter_order_t) (skip : Nat) (last_attr : Option Nat)
    (attr_op : H5A_t → σ → Int × σ) (op_data : σ) : herr_t × Option Nat × σ :=
  let bt2_addr : haddr_t :=
    match idx_type with
    | H5_index_t.H5_INDEX_NAME =>
      if order = H5_iter_order_t.H5_ITER_NATIVE then ainfo.name_bt2_addr else none
    | H5_index_t.H5_INDEX_CRT_ORDER => ainfo.corder_bt2_addr
  if order = H5_iter_order_t.H5_ITER_NATIVE ∧ H5F_addr_defined bt2_addr = true then
    match H5HF_open f ainfo.fheap_addr with
    | none => (FAIL, last_attr, op_data)
    | some fheap =>
      let udata : H5A_bt2_ud_it_t σ :=
        { fheap := fheap, shared_fheap := H5A_dense_shared_fheap f, count := 0, skip := skip,
          op_data := op_data }
      let recs : Option (List H5A_dense_bt2_corder_rec_t) :=
        match idx_type with
        | H5_index_t.H5_INDEX_NAME =>
          (H5B2_name_recs f bt2_addr).map (fun l => l.map H5A_dense_bt2_name_rec_t.common)
        | H5_index_t.H5_INDEX_CRT_ORDER => H5B2_corder_recs f bt2_addr
      match recs with
      | none => (FAIL, last_attr.map (fun _ => udata.count), op_data)
      | some l =>
        let r := H5B2_iterate (H5A_dense_iterate_bt2_cb f attr_op) l udata
        (r.1, last_attr.map (fun _ => r.2.count), r.2.op_data)
  else
    match H5A_dense_build_table f ainfo idx_type order with
    | none => (FAIL, last_attr, op_data)
    | some atable => H5A_attr_iterate_table atable skip last_attr attr_op op_data

/-- User data of the removal-by-index callback (`H5A_bt2_ud_rmbi_t`). -/
structure H5A_bt2_ud_rmbi_t where
  fheap : Nat
  shared_fheap : Bool
  idx_type : H5_index_t
  other_bt2_addr : haddr_t

/-- Translation of `H5A_dense_remove_by_idx_bt2_cb`: copies the attribute when
it is needed, removes the record of the other index, then releases the
storage of the attribute by the record's flag. -/
def H5A_dense_remove_by_idx_bt2_cb (bt2_udata : H5A_bt2_ud_rmbi_t) (f : H5F_t)
    (record : H5A_dense_bt2_corder_rec_t) : herr_t × H5F_t :=
  if H5F_addr_defined bt2_udata.other_bt2_addr || !record.flags.SHARED then
    match H5A_dense_heap_op f bt2_udata.fheap bt2_udata.shared_fheap record with
    | none => (FAIL, f)
    | some attr =>
      let other : herr_t × H5F_t :=
        if H5F_addr_defined bt2_udata.other_bt2_addr then
          match bt2_udata.idx_type with
          | H5_index_t.H5_INDEX_NAME =>
            match H5B2_remove_corder f bt2_udata.other_bt2_addr attr.crt_idx with
            | none => (FAIL, f)
            | some f1 => (SUCCEED, f1)
          | H5_index_t.H5_INDEX_CRT_ORDER =>
            let other_bt2_udata : H5A_bt2_ud_common_t :=
              { fheap := bt2_udata.fheap, shared_fheap := bt2_udata.shared_fheap,
                name := attr.name, name_hash := f.H5_checksum_lookup3 attr.name,
                flags := { SHARED := false }, corder := 0 }
            H5B2_remove_name f bt2_udata.other_bt2_addr other_bt2_udata none
        else (SUCCEED, f)
      if other.1 < 0 then (FAIL, other.2)
      else if record.flags.SHARED then
        match H5SM_delete other.2 attr.sh_loc with
        | none => (FAIL, other.2)
        | some f2 => (SUCCEED, f2)
      else
        match H5HF_remove (H5O_attr_delete other.2 attr) bt2_udata.fheap record.id with
        | none => (FAIL, H5O_attr_delete other.2 attr)
        | some f3 => (SUCCEED, f3)
  else
    match H5SM_delete f (H5SM_reconstitute record.id) with
    | none => (FAIL, f)
    | some f2 => (SUCCEED, f2)

/-- Translation of `H5A_dense_remove_by_idx`. -/
def H5A_dense_remove_by_idx (f : H5F_t) (ainfo : H5O_ainfo_t) (idx_type : H5_index_t)
    (order : H5_iter_order_t) (n : Nat) : herr_t × H5F_t :=
  let bt2_addr : haddr_t :=
    match idx_type with
    | H5_index_t.H5_INDEX_NAME =>
      if order = H5_iter_order_t.H5_ITER_NATIVE then ainfo.name_bt2_addr else none
    | H5_index_t.H5_INDEX_CRT_ORDER => ainfo.corder_bt2_addr
  if H5F_addr_defined bt2_addr then
    match H5HF_open f ainfo.fheap_addr with
    | none => (FAIL, f)
    | some fheap =>
      let udata : H5A_bt2_ud_rmbi_t :=
        { fheap := fheap, shared_fheap := H5A_dense_shared_fheap f, idx_type := idx_type,
          other_bt2_addr :=
            if idx_type = H5_index_t.H5_INDEX_NAME then ainfo.corder_bt2_addr
            else ainfo.name_bt2_addr }
      match idx_type with
      | H5_index_t.H5_INDEX_NAME =>
        H5B2_remove_by_idx_name f bt2_addr order n (H5A_dense_remove_by_idx_bt2_cb udata)
      | H5_index_t.H5_INDEX_CRT_ORDER =>
        H5B2_remove_by_idx_corder f bt2_addr order n (H5A_dense_remove_by_idx_bt2_cb udata)
  else
    match H5A_dense_build_table f ainfo idx_type order with
    | none => (FAIL, f)
    | some atable =>
      match atable[n]? with
      | none => (FAIL, f)
      | some attr =>
        let rm := H5A_dense_remove f ainfo attr.name
        if rm.1 < 0 then (FAIL, rm.2) else (SUCCEED, rm.2)

/-- Modelled from the spec: replacement of the first record comparing equal
(`modify(key, mutator)` rewrites the located record in place). -/
def H5B2_replace {ρ : Type} (p : ρ → Bool) (new : ρ) : List ρ → List ρ
  | [] => []
  | r :: rs => if p r then new :: rs else r :: H5B2_replace p new rs

/-- Translation of `H5A_dense_write_bt2_cb2`: the creation order record takes
the new heap ID and is reported as changed. -/
def H5A_dense_write_bt2_cb2 (record : H5A_dense_bt2_corder_rec_t)
    (new_heap_id : H5O_fheap_id_t) : herr_t × H5A_dense_bt2_corder_rec_t × Bool :=
  (SUCCEED, { record with id := new_heap_id }, true)

/-- Modelled from the spec: `H5B2_modify` on the creation order index with
the callback `H5A_dense_write_bt2_cb2`. -/
def H5B2_modify_corder (f : H5F_t) (addr : haddr_t) (corder : Nat)
    (new_heap_id : H5O_fheap_id_t) : Option H5F_t :=
  match addr with
  | none => none
  | some a =>
    match f.corder_bt2 a with
    | none => none
    | some t =>
      match t.recs.find? (fun r => decide (H5A_dense_btree2_corder_compare corder r = 0)) with
      | none => none
      | some rec =>
        let recs := H5B2_replace
          (fun r => decide (H5A_dense_btree2_corder_compare corder r = 0))
          (H5A_dense_write_bt2_cb2 rec new_heap_id).2.1 t.recs
        some (f.set_corder_bt2 a (some { t with recs := recs }))

/-- Modelled from the spec: `H5O_attr_update_shared`, in terms of the shared
message table operations: the new value of the attribute is stored as a
shared message (the table must accept it), the reference on the owned
components is compensated when the new message has reference count 1, and
the reference on the old shared message is released. -/
def H5O_attr_update_shared (f : H5F_t) (attr : H5A_t) : herr_t × H5F_t × H5A_t :=
  let sh_mesg := attr.sh_loc
  let attr0 : H5A_t :=
    { attr with sh_loc := { attr.sh_loc with type := H5O_share_type_t.H5O_SHARE_TYPE_UNSHARED } }
  let sh := H5SM_try_share f attr0 { SHARED := false }
  if sh.2.2.SHARED = false then (FAIL, sh.1, sh.2.1)
  else
    match H5SM_get_refcount sh.1 sh.2.1.sh_loc with
    | none => (FAIL, sh.1, sh.2.1)
    | some attr_rc =>
      let f1 := if attr_rc = 1 then H5O_attr_link sh.1 sh.2.1 else sh.1
      match H5SM_delete f1 sh_mesg with
      | none => (FAIL, f1, sh.2.1)
      | some f2 => (SUCCEED, f2, sh.2.1)

/-- Data of the write callback (`H5A_bt2_od_wrt_t`). -/
structure H5A_bt2_od_wrt_t where
  fheap : Nat
  shared_fheap : Bool
  attr : H5A_t
  corder_bt2_addr : haddr_t

/-- Translation of `H5A_dense_write_bt2_cb`.  Returns the status, the file,
the record as the callback leaves it, the `changed` flag and the attribute.
The sanity check that precedes `H5HF_write` is kept: when the length of the
stored object cannot be read the callback fails, and when
`HDassert(obj_len == attr_size)` does not hold the program stops there, so
that no write takes place and none succeeds, which is given as `FAIL` with
the file as it was. -/
def H5A_dense_write_bt2_cb (op_data : H5A_bt2_od_wrt_t) (f : H5F_t)
    (record : H5A_dense_bt2_name_rec_t) :
    herr_t × H5F_t × H5A_dense_bt2_name_rec_t × Bool × H5A_t :=
  if record.flags.SHARED then
    let u := H5O_attr_update_shared f op_data.attr
    if u.1 < 0 then (FAIL, u.2.1, record, false, u.2.2)
    else
      let record1 : H5A_dense_bt2_name_rec_t := { record with id := u.2.2.sh_loc.heap_id }
      if H5F_addr_defined op_data.corder_bt2_addr then
        match H5B2_modify_corder u.2.1 op_data.corder_bt2_addr u.2.2.crt_idx
            u.2.2.sh_loc.heap_id with
        | none => (FAIL, u.2.1, record1, false, u.2.2)
        | some f2 => (SUCCEED, f2, record1, true, u.2.2)
      else (SUCCEED, u.2.1, record1, true, u.2.2)
  else if f.H5O_msg_raw_size op_data.attr = 0 then (FAIL, f, record, false, op_data.attr)
  else
    match H5HF_get_obj_len f op_data.fheap record.id with
    | none => (FAIL, f, record, false, op_data.attr)
    | some obj_len =>
      if obj_len ≠ f.H5O_msg_raw_size op_data.attr then (FAIL, f, record, false, op_data.attr)
      else
        match H5HF_write f op_data.fheap record.id (H5O_msg_encode op_data.attr) with
        | none => (FAIL, f, record, false, op_data.attr)
        | some w => (SUCCEED, w.1, record, w.2, op_data.attr)

/-- Modelled from the spec: `H5B2_modify` on the name index (`modify(key,
mutator) -> changed`): runs the callback on the located record and keeps the
record as the callback leaves it; when the callback fails the index keeps
the record as it was. -/
def H5B2_modify_name (f : H5F_t) (addr : haddr_t) (udata : H5A_bt2_ud_common_t)
    (op : H5F_t → H5A_dense_bt2_name_rec_t →
      herr_t × H5F_t × H5A_dense_bt2_name_rec_t × Bool × H5A_t) (attr : H5A_t) :
    herr_t × H5F_t × H5A_t :=
  match addr with
  | none => (FAIL, f, attr)
  | some a =>
    match f.name_bt2 a with
    | none => (FAIL, f, attr)
    | some t =>
      match t.recs.find? (H5A_dense_name_match f udata) with
      | none => (FAIL, f, attr)
      | some rec =>
        let r := op f rec
        if r.1 < 0 then (FAIL, r.2.1, r.2.2.2.2)
        else
          let recs := H5B2_replace (H5A_dense_name_match f udata) r.2.2.1 t.recs
          (SUCCEED, r.2.1.set_name_bt2 a (some { t with recs := recs }), r.2.2.2.2)

/-- Translation of `H5A_dense_write`.  Returns the status, the file and the
attribute (whose shared location the update of a shared attribute sets). -/
def H5A_dense_write (f : H5F_t) (ainfo : H5O_ainfo_t) (attr : H5A_t) : herr_t × H5F_t × H5A_t :=
  let shared_fheap := H5A_dense_shared_fheap f
  match H5HF_open f ainfo.fheap_addr with
  | none => (FAIL, f, attr)
  | some fheap =>
    let udata : H5A_bt2_ud_common_t :=
      { fheap := fheap, shared_fheap := shared_fheap, name := attr.name,
        name_hash := f.H5_checksum_lookup3 attr.name, flags := { SHARED := false }, corder := 0 }
    let op_data : H5A_bt2_od_wrt_t :=
      { fheap := fheap, shared_fheap := shared_fheap, attr := attr,
        corder_bt2_addr := ainfo.corder_bt2_addr }
    H5B2_modify_name f ainfo.name_bt2_addr udata (H5A_dense_write_bt2_cb op_data) attr

/-- Translation of `H5A_dense_delete_bt2_cb`. -/
def H5A_dense_delete_bt2_cb (fheap : Nat) (f : H5F_t) (record : H5A_dense_bt2_name_rec_t) :
    herr_t × H5F_t :=
  if record.flags.SHARED then
    match H5SM_delete f (H5SM_reconstitute record.id) with
    | none => (FAIL, f)
    | some f1 => (SUCCEED, f1)
  else
    match H5HF_op f fheap record.id with
    | none => (FAIL, f)
    | some obj => (SUCCEED, H5O_attr_delete f (H5A_dense_copy_fh_cb obj record.common))

/-- The per-record pass of `H5B2_delete`: the callback runs on every record
in index order and the first failure stops the pass. -/
def H5B2_delete_loop {ρ : Type} (op : H5F_t → ρ → herr_t × H5F_t) : List ρ → H5F_t → herr_t × H5F_t
  | [], f => (SUCCEED, f)
  | r :: rs, f => if (op f r).1 < 0 then (FAIL, (op f r).2) else H5B2_delete_loop op rs (op f r).2

/-- Modelled from the spec: `H5B2_delete` on the name index
(`delete(per_record_callback)`). -/
def H5B2_delete_name (f : H5F_t) (addr : haddr_t)
    (op : H5F_t → H5A_dense_bt2_name_rec_t → herr_t × H5F_t) : herr_t × H5F_t :=
  match addr with
  | none => (FAIL, f)
  | some a =>
    match f.name_bt2 a with
    | none => (FAIL, f)
    | some t =>
      let r := H5B2_delete_loop op t.recs f
      if r.1 < 0 then (FAIL, r.2) else (SUCCEED, r.2.set_name_bt2 a none)

/-- Modelled from the spec: `H5B2_delete` on the creation order index with no
per-record callback. -/
def H5B2_delete_corder (f : H5F_t) (addr : haddr_t) : Option H5F_t :=
  match addr with
  | none => none
  | some a =>
    match f.corder_bt2 a with
    | none => none
    | some _ => some (f.set_corder_bt2 a none)

/-- Translation of `H5A_dense_delete`. -/
def H5A_dense_delete (f : H5F_t) (ainfo : H5O_ainfo_t) : herr_t × H5F_t × H5O_ainfo_t :=
  match H5HF_open f ainfo.fheap_addr with
  | none => (FAIL, f, ainfo)
  | some fheap =>
    let d := H5B2_delete_name f ainfo.name_bt2_addr (H5A_dense_delete_bt2_cb fheap)
    if d.1 < 0 then (FAIL, d.2, ainfo)
    else
      let ainfo1 : H5O_ainfo_t := { ainfo with name_bt2_addr := none }
      let c : Option (H5F_t × H5O_ainfo_t) :=
        if H5F_addr_defined ainfo1.corder_bt2_addr then
          match H5B2_delete_corder d.2 ainfo1.corder_bt2_addr with
          | none => none
          | some f2 => some (f2, { ainfo1 with corder_bt2_addr := none })
        else some (d.2, ainfo1)
      match c with
      | none => (FAIL, d.2, ainfo1)
      | some (f2, ainfo2) =>
        match H5HF_delete f2 ainfo2.fheap_addr with
        | none => (FAIL, f2, ainfo2)
        | some f3 => (SUCCEED, f3, { ainfo2 with fheap_addr := none })

/-! ## Well-formed stores -/

/-- The name of the attribute a name index record stands for, read through
the record's heap reference. -/
def H5A_dense_rec_name (f : H5F_t) (fheap : Nat) (r : H5A_dense_bt2_name_rec_t) :
    Option String :=
  (H5A_dense_heap_op f fheap (H5A_dense_shared_fheap f) r.common).map (fun a => a.name)

/-- The two indexes mirror each other: the creation order index holds exactly
the records of the name index (same heap ID, same flags, same creation
order), and no creation order occurs twice. -/
def H5A_dense_mirror (recs : List H5A_dense_bt2_name_rec_t)
    (crecs : List H5A_dense_bt2_corder_rec_t) : Prop :=
  (recs.map H5A_dense_bt2_name_rec_t.common).Perm crecs ∧ (crecs.map (fun c => c.corder)).Nodup

instance H5A_dense_mirror_decidable (recs : List H5A_dense_bt2_name_rec_t)
    (crecs : List H5A_dense_bt2_corder_rec_t) : Decidable (H5A_dense_mirror recs crecs) :=
  inferInstanceAs (Decidable (_ ∧ _))

/-- A well-formed dense attribute store: the heap and the name index exist;
every name index record can be read through its heap reference and carries
the hash of the name read; no name occurs twice; the creation order index
exists exactly when `index_corder` is set, and then mirrors the name index. -/
def H5A_dense_valid (f : H5F_t) (ainfo : H5O_ainfo_t) : Bool :=
  match H5HF_open f ainfo.fheap_addr, H5B2_name_recs f ainfo.name_bt2_addr with
  | some fheap, some recs =>
    recs.all (fun r =>
      match H5A_dense_heap_op f fheap (H5A_dense_shared_fheap f) r.common with
      | some attr => decide (f.H5_checksum_lookup3 attr.name = r.hash)
      | none => false)
    && decide ((recs.map (H5A_dense_rec_name f fheap)).Nodup)
    && decide (ainfo.index_corder = H5F_addr_defined ainfo.corder_bt2_addr)
    && (match ainfo.corder_bt2_addr with
        | none => true
        | some _ =>
          match H5B2_corder_recs f ainfo.corder_bt2_addr with
          | none => false
          | some crecs => decide (H5A_dense_mirror recs crecs))
  | _, _ => false

/-- An attribute that is already shared refers to its own message in the
shared message table. -/
def H5A_shared_valid (f : H5F_t) (attr : H5A_t) : Bool :=
  if H5O_msg_is_shared attr then
    decide (H5HF_op_shared f true attr.sh_loc.heap_id = some (H5O_msg_encode attr))
  else true

/-! ## A small file for instantiating the theorems -/

/-- An empty file in which attributes are sharable and the shared message
table accepts messages with a body of at least two bytes; the hash of a name
is its length, so names of equal length collide. -/
def H5A_ex_file : H5F_t :=
  { H5_checksum_lookup3 := fun s => s.length,
    attr_sharable := true,
    H5SM_can_share := fun m => decide (2 ≤ m.body.length),
    H5O_msg_raw_size := fun a => a.name.length + 1 + a.body.length,
    H5A_get_version := fun _ => 3,
    H5O_FHEAP_ID_LEN := 8,
    eoa := 0,
    fheaps := fun _ => none,
    name_bt2 := fun _ => none,
    corder_bt2 := fun _ => none,
    sohm := [],
    oh_log := [] }

/-- An unshared attribute with version 3. -/
def H5A_ex_attr (name : String) (crt_idx : Nat) (body : List Nat) : H5A_t :=
  { sh_loc := { type := H5O_share_type_t.H5O_SHARE_TYPE_UNSHARED, heap_id := 0 },
    name := name, version := 3, crt_idx := crt_idx, body := body }

/-- Attribute storage information before creation, with or without the
creation order index. -/
def H5A_ex_ainfo (index_corder : Bool) : H5O_ainfo_t :=
  { index_corder := index_corder, fheap_addr := none, name_bt2_addr := none,
    corder_bt2_addr := none }

/-- The storage information of the store created in the example file. -/
def H5A_ex_ainfo1 (index_corder : Bool) : H5O_ainfo_t :=
  (H5A_dense_create H5A_ex_file (H5A_ex_ainfo index_corder)).2.2

/-- The example file after creating a store and inserting "z" (creation order
0, stored in the heap), "a" (creation order 1, shared) and "m" (creation
order 2, stored in the heap). -/
def H5A_ex_file3 (index_corder : Bool) : H5F_t :=
  let c := H5A_dense_create H5A_ex_file (H5A_ex_ainfo index_corder)
  let i1 := H5A_dense_insert c.2.1 c.2.2 (H5A_ex_attr "z" 0 [1])
  let i2 := H5A_dense_insert i1.2.1 c.2.2 (H5A_ex_attr "a" 1 [1, 2, 3])
  (H5A_dense_insert i2.2.1 c.2.2 (H5A_ex_attr "m" 2 [])).2.1

/-- Whether the name index holds a record that reads as the given name. -/
def H5A_dense_holds (f : H5F_t) (ainfo : H5O_ainfo_t) (name : String) : Bool :=
  match H5HF_open f ainfo.fheap_addr, H5B2_name_recs f ainfo.name_bt2_addr with
  | some fheap, some recs =>
    recs.any (fun r => decide (H5A_dense_rec_name f fheap r = some name))
  | _, _ => false

/-- Whether a name index record carries the hash of a name and reads as that
name: the records a lookup by that name can locate. -/
def H5A_dense_is_named (f : H5F_t) (fheap : Nat) (name : String)
    (r : H5A_dense_bt2_name_rec_t) : Bool :=
  decide (r.hash = f.H5_checksum_lookup3 name ∧ H5A_dense_rec_name f fheap r = some name)

/-! ## The steps of `H5A_dense_insert` -/

/-- The sharing step of `H5A_dense_insert`: the file, the attribute and the
message flags after the shared message table has been consulted. -/
def H5A_dense_insert_share (f : H5F_t) (attr : H5A_t) : H5F_t × H5A_t × H5O_mesg_flags :=
  if H5SM_type_shared f then
    if H5O_msg_is_shared attr then (f, attr, { SHARED := true })
    else H5SM_try_share f attr { SHARED := false }
  else (f, attr, { SHARED := false })

/-- The storing step of `H5A_dense_insert`: the heap ID the record will
carry, which is the attribute's shared heap ID for a shared attribute and the
ID returned by the heap insertion otherwise. -/
def H5A_dense_insert_store (f1 : H5F_t) (fheap : Nat) (attr1 : H5A_t)
    (mesg_flags : H5O_mesg_flags) : Option (H5F_t × H5O_fheap_id_t) :=
  if mesg_flags.SHARED then some (f1, attr1.sh_loc.heap_id)
  else if f1.H5O_msg_raw_size attr1 = 0 then none
  else H5HF_insert f1 fheap (H5O_msg_encode attr1)

/-- The user data `H5A_dense_insert` sets up for the B-tree insertions. -/
def H5A_dense_insert_udata (f f1 : H5F_t) (fheap : Nat) (attr1 : H5A_t)
    (mesg_flags : H5O_mesg_flags) : H5A_bt2_ud_common_t :=
  { fheap := fheap,
    shared_fheap := if H5SM_type_shared f then H5F_addr_defined (H5SM_get_fheap_addr f1) else false,
    name := attr1.name, name_hash := f.H5_checksum_lookup3 attr1.name, flags := mesg_flags,
    corder := attr1.crt_idx }

/-- What a later state of the file keeps of an earlier one, seen through the
heap references of records: every record that could be read still reads as
the same attribute, and a record that can be read now could be read before or
reads as an attribute with the given name. -/
def H5A_dense_grows (f g : H5F_t) (fheap : Nat) (nm : String) : Prop :=
  g.H5_checksum_lookup3 = f.H5_checksum_lookup3 ∧
  g.attr_sharable = f.attr_sharable ∧
  (∀ r a, H5A_dense_heap_op f fheap (H5A_dense_shared_fheap f) r = some a →
    H5A_dense_heap_op g fheap (H5A_dense_shared_fheap g) r = some a) ∧
  (∀ r a, H5A_dense_heap_op g fheap (H5A_dense_shared_fheap g) r = some a →
    H5A_dense_heap_op f fheap (H5A_dense_shared_fheap f) r = some a ∨ a.name = nm)

/-- A B-tree with its records replaced. -/
def H5B2_t.set_recs {ρ : Type} (t : H5B2_t ρ) (recs : List ρ) : H5B2_t ρ :=
  { t with recs := recs }

/-- What a later state of the file keeps of an earlier one after storage has
been released, seen through the heap references of records: a record that
read as an attribute with another name than the given one still reads as the
same attribute, and a record that can be read now read the same before. -/
def H5A_dense_shrinks (f g : H5F_t) (fheap : Nat) (nm : String) : Prop :=
  g.H5_checksum_lookup3 = f.H5_checksum_lookup3 ∧
  g.attr_sharable = f.attr_sharable ∧
  (∀ r a, H5A_dense_heap_op f fheap (H5A_dense_shared_fheap f) r = some a → a.name ≠ nm →
    H5A_dense_heap_op g fheap (H5A_dense_shared_fheap g) r = some a) ∧
  (∀ r a, H5A_dense_heap_op g fheap (H5A_dense_shared_fheap g) r = some a →
    H5A_dense_heap_op f fheap (H5A_dense_shared_fheap f) r = some a)

/-! ## Support for the statements about iteration -/

/-- The records `H5A_dense_iterate` and `H5A_dense_remove_by_idx` walk when
they use the index of `idx_type` directly, seen through the leading fields
the two record types have in common. -/
def H5A_dense_index_recs (f : H5F_t) (ainfo : H5O_ainfo_t) (idx_type : H5_index_t) :
    Option (List H5A_dense_bt2_corder_rec_t) :=
  match idx_type with
  | H5_index_t.H5_INDEX_NAME =>
    (H5B2_name_recs f ainfo.name_bt2_addr).map (fun l => l.map H5A_dense_bt2_name_rec_t.common)
  | H5_index_t.H5_INDEX_CRT_ORDER => H5B2_corder_recs f ainfo.corder_bt2_addr

/-- The walk `H5B2_iterate` makes with `H5A_dense_iterate_bt2_cb`, on the
attributes read for the records (`none` for a record that cannot be read):
the return value, the count, the remaining skip and the callback's data. -/
def H5A_dense_walk {σ : Type} (attr_op : H5A_t → σ → Int × σ) :
    List (Option H5A_t) → Nat → Nat → σ → Int × Nat × Nat × σ
  | [], count, skip, d => (H5_ITER_CONT, count, skip, d)
  | o :: rest, count, skip, d =>
    if 0 < skip then H5A_dense_walk attr_op rest (count + 1) (skip - 1) d
    else
      match o with
      | none => (H5_ITER_ERROR, count, skip, d)
      | some a =>
        if (attr_op a d).1 ≠ 0 then ((attr_op a d).1, count + 1, skip, (attr_op a d).2)
        else H5A_dense_walk attr_op rest (count + 1) skip (attr_op a d).2

/-- A callback that also keeps a log of its calls: the attribute delivered
and the value returned, oldest first. -/
def H5A_attr_op_logged {σ : Type} (attr_op : H5A_t → σ → Int × σ) (attr : H5A_t)
    (d : σ × List (H5A_t × Int)) : Int × (σ × List (H5A_t × Int)) :=
  ((attr_op attr d.1).1, ((attr_op attr d.1).2, d.2 ++ [(attr, (attr_op attr d.1).1)]))

/-- The calls a walk delivers to the callback: the attribute and the value
the callback returns for it. -/
def H5A_dense_delivered {σ : Type} (attr_op : H5A_t → σ → Int × σ) :
    List (Option H5A_t) → Nat → σ → List (H5A_t × Int)
  | [], _, _ => []
  | o :: rest, skip, d =>
    if 0 < skip then H5A_dense_delivered attr_op rest (skip - 1) d
    else
      match o with
      | none => []
      | some a =>
        if (attr_op a d).1 ≠ 0 then [(a, (attr_op a d).1)]
        else (a, (attr_op a d).1) :: H5A_dense_delivered attr_op rest skip (attr_op a d).2

/-- The callback that always continues and collects the names of the
attributes delivered to it. -/
def H5A_attr_op_names (attr : H5A_t) (names : List String) : Int × List String :=
  (H5_ITER_CONT, names ++ [attr.name])

/-- The second branch of `H5A_dense_remove_by_idx`: the position is resolved
through the table builder and the attribute at that position is removed by
name. -/
def H5A_dense_remove_by_idx_table (f : H5F_t) (ainfo : H5O_ainfo_t) (idx_type : H5_index_t)
    (order : H5_iter_order_t) (n : Nat) : herr_t × H5F_t :=
  match H5A_dense_build_table f ainfo idx_type order with
  | none => (FAIL, f)
  | some atable =>
    match atable[n]? with
    | none => (FAIL, f)
    | some attr =>
      let rm := H5A_dense_remove f ainfo attr.name
      if rm.1 < 0 then (FAIL, rm.2) else (SUCCEED, rm.2)

/-- The user data `H5A_dense_remove_by_idx` sets up for the B-tree removal by
position. -/
def H5A_dense_remove_by_idx_udata (f : H5F_t) (ainfo : H5O_ainfo_t) (fheap : Nat)
    (idx_type : H5_index_t) : H5A_bt2_ud_rmbi_t :=
  { fheap := fheap, shared_fheap := H5A_dense_shared_fheap f, idx_type := idx_type,
    other_bt2_addr :=
      if idx_type = H5_index_t.H5_INDEX_NAME then ainfo.corder_bt2_addr
      else ainfo.name_bt2_addr }

/-! ## Shared message table -/

/-- Every live slot of the shared message table has at least one reference:
`H5SM_try_share` stores with reference count 1 and `H5SM_delete` frees a slot
when its count would reach 0. -/
def H5SM_live (f : H5F_t) : Prop :=
  ∀ (i : Nat) (e : H5SM_mesg_t), f.sohm[i]? = some (some e) → 1 ≤ e.ref_count

/-! ## States of a store with a creation order index -/

/-- The states a store with a creation order index goes through: the state
after `H5A_dense_create` with `index_corder` set, in a file whose live shared
messages all have a reference, and the state after a call, successful or
failed, of `H5A_dense_insert` (for an attribute that, when it arrives shared,
refers to its own message in the shared message table, and whose creation
order is not in the creation order index), of `H5A_dense_write` (for an
attribute that carries the creation order and the shared location of the
attribute the store holds under its name), of `H5A_dense_remove`, or of
`H5A_dense_remove_by_idx`. -/
inductive H5A_dense_reachable : H5F_t → H5O_ainfo_t → Prop where
  | create (f : H5F_t) (ainfo : H5O_ainfo_t) (h : ainfo.index_corder = true)
    (hl : H5SM_live f) :
    H5A_dense_reachable (H5A_dense_create f ainfo).2.1 (H5A_dense_create f ainfo).2.2
  | insert (f : H5F_t) (ainfo : H5O_ainfo_t) (attr : H5A_t) (h : H5A_dense_reachable f ainfo)
    (hwf : H5A_shared_valid f attr = true)
    (hfresh : ∀ c crecs, ainfo.corder_bt2_addr = some c →
      H5B2_corder_recs f (some c) = some crecs → ∀ x ∈ crecs, x.corder ≠ attr.crt_idx) :
    H5A_dense_reachable (H5A_dense_insert f ainfo attr).2.1 ainfo
  | write (f : H5F_t) (ainfo : H5O_ainfo_t) (attr : H5A_t) (h : H5A_dense_reachable f ainfo)
    (hattr : ∀ stored, H5A_dense_open f ainfo attr.name = some stored →
      attr.crt_idx = stored.crt_idx ∧ attr.sh_loc = stored.sh_loc) :
    H5A_dense_reachable (H5A_dense_write f ainfo attr).2.1 ainfo
  | remove (f : H5F_t) (ainfo : H5O_ainfo_t) (name : String) (h : H5A_dense_reachable f ainfo) :
    H5A_dense_reachable (H5A_dense_remove f ainfo name).2 ainfo
  | remove_by_idx (f : H5F_t) (ainfo : H5O_ainfo_t) (idx_type : H5_index_t)
    (order : H5_iter_order_t) (n : Nat) (h : H5A_dense_reachable f ainfo) :
    H5A_dense_reachable (H5A_dense_remove_by_idx f ainfo idx_type order n).2 ainfo

/-! ## Sequences of insertions -/

/-- Insertion of a sequence of attributes, one `H5A_dense_insert` after the
other, stopping at the first failure. -/
def H5A_dense_insert_all (f : H5F_t) (ainfo : H5O_ainfo_t) : List H5A_t → herr_t × H5F_t
  | [] => (SUCCEED, f)
  | attr :: rest =>
    if (H5A_dense_insert f ainfo attr).1 < 0 then (FAIL, (H5A_dense_insert f ainfo attr).2.1)
    else H5A_dense_insert_all (H5A_dense_insert f ainfo attr).2.1 ainfo rest

/-- The callback that always continues and collects the attributes delivered
to it. -/
def H5A_attr_op_collect (attr : H5A_t) (tbl : List H5A_t) : Int × List H5A_t :=
  (H5_ITER_CONT, tbl ++ [attr])

/-- A record of the creation order index reads as a given attribute: the heap
access returns the attribute's serialized form with the record's creation
order, which is the attribute's. -/
def H5A_dense_reads_as (f : H5F_t) (fheap : Nat) (x : H5A_dense_bt2_corder_rec_t)
    (a : H5A_t) : Prop :=
  H5A_dense_heap_op f fheap (H5A_dense_shared_fheap f) x =
    some (H5A_dense_copy_fh_cb (H5O_msg_encode a) x) ∧ x.corder = a.crt_idx

/-! ## Heap handles in `H5A_dense_create` -/

/-- What happens to a heap handle: it is acquired (`H5HF_create`,
`H5HF_open`) or `H5HF_close` is called on it. -/
inductive H5HF_handle_event where
  | acquired
  | closed
deriving DecidableEq, Repr

/-- The control flow of `H5A_dense_create` by the outcome of each collaborator
call, with the events on the heap handle it creates, oldest first.  Every
failing call leaves through `HGOTO_ERROR`, and the `done:` label of this
routine releases nothing.  `NDEBUG` tells whether the debugging block that
calls `H5HF_get_id_len` is compiled out. -/
def H5A_dense_create_handles (H5HF_create_ok H5HF_get_heap_addr_ok NDEBUG H5HF_get_id_len_ok
    H5HF_close_ok name_H5B2_create_ok index_corder corder_H5B2_create_ok : Bool) :
    herr_t × List H5HF_handle_event :=
  if !H5HF_create_ok then (FAIL, [])
  else if !H5HF_get_heap_addr_ok then (FAIL, [H5HF_handle_event.acquired])
  else if !NDEBUG && !H5HF_get_id_len_ok then (FAIL, [H5HF_handle_event.acquired])
  else if !H5HF_close_ok then
    (FAIL, [H5HF_handle_event.acquired, H5HF_handle_event.closed])
  else if !name_H5B2_create_ok then
    (FAIL, [H5HF_handle_event.acquired, H5HF_handle_event.closed])
  else if index_corder && !corder_H5B2_create_ok then
    (FAIL, [H5HF_handle_event.acquired, H5HF_handle_event.closed])
  else (SUCCEED, [H5HF_handle_event.acquired, H5HF_handle_event.closed])

/-! ## Direct chunk write (`src/hl/src/H5DO.c`)

The two routines of `H5DO.c` call the property list interface (`H5Pcreate`,
`H5Pset`, `H5Pclose`) and `H5Dwrite`, which are not part of the translated
file.  They are parameters of the embedding: each gives its result by the
calls made before it, and every call the routines make is recorded. -/

/-- Object identifiers (`hid_t`). -/
abbrev hid_t := Int

/-- The default property list. -/
@[reducible] def H5P_DEFAULT : hid_t := 0

/-- The transfer properties `H5DO_write_chunk` sets. -/
inductive H5D_xfer_prop where
  | H5D_XFER_DIRECT_CHUNK_WRITE_FLAG_NAME
  | H5D_XFER_DIRECT_CHUNK_WRITE_FILTERS_NAME
  | H5D_XFER_DIRECT_CHUNK_WRITE_OFFSET_NAME
  | H5D_XFER_DIRECT_CHUNK_WRITE_DATASIZE_NAME
deriving DecidableEq, Repr

/-- The value a transfer property is set to: the flag, the filter mask, the
chunk offset (a pointer, `none` being `NULL`) or the size of the data. -/
inductive H5D_xfer_value where
  | do_direct_write (v : htri_t)
  | filters (v : Nat)
  | offset (v : Option (List Nat))
  | data_size (v : Nat)
deriving DecidableEq, Repr

/-- A call made to the library. -/
inductive H5DO_call where
  | H5Pcreate
  | H5Pset (plist_id : hid_t) (name : H5D_xfer_prop) (value : H5D_xfer_value)
  | H5Dwrite (dset_id : hid_t) (dxpl_id : hid_t) (buf : Option (List Nat))
  | H5Pclose (plist_id : hid_t)
deriving DecidableEq, Repr

/-- The library routines called by `H5DO.c`, as parameters: the result of a
call, given the calls made before it (oldest first) and its arguments. -/
structure H5DO_lib where
  H5Pcreate : List H5DO_call → hid_t
  H5Pset : List H5DO_call → hid_t → H5D_xfer_prop → H5D_xfer_value → herr_t
  H5Dwrite : List H5DO_call → hid_t → hid_t → Option (List Nat) → herr_t
  H5Pclose : List H5DO_call → hid_t → herr_t

/-- Translation of `H5DO_write_chunk`.  Returns the status and the calls made
so far, oldest first.  Every `goto error` returns `FAIL`, and so does the
path that falls through to the `error:` label after the last `H5Pset`. -/
def H5DO_write_chunk (lib : H5DO_lib) (calls : List H5DO_call) (dset_id dxpl_id : hid_t)
    (filters : Nat) (offset : Option (List Nat)) (data_size : Nat) (buf : Option (List Nat)) :
    herr_t × List H5DO_call :=
  let do_direct_write : htri_t := TRUE
  let calls1 := calls ++ [H5DO_call.H5Pset dxpl_id
    H5D_xfer_prop.H5D_XFER_DIRECT_CHUNK_WRITE_FLAG_NAME
    (H5D_xfer_value.do_direct_write do_direct_write)]
  if lib.H5Pset calls dxpl_id H5D_xfer_prop.H5D_XFER_DIRECT_CHUNK_WRITE_FLAG_NAME
      (H5D_xfer_value.do_direct_write do_direct_write) < 0 then (FAIL, calls1)
  else
    let calls2 := calls1 ++ [H5DO_call.H5Pset dxpl_id
      H5D_xfer_prop.H5D_XFER_DIRECT_CHUNK_WRITE_FILTERS_NAME (H5D_xfer_value.filters filters)]
    if lib.H5Pset calls1 dxpl_id H5D_xfer_prop.H5D_XFER_DIRECT_CHUNK_WRITE_FILTERS_NAME
        (H5D_xfer_value.filters filters) < 0 then (FAIL, calls2)
    else
      let calls3 := calls2 ++ [H5DO_call.H5Pset dxpl_id
        H5D_xfer_prop.H5D_XFER_DIRECT_CHUNK_WRITE_OFFSET_NAME (H5D_xfer_value.offset offset)]
      if lib.H5Pset calls2 dxpl_id H5D_xfer_prop.H5D_XFER_DIRECT_CHUNK_WRITE_OFFSET_NAME
          (H5D_xfer_value.offset offset) < 0 then (FAIL, calls3)
      else
        let calls4 := calls3 ++ [H5DO_call.H5Pset dxpl_id
          H5D_xfer_prop.H5D_XFER_DIRECT_CHUNK_WRITE_DATASIZE_NAME
          (H5D_xfer_value.data_size data_size)]
        if lib.H5Pset calls3 dxpl_id H5D_xfer_prop.H5D_XFER_DIRECT_CHUNK_WRITE_DATASIZE_NAME
            (H5D_xfer_value.data_size data_size) < 0 then (FAIL, calls4)
        else
          let calls5 := calls4 ++ [H5DO_call.H5Dwrite dset_id dxpl_id buf]
          if lib.H5Dwrite calls4 dset_id dxpl_id buf < 0 then (FAIL, calls5)
          else
            let do_direct_write : htri_t := FALSE
            let calls6 := calls5 ++ [H5DO_call.H5Pset dxpl_id
              H5D_xfer_prop.H5D_XFER_DIRECT_CHUNK_WRITE_FLAG_NAME
              (H5D_xfer_value.do_direct_write do_direct_write)]
            if lib.H5Pset calls5 dxpl_id H5D_xfer_prop.H5D_XFER_DIRECT_CHUNK_WRITE_FLAG_NAME
                (H5D_xfer_value.do_direct_write do_direct_write) < 0 then (FAIL, calls6)
            else (FAIL, calls6)

/-- Translation of `H5DOwrite_chunk`.  Returns the status and the calls made
so far, oldest first.  `buf` and `offset` are pointers, `none` being `NULL`.
Every `goto error` returns `FAIL`, and so does the path that falls through to
the `error:` label after the property list has been closed. -/
def H5DOwrite_chunk (lib : H5DO_lib) (calls : List H5DO_call) (dset_id dxpl_id : hid_t)
    (filters : Nat) (offset : Option (List Nat)) (data_size : Nat) (buf : Option (List Nat)) :
    herr_t × List H5DO_call :=
  if dset_id < 0 then (FAIL, calls)
  else if buf.isNone then (FAIL, calls)
  else if offset.isNone then (FAIL, calls)
  else if data_size = 0 then (FAIL, calls)
  else
    let p : hid_t × htri_t × List H5DO_call :=
      if H5P_DEFAULT = dxpl_id then (lib.H5Pcreate calls, TRUE, calls ++ [H5DO_call.H5Pcreate])
      else (dxpl_id, FALSE, calls)
    let w := H5DO_write_chunk lib p.2.2 dset_id p.1 filters offset data_size buf
    if w.1 < 0 then (FAIL, w.2)
    else if p.2.1 ≠ 0 then
      if lib.H5Pclose w.2 p.1 < 0 then (FAIL, w.2 ++ [H5DO_call.H5Pclose p.1])
      else (FAIL, w.2 ++ [H5DO_call.H5Pclose p.1])
    else (FAIL, w.2)

/-- A library in which every call succeeds; `H5Pcreate` returns the
identifier 7. -/
def H5DO_ex_lib : H5DO_lib :=
  { H5Pcreate := fun _ => 7,
    H5Pset := fun _ _ _ _ => SUCCEED,
    H5Dwrite := fun _ _ _ _ => SUCCEED,
    H5Pclose := fun _ _ => SUCCEED }

/-! ## The steps of `H5A_dense_rename` -/

/-- The renamed copy `H5A_dense_rename` hands to `H5A_dense_insert`: the
attribute found under the old name, with its shared status reset, the new
name and the version recomputed; `none` when the heap cannot be opened or the
old name is not found. -/
def H5A_dense_rename_copy (f : H5F_t) (ainfo : H5O_ainfo_t) (old_name new_name : String) :
    Option H5A_t :=
  match H5HF_open f ainfo.fheap_addr with
  | none => none
  | some fheap =>
    let udata : H5A_bt2_ud_common_t :=
      { fheap := fheap, shared_fheap := H5A_dense_shared_fheap f, name := old_name,
        name_hash := f.H5_checksum_lookup3 old_name, flags := { SHARED := false }, corder := 0 }
    match H5B2_find_name f ainfo.name_bt2_addr udata with
    | none => none
    | some found =>
      let attr_copy := found.2
      let attr_copy1 : H5A_t :=
        if H5O_msg_is_shared attr_copy then
          { attr_copy with sh_loc :=
              { attr_copy.sh_loc with type := H5O_share_type_t.H5O_SHARE_TYPE_UNSHARED } }
        else attr_copy
      let attr_copy2 : H5A_t := { attr_copy1 with name := new_name }
      some { attr_copy2 with version := f.H5A_get_version attr_copy2 }

/-- Whether an entry of the log of component reference adjustments is an
`H5O_attr_delete`. -/
def H5O_attr_event.is_delete : H5O_attr_event → Bool
  | H5O_attr_event.delete _ => true
  | H5O_attr_event.link _ => false

/-! ## Two stores in one file -/

/-- The descriptor of the first of two stores created in the example file,
with a creation order index. -/
def H5A_ex_ainfoA : H5O_ainfo_t :=
  (H5A_dense_create H5A_ex_file (H5A_ex_ainfo true)).2.2

/-- The descriptor of the second store, created after the first one, without
a creation order index. -/
def H5A_ex_ainfoB : H5O_ainfo_t :=
  (H5A_dense_create (H5A_dense_create H5A_ex_file (H5A_ex_ainfo true)).2.1
    (H5A_ex_ainfo false)).2.2

/-- The example file with two stores, each holding the shared attribute "a"
with the same value, so that both records refer to one slot of the shared
message table, which has 2 references. -/
def H5A_ex_file_two : H5F_t :=
  let c1 := H5A_dense_create H5A_ex_file (H5A_ex_ainfo true)
  let c2 := H5A_dense_create c1.2.1 (H5A_ex_ainfo false)
  let i1 := H5A_dense_insert c2.2.1 c1.2.2 (H5A_ex_attr "a" 0 [1, 2, 3])
  (H5A_dense_insert i1.2.1 c2.2.2 (H5A_ex_attr "a" 0 [1, 2, 3])).2.1

/-! ## The per-record release of `H5A_dense_delete` -/

/-- What the deletion of the store releases for one record of the name index:
a record flagged `SHARED` gives one reference back to the shared message table
(the slot is freed when it had at most 1), any other record has the attribute
decoded and its components released; the heap is not touched. -/
def H5A_dense_delete_release (fheap : Nat) (f : H5F_t) (r : H5A_dense_bt2_name_rec_t) : H5F_t :=
  if r.flags.SHARED then
    match f.sohm[r.id]? with
    | some (some e) =>
      { f with sohm := (f.sohm.set r.id
          (if e.ref_count ≤ 1 then none else some ⟨e.mesg, e.ref_count - 1⟩)) }
    | _ => f
  else
    match H5HF_op f fheap r.id with
    | some obj =>
      { f with oh_log := H5O_attr_event.delete (H5A_dense_copy_fh_cb obj r.common) :: f.oh_log }
    | none => f

/-! ## Basic facts about the collaborators -/

theorem HDstrcmp_chars_eq_zero : ∀ (a b : List Char), HDstrcmp_chars a b = 0 ↔ a = b
  | [], [] => by simp [HDstrcmp_chars]
  | [], _ :: _ => by simp [HDstrcmp_chars]
  | _ :: _, [] => by simp [HDstrcmp_chars]
  | c :: cs, d :: ds => by
    have ih := HDstrcmp_chars_eq_zero cs ds
    unfold HDstrcmp_chars
    by_cases h1 : c.toNat < d.toNat
    · have hne : c ≠ d := fun h => by subst h; exact absurd h1 (lt_irrefl _)
      simp [h1, hne]
    · by_cases h2 : d.toNat < c.toNat
      · have hne : c ≠ d := fun h => by subst h; exact absurd h2 (lt_irrefl _)
        simp [h1, h2, hne]
      · have heq : c = d := by
          apply Char.ext
          apply UInt32.ext
          have : c.toNat = d.toNat := by omega
          exact this
        simp [h1, h2, heq, ih]

theorem HDstrcmp_eq_zero (a b : String) : HDstrcmp a b = 0 ↔ a = b := by
  unfold HDstrcmp
  rw [HDstrcmp_chars_eq_zero]
  constructor
  · intro h
    exact String.ext h
  · intro h
    rw [h]

@[simp] theorem H5F_t.set_fheap_fheaps (f : H5F_t) (a : Nat) (h : Option H5HF_t) (b : Nat) :
    (f.set_fheap a h).fheaps b = if b = a then h else f.fheaps b := rfl

@[simp] theorem H5F_t.set_fheap_name_bt2 (f : H5F_t) (a : Nat) (h : Option H5HF_t) :
    (f.set_fheap a h).name_bt2 = f.name_bt2 := rfl

@[simp] theorem H5F_t.set_fheap_corder_bt2 (f : H5F_t) (a : Nat) (h : Option H5HF_t) :
    (f.set_fheap a h).corder_bt2 = f.corder_bt2 := rfl

@[simp] theorem H5F_t.set_fheap_sohm (f : H5F_t) (a : Nat) (h : Option H5HF_t) :
    (f.set_fheap a h).sohm = f.sohm := rfl

@[simp] theorem H5F_t.set_fheap_attr_sharable (f : H5F_t) (a : Nat) (h : Option H5HF_t) :
    (f.set_fheap a h).attr_sharable = f.attr_sharable := rfl

@[simp] theorem H5F_t.set_fheap_hash (f : H5F_t) (a : Nat) (h : Option H5HF_t) :
    (f.set_fheap a h).H5_checksum_lookup3 = f.H5_checksum_lookup3 := rfl

@[simp] theorem H5F_t.set_name_bt2_name_bt2 (f : H5F_t) (a : Nat)
    (t : Option (H5B2_t H5A_dense_bt2_name_rec_t)) (b : Nat) :
    (f.set_name_bt2 a t).name_bt2 b = if b = a then t else f.name_bt2 b := rfl

@[simp] theorem H5F_t.set_name_bt2_fheaps (f : H5F_t) (a : Nat)
    (t : Option (H5B2_t H5A_dense_bt2_name_rec_t)) :
    (f.set_name_bt2 a t).fheaps = f.fheaps := rfl

@[simp] theorem H5F_t.set_name_bt2_corder_bt2 (f : H5F_t) (a : Nat)
    (t : Option (H5B2_t H5A_dense_bt2_name_rec_t)) :
    (f.set_name_bt2 a t).corder_bt2 = f.corder_bt2 := rfl

@[simp] theorem H5F_t.set_name_bt2_sohm (f : H5F_t) (a : Nat)
    (t : Option (H5B2_t H5A_dense_bt2_name_rec_t)) :
    (f.set_name_bt2 a t).sohm = f.sohm := rfl

@[simp] theorem H5F_t.set_name_bt2_attr_sharable (f : H5F_t) (a : Nat)
    (t : Option (H5B2_t H5A_dense_bt2_name_rec_t)) :
    (f.set_name_bt2 a t).attr_sharable = f.attr_sharable := rfl

@[simp] theorem H5F_t.set_name_bt2_hash (f : H5F_t) (a : Nat)
    (t : Option (H5B2_t H5A_dense_bt2_name_rec_t)) :
    (f.set_name_bt2 a t).H5_checksum_lookup3 = f.H5_checksum_lookup3 := rfl

@[simp] theorem H5F_t.set_corder_bt2_corder_bt2 (f : H5F_t) (a : Nat)
    (t : Option (H5B2_t H5A_dense_bt2_corder_rec_t)) (b : Nat) :
    (f.set_corder_bt2 a t).corder_bt2 b = if b = a then t else f.corder_bt2 b := rfl

@[simp] theorem H5F_t.set_corder_bt2_fheaps (f : H5F_t) (a : Nat)
    (t : Option (H5B2_t H5A_dense_bt2_corder_rec_t)) :
    (f.set_corder_bt2 a t).fheaps = f.fheaps := rfl

@[simp] theorem H5F_t.set_corder_bt2_name_bt2 (f : H5F_t) (a : Nat)
    (t : Option (H5B2_t H5A_dense_bt2_corder_rec_t)) :
    (f.set_corder_bt2 a t).name_bt2 = f.name_bt2 := rfl

@[simp] theorem H5F_t.set_corder_bt2_sohm (f : H5F_t) (a : Nat)
    (t : Option (H5B2_t H5A_dense_bt2_corder_rec_t)) :
    (f.set_corder_bt2 a t).sohm = f.sohm := rfl

@[simp] theorem H5F_t.set_corder_bt2_attr_sharable (f : H5F_t) (a : Nat)
    (t : Option (H5B2_t H5A_dense_bt2_corder_rec_t)) :
    (f.set_corder_bt2 a t).attr_sharable = f.attr_sharable := rfl

@[simp] theorem H5F_t.set_corder_bt2_hash (f : H5F_t) (a : Nat)
    (t : Option (H5B2_t H5A_dense_bt2_corder_rec_t)) :
    (f.set_corder_bt2 a t).H5_checksum_lookup3 = f.H5_checksum_lookup3 := rfl

/-- The heap access of the callbacks reads only the object's heap and the
shared message table. -/
theorem H5A_dense_heap_op_congr (f g : H5F_t) (fheap : Nat) (sh : Bool)
    (r : H5A_dense_bt2_corder_rec_t) (h1 : g.fheaps fheap = f.fheaps fheap)
    (h2 : g.sohm = f.sohm) :
    H5A_dense_heap_op g fheap sh r = H5A_dense_heap_op f fheap sh r := by
  simp [H5A_dense_heap_op, H5HF_op_shared, H5HF_op, h1, h2]

theorem H5A_dense_shared_fheap_congr (f g : H5F_t) (h1 : g.attr_sharable = f.attr_sharable)
    (h2 : g.sohm = f.sohm) : H5A_dense_shared_fheap g = H5A_dense_shared_fheap f := by
  simp [H5A_dense_shared_fheap, H5SM_type_shared, H5SM_get_fheap_addr, h1, h2]

/-- A name index record compares equal to a key exactly when it carries the
key's hash and reads as the key's name. -/
theorem H5A_dense_name_match_iff (f : H5F_t) (udata : H5A_bt2_ud_common_t)
    (r : H5A_dense_bt2_name_rec_t) :
    H5A_dense_name_match f udata r = true ↔
      r.hash = udata.name_hash ∧
      ∃ attr, H5A_dense_heap_op f udata.fheap udata.shared_fheap r.common = some attr ∧
        attr.name = udata.name := by
  unfold H5A_dense_name_match H5A_dense_btree2_name_compare
  by_cases h1 : udata.name_hash < r.hash
  · simp [h1]; omega
  · by_cases h2 : r.hash < udata.name_hash
    · simp [h1, h2]; omega
    · have he : r.hash = udata.name_hash := by omega
      rw [if_neg h1, if_neg h2]
      cases hop : H5A_dense_heap_op f udata.fheap udata.shared_fheap r.common with
      | none => simp
      | some attr =>
        simp only [decide_eq_true_eq, Option.some.injEq, HDstrcmp_eq_zero, he, true_and,
          exists_eq_left']
        exact eq_comm

theorem H5A_dense_name_match_eq (f : H5F_t) (udata : H5A_bt2_ud_common_t)
    (hs : udata.shared_fheap = H5A_dense_shared_fheap f)
    (hh : udata.name_hash = f.H5_checksum_lookup3 udata.name) :
    H5A_dense_name_match f udata = H5A_dense_is_named f udata.fheap udata.name := by
  funext r
  rw [Bool.eq_iff_iff, H5A_dense_name_match_iff]
  simp only [H5A_dense_is_named, H5A_dense_rec_name, decide_eq_true_eq, hs, hh, Option.map_eq_some']

theorem H5B2_name_recs_eq_some (f : H5F_t) (addr : haddr_t)
    (recs : List H5A_dense_bt2_name_rec_t) :
    H5B2_name_recs f addr = some recs ↔
      ∃ a t, addr = some a ∧ f.name_bt2 a = some t ∧ t.recs = recs := by
  unfold H5B2_name_recs
  cases addr with
  | none => simp
  | some a =>
    cases ht : f.name_bt2 a with
    | none => simp [ht]
    | some t => simp [ht]

theorem H5B2_corder_recs_eq_some (f : H5F_t) (addr : haddr_t)
    (crecs : List H5A_dense_bt2_corder_rec_t) :
    H5B2_corder_recs f addr = some crecs ↔
      ∃ a t, addr = some a ∧ f.corder_bt2 a = some t ∧ t.recs = crecs := by
  unfold H5B2_corder_recs
  cases addr with
  | none => simp
  | some a =>
    cases ht : f.corder_bt2 a with
    | none => simp [ht]
    | some t => simp [ht]

/-- The lookup in the name index, in terms of its records. -/
theorem H5B2_find_name_eq (f : H5F_t) (addr : haddr_t) (udata : H5A_bt2_ud_common_t)
    (recs : List H5A_dense_bt2_name_rec_t) (h : H5B2_name_recs f addr = some recs) :
    H5B2_find_name f addr udata =
      (recs.find? (H5A_dense_name_match f udata)).bind (fun rec =>
        (H5A_dense_heap_op f udata.fheap udata.shared_fheap rec.common).map
          (fun attr => (rec, attr))) := by
  obtain ⟨a, t, ha, ht, hr⟩ := (H5B2_name_recs_eq_some f addr recs).1 h
  subst ha hr
  simp only [H5B2_find_name, ht]
  cases t.recs.find? (H5A_dense_name_match f udata) with
  | none => rfl
  | some rec =>
    cases hop : H5A_dense_heap_op f udata.fheap udata.shared_fheap rec.common <;> simp [hop]

theorem H5B2_find_name_of_no_recs (f : H5F_t) (addr : haddr_t) (udata : H5A_bt2_ud_common_t)
    (h : H5B2_name_recs f addr = none) : H5B2_find_name f addr udata = none := by
  unfold H5B2_name_recs at h
  unfold H5B2_find_name
  cases addr with
  | none => rfl
  | some a =>
    cases ht : f.name_bt2 a with
    | none => simp [ht]
    | some t => simp [ht] at h

/-- A located record reads as an attribute; the lookup fails only when no
record compares equal. -/
theorem H5B2_find_name_eq_none_iff (f : H5F_t) (addr : haddr_t) (udata : H5A_bt2_ud_common_t)
    (recs : List H5A_dense_bt2_name_rec_t) (h : H5B2_name_recs f addr = some recs) :
    H5B2_find_name f addr udata = none ↔ ∀ r ∈ recs, H5A_dense_name_match f udata r = false := by
  rw [H5B2_find_name_eq f addr udata recs h]
  cases hf : recs.find? (H5A_dense_name_match f udata) with
  | none =>
    simp only [Option.none_bind, true_iff]
    intro r hr
    have := List.find?_eq_none.1 hf r hr
    simpa using this
  | some rec =>
    have hm := List.find?_some hf
    have hmem := List.mem_of_find?_eq_some hf
    obtain ⟨_, attr, hattr, _⟩ := (H5A_dense_name_match_iff f udata rec).1 hm
    simp only [Option.some_bind, hattr, Option.map_some']
    constructor
    · intro h'; cases h'
    · intro h'
      rw [h' rec hmem] at hm
      cases hm

/-- The lookups by name of `H5A_dense_open` and `H5A_dense_exists`, in terms
of the records of the name index. -/
theorem H5A_dense_open_eq (f : H5F_t) (ainfo : H5O_ainfo_t) (name : String) (fheap : Nat)
    (recs : List H5A_dense_bt2_name_rec_t) (h1 : H5HF_open f ainfo.fheap_addr = some fheap)
    (h2 : H5B2_name_recs f ainfo.name_bt2_addr = some recs) :
    H5A_dense_open f ainfo name =
      (recs.find? (H5A_dense_is_named f fheap name)).bind (fun rec =>
        H5A_dense_heap_op f fheap (H5A_dense_shared_fheap f) rec.common) := by
  simp only [H5A_dense_open, h1]
  rw [H5B2_find_name_eq f _ _ recs h2, H5A_dense_name_match_eq f _ rfl rfl]
  cases hf : recs.find? (H5A_dense_is_named f fheap name) with
  | none => simp
  | some rec =>
    cases hop : H5A_dense_heap_op f fheap (H5A_dense_shared_fheap f) rec.common <;> simp [hop]

theorem H5A_dense_exists_eq (f : H5F_t) (ainfo : H5O_ainfo_t) (name : String) (fheap : Nat)
    (recs : List H5A_dense_bt2_name_rec_t) (h1 : H5HF_open f ainfo.fheap_addr = some fheap)
    (h2 : H5B2_name_recs f ainfo.name_bt2_addr = some recs) :
    H5A_dense_exists f ainfo name =
      if (recs.find? (H5A_dense_is_named f fheap name)).isSome then TRUE else FALSE := by
  simp only [H5A_dense_exists, h1]
  cases hf : H5B2_find_name f ainfo.name_bt2_addr
      { fheap := fheap, shared_fheap := H5A_dense_shared_fheap f, name := name,
        name_hash := f.H5_checksum_lookup3 name, flags := { SHARED := false }, corder := 0 } with
  | none =>
    rw [H5B2_find_name_eq_none_iff f _ _ recs h2, H5A_dense_name_match_eq f _ rfl rfl] at hf
    have : recs.find? (H5A_dense_is_named f fheap name) = none := by
      rw [List.find?_eq_none]
      intro r hr
      simpa using hf r hr
    simp [this]
  | some found =>
    have hne : H5B2_find_name f ainfo.name_bt2_addr
      { fheap := fheap, shared_fheap := H5A_dense_shared_fheap f, name := name,
        name_hash := f.H5_checksum_lookup3 name, flags := { SHARED := false }, corder := 0 } ≠ none := by
      rw [hf]; simp
    rw [Ne, H5B2_find_name_eq_none_iff f _ _ recs h2, H5A_dense_name_match_eq f _ rfl rfl] at hne
    cases hfind : recs.find? (H5A_dense_is_named f fheap name) with
    | none =>
      exfalso
      apply hne
      intro r hr
      have := List.find?_eq_none.1 hfind r hr
      simpa using this
    | some r => simp

theorem H5A_dense_is_named_heap_op (f : H5F_t) (fheap : Nat) (name : String)
    (r : H5A_dense_bt2_name_rec_t) (h : H5A_dense_is_named f fheap name r = true) :
    ∃ attr, H5A_dense_heap_op f fheap (H5A_dense_shared_fheap f) r.common = some attr ∧
      attr.name = name := by
  simp only [H5A_dense_is_named, H5A_dense_rec_name, decide_eq_true_eq, Option.map_eq_some'] at h
  exact h.2

theorem H5A_dense_holds_eq_false (f : H5F_t) (ainfo : H5O_ainfo_t) (name : String) (fheap : Nat)
    (recs : List H5A_dense_bt2_name_rec_t) (h1 : H5HF_open f ainfo.fheap_addr = some fheap)
    (h2 : H5B2_name_recs f ainfo.name_bt2_addr = some recs)
    (h : H5A_dense_holds f ainfo name = false) :
    ∀ r ∈ recs, H5A_dense_is_named f fheap name r = false := by
  intro r hr
  simp only [H5A_dense_holds, h1, h2, List.any_eq_false, decide_eq_true_eq] at h
  simp only [H5A_dense_is_named, decide_eq_false_iff_not, not_and]
  intro _
  exact h r hr

theorem H5A_dense_exists_of_no_recs (f : H5F_t) (ainfo : H5O_ainfo_t) (name : String)
    (fheap : Nat) (h1 : H5HF_open f ainfo.fheap_addr = some fheap)
    (h2 : H5B2_name_recs f ainfo.name_bt2_addr = none) :
    H5A_dense_exists f ainfo name = FALSE ∧ H5A_dense_open f ainfo name = none := by
  simp only [H5A_dense_exists, H5A_dense_open, h1, H5B2_find_name_of_no_recs f _ _ h2, and_self]

/-- C6: `H5A_dense_exists` returns TRUE exactly when `H5A_dense_open` returns
an attribute; and on a store whose heap can be opened it returns FALSE, not a
failure, when no record of the name index reads as the name. -/
theorem H5A_dense_exists_iff_open (f : H5F_t) (ainfo : H5O_ainfo_t) (name : String) :
    (H5A_dense_exists f ainfo name = TRUE ↔ (H5A_dense_open f ainfo name).isSome = true) ∧
    ((H5HF_open f ainfo.fheap_addr).isSome = true → H5A_dense_holds f ainfo name = false →
      H5A_dense_exists f ainfo name = FALSE) := by
  cases h1 : H5HF_open f ainfo.fheap_addr with
  | none => simp [H5A_dense_exists, H5A_dense_open, h1, FAIL, TRUE]
  | some fheap =>
    cases h2 : H5B2_name_recs f ainfo.name_bt2_addr with
    | none =>
      obtain ⟨he, ho⟩ := H5A_dense_exists_of_no_recs f ainfo name fheap h1 h2
      simp [he, ho]
    | some recs =>
      rw [H5A_dense_exists_eq f ainfo name fheap recs h1 h2,
        H5A_dense_open_eq f ainfo name fheap recs h1 h2]
      constructor
      · cases hf : recs.find? (H5A_dense_is_named f fheap name) with
        | none => simp
        | some r =>
          obtain ⟨attr, hattr, _⟩ :=
            H5A_dense_is_named_heap_op f fheap name r (List.find?_some hf)
          simp [hattr]
      · intro _ habs
        have hno := H5A_dense_holds_eq_false f ainfo name fheap recs h1 h2 habs
        have : recs.find? (H5A_dense_is_named f fheap name) = none := by
          rw [List.find?_eq_none]
          intro r hr
          simp [hno r hr]
        simp [this]

theorem H5A_dense_exists_iff_open_witness :
    (H5HF_open (H5A_ex_file3 true) (H5A_ex_ainfo1 true).fheap_addr).isSome = true ∧
    H5A_dense_holds (H5A_ex_file3 true) (H5A_ex_ainfo1 true) "q" = false ∧
    H5A_dense_exists (H5A_ex_file3 true) (H5A_ex_ainfo1 true) "q" = FALSE :=
  ⟨by decide, by decide,
    (H5A_dense_exists_iff_open (H5A_ex_file3 true) (H5A_ex_ainfo1 true) "q").2
      (by decide) (by decide)⟩

/-- C8: when no record of the name index reads as the name,
`H5A_dense_remove` fails and returns the file as it was: name index, creation
order index, heap and shared message table (with its reference counts) are
the same as before the call. -/
theorem H5A_dense_remove_not_found (f : H5F_t) (ainfo : H5O_ainfo_t) (name : String)
    (habs : H5A_dense_holds f ainfo name = false) :
    H5A_dense_remove f ainfo name = (FAIL, f) := by
  unfold H5A_dense_remove
  cases h1 : H5HF_open f ainfo.fheap_addr with
  | none => rfl
  | some fheap =>
    simp only
    cases h2 : H5B2_name_recs f ainfo.name_bt2_addr with
    | none =>
      unfold H5B2_remove_name
      cases haddr : ainfo.name_bt2_addr with
      | none => rfl
      | some a =>
        cases ht : f.name_bt2 a with
        | none => simp [ht]
        | some t => simp [H5B2_name_recs, haddr, ht] at h2
    | some recs =>
      have hno := H5A_dense_holds_eq_false f ainfo name fheap recs h1 h2 habs
      have hfind : H5B2_find_name f ainfo.name_bt2_addr
          { fheap := fheap, shared_fheap := H5A_dense_shared_fheap f, name := name,
            name_hash := f.H5_checksum_lookup3 name, flags := { SHARED := false },
            corder := 0 } = none := by
        rw [H5B2_find_name_eq_none_iff f _ _ recs h2, H5A_dense_name_match_eq f _ rfl rfl]
        exact hno
      obtain ⟨a, t, haddr, ht, _⟩ := (H5B2_name_recs_eq_some f _ recs).1 h2
      rw [haddr] at hfind
      simp only [H5B2_remove_name, haddr, ht, hfind]

theorem H5A_dense_remove_not_found_witness :
    H5A_dense_holds (H5A_ex_file3 true) (H5A_ex_ainfo1 true) "q" = false ∧
    H5A_dense_remove (H5A_ex_file3 true) (H5A_ex_ainfo1 true) "q" = (FAIL, H5A_ex_file3 true) :=
  ⟨by decide, H5A_dense_remove_not_found (H5A_ex_file3 true) (H5A_ex_ainfo1 true) "q" (by decide)⟩

/-! ## The steps of `H5A_dense_insert` -/

/-- `H5A_dense_insert` as the sequence of its steps. -/
theorem H5A_dense_insert_eq (f : H5F_t) (ainfo : H5O_ainfo_t) (attr : H5A_t) :
    H5A_dense_insert f ainfo attr =
      match H5HF_open (H5A_dense_insert_share f attr).1 ainfo.fheap_addr with
      | none => (FAIL, (H5A_dense_insert_share f attr).1, (H5A_dense_insert_share f attr).2.1)
      | some fheap =>
        match H5A_dense_insert_store (H5A_dense_insert_share f attr).1 fheap
            (H5A_dense_insert_share f attr).2.1 (H5A_dense_insert_share f attr).2.2 with
        | none => (FAIL, (H5A_dense_insert_share f attr).1, (H5A_dense_insert_share f attr).2.1)
        | some (f2, id) =>
          match H5B2_insert_name f2 ainfo.name_bt2_addr
              (H5A_dense_insert_udata f (H5A_dense_insert_share f attr).1 fheap
                (H5A_dense_insert_share f attr).2.1 (H5A_dense_insert_share f attr).2.2) id with
          | none => (FAIL, f2, (H5A_dense_insert_share f attr).2.1)
          | some f3 =>
            if ainfo.index_corder then
              match H5B2_insert_corder f3 ainfo.corder_bt2_addr
                  (H5A_dense_insert_udata f (H5A_dense_insert_share f attr).1 fheap
                    (H5A_dense_insert_share f attr).2.1 (H5A_dense_insert_share f attr).2.2)
                  id with
              | none => (FAIL, f3, (H5A_dense_insert_share f attr).2.1)
              | some f4 => (SUCCEED, f4, (H5A_dense_insert_share f attr).2.1)
            else (SUCCEED, f3, (H5A_dense_insert_share f attr).2.1) := rfl

theorem H5SM_lookup_some (m : H5A_mesg) :
    ∀ (l : List (Option H5SM_mesg_t)) (i : Nat), H5SM_lookup m l = some i →
      ∃ e, l[i]? = some (some e) ∧ e.mesg = m
  | [], i, h => by simp [H5SM_lookup] at h
  | s :: rest, i, h => by
    unfold H5SM_lookup at h
    cases s with
    | none =>
      simp only [Option.map_eq_some'] at h
      obtain ⟨j, hj, rfl⟩ := h
      obtain ⟨e, he, hm⟩ := H5SM_lookup_some m rest j hj
      exact ⟨e, by simpa using he, hm⟩
    | some e0 =>
      simp only at h
      by_cases hm : e0.mesg = m
      · simp only [hm, if_true, Option.some.injEq] at h
        subst h
        exact ⟨e0, by simp, hm⟩
      · simp only [hm, if_false, Option.map_eq_some'] at h
        obtain ⟨j, hj, rfl⟩ := h
        obtain ⟨e, he, hm'⟩ := H5SM_lookup_some m rest j hj
        exact ⟨e, by simpa using he, hm'⟩

theorem H5A_dense_copy_fh_cb_name (obj : H5A_mesg) (r : H5A_dense_bt2_corder_rec_t) :
    (H5A_dense_copy_fh_cb obj r).name = obj.name := by
  unfold H5A_dense_copy_fh_cb H5O_msg_decode
  split <;> rfl

theorem H5A_dense_heap_op_eq_some (f : H5F_t) (fheap : Nat) (sh : Bool)
    (r : H5A_dense_bt2_corder_rec_t) (a : H5A_t) :
    H5A_dense_heap_op f fheap sh r = some a ↔
      ∃ obj, (if r.flags.SHARED then H5HF_op_shared f sh r.id else H5HF_op f fheap r.id) = some obj ∧
        a = H5A_dense_copy_fh_cb obj r := by
  unfold H5A_dense_heap_op
  cases (if r.flags.SHARED then H5HF_op_shared f sh r.id else H5HF_op f fheap r.id) with
  | none => simp
  | some obj => simp [eq_comm]

/-- Reading a shared message through the handle the store obtains. -/
theorem H5HF_op_shared_eq_some (f : H5F_t) (id : Nat) (m : H5A_mesg) :
    H5HF_op_shared f (H5A_dense_shared_fheap f) id = some m ↔
      f.attr_sharable = true ∧ ∃ e, f.sohm[id]? = some (some e) ∧ e.mesg = m := by
  unfold H5HF_op_shared H5A_dense_shared_fheap H5SM_type_shared H5SM_get_fheap_addr
    H5F_addr_defined
  by_cases hs : f.attr_sharable = true
  · cases hg : f.sohm[id]? with
    | none => simp [hs]
    | some s =>
      cases s with
      | none => simp [hs]
      | some e =>
        have hany : f.sohm.any Option.isSome = true := by
          rw [List.any_eq_true]
          exact ⟨some e, List.getElem?_mem hg, rfl⟩
        simp [hs, hany]
  · simp [hs]

theorem H5A_dense_grows_refl (f : H5F_t) (fheap : Nat) (nm : String) :
    H5A_dense_grows f f fheap nm :=
  ⟨rfl, rfl, fun _ _ h => h, fun _ _ h => Or.inl h⟩

theorem H5A_dense_grows_trans (f g k : H5F_t) (fheap : Nat) (nm : String)
    (h1 : H5A_dense_grows f g fheap nm) (h2 : H5A_dense_grows g k fheap nm) :
    H5A_dense_grows f k fheap nm := by
  obtain ⟨a1, b1, c1, d1⟩ := h1
  obtain ⟨a2, b2, c2, d2⟩ := h2
  refine ⟨a2.trans a1, b2.trans b1, fun r a h => c2 r a (c1 r a h), fun r a h => ?_⟩
  rcases d2 r a h with h' | h'
  · exact d1 r a h'
  · exact Or.inr h'

/-- A change of the shared message table that keeps every stored message and
adds only messages with a given name, with the heaps untouched. -/
theorem H5A_dense_grows_of_sohm (f g : H5F_t) (fheap : Nat) (nm : String)
    (hh : g.H5_checksum_lookup3 = f.H5_checksum_lookup3)
    (hs : g.attr_sharable = f.attr_sharable) (hf : g.fheaps = f.fheaps)
    (hkeep : ∀ (id : Nat) (e : H5SM_mesg_t), f.sohm[id]? = some (some e) →
      ∃ e' : H5SM_mesg_t, g.sohm[id]? = some (some e') ∧ e'.mesg = e.mesg)
    (hnew : ∀ (id : Nat) (e' : H5SM_mesg_t), g.sohm[id]? = some (some e') →
      (∃ e : H5SM_mesg_t, f.sohm[id]? = some (some e) ∧ e.mesg = e'.mesg) ∨
        e'.mesg.name = nm) :
    H5A_dense_grows f g fheap nm := by
  refine ⟨hh, hs, fun r a h => ?_, fun r a h => ?_⟩
  · rw [H5A_dense_heap_op_eq_some] at h ⊢
    obtain ⟨obj, hobj, ha⟩ := h
    refine ⟨obj, ?_, ha⟩
    by_cases hsh : r.flags.SHARED = true
    · simp only [hsh, if_true] at hobj ⊢
      rw [H5HF_op_shared_eq_some] at hobj ⊢
      obtain ⟨h1, e, he, hm⟩ := hobj
      obtain ⟨e', he', hm'⟩ := hkeep _ _ he
      exact ⟨hs.trans h1, e', he', hm'.trans hm⟩
    · simp only [hsh] at hobj ⊢
      simpa [H5HF_op, hf] using hobj
  · rw [H5A_dense_heap_op_eq_some] at h
    obtain ⟨obj, hobj, ha⟩ := h
    by_cases hsh : r.flags.SHARED = true
    · simp only [hsh, if_true] at hobj
      rw [H5HF_op_shared_eq_some] at hobj
      obtain ⟨h1, e', he', hm'⟩ := hobj
      rcases hnew _ _ he' with ⟨e, he, hm⟩ | hn
      · left
        rw [H5A_dense_heap_op_eq_some]
        refine ⟨obj, ?_, ha⟩
        simp only [hsh, if_true]
        rw [H5HF_op_shared_eq_some]
        exact ⟨hs.symm.trans h1, e, he, hm.trans hm'⟩
      · right
        rw [ha, H5A_dense_copy_fh_cb_name, ← hm']
        exact hn
    · left
      rw [H5A_dense_heap_op_eq_some]
      refine ⟨obj, ?_, ha⟩
      simp only [hsh] at hobj ⊢
      simpa [H5HF_op, hf] using hobj

theorem H5O_msg_encode_sh_loc (attr : H5A_t) (s : H5O_shared_t) :
    H5O_msg_encode { attr with sh_loc := s } = H5O_msg_encode attr := rfl

/-- What `H5SM_try_share` does: only the shared message table changes; every
stored message stays readable; a message that becomes readable is the
attribute's; when the `SHARED` flag comes back set, the attribute's shared
location is a slot holding the attribute's message. -/
theorem H5SM_try_share_spec (f : H5F_t) (attr : H5A_t) (fheap : Nat) :
    (H5SM_try_share f attr { SHARED := false }).1 =
      { f with sohm := (H5SM_try_share f attr { SHARED := false }).1.sohm } ∧
    H5A_dense_grows f (H5SM_try_share f attr { SHARED := false }).1 fheap attr.name ∧
    (H5SM_try_share f attr { SHARED := false }).2.1 =
      { attr with sh_loc := (H5SM_try_share f attr { SHARED := false }).2.1.sh_loc } ∧
    ((H5SM_try_share f attr { SHARED := false }).2.2.SHARED = true →
      (H5SM_try_share f attr { SHARED := false }).2.1.sh_loc.type =
        H5O_share_type_t.H5O_SHARE_TYPE_SOHM ∧
      ∃ e : H5SM_mesg_t,
        (H5SM_try_share f attr { SHARED := false }).1.sohm[
          (H5SM_try_share f attr { SHARED := false }).2.1.sh_loc.heap_id]? = some (some e) ∧
        e.mesg = H5O_msg_encode attr) ∧
    ((H5SM_try_share f attr { SHARED := false }).2.2.SHARED = false →
      H5SM_try_share f attr { SHARED := false } = (f, attr, { SHARED := false })) := by
  by_cases hc : (f.attr_sharable && f.H5SM_can_share (H5O_msg_encode attr)) = true
  · cases hl : H5SM_lookup (H5O_msg_encode attr) f.sohm with
    | some i =>
      obtain ⟨e, he, hm⟩ := H5SM_lookup_some _ _ _ hl
      have hlt : i < f.sohm.length := by
        by_contra hge
        rw [List.getElem?_eq_none (by omega)] at he
        cases he
      have hval : H5SM_try_share f attr { SHARED := false } =
          ({ f with sohm := f.sohm.set i (some ⟨H5O_msg_encode attr, e.ref_count + 1⟩) },
           { attr with sh_loc := ⟨H5O_share_type_t.H5O_SHARE_TYPE_SOHM, i⟩ },
           { SHARED := true }) := by
        simp only [H5SM_try_share, hc, if_true, hl, he]
      rw [hval]
      refine ⟨rfl, ?_, rfl, ?_, ?_⟩
      · refine H5A_dense_grows_of_sohm _ _ _ _ rfl rfl rfl ?_ ?_
        · intro id e0 h0
          by_cases hid : i = id
          · subst hid
            rw [he] at h0
            simp only [Option.some.injEq] at h0
            subst h0
            exact ⟨⟨H5O_msg_encode attr, e.ref_count + 1⟩,
              by simp [List.getElem?_set, hlt], hm.symm⟩
          · exact ⟨e0, by simp [List.getElem?_set, hid, h0], rfl⟩
        · intro id e' h'
          by_cases hid : i = id
          · subst hid
            simp only [List.getElem?_set, hlt, if_true, Option.some.injEq] at h'
            subst h'
            exact Or.inl ⟨e, he, hm⟩
          · simp only [List.getElem?_set, hid, if_false] at h'
            exact Or.inl ⟨e', h', rfl⟩
      · intro _
        exact ⟨rfl, ⟨H5O_msg_encode attr, e.ref_count + 1⟩,
          by simp [List.getElem?_set, hlt], rfl⟩
      · intro h
        simp at h
    | none =>
      have hval : H5SM_try_share f attr { SHARED := false } =
          ({ f with sohm := f.sohm ++ [some ⟨H5O_msg_encode attr, 1⟩] },
           { attr with sh_loc := ⟨H5O_share_type_t.H5O_SHARE_TYPE_SOHM, f.sohm.length⟩ },
           { SHARED := true }) := by
        simp only [H5SM_try_share, hc, if_true, hl]
      rw [hval]
      refine ⟨rfl, ?_, rfl, ?_, ?_⟩
      · refine H5A_dense_grows_of_sohm _ _ _ _ rfl rfl rfl ?_ ?_
        · intro id e0 h0
          have hlt : id < f.sohm.length := by
            by_contra hge
            rw [List.getElem?_eq_none (by omega)] at h0
            cases h0
          exact ⟨e0, by simp [List.getElem?_append_left hlt, h0], rfl⟩
        · intro id e' h'
          by_cases hlt : id < f.sohm.length
          · simp only [List.getElem?_append_left hlt] at h'
            exact Or.inl ⟨e', h', rfl⟩
          · right
            simp only [List.getElem?_append_right (Nat.le_of_not_lt hlt)] at h'
            have hmem := List.getElem?_mem h'
            simp only [List.mem_singleton, Option.some.injEq] at hmem
            rw [hmem]
            rfl
      · intro _
        exact ⟨rfl, ⟨H5O_msg_encode attr, 1⟩, by simp, rfl⟩
      · intro h
        simp at h
  · have hval : H5SM_try_share f attr { SHARED := false } = (f, attr, { SHARED := false }) := by
      simp only [H5SM_try_share, hc]
      rfl
    rw [hval]
    refine ⟨rfl, H5A_dense_grows_refl _ _ _, rfl, ?_, ?_⟩
    · intro h
      simp at h
    · intro _
      rfl

/-- The sharing step of `H5A_dense_insert`. -/
theorem H5A_dense_insert_share_spec (f : H5F_t) (attr : H5A_t) (fheap : Nat) :
    (H5A_dense_insert_share f attr).1 =
      { f with sohm := (H5A_dense_insert_share f attr).1.sohm } ∧
    H5A_dense_grows f (H5A_dense_insert_share f attr).1 fheap attr.name ∧
    (H5A_dense_insert_share f attr).2.1 =
      { attr with sh_loc := (H5A_dense_insert_share f attr).2.1.sh_loc } ∧
    ((H5A_dense_insert_share f attr).2.2.SHARED = true →
      f.attr_sharable = true ∧
      (H5A_dense_insert_share f attr).2.1.sh_loc.type = H5O_share_type_t.H5O_SHARE_TYPE_SOHM ∧
      (H5A_shared_valid f attr = true → ∃ e : H5SM_mesg_t,
        (H5A_dense_insert_share f attr).1.sohm[
          (H5A_dense_insert_share f attr).2.1.sh_loc.heap_id]? = some (some e) ∧
        e.mesg = H5O_msg_encode attr)) ∧
    ((H5A_dense_insert_share f attr).2.2.SHARED = false →
      (H5A_dense_insert_share f attr).1 = f ∧ (H5A_dense_insert_share f attr).2.1 = attr) := by
  by_cases hs : f.attr_sharable = true
  · by_cases hi : H5O_msg_is_shared attr = true
    · have hval : H5A_dense_insert_share f attr = (f, attr, { SHARED := true }) := by
        simp [H5A_dense_insert_share, H5SM_type_shared, hs, hi]
      rw [hval]
      refine ⟨rfl, H5A_dense_grows_refl _ _ _, rfl, ?_, ?_⟩
      · intro _
        refine ⟨hs, by simpa [H5O_msg_is_shared] using hi, ?_⟩
        intro hv
        simp only [H5A_shared_valid, hi, if_true, decide_eq_true_eq, H5HF_op_shared] at hv
        cases hg : f.sohm[attr.sh_loc.heap_id]? with
        | none => simp [hg] at hv
        | some s =>
          cases s with
          | none => simp [hg] at hv
          | some e =>
            simp only [hg, Option.some.injEq] at hv
            exact ⟨e, rfl, hv⟩
      · intro h
        simp at h
    · have hval : H5A_dense_insert_share f attr = H5SM_try_share f attr { SHARED := false } := by
        simp [H5A_dense_insert_share, H5SM_type_shared, hs, hi]
      rw [hval]
      obtain ⟨h1, h2, h3, h4, h5⟩ := H5SM_try_share_spec f attr fheap
      refine ⟨h1, h2, h3, ?_, ?_⟩
      · intro h
        obtain ⟨ht, e, he, hm⟩ := h4 h
        exact ⟨hs, ht, fun _ => ⟨e, he, hm⟩⟩
      · intro h
        rw [h5 h]
        exact ⟨rfl, rfl⟩
  · have hval : H5A_dense_insert_share f attr = (f, attr, { SHARED := false }) := by
      simp [H5A_dense_insert_share, H5SM_type_shared, hs]
    rw [hval]
    refine ⟨rfl, H5A_dense_grows_refl _ _ _, rfl, ?_, ?_⟩
    · intro h
      simp at h
    · intro _
      exact ⟨rfl, rfl⟩

/-- The `SHARED` flag after the sharing step of `H5A_dense_insert`. -/
theorem H5A_dense_insert_share_flag (f : H5F_t) (attr : H5A_t) :
    ((H5A_dense_insert_share f attr).2.2.SHARED = true ↔
      f.attr_sharable = true ∧ H5O_msg_is_shared (H5A_dense_insert_share f attr).2.1 = true) := by
  by_cases hs : f.attr_sharable = true
  · by_cases hi : H5O_msg_is_shared attr = true
    · have hval : H5A_dense_insert_share f attr = (f, attr, { SHARED := true }) := by
        simp [H5A_dense_insert_share, H5SM_type_shared, hs, hi]
      rw [hval]
      simp [hs, hi]
    · have hval : H5A_dense_insert_share f attr = H5SM_try_share f attr { SHARED := false } := by
        simp [H5A_dense_insert_share, H5SM_type_shared, hs, hi]
      rw [hval]
      obtain ⟨-, -, -, h4, h5⟩ := H5SM_try_share_spec f attr 0
      constructor
      · intro h
        exact ⟨hs, by simp [H5O_msg_is_shared, (h4 h).1]⟩
      · rintro ⟨-, h⟩
        by_contra hflg
        have hflg' : (H5SM_try_share f attr { SHARED := false }).2.2.SHARED = false := by
          simpa using hflg
        rw [h5 hflg'] at h
        exact hi h
  · have hval : H5A_dense_insert_share f attr = (f, attr, { SHARED := false }) := by
      simp [H5A_dense_insert_share, H5SM_type_shared, hs]
    rw [hval]
    simp [hs]

theorem H5HF_read_append (h : H5HF_t) (obj : H5A_mesg) (id : Nat) :
    H5HF_read (h ++ [some obj]) id =
      if id = h.length then some obj else H5HF_read h id := by
  unfold H5HF_read
  by_cases hlt : id < h.length
  · have hne : id ≠ h.length := by omega
    simp [List.getElem?_append_left hlt, hne]
  · by_cases heq : id = h.length
    · subst heq
      simp
    · have h1 : (h ++ [some obj])[id]? = none := by
        rw [List.getElem?_eq_none]
        simp
        omega
      have h2 : h[id]? = none := by
        rw [List.getElem?_eq_none]
        omega
      simp [h1, h2, heq]

/-- An insertion into the object's heap keeps every stored object readable
and adds one object. -/
theorem H5A_dense_grows_of_append (f : H5F_t) (fheap : Nat) (h : H5HF_t) (obj : H5A_mesg)
    (hh : f.fheaps fheap = some h) :
    H5A_dense_grows f (f.set_fheap fheap (some (h ++ [some obj]))) fheap obj.name := by
  have hsf : H5A_dense_shared_fheap (f.set_fheap fheap (some (h ++ [some obj]))) =
      H5A_dense_shared_fheap f := H5A_dense_shared_fheap_congr _ _ rfl rfl
  refine ⟨rfl, rfl, fun r a ha => ?_, fun r a ha => ?_⟩
  · rw [hsf]
    rw [H5A_dense_heap_op_eq_some] at ha ⊢
    obtain ⟨o, ho, hao⟩ := ha
    refine ⟨o, ?_, hao⟩
    by_cases hsh : r.flags.SHARED = true
    · simpa [hsh, H5HF_op_shared] using ho
    · have hsh' : r.flags.SHARED = false := by simpa using hsh
      simp only [hsh', Bool.false_eq_true, if_false] at ho ⊢
      simp only [H5HF_op, hh] at ho
      simp only [H5HF_op, H5F_t.set_fheap_fheaps, if_true, H5HF_read_append]
      have hne : r.id ≠ h.length := by
        intro heq
        unfold H5HF_read at ho
        rw [heq, List.getElem?_eq_none (le_refl _)] at ho
        cases ho
      simp [hne, ho]
  · rw [hsf] at ha
    rw [H5A_dense_heap_op_eq_some] at ha
    obtain ⟨o, ho, hao⟩ := ha
    by_cases hsh : r.flags.SHARED = true
    · left
      rw [H5A_dense_heap_op_eq_some]
      exact ⟨o, by simpa [hsh, H5HF_op_shared] using ho, hao⟩
    · have hsh' : r.flags.SHARED = false := by simpa using hsh
      simp only [hsh', Bool.false_eq_true, if_false] at ho
      simp only [H5HF_op, H5F_t.set_fheap_fheaps, if_true, H5HF_read_append] at ho
      by_cases hid : r.id = h.length
      · right
        simp only [hid, if_true, Option.some.injEq] at ho
        rw [hao, H5A_dense_copy_fh_cb_name, ho]
      · left
        simp only [hid, if_false] at ho
        rw [H5A_dense_heap_op_eq_some]
        exact ⟨o, by simp [hsh', H5HF_op, hh, ho], hao⟩

/-- The storing step of `H5A_dense_insert`. -/
theorem H5A_dense_insert_store_spec (f1 f2 : H5F_t) (fheap : Nat) (attr1 : H5A_t)
    (flg : H5O_mesg_flags) (id : Nat)
    (h : H5A_dense_insert_store f1 fheap attr1 flg = some (f2, id)) :
    H5A_dense_grows f1 f2 fheap attr1.name ∧
    ((flg.SHARED = true ∧ f2 = f1 ∧ id = attr1.sh_loc.heap_id) ∨
     (flg.SHARED = false ∧ ∃ hp, f1.fheaps fheap = some hp ∧
        f2 = f1.set_fheap fheap (some (hp ++ [some (H5O_msg_encode attr1)])) ∧
        id = hp.length)) := by
  unfold H5A_dense_insert_store at h
  by_cases hsh : flg.SHARED = true
  · simp only [hsh, if_true, Option.some.injEq, Prod.mk.injEq] at h
    obtain ⟨rfl, rfl⟩ := h
    exact ⟨H5A_dense_grows_refl _ _ _, Or.inl ⟨hsh, rfl, rfl⟩⟩
  · simp only [hsh] at h
    by_cases hz : f1.H5O_msg_raw_size attr1 = 0
    · simp [hz] at h
    · simp only [hz, if_false, H5HF_insert] at h
      cases hh : f1.fheaps fheap with
      | none => simp [hh] at h
      | some hp =>
        simp only [hh, Option.some.injEq, Prod.mk.injEq] at h
        obtain ⟨rfl, rfl⟩ := h
        refine ⟨H5A_dense_grows_of_append f1 fheap hp (H5O_msg_encode attr1) hh, Or.inr ?_⟩
        exact ⟨by simpa using hsh, hp, rfl, rfl, rfl⟩

/-! ## Insertion into the indexes -/

theorem H5B2_insert_sorted_perm {ρ : Type} (lt : ρ → Bool) (new : ρ) :
    ∀ l : List ρ, (H5B2_insert_sorted lt new l).Perm (new :: l)
  | [] => List.Perm.refl _
  | r :: rs => by
    unfold H5B2_insert_sorted
    by_cases h : lt r = true
    · simp [h]
    · simp only [h]
      exact ((H5B2_insert_sorted_perm lt new rs).cons r).trans (List.Perm.swap new r rs)

theorem H5B2_insert_sorted_find_neg {ρ : Type} (lt p : ρ → Bool) (new : ρ)
    (h : p new = false) :
    ∀ l : List ρ, (H5B2_insert_sorted lt new l).find? p = l.find? p
  | [] => by simp [H5B2_insert_sorted, h]
  | r :: rs => by
    unfold H5B2_insert_sorted
    by_cases hl : lt r = true
    · simp [hl, h]
    · have hl' : lt r = false := by simpa using hl
      simp only [hl', Bool.false_eq_true, if_false, List.find?_cons]
      rw [H5B2_insert_sorted_find_neg lt p new h rs]

theorem H5B2_insert_sorted_find_pos {ρ : Type} (lt p : ρ → Bool) (new : ρ)
    (h : p new = true) :
    ∀ l : List ρ, (∀ r ∈ l, p r = false) → (H5B2_insert_sorted lt new l).find? p = some new
  | [], _ => by simp [H5B2_insert_sorted, h]
  | r :: rs, hno => by
    unfold H5B2_insert_sorted
    have hr : p r = false := hno r (List.mem_cons_self _ _)
    by_cases hl : lt r = true
    · simp [hl, h]
    · have hl' : lt r = false := by simpa using hl
      simp only [hl', Bool.false_eq_true, if_false, List.find?_cons, hr]
      exact H5B2_insert_sorted_find_pos lt p new h rs
        (fun x hx => hno x (List.mem_cons_of_mem _ hx))

/-- The insertion into the name index succeeds exactly when no record
compares equal, and then places the new record among the old ones. -/
theorem H5B2_insert_name_spec (f : H5F_t) (a : Nat) (t : H5B2_t H5A_dense_bt2_name_rec_t)
    (udata : H5A_bt2_ud_common_t) (id : Nat) (ht : f.name_bt2 a = some t) :
    ((∃ r ∈ t.recs, H5A_dense_name_match f udata r = true) ∧
      H5B2_insert_name f (some a) udata id = none) ∨
    ((∀ r ∈ t.recs, H5A_dense_name_match f udata r = false) ∧
      ∃ lt : H5A_dense_bt2_name_rec_t → Bool,
        H5B2_insert_name f (some a) udata id =
          some (f.set_name_bt2 a (some (t.set_recs (H5B2_insert_sorted lt
            ⟨id, udata.flags, udata.corder, udata.name_hash⟩ t.recs))))) := by
  by_cases hany : t.recs.any (H5A_dense_name_match f udata) = true
  · left
    refine ⟨by simpa using hany, ?_⟩
    simp [H5B2_insert_name, ht, hany]
  · right
    have hno : ∀ r ∈ t.recs, H5A_dense_name_match f udata r = false := by
      simpa using hany
    refine ⟨hno, ?_⟩
    simp only [H5B2_insert_name, ht, hany]
    exact ⟨_, rfl⟩

/-- The insertion into the creation order index succeeds exactly when the
creation order is not in the index. -/
theorem H5B2_insert_corder_spec (f : H5F_t) (c : Nat) (t : H5B2_t H5A_dense_bt2_corder_rec_t)
    (udata : H5A_bt2_ud_common_t) (id : Nat) (ht : f.corder_bt2 c = some t) :
    ((∃ r ∈ t.recs, r.corder = udata.corder) ∧
      H5B2_insert_corder f (some c) udata id = none) ∨
    ((∀ r ∈ t.recs, r.corder ≠ udata.corder) ∧
      ∃ lt : H5A_dense_bt2_corder_rec_t → Bool,
        (∀ r, lt r = decide (udata.corder < r.corder)) ∧
        H5B2_insert_corder f (some c) udata id =
          some (f.set_corder_bt2 c (some (t.set_recs (H5B2_insert_sorted lt
            ⟨id, udata.flags, udata.corder⟩ t.recs))))) := by
  have hcmp : ∀ r : H5A_dense_bt2_corder_rec_t,
      H5A_dense_btree2_corder_compare udata.corder r = 0 ↔ r.corder = udata.corder := by
    intro r
    unfold H5A_dense_btree2_corder_compare
    by_cases h1 : udata.corder < r.corder
    · simp [h1]; omega
    · by_cases h2 : r.corder < udata.corder
      · simp [h1, h2]; omega
      · simp [h1, h2]; omega
  by_cases hany : t.recs.any
      (fun r => decide (H5A_dense_btree2_corder_compare udata.corder r = 0)) = true
  · left
    refine ⟨?_, ?_⟩
    · simpa [hcmp] using hany
    · simp only [H5B2_insert_corder, ht, hany, if_true]
  · right
    refine ⟨?_, ?_⟩
    · simpa [hcmp] using hany
    · simp only [H5B2_insert_corder, ht, hany]
      refine ⟨_, ?_, rfl⟩
      intro r
      unfold H5A_dense_btree2_corder_compare
      by_cases h1 : udata.corder < r.corder
      · simp [h1]
      · by_cases h2 : r.corder < udata.corder
        · simp [h1, h2]
        · simp [h1, h2]

theorem H5HF_open_congr (f g : H5F_t) (addr : haddr_t) (h : g.fheaps = f.fheaps) :
    H5HF_open g addr = H5HF_open f addr := by
  unfold H5HF_open
  rw [h]

theorem H5HF_open_eq_some (f : H5F_t) (addr : haddr_t) (fheap : Nat) :
    H5HF_open f addr = some fheap ↔ addr = some fheap ∧ ∃ hp, f.fheaps fheap = some hp := by
  cases addr with
  | none => simp [H5HF_open]
  | some a =>
    cases hh : f.fheaps a with
    | none =>
      simp only [H5HF_open, hh, Option.some.injEq]
      constructor
      · intro h
        cases h
      · rintro ⟨heq, hp, hhp⟩
        subst heq
        rw [hh] at hhp
        cases hhp
    | some hp =>
      simp only [H5HF_open, hh, Option.some.injEq]
      constructor
      · intro heq
        subst heq
        exact ⟨rfl, hp, hh⟩
      · intro h
        exact h.1

theorem H5A_dense_is_named_congr (f g : H5F_t) (fheap : Nat) (name : String)
    (hh : g.H5_checksum_lookup3 = f.H5_checksum_lookup3)
    (hs : g.attr_sharable = f.attr_sharable) (hf : g.fheaps fheap = f.fheaps fheap)
    (hm : g.sohm = f.sohm) :
    H5A_dense_is_named g fheap name = H5A_dense_is_named f fheap name := by
  funext r
  simp only [H5A_dense_is_named, H5A_dense_rec_name, hh,
    H5A_dense_shared_fheap_congr f g hs hm, H5A_dense_heap_op_congr f g fheap _ _ hf hm]

/-- Records that did not read as a name other than the one being added do not
read as it afterwards, and conversely. -/
theorem H5A_dense_is_named_of_grows (f g : H5F_t) (fheap : Nat) (nm name : String)
    (hg : H5A_dense_grows f g fheap nm) (hne : name ≠ nm) :
    H5A_dense_is_named g fheap name = H5A_dense_is_named f fheap name := by
  obtain ⟨hh, _, hkeep, hnew⟩ := hg
  funext r
  rw [Bool.eq_iff_iff]
  simp only [H5A_dense_is_named, H5A_dense_rec_name, decide_eq_true_eq, hh,
    Option.map_eq_some']
  constructor
  · rintro ⟨h1, a, ha, hn⟩
    refine ⟨h1, a, ?_, hn⟩
    rcases hnew _ _ ha with h' | h'
    · exact h'
    · exact absurd (hn.symm.trans h') hne
  · rintro ⟨h1, a, ha, hn⟩
    exact ⟨h1, a, hkeep _ _ ha, hn⟩

/-- A record that read as a name keeps reading as it. -/
theorem H5A_dense_is_named_mono (f g : H5F_t) (fheap : Nat) (nm name : String)
    (hg : H5A_dense_grows f g fheap nm) (r : H5A_dense_bt2_name_rec_t)
    (h : H5A_dense_is_named f fheap name r = true) :
    H5A_dense_is_named g fheap name r = true := by
  obtain ⟨hh, _, hkeep, _⟩ := hg
  simp only [H5A_dense_is_named, H5A_dense_rec_name, decide_eq_true_eq, hh,
    Option.map_eq_some'] at h ⊢
  obtain ⟨h1, a, ha, hn⟩ := h
  exact ⟨h1, a, hkeep _ _ ha, hn⟩

/-- The outcomes of `H5A_dense_insert` on a store whose heap and name index
exist.  `f2` is the file after the value has been stored (or could not be
stored), `attr1` the attribute after the sharing step, `flg` and `id` the
flags and the heap ID of the record.  Either the call fails with the indexes
untouched, or the record is inserted in the name index and then the call
succeeds, with the mirrored record in the creation order index when
`index_corder` is set, or fails at the creation order index. -/
theorem H5A_dense_insert_spec (f : H5F_t) (ainfo : H5O_ainfo_t) (attr : H5A_t) (fheap a : Nat)
    (t : H5B2_t H5A_dense_bt2_name_rec_t)
    (h1 : H5HF_open f ainfo.fheap_addr = some fheap) (ha : ainfo.name_bt2_addr = some a)
    (ht : f.name_bt2 a = some t) :
    ∃ (f2 : H5F_t) (attr1 : H5A_t) (flg : H5O_mesg_flags) (id : Nat),
      attr1 = { attr with sh_loc := attr1.sh_loc } ∧
      H5A_dense_grows f f2 fheap attr.name ∧
      f2.name_bt2 = f.name_bt2 ∧ f2.corder_bt2 = f.corder_bt2 ∧
      H5HF_open f2 ainfo.fheap_addr = some fheap ∧
      (flg.SHARED = true → f.attr_sharable = true ∧
        attr1.sh_loc.type = H5O_share_type_t.H5O_SHARE_TYPE_SOHM ∧
        id = attr1.sh_loc.heap_id ∧ f2.fheaps = f.fheaps) ∧
      (flg.SHARED = false → f2.sohm = f.sohm ∧ attr1 = attr) ∧
      (flg.SHARED = true ↔ f.attr_sharable = true ∧ H5O_msg_is_shared attr1 = true) ∧
      ((H5A_dense_insert f ainfo attr = (FAIL, f2, attr1) ∧
          (f2.fheaps = f.fheaps ∨
            ∃ r ∈ t.recs, H5A_dense_is_named f2 fheap attr.name r = true)) ∨
       ((∀ r ∈ t.recs, H5A_dense_is_named f2 fheap attr.name r = false) ∧
        (flg.SHARED = false → H5HF_insert f fheap (H5O_msg_encode attr) = some (f2, id)) ∧
        (H5A_shared_valid f attr = true →
          H5A_dense_heap_op f2 fheap (H5A_dense_shared_fheap f2) ⟨id, flg, attr.crt_idx⟩ =
            some (H5A_dense_copy_fh_cb (H5O_msg_encode attr) ⟨id, flg, attr.crt_idx⟩)) ∧
        ∃ lt : H5A_dense_bt2_name_rec_t → Bool,
          (ainfo.index_corder = false ∧
            H5A_dense_insert f ainfo attr =
              (SUCCEED, f2.set_name_bt2 a (some (t.set_recs (H5B2_insert_sorted lt
                ⟨id, flg, attr.crt_idx, f.H5_checksum_lookup3 attr.name⟩ t.recs))), attr1)) ∨
          (ainfo.index_corder = true ∧
            ((H5A_dense_insert f ainfo attr =
                (FAIL, f2.set_name_bt2 a (some (t.set_recs (H5B2_insert_sorted lt
                  ⟨id, flg, attr.crt_idx, f.H5_checksum_lookup3 attr.name⟩ t.recs))), attr1) ∧
              ∀ c ct, ainfo.corder_bt2_addr = some c → f.corder_bt2 c = some ct →
                ∃ r ∈ ct.recs, r.corder = attr.crt_idx) ∨
             (∃ (c : Nat) (ct : H5B2_t H5A_dense_bt2_corder_rec_t)
                (ltc : H5A_dense_bt2_corder_rec_t → Bool),
                (∀ r, ltc r = decide (attr.crt_idx < r.corder)) ∧
                ainfo.corder_bt2_addr = some c ∧ f.corder_bt2 c = some ct ∧
                (∀ r ∈ ct.recs, r.corder ≠ attr.crt_idx) ∧
                H5A_dense_insert f ainfo attr =
                  (SUCCEED, (f2.set_name_bt2 a (some (t.set_recs (H5B2_insert_sorted lt
                    ⟨id, flg, attr.crt_idx, f.H5_checksum_lookup3 attr.name⟩ t.recs)))).set_corder_bt2
                    c (some (ct.set_recs (H5B2_insert_sorted ltc ⟨id, flg, attr.crt_idx⟩
                      ct.recs))), attr1)))))) := by
  obtain ⟨hs1, hs2, hs3, hs4, hs5⟩ := H5A_dense_insert_share_spec f attr fheap
  have hs6 := H5A_dense_insert_share_flag f attr
  rw [H5A_dense_insert_eq]
  generalize H5A_dense_insert_share f attr = sh at hs1 hs2 hs3 hs4 hs5 hs6 ⊢
  obtain ⟨f1, attr1, flg⟩ := sh
  simp only at hs1 hs2 hs3 hs4 hs5 hs6 ⊢
  have hfh : f1.fheaps = f.fheaps := by rw [hs1]
  have hnb : f1.name_bt2 = f.name_bt2 := by rw [hs1]
  have hcb : f1.corder_bt2 = f.corder_bt2 := by rw [hs1]
  have hhash : f1.H5_checksum_lookup3 = f.H5_checksum_lookup3 := by rw [hs1]
  have hshr : f1.attr_sharable = f.attr_sharable := by rw [hs1]
  have hopen1 : H5HF_open f1 ainfo.fheap_addr = some fheap := by
    rw [H5HF_open_congr f f1 _ hfh]; exact h1
  have hname : attr1.name = attr.name := by rw [hs3]
  have hcrt : attr1.crt_idx = attr.crt_idx := by rw [hs3]
  have henc : H5O_msg_encode attr1 = H5O_msg_encode attr := by rw [hs3]; rfl
  rw [hopen1]
  simp only
  cases hst : H5A_dense_insert_store f1 fheap attr1 flg with
  | none =>
    refine ⟨f1, attr1, flg, 0, hs3, hs2, hnb, hcb, hopen1, ?_, ?_, hs6,
      Or.inl ⟨rfl, Or.inl hfh⟩⟩
    · intro hflg
      exfalso
      simp [H5A_dense_insert_store, hflg] at hst
    · intro hflg
      obtain ⟨e1, e2⟩ := hs5 hflg
      exact ⟨by rw [e1], e2⟩
  | some p =>
    obtain ⟨f2, id⟩ := p
    simp only
    obtain ⟨hg2, hcase⟩ := H5A_dense_insert_store_spec f1 f2 fheap attr1 flg id hst
    rw [hname] at hg2
    have hgrow : H5A_dense_grows f f2 fheap attr.name := H5A_dense_grows_trans _ _ _ _ _ hs2 hg2
    have hnb2 : f2.name_bt2 = f.name_bt2 := by
      rcases hcase with ⟨_, e, _⟩ | ⟨_, hp, _, e, _⟩
      · rw [e]; exact hnb
      · rw [e]; exact hnb
    have hcb2 : f2.corder_bt2 = f.corder_bt2 := by
      rcases hcase with ⟨_, e, _⟩ | ⟨_, hp, _, e, _⟩
      · rw [e]; exact hcb
      · rw [e]; exact hcb
    have hsohm2 : f2.sohm = f1.sohm := by
      rcases hcase with ⟨_, e, _⟩ | ⟨_, hp, _, e, _⟩
      · rw [e]
      · rw [e]; rfl
    have hshr2 : f2.attr_sharable = f1.attr_sharable := by
      rcases hcase with ⟨_, e, _⟩ | ⟨_, hp, _, e, _⟩
      · rw [e]
      · rw [e]; rfl
    have hhash2 : f2.H5_checksum_lookup3 = f1.H5_checksum_lookup3 := by
      rcases hcase with ⟨_, e, _⟩ | ⟨_, hp, _, e, _⟩
      · rw [e]
      · rw [e]; rfl
    have hopen2 : H5HF_open f2 ainfo.fheap_addr = some fheap := by
      rw [H5HF_open_eq_some] at hopen1 ⊢
      obtain ⟨e1, hp1, hhp1⟩ := hopen1
      refine ⟨e1, ?_⟩
      rcases hcase with ⟨_, e, _⟩ | ⟨_, hp, _, e, _⟩
      · rw [e]; exact ⟨hp1, hhp1⟩
      · rw [e]; exact ⟨hp ++ [some (H5O_msg_encode attr1)], by simp⟩
    have ht2 : f2.name_bt2 a = some t := by rw [hnb2]; exact ht
    have hflgT : flg.SHARED = true → f.attr_sharable = true ∧
        attr1.sh_loc.type = H5O_share_type_t.H5O_SHARE_TYPE_SOHM ∧
        id = attr1.sh_loc.heap_id ∧ f2.fheaps = f.fheaps := by
      intro hflg
      obtain ⟨e1, e2, _⟩ := hs4 hflg
      rcases hcase with ⟨_, e, e'⟩ | ⟨hc, _⟩
      · exact ⟨e1, e2, e', by rw [e]; exact hfh⟩
      · rw [hflg] at hc; cases hc
    have hflgF : flg.SHARED = false → f2.sohm = f.sohm ∧ attr1 = attr := by
      intro hflg
      obtain ⟨e1, e2⟩ := hs5 hflg
      exact ⟨by rw [hsohm2, e1], e2⟩
    have hmatch : H5A_dense_name_match f2 (H5A_dense_insert_udata f f1 fheap attr1 flg) =
        H5A_dense_is_named f2 fheap attr.name := by
      have := H5A_dense_name_match_eq f2 (H5A_dense_insert_udata f f1 fheap attr1 flg) ?_ ?_
      · rw [this]
        simp only [H5A_dense_insert_udata, hname]
      · simp only [H5A_dense_insert_udata, H5A_dense_shared_fheap, H5SM_type_shared,
          H5SM_get_fheap_addr, hsohm2, hshr2, hshr]
      · simp only [H5A_dense_insert_udata, hhash2, hhash]
    rw [ha]
    rcases H5B2_insert_name_spec f2 a t (H5A_dense_insert_udata f f1 fheap attr1 flg) id ht2 with
      ⟨hdup, hins⟩ | ⟨hno, lt, hins⟩
    · rw [hins]
      rw [hmatch] at hdup
      exact ⟨f2, attr1, flg, id, hs3, hgrow, hnb2, hcb2, hopen2, hflgT, hflgF, hs6,
        Or.inl ⟨rfl, Or.inr hdup⟩⟩
    · rw [hins]
      rw [hmatch] at hno
      simp only
      refine ⟨f2, attr1, flg, id, hs3, hgrow, hnb2, hcb2, hopen2, hflgT, hflgF, hs6,
        Or.inr ?_⟩
      refine ⟨hno, ?_, ?_, lt, ?_⟩
      · intro hflg
        rcases hcase with ⟨hc, _⟩ | ⟨_, hp, hhp, e, e'⟩
        · rw [hflg] at hc; cases hc
        · obtain ⟨e1, e2⟩ := hs5 hflg
          subst e1
          simp only [H5HF_insert, hhp, e, e', e2]
      · intro hv
        rw [H5A_dense_heap_op_eq_some]
        refine ⟨H5O_msg_encode attr, ?_, rfl⟩
        by_cases hflg : flg.SHARED = true
        · simp only [hflg, if_true]
          rw [H5HF_op_shared_eq_some]
          obtain ⟨e1, _, e3⟩ := hs4 hflg
          obtain ⟨e, he, hm⟩ := e3 hv
          obtain ⟨_, _, hid, _⟩ := hflgT hflg
          refine ⟨by rw [hshr2, hshr]; exact e1, e, ?_, hm⟩
          rw [hsohm2, hid]
          exact he
        · have hflg' : flg.SHARED = false := by simpa using hflg
          simp only [hflg', Bool.false_eq_true, if_false]
          rcases hcase with ⟨hc, _⟩ | ⟨_, hp, hhp, e, e'⟩
          · rw [hflg'] at hc; cases hc
          · rw [e, e', ← henc]
            simp [H5HF_op, H5HF_read]
      · simp only [H5A_dense_insert_udata, hname, hcrt] at *
        by_cases hic : ainfo.index_corder = true
        · right
          refine ⟨hic, ?_⟩
          simp only [hic, if_true]
          cases hca : ainfo.corder_bt2_addr with
          | none =>
            left
            refine ⟨by simp [H5B2_insert_corder], ?_⟩
            intro c ct hc
            cases hc
          | some c =>
            cases hct : f.corder_bt2 c with
            | none =>
              left
              refine ⟨by simp [H5B2_insert_corder, hcb2, hct], ?_⟩
              intro c' ct' hc' hct'
              simp only [Option.some.injEq] at hc'
              subst hc'
              rw [hct] at hct'
              cases hct'
            | some ct =>
              have hct3 : (f2.set_name_bt2 a (some (t.set_recs (H5B2_insert_sorted lt
                  ⟨id, flg, attr.crt_idx, f.H5_checksum_lookup3 attr.name⟩ t.recs)))).corder_bt2 c =
                  some ct := by
                simp [hcb2, hct]
              rcases H5B2_insert_corder_spec _ c ct
                  ⟨fheap, (if H5SM_type_shared f then H5F_addr_defined (H5SM_get_fheap_addr f1)
                    else false), attr.name, f.H5_checksum_lookup3 attr.name, flg, attr.crt_idx⟩
                  id hct3 with ⟨hdup, hins2⟩ | ⟨hno2, ltc, hltc, hins2⟩
              · left
                refine ⟨?_, ?_⟩
                · simp only [hins2]
                · intro c' ct' hc' hct'
                  simp only [Option.some.injEq] at hc'
                  subst hc'
                  rw [hct] at hct'
                  simp only [Option.some.injEq] at hct'
                  subst hct'
                  exact hdup
              · right
                refine ⟨c, ct, ltc, hltc, rfl, hct, hno2, ?_⟩
                simp only [hins2]
        · left
          have hic' : ainfo.index_corder = false := by simpa using hic
          refine ⟨hic', ?_⟩
          simp only [hic', Bool.false_eq_true, if_false]

@[simp] theorem H5HF_open_set_name_bt2 (f : H5F_t) (a : Nat)
    (t : Option (H5B2_t H5A_dense_bt2_name_rec_t)) (addr : haddr_t) :
    H5HF_open (f.set_name_bt2 a t) addr = H5HF_open f addr := rfl

@[simp] theorem H5HF_open_set_corder_bt2 (f : H5F_t) (a : Nat)
    (t : Option (H5B2_t H5A_dense_bt2_corder_rec_t)) (addr : haddr_t) :
    H5HF_open (f.set_corder_bt2 a t) addr = H5HF_open f addr := rfl

@[simp] theorem H5A_dense_heap_op_set_name_bt2 (f : H5F_t) (a : Nat)
    (t : Option (H5B2_t H5A_dense_bt2_name_rec_t)) (fheap : Nat) (sh : Bool)
    (r : H5A_dense_bt2_corder_rec_t) :
    H5A_dense_heap_op (f.set_name_bt2 a t) fheap sh r = H5A_dense_heap_op f fheap sh r := rfl

@[simp] theorem H5A_dense_heap_op_set_corder_bt2 (f : H5F_t) (a : Nat)
    (t : Option (H5B2_t H5A_dense_bt2_corder_rec_t)) (fheap : Nat) (sh : Bool)
    (r : H5A_dense_bt2_corder_rec_t) :
    H5A_dense_heap_op (f.set_corder_bt2 a t) fheap sh r = H5A_dense_heap_op f fheap sh r := rfl

@[simp] theorem H5A_dense_shared_fheap_set_name_bt2 (f : H5F_t) (a : Nat)
    (t : Option (H5B2_t H5A_dense_bt2_name_rec_t)) :
    H5A_dense_shared_fheap (f.set_name_bt2 a t) = H5A_dense_shared_fheap f := rfl

@[simp] theorem H5A_dense_shared_fheap_set_corder_bt2 (f : H5F_t) (a : Nat)
    (t : Option (H5B2_t H5A_dense_bt2_corder_rec_t)) :
    H5A_dense_shared_fheap (f.set_corder_bt2 a t) = H5A_dense_shared_fheap f := rfl

@[simp] theorem H5A_dense_is_named_set_name_bt2 (f : H5F_t) (a : Nat)
    (t : Option (H5B2_t H5A_dense_bt2_name_rec_t)) (fheap : Nat) (name : String) :
    H5A_dense_is_named (f.set_name_bt2 a t) fheap name = H5A_dense_is_named f fheap name := rfl

@[simp] theorem H5A_dense_is_named_set_corder_bt2 (f : H5F_t) (a : Nat)
    (t : Option (H5B2_t H5A_dense_bt2_corder_rec_t)) (fheap : Nat) (name : String) :
    H5A_dense_is_named (f.set_corder_bt2 a t) fheap name = H5A_dense_is_named f fheap name := rfl

@[simp] theorem H5B2_name_recs_set_name_bt2 (f : H5F_t) (a : Nat)
    (t : H5B2_t H5A_dense_bt2_name_rec_t) :
    H5B2_name_recs (f.set_name_bt2 a (some t)) (some a) = some t.recs := by
  simp [H5B2_name_recs]

@[simp] theorem H5B2_name_recs_set_corder_bt2 (f : H5F_t) (a : Nat)
    (t : Option (H5B2_t H5A_dense_bt2_corder_rec_t)) (addr : haddr_t) :
    H5B2_name_recs (f.set_corder_bt2 a t) addr = H5B2_name_recs f addr := rfl

@[simp] theorem H5B2_corder_recs_set_corder_bt2 (f : H5F_t) (a : Nat)
    (t : H5B2_t H5A_dense_bt2_corder_rec_t) :
    H5B2_corder_recs (f.set_corder_bt2 a (some t)) (some a) = some t.recs := by
  simp [H5B2_corder_recs]

@[simp] theorem H5B2_corder_recs_set_name_bt2 (f : H5F_t) (a : Nat)
    (t : Option (H5B2_t H5A_dense_bt2_name_rec_t)) (addr : haddr_t) :
    H5B2_corder_recs (f.set_name_bt2 a t) addr = H5B2_corder_recs f addr := rfl

@[simp] theorem H5B2_t.set_recs_recs {ρ : Type} (t : H5B2_t ρ) (recs : List ρ) :
    (t.set_recs recs).recs = recs := rfl

theorem H5A_dense_copy_fh_cb_fields (obj : H5A_mesg) (r : H5A_dense_bt2_corder_rec_t) :
    (H5A_dense_copy_fh_cb obj r).name = obj.name ∧
    (H5A_dense_copy_fh_cb obj r).crt_idx = r.corder ∧
    (H5A_dense_copy_fh_cb obj r).version = obj.version ∧
    (H5A_dense_copy_fh_cb obj r).body = obj.body := by
  unfold H5A_dense_copy_fh_cb H5O_msg_decode
  split <;> exact ⟨rfl, rfl, rfl, rfl⟩

theorem FAIL_ne_SUCCEED : (FAIL : Int) ≠ SUCCEED := by decide

/-- A successful `H5A_dense_insert` worked on an existing heap and name
index. -/
theorem H5A_dense_insert_succeed_store (f : H5F_t) (ainfo : H5O_ainfo_t) (attr : H5A_t)
    (hins : (H5A_dense_insert f ainfo attr).1 = SUCCEED) :
    ∃ (fheap a : Nat) (t : H5B2_t H5A_dense_bt2_name_rec_t),
      H5HF_open f ainfo.fheap_addr = some fheap ∧ ainfo.name_bt2_addr = some a ∧
      f.name_bt2 a = some t := by
  obtain ⟨hs1, -, -, -, -⟩ := H5A_dense_insert_share_spec f attr 0
  rw [H5A_dense_insert_eq] at hins
  generalize H5A_dense_insert_share f attr = sh at hs1 hins
  obtain ⟨f1, attr1, flg⟩ := sh
  simp only at hs1 hins
  have hfh : f1.fheaps = f.fheaps := by rw [hs1]
  have hnb : f1.name_bt2 = f.name_bt2 := by rw [hs1]
  rw [H5HF_open_congr f f1 _ hfh] at hins
  cases h1 : H5HF_open f ainfo.fheap_addr with
  | none =>
    rw [h1] at hins
    exact absurd hins FAIL_ne_SUCCEED
  | some fheap =>
    rw [h1] at hins
    simp only at hins
    cases hst : H5A_dense_insert_store f1 fheap attr1 flg with
    | none =>
      rw [hst] at hins
      exact absurd hins FAIL_ne_SUCCEED
    | some p =>
      obtain ⟨f2, id⟩ := p
      rw [hst] at hins
      simp only at hins
      obtain ⟨-, hcase⟩ := H5A_dense_insert_store_spec f1 f2 fheap attr1 flg id hst
      have hnb2 : f2.name_bt2 = f.name_bt2 := by
        rcases hcase with ⟨_, e, _⟩ | ⟨_, hp, _, e, _⟩
        · rw [e]; exact hnb
        · rw [e]; exact hnb
      cases ha : ainfo.name_bt2_addr with
      | none =>
        rw [ha] at hins
        simp only [H5B2_insert_name] at hins
        exact absurd hins FAIL_ne_SUCCEED
      | some a =>
        cases ht : f.name_bt2 a with
        | none =>
          rw [ha] at hins
          simp only [H5B2_insert_name, hnb2, ht] at hins
          exact absurd hins FAIL_ne_SUCCEED
        | some t => exact ⟨fheap, a, t, rfl, rfl, ht⟩

/-- What `H5A_dense_open` returns for the name of an attribute that has just
been inserted. -/
theorem H5A_dense_insert_open_eq (f : H5F_t) (ainfo : H5O_ainfo_t) (attr : H5A_t)
    (hwf : H5A_shared_valid f attr = true)
    (hins : (H5A_dense_insert f ainfo attr).1 = SUCCEED) :
    ∃ a : H5A_t, H5A_dense_open (H5A_dense_insert f ainfo attr).2.1 ainfo attr.name = some a ∧
      a.name = attr.name ∧ a.crt_idx = attr.crt_idx ∧ a.version = attr.version ∧
      a.body = attr.body := by
  obtain ⟨fheap, a, t, h1, ha, ht⟩ := H5A_dense_insert_succeed_store f ainfo attr hins
  obtain ⟨f2, attr1, flg, id, -, hgrow, hnb2, hcb2, hopen2, -, -, -, hcases⟩ :=
    H5A_dense_insert_spec f ainfo attr fheap a t h1 ha ht
  have hfields := H5A_dense_copy_fh_cb_fields (H5O_msg_encode attr) ⟨id, flg, attr.crt_idx⟩
  have hhash : f2.H5_checksum_lookup3 = f.H5_checksum_lookup3 := hgrow.1
  rcases hcases with ⟨hres, -⟩ | ⟨hno, -, hnew, lt, hres⟩
  · rw [hres] at hins
    exact absurd hins FAIL_ne_SUCCEED
  · have hnew' := hnew hwf
    have hnamed : H5A_dense_is_named f2 fheap attr.name
        ⟨id, flg, attr.crt_idx, f.H5_checksum_lookup3 attr.name⟩ = true := by
      simp only [H5A_dense_is_named, H5A_dense_rec_name, decide_eq_true_eq, hhash, true_and,
        H5A_dense_bt2_name_rec_t.common, hnew', Option.map_some', Option.some.injEq]
      exact hfields.1
    have hfind := H5B2_insert_sorted_find_pos lt (H5A_dense_is_named f2 fheap attr.name)
      ⟨id, flg, attr.crt_idx, f.H5_checksum_lookup3 attr.name⟩ hnamed t.recs hno
    refine ⟨H5A_dense_copy_fh_cb (H5O_msg_encode attr) ⟨id, flg, attr.crt_idx⟩, ?_,
      hfields.1, hfields.2.1, hfields.2.2.1, hfields.2.2.2⟩
    rcases hres with ⟨-, hres⟩ | ⟨-, ⟨hres, -⟩ | ⟨c, ct, ltc, -, -, -, -, hres⟩⟩
    · rw [hres]
      simp only
      rw [H5A_dense_open_eq _ ainfo attr.name fheap _ (by simpa using hopen2)
        (by rw [ha]; exact H5B2_name_recs_set_name_bt2 _ _ _)]
      simp only [H5A_dense_is_named_set_name_bt2, H5B2_t.set_recs_recs, hfind,
        Option.some_bind, H5A_dense_heap_op_set_name_bt2, H5A_dense_shared_fheap_set_name_bt2]
      exact hnew'
    · rw [hres] at hins
      exact absurd hins FAIL_ne_SUCCEED
    · rw [hres]
      simp only
      rw [H5A_dense_open_eq _ ainfo attr.name fheap
        (H5B2_insert_sorted lt ⟨id, flg, attr.crt_idx, f.H5_checksum_lookup3 attr.name⟩ t.recs)
        (by simpa using hopen2) (by rw [ha]; simp)]
      simp only [H5A_dense_is_named_set_name_bt2, H5A_dense_is_named_set_corder_bt2,
        H5B2_t.set_recs_recs, hfind, Option.some_bind, H5A_dense_heap_op_set_name_bt2,
        H5A_dense_heap_op_set_corder_bt2, H5A_dense_shared_fheap_set_name_bt2,
        H5A_dense_shared_fheap_set_corder_bt2]
      exact hnew'

/-- C1: round trip.  After a successful `H5A_dense_insert` of an attribute
(whose shared location, when it is already shared, refers to its own message
in the shared message table), `H5A_dense_open` of its name returns an
attribute with the same name, the same creation order and the same decoded
contents (version and body), whether the record was stored in the object's
heap or as a shared message. -/
theorem H5A_dense_insert_open_roundtrip (f : H5F_t) (ainfo : H5O_ainfo_t) (attr : H5A_t)
    (hwf : H5A_shared_valid f attr = true)
    (hins : (H5A_dense_insert f ainfo attr).1 = SUCCEED) :
    ∃ a : H5A_t, H5A_dense_open (H5A_dense_insert f ainfo attr).2.1 ainfo attr.name = some a ∧
      a.name = attr.name ∧ a.crt_idx = attr.crt_idx ∧ a.version = attr.version ∧
      a.body = attr.body :=
  H5A_dense_insert_open_eq f ainfo attr hwf hins

theorem H5A_dense_insert_open_roundtrip_witness :
    H5A_shared_valid (H5A_ex_file3 true) (H5A_ex_attr "b" 3 [4, 5]) = true ∧
    (H5A_dense_insert (H5A_ex_file3 true) (H5A_ex_ainfo1 true) (H5A_ex_attr "b" 3 [4, 5])).1 =
      SUCCEED ∧
    ∃ a : H5A_t,
      H5A_dense_open
        (H5A_dense_insert (H5A_ex_file3 true) (H5A_ex_ainfo1 true) (H5A_ex_attr "b" 3 [4, 5])).2.1
        (H5A_ex_ainfo1 true) (H5A_ex_attr "b" 3 [4, 5]).name = some a ∧
      a.name = (H5A_ex_attr "b" 3 [4, 5]).name ∧ a.crt_idx = (H5A_ex_attr "b" 3 [4, 5]).crt_idx ∧
      a.version = (H5A_ex_attr "b" 3 [4, 5]).version ∧
      a.body = (H5A_ex_attr "b" 3 [4, 5]).body :=
  ⟨by decide, by decide,
    H5A_dense_insert_open_roundtrip (H5A_ex_file3 true) (H5A_ex_ainfo1 true)
      (H5A_ex_attr "b" 3 [4, 5]) (by decide) (by decide)⟩

theorem H5A_dense_btree2_corder_compare_eq_zero (corder : Nat)
    (r : H5A_dense_bt2_corder_rec_t) :
    H5A_dense_btree2_corder_compare corder r = 0 ↔ r.corder = corder := by
  unfold H5A_dense_btree2_corder_compare
  by_cases h1 : corder < r.corder
  · simp [h1]; omega
  · by_cases h2 : r.corder < corder
    · simp [h1, h2]; omega
    · simp [h1, h2]; omega

theorem H5A_dense_btree2_corder_compare_pred (corder : Nat) :
    (fun r : H5A_dense_bt2_corder_rec_t =>
      decide (H5A_dense_btree2_corder_compare corder r = 0)) =
    (fun r => decide (r.corder = corder)) := by
  funext r
  simp [H5A_dense_btree2_corder_compare_eq_zero]

/-- The removal from the creation order index succeeds exactly when the
creation order is in the index, and takes out the first record carrying
it. -/
theorem H5B2_remove_corder_spec (f : H5F_t) (c : Nat) (ct : H5B2_t H5A_dense_bt2_corder_rec_t)
    (corder : Nat) (hct : f.corder_bt2 c = some ct) :
    ((∀ x ∈ ct.recs, x.corder ≠ corder) ∧ H5B2_remove_corder f (some c) corder = none) ∨
    ((∃ x ∈ ct.recs, x.corder = corder) ∧
      H5B2_remove_corder f (some c) corder =
        some (f.set_corder_bt2 c (some (ct.set_recs
          (ct.recs.eraseP (fun r => decide (r.corder = corder))))))) := by
  simp only [H5B2_remove_corder, hct, H5A_dense_btree2_corder_compare_pred]
  by_cases hany : ct.recs.any (fun r => decide (r.corder = corder)) = true
  · right
    refine ⟨by simpa using hany, ?_⟩
    simp only [hany, if_true]
    rfl
  · left
    refine ⟨by simpa using hany, ?_⟩
    simp only [hany]
    rfl

/-- What `H5SM_delete` does on a live slot: only the shared message table
changes; the slot is freed or keeps its message with one reference less. -/
theorem H5SM_delete_spec (f : H5F_t) (sh_loc : H5O_shared_t) (e : H5SM_mesg_t)
    (he : f.sohm[sh_loc.heap_id]? = some (some e)) :
    ∃ g : H5F_t, H5SM_delete f sh_loc = some g ∧ g = { f with sohm := g.sohm } ∧
      (g.sohm = f.sohm.set sh_loc.heap_id none ∨
        g.sohm = f.sohm.set sh_loc.heap_id (some ⟨e.mesg, e.ref_count - 1⟩)) := by
  by_cases hrc : e.ref_count ≤ 1
  · exact ⟨{ f with sohm := f.sohm.set sh_loc.heap_id none },
      by simp [H5SM_delete, he, hrc], rfl, Or.inl rfl⟩
  · exact ⟨{ f with sohm := f.sohm.set sh_loc.heap_id (some ⟨e.mesg, e.ref_count - 1⟩) },
      by simp [H5SM_delete, he, hrc], rfl, Or.inr rfl⟩

theorem H5A_dense_shrinks_of_sohm (f g : H5F_t) (fheap : Nat) (nm : String)
    (hh : g.H5_checksum_lookup3 = f.H5_checksum_lookup3)
    (hs : g.attr_sharable = f.attr_sharable) (hf : g.fheaps fheap = f.fheaps fheap)
    (hkeep : ∀ (id : Nat) (e : H5SM_mesg_t), f.sohm[id]? = some (some e) → e.mesg.name ≠ nm →
      ∃ e' : H5SM_mesg_t, g.sohm[id]? = some (some e') ∧ e'.mesg = e.mesg)
    (hnew : ∀ (id : Nat) (e' : H5SM_mesg_t), g.sohm[id]? = some (some e') →
      ∃ e : H5SM_mesg_t, f.sohm[id]? = some (some e) ∧ e.mesg = e'.mesg) :
    H5A_dense_shrinks f g fheap nm := by
  refine ⟨hh, hs, fun r a h hn => ?_, fun r a h => ?_⟩
  · rw [H5A_dense_heap_op_eq_some] at h ⊢
    obtain ⟨obj, hobj, ha⟩ := h
    refine ⟨obj, ?_, ha⟩
    by_cases hsh : r.flags.SHARED = true
    · simp only [hsh, if_true] at hobj ⊢
      rw [H5HF_op_shared_eq_some] at hobj ⊢
      obtain ⟨h1, e, he, hm⟩ := hobj
      have hne : e.mesg.name ≠ nm := by
        rw [hm, ← H5A_dense_copy_fh_cb_name obj r, ← ha]
        exact hn
      obtain ⟨e', he', hm'⟩ := hkeep _ _ he hne
      exact ⟨hs.trans h1, e', he', hm'.trans hm⟩
    · have hsh' : r.flags.SHARED = false := by simpa using hsh
      simp only [hsh', Bool.false_eq_true, if_false] at hobj ⊢
      simpa [H5HF_op, hf] using hobj
  · rw [H5A_dense_heap_op_eq_some] at h ⊢
    obtain ⟨obj, hobj, ha⟩ := h
    refine ⟨obj, ?_, ha⟩
    by_cases hsh : r.flags.SHARED = true
    · simp only [hsh, if_true] at hobj ⊢
      rw [H5HF_op_shared_eq_some] at hobj ⊢
      obtain ⟨h1, e', he', hm'⟩ := hobj
      obtain ⟨e, he, hm⟩ := hnew _ _ he'
      exact ⟨hs.symm.trans h1, e, he, hm.trans hm'⟩
    · have hsh' : r.flags.SHARED = false := by simpa using hsh
      simp only [hsh', Bool.false_eq_true, if_false] at hobj ⊢
      simpa [H5HF_op, hf] using hobj

theorem H5HF_read_set_none (h : H5HF_t) (id id' : Nat) :
    H5HF_read (h.set id none) id' = if id' = id then none else H5HF_read h id' := by
  unfold H5HF_read
  by_cases hid : id' = id
  · subst hid
    by_cases hlt : id' < h.length
    · simp [List.getElem?_set, hlt]
    · simp [List.getElem?_set, hlt]
  · have hid' : ¬ id = id' := fun h => hid h.symm
    simp [List.getElem?_set, hid, hid']

theorem H5A_dense_shrinks_of_heap (f g : H5F_t) (fheap : Nat) (nm : String) (h : H5HF_t)
    (id : Nat) (hh : g.H5_checksum_lookup3 = f.H5_checksum_lookup3)
    (hs : g.attr_sharable = f.attr_sharable) (hm : g.sohm = f.sohm)
    (hfh : f.fheaps fheap = some h) (hg : g.fheaps fheap = some (h.set id none))
    (hid : ∀ m, H5HF_read h id = some m → m.name = nm) :
    H5A_dense_shrinks f g fheap nm := by
  have hsf : H5A_dense_shared_fheap g = H5A_dense_shared_fheap f :=
    H5A_dense_shared_fheap_congr _ _ hs hm
  refine ⟨hh, hs, fun r a ha hn => ?_, fun r a ha => ?_⟩
  · rw [hsf]
    rw [H5A_dense_heap_op_eq_some] at ha ⊢
    obtain ⟨obj, hobj, hao⟩ := ha
    refine ⟨obj, ?_, hao⟩
    by_cases hsh : r.flags.SHARED = true
    · simpa [hsh, H5HF_op_shared, hm] using hobj
    · have hsh' : r.flags.SHARED = false := by simpa using hsh
      simp only [hsh', Bool.false_eq_true, if_false] at hobj ⊢
      simp only [H5HF_op, hfh] at hobj
      simp only [H5HF_op, hg, H5HF_read_set_none]
      have hne : r.id ≠ id := by
        intro heq
        rw [heq] at hobj
        apply hn
        rw [hao, H5A_dense_copy_fh_cb_name]
        exact hid _ hobj
      simp [hne, hobj]
  · rw [hsf] at ha
    rw [H5A_dense_heap_op_eq_some] at ha ⊢
    obtain ⟨obj, hobj, hao⟩ := ha
    refine ⟨obj, ?_, hao⟩
    by_cases hsh : r.flags.SHARED = true
    · simpa [hsh, H5HF_op_shared, hm] using hobj
    · have hsh' : r.flags.SHARED = false := by simpa using hsh
      simp only [hsh', Bool.false_eq_true, if_false] at hobj ⊢
      simp only [H5HF_op, hg, H5HF_read_set_none] at hobj
      simp only [H5HF_op, hfh]
      by_cases hne : r.id = id
      · simp [hne] at hobj
      · simpa [hne] using hobj

theorem H5A_dense_copy_fh_cb_sh_loc (obj : H5A_mesg) (r : H5A_dense_bt2_corder_rec_t)
    (h : r.flags.SHARED = true) : (H5A_dense_copy_fh_cb obj r).sh_loc.heap_id = r.id := by
  unfold H5A_dense_copy_fh_cb
  simp [h, H5SM_reconstitute]

theorem H5A_dense_shrinks_trans (f g k : H5F_t) (fheap : Nat) (nm : String)
    (h1 : H5A_dense_shrinks f g fheap nm) (h2 : H5A_dense_shrinks g k fheap nm) :
    H5A_dense_shrinks f k fheap nm := by
  obtain ⟨a1, b1, c1, d1⟩ := h1
  obtain ⟨a2, b2, c2, d2⟩ := h2
  exact ⟨a2.trans a1, b2.trans b1, fun r a h hn => c2 r a (c1 r a h hn) hn,
    fun r a h => d1 r a (d2 r a h)⟩

/-- Releasing the storage of a readable record, as both removal callbacks do
it: a shared record gives one reference back to the shared message table, an
unshared one releases its components and frees its heap slot.  The step
succeeds, leaves the indexes alone and disturbs no record that reads as
another name. -/
theorem H5A_dense_release_spec (f f0 : H5F_t) (fheap : Nat) (r : H5A_dense_bt2_corder_rec_t)
    (attr : H5A_t)
    (hattr : H5A_dense_heap_op f0 fheap (H5A_dense_shared_fheap f0) r = some attr)
    (hh : f.H5_checksum_lookup3 = f0.H5_checksum_lookup3)
    (hs : f.attr_sharable = f0.attr_sharable) (hf : f.fheaps = f0.fheaps)
    (hm : f.sohm = f0.sohm) :
    ∃ f2 : H5F_t,
      (if r.flags.SHARED then
        (match H5SM_delete f attr.sh_loc with
         | none => ((FAIL, f) : herr_t × H5F_t)
         | some f2 => (SUCCEED, f2))
       else
        (match H5HF_remove (H5O_attr_delete f attr) fheap r.id with
         | none => (FAIL, H5O_attr_delete f attr)
         | some f3 => (SUCCEED, f3))) = (SUCCEED, f2) ∧
      H5A_dense_shrinks f0 f2 fheap attr.name ∧
      f2.name_bt2 = f.name_bt2 ∧ f2.corder_bt2 = f.corder_bt2 ∧
      (∀ addr, H5HF_open f2 addr = some fheap ↔ H5HF_open f0 addr = some fheap) := by
  rw [H5A_dense_heap_op_eq_some] at hattr
  obtain ⟨obj, hobj, hao⟩ := hattr
  have hnm : attr.name = obj.name := by rw [hao, H5A_dense_copy_fh_cb_name]
  by_cases hsh : r.flags.SHARED = true
  · simp only [hsh, if_true] at hobj ⊢
    rw [H5HF_op_shared_eq_some] at hobj
    obtain ⟨hshr, e, he, hme⟩ := hobj
    have hid : attr.sh_loc.heap_id = r.id := by
      rw [hao]; exact H5A_dense_copy_fh_cb_sh_loc obj r hsh
    have he' : f.sohm[attr.sh_loc.heap_id]? = some (some e) := by rw [hm, hid]; exact he
    obtain ⟨g, hdel, hg, hgs⟩ := H5SM_delete_spec f attr.sh_loc e he'
    have hgf : g.fheaps = f0.fheaps := by rw [hg]; exact hf
    refine ⟨g, by rw [hdel], ?_, by rw [hg], by rw [hg], ?_⟩
    · refine H5A_dense_shrinks_of_sohm f0 g fheap attr.name (by rw [hg]; exact hh)
        (by rw [hg]; exact hs) (by rw [hgf]) ?_ ?_
      · intro id e0 h0 hne
        have hidne : attr.sh_loc.heap_id ≠ id := by
          intro heq
          rw [← heq, hid, he] at h0
          simp only [Option.some.injEq] at h0
          subst h0
          exact hne (by rw [hme, hnm])
        rcases hgs with hgs | hgs
        · exact ⟨e0, by rw [hgs, hm]; simp [List.getElem?_set, hidne, h0], rfl⟩
        · exact ⟨e0, by rw [hgs, hm]; simp [List.getElem?_set, hidne, h0], rfl⟩
      · intro id e' h'
        by_cases hidne : attr.sh_loc.heap_id = id
        · subst hidne
          rcases hgs with hgs | hgs
          · rw [hgs] at h'
            simp only [List.getElem?_set, if_true] at h'
            split at h' <;> cases h'
          · rw [hgs] at h'
            simp only [List.getElem?_set, if_true] at h'
            split at h'
            · simp only [Option.some.injEq] at h'
              subst h'
              exact ⟨e, by rw [← hid] at he; exact he, rfl⟩
            · cases h'
        · rcases hgs with hgs | hgs
          · rw [hgs, hm] at h'
            simp only [List.getElem?_set, hidne, if_false] at h'
            exact ⟨e', h', rfl⟩
          · rw [hgs, hm] at h'
            simp only [List.getElem?_set, hidne, if_false] at h'
            exact ⟨e', h', rfl⟩
    · intro addr
      rw [H5HF_open_congr f0 g addr hgf]
  · have hsh' : r.flags.SHARED = false := by simpa using hsh
    simp only [hsh', Bool.false_eq_true, if_false] at hobj ⊢
    simp only [H5HF_op] at hobj
    cases hfh : f0.fheaps fheap with
    | none => simp [hfh] at hobj
    | some hp =>
      simp only [hfh] at hobj
      have hfh' : (H5O_attr_delete f attr).fheaps fheap = some hp := by
        simp only [H5O_attr_delete, hf, hfh]
      refine ⟨(H5O_attr_delete f attr).set_fheap fheap (some (hp.set r.id none)), ?_, ?_,
        rfl, rfl, ?_⟩
      · simp only [H5HF_remove, hfh', hobj]
      · refine H5A_dense_shrinks_of_heap f0 _ fheap attr.name hp r.id hh hs hm hfh (by simp) ?_
        intro m hmr
        rw [hobj] at hmr
        simp only [Option.some.injEq] at hmr
        rw [hnm, hmr]
      · intro addr
        simp only [H5HF_open_eq_some]
        constructor
        · rintro ⟨e1, _⟩
          exact ⟨e1, hp, hfh⟩
        · rintro ⟨e1, _⟩
          exact ⟨e1, hp.set r.id none, by simp⟩

/-- `H5A_dense_remove` in terms of the records of the name index. -/
theorem H5A_dense_remove_eq (f : H5F_t) (ainfo : H5O_ainfo_t) (name : String) (fheap a : Nat)
    (t : H5B2_t H5A_dense_bt2_name_rec_t)
    (h1 : H5HF_open f ainfo.fheap_addr = some fheap) (ha : ainfo.name_bt2_addr = some a)
    (ht : f.name_bt2 a = some t) (r : H5A_dense_bt2_name_rec_t) (attr : H5A_t)
    (hfind : t.recs.find? (H5A_dense_is_named f fheap name) = some r)
    (hattr : H5A_dense_heap_op f fheap (H5A_dense_shared_fheap f) r.common = some attr)
    (cb : herr_t × H5F_t)
    (hcb : H5A_dense_remove_bt2_cb
      ⟨⟨fheap, H5A_dense_shared_fheap f, name, f.H5_checksum_lookup3 name, ⟨false⟩, 0⟩,
        ainfo.corder_bt2_addr⟩ f r attr = cb) :
    H5A_dense_remove f ainfo name =
      if cb.1 < 0 then (FAIL, cb.2)
      else (SUCCEED, cb.2.set_name_bt2 a (some (t.set_recs
        (t.recs.eraseP (H5A_dense_is_named f fheap name))))) := by
  have hrecs : H5B2_name_recs f (some a) = some t.recs := by
    rw [H5B2_name_recs_eq_some]; exact ⟨a, t, rfl, ht, rfl⟩
  simp only [H5A_dense_remove, h1, H5B2_remove_name, ha, ht]
  rw [H5B2_find_name_eq f (some a) _ t.recs hrecs, H5A_dense_name_match_eq f _ rfl rfl]
  simp only [hfind, Option.some_bind, hattr, Option.map_some', hcb]
  rfl

theorem H5A_dense_remove_eq_not_found (f : H5F_t) (ainfo : H5O_ainfo_t) (name : String)
    (fheap a : Nat) (t : H5B2_t H5A_dense_bt2_name_rec_t)
    (h1 : H5HF_open f ainfo.fheap_addr = some fheap) (ha : ainfo.name_bt2_addr = some a)
    (ht : f.name_bt2 a = some t)
    (hfind : t.recs.find? (H5A_dense_is_named f fheap name) = none) :
    H5A_dense_remove f ainfo name = (FAIL, f) := by
  have hrecs : H5B2_name_recs f (some a) = some t.recs := by
    rw [H5B2_name_recs_eq_some]; exact ⟨a, t, rfl, ht, rfl⟩
  simp only [H5A_dense_remove, h1, H5B2_remove_name, ha, ht]
  rw [H5B2_find_name_eq f (some a) _ t.recs hrecs, H5A_dense_name_match_eq f _ rfl rfl]
  simp only [hfind, Option.none_bind]

/-- The removal callback on a readable record: it fails, leaving the file as
it was, exactly when there is a creation order index without a record for the
attribute; otherwise it succeeds. -/
theorem H5A_dense_remove_bt2_cb_spec (f : H5F_t) (udata : H5A_bt2_ud_rm_t)
    (r : H5A_dense_bt2_name_rec_t) (attr : H5A_t)
    (hattr : H5A_dense_heap_op f udata.common.fheap (H5A_dense_shared_fheap f) r.common =
      some attr) :
    (H5A_dense_remove_bt2_cb udata f r attr = (FAIL, f) ∧
      ∃ c, udata.corder_bt2_addr = some c ∧
        ∀ ct, f.corder_bt2 c = some ct → ∀ x ∈ ct.recs, x.corder ≠ r.corder) ∨
    (∃ f2 : H5F_t, H5A_dense_remove_bt2_cb udata f r attr = (SUCCEED, f2) ∧
      H5A_dense_shrinks f f2 udata.common.fheap attr.name ∧ f2.name_bt2 = f.name_bt2 ∧
      (∀ addr, H5HF_open f2 addr = some udata.common.fheap ↔
        H5HF_open f addr = some udata.common.fheap) ∧
      ((udata.corder_bt2_addr = none ∧ f2.corder_bt2 = f.corder_bt2) ∨
       (∃ (c : Nat) (ct : H5B2_t H5A_dense_bt2_corder_rec_t),
          udata.corder_bt2_addr = some c ∧ f.corder_bt2 c = some ct ∧
          (∃ x ∈ ct.recs, x.corder = r.corder) ∧
          f2.corder_bt2 = (f.set_corder_bt2 c (some (ct.set_recs
            (ct.recs.eraseP (fun x => decide (x.corder = r.corder)))))).corder_bt2))) := by
  have hcrt : attr.crt_idx = r.corder := by
    rw [H5A_dense_heap_op_eq_some] at hattr
    obtain ⟨obj, -, hao⟩ := hattr
    rw [hao]
    exact (H5A_dense_copy_fh_cb_fields obj r.common).2.1
  cases hca : udata.corder_bt2_addr with
  | none =>
    obtain ⟨f2, hrel, hshr, hnb, hcb, hop⟩ :=
      H5A_dense_release_spec f f udata.common.fheap r.common attr hattr rfl rfl rfl rfl
    right
    refine ⟨f2, ?_, hshr, hnb, hop, Or.inl ⟨rfl, hcb⟩⟩
    simp only [H5A_dense_remove_bt2_cb, hca, H5F_addr_defined, Option.isSome_none,
      Bool.false_eq_true, if_false]
    exact hrel
  | some c =>
    cases hct : f.corder_bt2 c with
    | none =>
      left
      refine ⟨?_, c, rfl, ?_⟩
      · simp only [H5A_dense_remove_bt2_cb, hca, H5F_addr_defined, Option.isSome_some, if_true,
          H5B2_remove_corder, hct]
      · intro ct hct'
        rw [hct] at hct'
        cases hct'
    | some ct =>
      rcases H5B2_remove_corder_spec f c ct r.corder hct with ⟨hno, hrm⟩ | ⟨hex, hrm⟩
      · left
        refine ⟨?_, c, rfl, ?_⟩
        · simp only [H5A_dense_remove_bt2_cb, hca, H5F_addr_defined, Option.isSome_some,
            if_true, hcrt, hrm]
        · intro ct' hct'
          rw [hct] at hct'
          simp only [Option.some.injEq] at hct'
          subst hct'
          exact hno
      · right
        obtain ⟨f2, hrel, hshr, hnb, hcb, hop⟩ :=
          H5A_dense_release_spec (f.set_corder_bt2 c (some (ct.set_recs
            (ct.recs.eraseP (fun x => decide (x.corder = r.corder))))))
            f udata.common.fheap r.common attr hattr rfl rfl rfl rfl
        refine ⟨f2, ?_, hshr, hnb, hop, Or.inr ⟨c, ct, rfl, hct, hex, hcb⟩⟩
        simp only [H5A_dense_remove_bt2_cb, hca, H5F_addr_defined, Option.isSome_some,
          if_true, hcrt, hrm]
        exact hrel

/-- The outcomes of `H5A_dense_remove` on a store whose heap and name index
exist.  Either the call fails and returns the file as it was (no record reads
as the name, or the creation order index has no record for the located
attribute), or it succeeds: the located record `r` leaves the name index, the
first record with its creation order leaves the creation order index when
there is one, and its storage is released. -/
theorem H5A_dense_remove_spec (f : H5F_t) (ainfo : H5O_ainfo_t) (name : String) (fheap a : Nat)
    (t : H5B2_t H5A_dense_bt2_name_rec_t)
    (h1 : H5HF_open f ainfo.fheap_addr = some fheap) (ha : ainfo.name_bt2_addr = some a)
    (ht : f.name_bt2 a = some t) :
    (H5A_dense_remove f ainfo name = (FAIL, f) ∧
      ((∀ r ∈ t.recs, H5A_dense_is_named f fheap name r = false) ∨
       (∃ r, t.recs.find? (H5A_dense_is_named f fheap name) = some r ∧
          ∃ c, ainfo.corder_bt2_addr = some c ∧
            ∀ ct, f.corder_bt2 c = some ct → ∀ x ∈ ct.recs, x.corder ≠ r.corder))) ∨
    (∃ (r : H5A_dense_bt2_name_rec_t) (attr : H5A_t) (f2 : H5F_t),
      t.recs.find? (H5A_dense_is_named f fheap name) = some r ∧
      H5A_dense_heap_op f fheap (H5A_dense_shared_fheap f) r.common = some attr ∧
      attr.name = name ∧
      H5A_dense_shrinks f f2 fheap name ∧ f2.name_bt2 = f.name_bt2 ∧
      (∀ addr, H5HF_open f2 addr = some fheap ↔ H5HF_open f addr = some fheap) ∧
      ((ainfo.corder_bt2_addr = none ∧ f2.corder_bt2 = f.corder_bt2) ∨
       (∃ (c : Nat) (ct : H5B2_t H5A_dense_bt2_corder_rec_t),
          ainfo.corder_bt2_addr = some c ∧ f.corder_bt2 c = some ct ∧
          (∃ x ∈ ct.recs, x.corder = r.corder) ∧
          f2.corder_bt2 = (f.set_corder_bt2 c (some (ct.set_recs
            (ct.recs.eraseP (fun x => decide (x.corder = r.corder)))))).corder_bt2)) ∧
      H5A_dense_remove f ainfo name =
        (SUCCEED, f2.set_name_bt2 a (some (t.set_recs
          (t.recs.eraseP (H5A_dense_is_named f fheap name)))))) := by
  cases hfind : t.recs.find? (H5A_dense_is_named f fheap name) with
  | none =>
    left
    refine ⟨H5A_dense_remove_eq_not_found f ainfo name fheap a t h1 ha ht hfind, Or.inl ?_⟩
    intro r hr
    have := List.find?_eq_none.1 hfind r hr
    simpa using this
  | some r =>
    obtain ⟨attr, hattr, hname⟩ :=
      H5A_dense_is_named_heap_op f fheap name r (List.find?_some hfind)
    have heq := H5A_dense_remove_eq f ainfo name fheap a t h1 ha ht r attr hfind hattr _ rfl
    rcases H5A_dense_remove_bt2_cb_spec f
        ⟨⟨fheap, H5A_dense_shared_fheap f, name, f.H5_checksum_lookup3 name, ⟨false⟩, 0⟩,
          ainfo.corder_bt2_addr⟩ r attr hattr with
      ⟨hcb, c, hc, hno⟩ | ⟨f2, hcb, hshr, hnb, hop, hcorder⟩
    · left
      rw [hcb] at heq
      exact ⟨heq, Or.inr ⟨r, rfl, c, hc, hno⟩⟩
    · right
      rw [hcb] at heq
      rw [hname] at hshr
      exact ⟨r, attr, f2, rfl, hattr, hname, hshr, hnb, hop, hcorder, heq⟩

/-! ## Well-formed stores -/

theorem H5A_dense_valid_iff (f : H5F_t) (ainfo : H5O_ainfo_t) :
    H5A_dense_valid f ainfo = true ↔
      ∃ (fheap : Nat) (recs : List H5A_dense_bt2_name_rec_t),
        H5HF_open f ainfo.fheap_addr = some fheap ∧
        H5B2_name_recs f ainfo.name_bt2_addr = some recs ∧
        (∀ r ∈ recs, ∃ attr,
          H5A_dense_heap_op f fheap (H5A_dense_shared_fheap f) r.common = some attr ∧
          f.H5_checksum_lookup3 attr.name = r.hash) ∧
        (recs.map (H5A_dense_rec_name f fheap)).Nodup ∧
        ainfo.index_corder = H5F_addr_defined ainfo.corder_bt2_addr ∧
        (∀ c, ainfo.corder_bt2_addr = some c →
          ∃ crecs, H5B2_corder_recs f (some c) = some crecs ∧ H5A_dense_mirror recs crecs) := by
  unfold H5A_dense_valid
  cases h1 : H5HF_open f ainfo.fheap_addr with
  | none => simp
  | some fheap =>
    cases h2 : H5B2_name_recs f ainfo.name_bt2_addr with
    | none => simp
    | some recs =>
      simp only [Bool.and_eq_true, List.all_eq_true, decide_eq_true_eq, Option.some.injEq,
        exists_and_left, exists_eq_left']
      have hres : (∀ x ∈ recs,
          (match H5A_dense_heap_op f fheap (H5A_dense_shared_fheap f) x.common with
            | some attr => decide (f.H5_checksum_lookup3 attr.name = x.hash)
            | none => false) = true) ↔
          ∀ r ∈ recs, ∃ attr,
            H5A_dense_heap_op f fheap (H5A_dense_shared_fheap f) r.common = some attr ∧
            f.H5_checksum_lookup3 attr.name = r.hash := by
        constructor
        · intro h r hr
          have := h r hr
          cases hop : H5A_dense_heap_op f fheap (H5A_dense_shared_fheap f) r.common with
          | none => simp [hop] at this
          | some attr => exact ⟨attr, rfl, by simpa [hop] using this⟩
        · intro h r hr
          obtain ⟨attr, hop, hh⟩ := h r hr
          simp [hop, hh]
      have hcor : (match ainfo.corder_bt2_addr with
          | none => true
          | some _ =>
            match H5B2_corder_recs f ainfo.corder_bt2_addr with
            | none => false
            | some crecs => decide (H5A_dense_mirror recs crecs)) = true ↔
          ∀ c, ainfo.corder_bt2_addr = some c →
            ∃ crecs, H5B2_corder_recs f (some c) = some crecs ∧ H5A_dense_mirror recs crecs := by
        cases hca : ainfo.corder_bt2_addr with
        | none => simp
        | some c =>
          cases hcr : H5B2_corder_recs f (some c) with
          | none => simp [hcr]
          | some crecs => simp [hcr]
      rw [hres, hcor]
      tauto

theorem List.find?_eraseP_of_imp {α : Type} (p q : α → Bool)
    (h : ∀ x, q x = true → p x = false) :
    ∀ l : List α, (l.eraseP q).find? p = l.find? p
  | [] => rfl
  | x :: xs => by
    by_cases hq : q x = true
    · simp [List.eraseP_cons_of_pos hq, List.find?_cons, h x hq]
    · rw [List.eraseP_cons_of_neg hq]
      simp only [List.find?_cons]
      rw [List.find?_eraseP_of_imp p q h xs]

/-- A lookup of another name is not affected by a change that only releases
the storage of one name. -/
theorem H5A_dense_is_named_of_shrinks (f g : H5F_t) (fheap : Nat) (nm name : String)
    (hg : H5A_dense_shrinks f g fheap nm) (hne : name ≠ nm) :
    H5A_dense_is_named g fheap name = H5A_dense_is_named f fheap name := by
  obtain ⟨hh, _, hkeep, hnew⟩ := hg
  funext r
  rw [Bool.eq_iff_iff]
  simp only [H5A_dense_is_named, H5A_dense_rec_name, decide_eq_true_eq, hh,
    Option.map_eq_some']
  constructor
  · rintro ⟨h1, a, ha, hn⟩
    exact ⟨h1, a, hnew _ _ ha, hn⟩
  · rintro ⟨h1, a, ha, hn⟩
    exact ⟨h1, a, hkeep _ _ ha (by rw [hn]; exact hne), hn⟩

/-- Removing an attribute does not change what `H5A_dense_open` returns for
another name. -/
theorem H5A_dense_remove_open_other (f : H5F_t) (ainfo : H5O_ainfo_t) (name other : String)
    (hne : other ≠ name) :
    H5A_dense_open (H5A_dense_remove f ainfo name).2 ainfo other =
      H5A_dense_open f ainfo other := by
  cases h1 : H5HF_open f ainfo.fheap_addr with
  | none => simp [H5A_dense_remove, h1]
  | some fheap =>
    cases ha : ainfo.name_bt2_addr with
    | none => simp [H5A_dense_remove, h1, H5B2_remove_name, ha]
    | some a =>
      cases ht : f.name_bt2 a with
      | none => simp [H5A_dense_remove, h1, H5B2_remove_name, ha, ht]
      | some t =>
        rcases H5A_dense_remove_spec f ainfo name fheap a t h1 ha ht with
          ⟨hres, -⟩ | ⟨r, attr, f2, hfind, hattr, hname, hshr, hnb, hop, -, hres⟩
        · rw [hres]
        · rw [hres]
          simp only
          have hrecs : H5B2_name_recs f ainfo.name_bt2_addr = some t.recs := by
            rw [H5B2_name_recs_eq_some]; exact ⟨a, t, ha, ht, rfl⟩
          rw [H5A_dense_open_eq f ainfo other fheap t.recs h1 hrecs,
            H5A_dense_open_eq _ ainfo other fheap
              (t.recs.eraseP (H5A_dense_is_named f fheap name))
              (by rw [H5HF_open_set_name_bt2]; exact (hop _).2 h1)
              (by rw [ha]; exact H5B2_name_recs_set_name_bt2 _ _ _)]
          simp only [H5A_dense_is_named_set_name_bt2, H5A_dense_heap_op_set_name_bt2,
            H5A_dense_shared_fheap_set_name_bt2,
            H5A_dense_is_named_of_shrinks f f2 fheap name other hshr hne]
          rw [List.find?_eraseP_of_imp]
          · cases hf : t.recs.find? (H5A_dense_is_named f fheap other) with
            | none => rfl
            | some x =>
              simp only [Option.some_bind]
              obtain ⟨ax, hax, hnx⟩ :=
                H5A_dense_is_named_heap_op f fheap other x (List.find?_some hf)
              rw [hax]
              exact hshr.2.2.1 _ _ hax (by rw [hnx]; exact hne)
          · intro x hx
            obtain ⟨ax, hax, hnx⟩ := H5A_dense_is_named_heap_op f fheap name x hx
            simp only [H5A_dense_is_named, H5A_dense_rec_name, hax, Option.map_some',
              Option.some.injEq, hnx, decide_eq_false_iff_not, not_and]
            intro _ h
            exact hne h.symm

/-- Inserting an attribute does not change what `H5A_dense_open` returns for
another name, whatever the outcome of the insertion. -/
theorem H5A_dense_insert_open_other (f : H5F_t) (ainfo : H5O_ainfo_t) (attr : H5A_t)
    (other : String) (fheap a : Nat) (t : H5B2_t H5A_dense_bt2_name_rec_t)
    (h1 : H5HF_open f ainfo.fheap_addr = some fheap) (ha : ainfo.name_bt2_addr = some a)
    (ht : f.name_bt2 a = some t)
    (hwf : H5A_shared_valid f attr = true) (hne : other ≠ attr.name) :
    H5A_dense_open (H5A_dense_insert f ainfo attr).2.1 ainfo other =
      H5A_dense_open f ainfo other := by
  obtain ⟨f2, attr1, flg, id, -, hgrow, hnb2, hcb2, hopen2, -, -, -, hcases⟩ :=
    H5A_dense_insert_spec f ainfo attr fheap a t h1 ha ht
  have hrecs : H5B2_name_recs f ainfo.name_bt2_addr = some t.recs := by
    rw [H5B2_name_recs_eq_some]; exact ⟨a, t, ha, ht, rfl⟩
  have hrecs2 : H5B2_name_recs f2 ainfo.name_bt2_addr = some t.recs := by
    rw [H5B2_name_recs_eq_some]; exact ⟨a, t, ha, by rw [hnb2]; exact ht, rfl⟩
  have hnamed := H5A_dense_is_named_of_grows f f2 fheap attr.name other hgrow hne
  have hbind : ∀ o : Option H5A_dense_bt2_name_rec_t,
      o = t.recs.find? (H5A_dense_is_named f fheap other) →
      (o.bind fun rec => H5A_dense_heap_op f2 fheap (H5A_dense_shared_fheap f2) rec.common) =
      (o.bind fun rec => H5A_dense_heap_op f fheap (H5A_dense_shared_fheap f) rec.common) := by
    intro o ho
    cases o with
    | none => rfl
    | some x =>
      simp only [Option.some_bind]
      obtain ⟨ax, hax, -⟩ := H5A_dense_is_named_heap_op f fheap other x (List.find?_some ho.symm)
      rw [hax]
      exact hgrow.2.2.1 _ _ hax
  rw [H5A_dense_open_eq f ainfo other fheap t.recs h1 hrecs]
  have hA : H5A_dense_open f2 ainfo other =
      (t.recs.find? (H5A_dense_is_named f fheap other)).bind fun rec =>
        H5A_dense_heap_op f fheap (H5A_dense_shared_fheap f) rec.common := by
    rw [H5A_dense_open_eq f2 ainfo other fheap t.recs hopen2 hrecs2, hnamed]
    exact hbind _ rfl
  rcases hcases with ⟨hres, -⟩ | ⟨hno, -, hnew, lt, hres⟩
  · rw [hres]
    exact hA
  · have hnew' := hnew hwf
    have hnot : H5A_dense_is_named f fheap other
        ⟨id, flg, attr.crt_idx, f.H5_checksum_lookup3 attr.name⟩ = false := by
      rw [← hnamed]
      simp only [H5A_dense_is_named, H5A_dense_rec_name, H5A_dense_bt2_name_rec_t.common, hnew',
        Option.map_some', Option.some.injEq, decide_eq_false_iff_not, not_and,
        (H5A_dense_copy_fh_cb_fields _ _).1]
      intro _ h
      exact hne h.symm
    have hfind := H5B2_insert_sorted_find_neg lt (H5A_dense_is_named f fheap other)
      ⟨id, flg, attr.crt_idx, f.H5_checksum_lookup3 attr.name⟩ hnot t.recs
    have hB : ∀ g : H5F_t, H5HF_open g ainfo.fheap_addr = some fheap →
        H5B2_name_recs g ainfo.name_bt2_addr = some (H5B2_insert_sorted lt
          ⟨id, flg, attr.crt_idx, f.H5_checksum_lookup3 attr.name⟩ t.recs) →
        H5A_dense_is_named g fheap other = H5A_dense_is_named f2 fheap other →
        (∀ r, H5A_dense_heap_op g fheap (H5A_dense_shared_fheap g) r =
          H5A_dense_heap_op f2 fheap (H5A_dense_shared_fheap f2) r) →
        H5A_dense_open g ainfo other =
          (t.recs.find? (H5A_dense_is_named f fheap other)).bind fun rec =>
            H5A_dense_heap_op f fheap (H5A_dense_shared_fheap f) rec.common := by
      intro g hg1 hg2 hg3 hg4
      rw [H5A_dense_open_eq g ainfo other fheap _ hg1 hg2, hg3, hnamed, hfind]
      simp only [hg4]
      exact hbind _ rfl
    rcases hres with ⟨-, hres⟩ | ⟨-, ⟨hres, -⟩ | ⟨c, ct, ltc, -, -, -, -, hres⟩⟩
    · rw [hres]
      exact hB _ (by simpa using hopen2) (by rw [ha]; simp) rfl (fun _ => rfl)
    · rw [hres]
      exact hB _ (by simpa using hopen2) (by rw [ha]; simp) rfl (fun _ => rfl)
    · rw [hres]
      exact hB _ (by simpa using hopen2) (by rw [ha]; simp) rfl (fun _ => rfl)

/-- A successful insertion keeps the heap and the name index in place. -/
theorem H5A_dense_insert_succeed_store_after (f : H5F_t) (ainfo : H5O_ainfo_t) (attr : H5A_t)
    (hins : (H5A_dense_insert f ainfo attr).1 = SUCCEED) :
    ∃ (fheap a : Nat) (t : H5B2_t H5A_dense_bt2_name_rec_t),
      H5HF_open (H5A_dense_insert f ainfo attr).2.1 ainfo.fheap_addr = some fheap ∧
      ainfo.name_bt2_addr = some a ∧ (H5A_dense_insert f ainfo attr).2.1.name_bt2 a = some t := by
  obtain ⟨fheap, a, t, h1, ha, ht⟩ := H5A_dense_insert_succeed_store f ainfo attr hins
  obtain ⟨f2, attr1, flg, id, -, -, -, -, hopen2, -, -, -, hcases⟩ :=
    H5A_dense_insert_spec f ainfo attr fheap a t h1 ha ht
  rcases hcases with ⟨hres, -⟩ | ⟨-, -, -, lt, hres⟩
  · rw [hres] at hins
    exact absurd hins FAIL_ne_SUCCEED
  · rcases hres with ⟨-, hres⟩ | ⟨-, ⟨hres, -⟩ | ⟨c, ct, ltc, -, -, -, -, hres⟩⟩
    · rw [hres]
      exact ⟨fheap, a, t.set_recs (H5B2_insert_sorted lt
        ⟨id, flg, attr.crt_idx, f.H5_checksum_lookup3 attr.name⟩ t.recs),
        by simpa using hopen2, ha, by simp⟩
    · rw [hres] at hins
      exact absurd hins FAIL_ne_SUCCEED
    · rw [hres]
      exact ⟨fheap, a, t.set_recs (H5B2_insert_sorted lt
        ⟨id, flg, attr.crt_idx, f.H5_checksum_lookup3 attr.name⟩ t.recs),
        by simpa using hopen2, ha, by simp⟩

/-- C2: two attributes with distinct names inserted one after the other are
each returned by `H5A_dense_open` under their own name (same name, creation
order, version and body), and removing the second does not change what
`H5A_dense_open` returns for the first. -/
theorem H5A_dense_open_distinct_names (f : H5F_t) (ainfo : H5O_ainfo_t) (attrA attrB : H5A_t)
    (hne : attrA.name ≠ attrB.name)
    (hwfA : H5A_shared_valid f attrA = true)
    (hinsA : (H5A_dense_insert f ainfo attrA).1 = SUCCEED)
    (hwfB : H5A_shared_valid (H5A_dense_insert f ainfo attrA).2.1 attrB = true)
    (hinsB : (H5A_dense_insert (H5A_dense_insert f ainfo attrA).2.1 ainfo attrB).1 = SUCCEED) :
    (∃ a : H5A_t,
      H5A_dense_open (H5A_dense_insert (H5A_dense_insert f ainfo attrA).2.1 ainfo attrB).2.1
        ainfo attrA.name = some a ∧
      a.name = attrA.name ∧ a.crt_idx = attrA.crt_idx ∧ a.version = attrA.version ∧
      a.body = attrA.body) ∧
    (∃ b : H5A_t,
      H5A_dense_open (H5A_dense_insert (H5A_dense_insert f ainfo attrA).2.1 ainfo attrB).2.1
        ainfo attrB.name = some b ∧
      b.name = attrB.name ∧ b.crt_idx = attrB.crt_idx ∧ b.version = attrB.version ∧
      b.body = attrB.body) ∧
    H5A_dense_open
      (H5A_dense_remove
        (H5A_dense_insert (H5A_dense_insert f ainfo attrA).2.1 ainfo attrB).2.1 ainfo
        attrB.name).2 ainfo attrA.name =
      H5A_dense_open (H5A_dense_insert (H5A_dense_insert f ainfo attrA).2.1 ainfo attrB).2.1
        ainfo attrA.name := by
  obtain ⟨fheap, a, t, h1, ha, ht⟩ := H5A_dense_insert_succeed_store_after f ainfo attrA hinsA
  refine ⟨?_, H5A_dense_insert_open_eq _ ainfo attrB hwfB hinsB,
    H5A_dense_remove_open_other _ ainfo attrB.name attrA.name hne⟩
  rw [H5A_dense_insert_open_other _ ainfo attrB attrA.name fheap a t h1 ha ht hwfB hne]
  exact H5A_dense_insert_open_eq f ainfo attrA hwfA hinsA

theorem H5A_dense_open_distinct_names_witness :
    (H5A_ex_attr "p" 3 [4]).name ≠ (H5A_ex_attr "qq" 4 [5, 6]).name ∧
    (∃ a : H5A_t,
      H5A_dense_open
        (H5A_dense_insert
          (H5A_dense_insert (H5A_ex_file3 true) (H5A_ex_ainfo1 true) (H5A_ex_attr "p" 3 [4])).2.1
          (H5A_ex_ainfo1 true) (H5A_ex_attr "qq" 4 [5, 6])).2.1
        (H5A_ex_ainfo1 true) (H5A_ex_attr "p" 3 [4]).name = some a ∧
      a.name = (H5A_ex_attr "p" 3 [4]).name ∧ a.crt_idx = (H5A_ex_attr "p" 3 [4]).crt_idx ∧
      a.version = (H5A_ex_attr "p" 3 [4]).version ∧ a.body = (H5A_ex_attr "p" 3 [4]).body) :=
  ⟨by decide,
    (H5A_dense_open_distinct_names (H5A_ex_file3 true) (H5A_ex_ainfo1 true)
      (H5A_ex_attr "p" 3 [4]) (H5A_ex_attr "qq" 4 [5, 6]) (by decide) (by decide) (by decide)
      (by decide) (by decide)).1⟩

/-! ## Creating and deleting the store -/

/-- The per-record pass of the deletion of the name index leaves the creation
order indexes of the file alone. -/
theorem H5B2_delete_loop_corder_bt2 (fheap : Nat) (recs : List H5A_dense_bt2_name_rec_t) :
    ∀ f : H5F_t, (H5B2_delete_loop (H5A_dense_delete_bt2_cb fheap) recs f).2.corder_bt2 =
      f.corder_bt2 := by
  induction recs with
  | nil => intro f; rfl
  | cons r rs ih =>
    intro f
    have hcb : (H5A_dense_delete_bt2_cb fheap f r).2.corder_bt2 = f.corder_bt2 := by
      unfold H5A_dense_delete_bt2_cb
      by_cases hs : r.flags.SHARED = true
      · simp only [hs, if_true]
        cases hd : H5SM_delete f (H5SM_reconstitute r.id) with
        | none => rfl
        | some f1 =>
          simp only
          unfold H5SM_delete at hd
          split at hd
          · split at hd
            · cases hd; rfl
            · cases hd; rfl
          · cases hd
      · simp only [hs, Bool.false_eq_true, if_false]
        cases H5HF_op f fheap r.id with
        | none => rfl
        | some obj => rfl
    simp only [H5B2_delete_loop]
    by_cases hlt : (H5A_dense_delete_bt2_cb fheap f r).1 < 0
    · simp only [hlt, if_true]
      exact hcb
    · simp only [hlt, if_false]
      rw [ih, hcb]

/-- The three exits of `H5A_dense_delete` after the heap has been opened. -/
theorem H5A_dense_delete_eq (f : H5F_t) (ainfo : H5O_ainfo_t) (fheap : Nat)
    (h1 : H5HF_open f ainfo.fheap_addr = some fheap) :
    (H5A_dense_delete f ainfo).1 = FAIL ∨
    (ainfo.corder_bt2_addr = none ∧
      ∃ f3, H5HF_delete
          (H5B2_delete_name f ainfo.name_bt2_addr (H5A_dense_delete_bt2_cb fheap)).2
          ainfo.fheap_addr = some f3 ∧
        H5A_dense_delete f ainfo =
          (SUCCEED, f3, ⟨ainfo.index_corder, none, none, none⟩)) ∨
    (∃ c f2 f3, ainfo.corder_bt2_addr = some c ∧
      H5B2_delete_corder
        (H5B2_delete_name f ainfo.name_bt2_addr (H5A_dense_delete_bt2_cb fheap)).2
        (some c) = some f2 ∧
      H5HF_delete f2 ainfo.fheap_addr = some f3 ∧
      H5A_dense_delete f ainfo = (SUCCEED, f3, ⟨ainfo.index_corder, none, none, none⟩)) := by
  by_cases hd : (H5B2_delete_name f ainfo.name_bt2_addr (H5A_dense_delete_bt2_cb fheap)).1 < 0
  · left
    unfold H5A_dense_delete
    simp only [h1, hd, if_true]
  · cases hc : ainfo.corder_bt2_addr with
    | none =>
      cases hh : H5HF_delete
          (H5B2_delete_name f ainfo.name_bt2_addr (H5A_dense_delete_bt2_cb fheap)).2
          ainfo.fheap_addr with
      | none =>
        left
        unfold H5A_dense_delete
        simp only [h1, hd, if_false, hc, H5F_addr_defined, Option.isSome_none,
          Bool.false_eq_true, hh]
      | some f3 =>
        right; left
        refine ⟨rfl, f3, rfl, ?_⟩
        unfold H5A_dense_delete
        simp only [h1, hd, if_false, hc, H5F_addr_defined, Option.isSome_none,
          Bool.false_eq_true, hh]
    | some c =>
      cases hcd : H5B2_delete_corder
          (H5B2_delete_name f ainfo.name_bt2_addr (H5A_dense_delete_bt2_cb fheap)).2
          (some c) with
      | none =>
        left
        unfold H5A_dense_delete
        simp only [h1, hd, if_false, hc, H5F_addr_defined, Option.isSome_some, if_true, hcd]
      | some f2 =>
        cases hh : H5HF_delete f2 ainfo.fheap_addr with
        | none =>
          left
          unfold H5A_dense_delete
          simp only [h1, hd, if_false, hc, H5F_addr_defined, Option.isSome_some, if_true, hcd,
            hh]
        | some f3 =>
          right; right
          refine ⟨c, f2, f3, rfl, hcd, hh, ?_⟩
          unfold H5A_dense_delete
          simp only [h1, hd, if_false, hc, H5F_addr_defined, Option.isSome_some, if_true, hcd,
            hh]

/-- `H5B2_delete` on the name index leaves the creation order indexes of the
file alone. -/
theorem H5B2_delete_name_corder_bt2 (f : H5F_t) (addr : haddr_t) (fheap : Nat) :
    (H5B2_delete_name f addr (H5A_dense_delete_bt2_cb fheap)).2.corder_bt2 = f.corder_bt2 := by
  unfold H5B2_delete_name
  cases addr with
  | none => rfl
  | some a =>
    simp only
    cases f.name_bt2 a with
    | none => rfl
    | some t =>
      simp only
      by_cases hlt : (H5B2_delete_loop (H5A_dense_delete_bt2_cb fheap) t.recs f).1 < 0
      · simp only [hlt, if_true]
        exact H5B2_delete_loop_corder_bt2 fheap t.recs f
      · simp only [hlt, if_false]
        exact H5B2_delete_loop_corder_bt2 fheap t.recs f

/-- `H5HF_delete` leaves the creation order indexes of the file alone. -/
theorem H5HF_delete_corder_bt2 (f f3 : H5F_t) (addr : haddr_t)
    (h : H5HF_delete f addr = some f3) : f3.corder_bt2 = f.corder_bt2 := by
  unfold H5HF_delete at h
  cases addr with
  | none => cases h
  | some a =>
    simp only at h
    cases hf : f.fheaps a with
    | none => simp [hf] at h
    | some hp =>
      simp only [hf, Option.some.injEq] at h
      rw [← h]
      rfl

/-- C17: after a successful `H5A_dense_delete` the heap address, the name
index address and the creation order index address of the descriptor are all
undefined; when the creation order index address was undefined on entry, the
creation order indexes of the file are as they were. -/
theorem H5A_dense_delete_addrs_undefined (f : H5F_t) (ainfo : H5O_ainfo_t)
    (hok : (H5A_dense_delete f ainfo).1 = SUCCEED) :
    (H5A_dense_delete f ainfo).2.2.fheap_addr = none ∧
    (H5A_dense_delete f ainfo).2.2.name_bt2_addr = none ∧
    (H5A_dense_delete f ainfo).2.2.corder_bt2_addr = none ∧
    (ainfo.corder_bt2_addr = none →
      (H5A_dense_delete f ainfo).2.1.corder_bt2 = f.corder_bt2) := by
  cases h1 : H5HF_open f ainfo.fheap_addr with
  | none =>
    have : H5A_dense_delete f ainfo = (FAIL, f, ainfo) := by
      unfold H5A_dense_delete
      simp only [h1]
    rw [this] at hok
    exact absurd hok FAIL_ne_SUCCEED
  | some fheap =>
    rcases H5A_dense_delete_eq f ainfo fheap h1 with hf | ⟨-, f3, hh, hres⟩ | ⟨c, f2, f3, hc, -, -, hres⟩
    · rw [hf] at hok
      exact absurd hok FAIL_ne_SUCCEED
    · rw [hres]
      refine ⟨rfl, rfl, rfl, fun _ => ?_⟩
      simp only
      rw [H5HF_delete_corder_bt2 _ f3 _ hh, H5B2_delete_name_corder_bt2]
    · rw [hres]
      refine ⟨rfl, rfl, rfl, fun hn => ?_⟩
      rw [hc] at hn
      cases hn

theorem H5A_dense_delete_addrs_undefined_witness :
    (H5A_dense_delete (H5A_ex_file3 true) (H5A_ex_ainfo1 true)).2.2.fheap_addr = none ∧
    (H5A_dense_delete (H5A_ex_file3 true) (H5A_ex_ainfo1 true)).2.2.name_bt2_addr = none ∧
    (H5A_dense_delete (H5A_ex_file3 true) (H5A_ex_ainfo1 true)).2.2.corder_bt2_addr = none :=
  have h := H5A_dense_delete_addrs_undefined (H5A_ex_file3 true) (H5A_ex_ainfo1 true)
    (by decide)
  ⟨h.1, h.2.1, h.2.2.1⟩

/-- C18 (as the code has it): `H5A_dense_delete` on a descriptor whose heap
address is undefined, as it is after a successful `H5A_dense_delete`, fails
when it tries to open the heap, and leaves the file and the descriptor as
they were. -/
theorem H5A_dense_delete_torn_down (f : H5F_t) (ainfo : H5O_ainfo_t)
    (h : ainfo.fheap_addr = none) : H5A_dense_delete f ainfo = (FAIL, f, ainfo) := by
  unfold H5A_dense_delete
  simp only [h, H5HF_open]

theorem H5A_dense_delete_torn_down_witness :
    H5A_dense_delete (H5A_dense_delete (H5A_ex_file3 true) (H5A_ex_ainfo1 true)).2.1
      (H5A_dense_delete (H5A_ex_file3 true) (H5A_ex_ainfo1 true)).2.2 =
    (FAIL, (H5A_dense_delete (H5A_ex_file3 true) (H5A_ex_ainfo1 true)).2.1,
      (H5A_dense_delete (H5A_ex_file3 true) (H5A_ex_ainfo1 true)).2.2) :=
  H5A_dense_delete_torn_down _ _ (by decide)

/-- C18 fails as stated: in the example store the first `H5A_dense_delete`
succeeds and leaves all three addresses undefined, and the second
`H5A_dense_delete`, on that descriptor, does not succeed. -/
theorem H5A_dense_delete_twice_fails :
    (H5A_dense_delete (H5A_ex_file3 true) (H5A_ex_ainfo1 true)).1 = SUCCEED ∧
    (H5A_dense_delete (H5A_ex_file3 true) (H5A_ex_ainfo1 true)).2.2 =
      ⟨true, none, none, none⟩ ∧
    (H5A_dense_delete (H5A_dense_delete (H5A_ex_file3 true) (H5A_ex_ainfo1 true)).2.1
      (H5A_dense_delete (H5A_ex_file3 true) (H5A_ex_ainfo1 true)).2.2).1 ≠ SUCCEED := by
  decide

/-- What `H5A_dense_create` stores and where. -/
theorem H5A_dense_create_addrs_aux (f : H5F_t) (ainfo : H5O_ainfo_t) :
    (H5A_dense_create f ainfo).1 = SUCCEED ∧
    (∃ a, (H5A_dense_create f ainfo).2.2.fheap_addr = some a ∧
      (H5A_dense_create f ainfo).2.1.fheaps a = some []) ∧
    (∃ a t, (H5A_dense_create f ainfo).2.2.name_bt2_addr = some a ∧
      (H5A_dense_create f ainfo).2.1.name_bt2 a = some t ∧ t.recs = [] ∧
      t.rrec_size = 4 + 4 + 1 + f.H5O_FHEAP_ID_LEN ∧
      (ainfo.index_corder = true →
        ∃ c ct, (H5A_dense_create f ainfo).2.2.corder_bt2_addr = some c ∧
          (H5A_dense_create f ainfo).2.1.corder_bt2 c = some ct ∧ ct.recs = [] ∧
          ct.rrec_size = 4 + 1 + f.H5O_FHEAP_ID_LEN ∧ t.rrec_size = ct.rrec_size + 4)) ∧
    (ainfo.index_corder = false →
      (H5A_dense_create f ainfo).2.2.corder_bt2_addr = ainfo.corder_bt2_addr ∧
      (H5A_dense_create f ainfo).2.1.corder_bt2 = f.corder_bt2) ∧
    (H5A_dense_create f ainfo).2.2.index_corder = ainfo.index_corder := by
  cases hidx : ainfo.index_corder with
  | false =>
    have hval : H5A_dense_create f ainfo =
        (SUCCEED, (H5B2_create_name (H5HF_create f).1 H5A_NAME_BT2_NODE_SIZE
            (4 + 4 + 1 + f.H5O_FHEAP_ID_LEN) H5A_NAME_BT2_SPLIT_PERC H5A_NAME_BT2_MERGE_PERC).1,
          ⟨false, some f.eoa, some (f.eoa + 1), ainfo.corder_bt2_addr⟩) := by
      unfold H5A_dense_create
      simp only [hidx, Bool.false_eq_true, if_false]
      rfl
    rw [hval]
    refine ⟨rfl, ⟨f.eoa, rfl, ?_⟩, ⟨f.eoa + 1, ⟨H5A_NAME_BT2_NODE_SIZE, 4 + 4 + 1 + f.H5O_FHEAP_ID_LEN,
      H5A_NAME_BT2_SPLIT_PERC, H5A_NAME_BT2_MERGE_PERC, []⟩, rfl, ?_, rfl, rfl, ?_⟩, fun _ => ⟨rfl, rfl⟩,
      rfl⟩
    · simp [H5B2_create_name, H5HF_create, H5F_t.set_fheap, H5F_t.set_name_bt2]
    · simp only [H5B2_create_name, H5HF_create, H5F_t.set_fheap, H5F_t.set_name_bt2, if_true]
    · intro h
      cases h
  | true =>
    have hval : H5A_dense_create f ainfo =
        (SUCCEED, (H5B2_create_corder (H5B2_create_name (H5HF_create f).1 H5A_NAME_BT2_NODE_SIZE
            (4 + 4 + 1 + f.H5O_FHEAP_ID_LEN) H5A_NAME_BT2_SPLIT_PERC H5A_NAME_BT2_MERGE_PERC).1
            H5A_CORDER_BT2_NODE_SIZE (4 + 1 + f.H5O_FHEAP_ID_LEN) H5A_CORDER_BT2_SPLIT_PERC
            H5A_CORDER_BT2_MERGE_PERC).1,
          ⟨true, some f.eoa, some (f.eoa + 1), some (f.eoa + 1 + 1)⟩) := by
      unfold H5A_dense_create
      simp only [hidx, if_true]
      rfl
    rw [hval]
    refine ⟨rfl, ⟨f.eoa, rfl, ?_⟩, ⟨f.eoa + 1, ⟨H5A_NAME_BT2_NODE_SIZE, 4 + 4 + 1 + f.H5O_FHEAP_ID_LEN,
      H5A_NAME_BT2_SPLIT_PERC, H5A_NAME_BT2_MERGE_PERC, []⟩, rfl, ?_, rfl, rfl, ?_⟩, ?_, rfl⟩
    · simp [H5B2_create_corder, H5B2_create_name, H5HF_create, H5F_t.set_fheap,
        H5F_t.set_name_bt2, H5F_t.set_corder_bt2]
    · simp only [H5B2_create_corder, H5B2_create_name, H5HF_create, H5F_t.set_fheap,
        H5F_t.set_name_bt2, H5F_t.set_corder_bt2, if_true]
    · intro _
      refine ⟨f.eoa + 1 + 1, ⟨H5A_CORDER_BT2_NODE_SIZE, 4 + 1 + f.H5O_FHEAP_ID_LEN,
        H5A_CORDER_BT2_SPLIT_PERC, H5A_CORDER_BT2_MERGE_PERC, []⟩, rfl, ?_, rfl, rfl, ?_⟩
      · simp only [H5B2_create_corder, H5B2_create_name, H5HF_create, H5F_t.set_fheap,
          H5F_t.set_name_bt2, H5F_t.set_corder_bt2, if_true]
      · simp only
        omega
    · intro h
      cases h

/-- C19: `H5A_dense_create` succeeds with a defined heap address and a
defined name index address, at which an empty heap and an empty name index
are stored; with `index_corder` set it stores an empty creation order index
and its defined address, and otherwise it leaves the creation order index
address as it was.  The record size of the name index is 4 bytes more than
the record size of the creation order index. -/
theorem H5A_dense_create_addrs (f : H5F_t) (ainfo : H5O_ainfo_t) :
    (H5A_dense_create f ainfo).1 = SUCCEED ∧
    (∃ a, (H5A_dense_create f ainfo).2.2.fheap_addr = some a ∧
      (H5A_dense_create f ainfo).2.1.fheaps a = some []) ∧
    (∃ a t, (H5A_dense_create f ainfo).2.2.name_bt2_addr = some a ∧
      (H5A_dense_create f ainfo).2.1.name_bt2 a = some t ∧ t.recs = [] ∧
      t.rrec_size = 4 + 4 + 1 + f.H5O_FHEAP_ID_LEN ∧
      (ainfo.index_corder = true →
        ∃ c ct, (H5A_dense_create f ainfo).2.2.corder_bt2_addr = some c ∧
          (H5A_dense_create f ainfo).2.1.corder_bt2 c = some ct ∧ ct.recs = [] ∧
          ct.rrec_size = 4 + 1 + f.H5O_FHEAP_ID_LEN ∧ t.rrec_size = ct.rrec_size + 4)) ∧
    (ainfo.index_corder = false →
      (H5A_dense_create f ainfo).2.2.corder_bt2_addr = ainfo.corder_bt2_addr ∧
      (H5A_dense_create f ainfo).2.1.corder_bt2 = f.corder_bt2) ∧
    (H5A_dense_create f ainfo).2.2.index_corder = ainfo.index_corder :=
  H5A_dense_create_addrs_aux f ainfo

theorem H5A_dense_create_addrs_witness :
    (H5A_dense_create H5A_ex_file (H5A_ex_ainfo true)).1 = SUCCEED :=
  (H5A_dense_create_addrs H5A_ex_file (H5A_ex_ainfo true)).1

/-! ## Iteration -/

/-- `H5B2_iterate` with `H5A_dense_iterate_bt2_cb` is the walk over the
attributes read for the records. -/
theorem H5B2_iterate_eq_walk {σ : Type} (f : H5F_t) (attr_op : H5A_t → σ → Int × σ)
    (fheap : Nat) (sh : Bool) (l : List H5A_dense_bt2_corder_rec_t) :
    ∀ (count skip : Nat) (d : σ),
      H5B2_iterate (H5A_dense_iterate_bt2_cb f attr_op) l ⟨fheap, sh, count, skip, d⟩ =
        ((H5A_dense_walk attr_op (l.map (H5A_dense_heap_op f fheap sh)) count skip d).1,
          ⟨fheap, sh,
            (H5A_dense_walk attr_op (l.map (H5A_dense_heap_op f fheap sh)) count skip d).2.1,
            (H5A_dense_walk attr_op (l.map (H5A_dense_heap_op f fheap sh)) count skip d).2.2.1,
            (H5A_dense_walk attr_op (l.map (H5A_dense_heap_op f fheap sh)) count skip d).2.2.2⟩) := by
  induction l with
  | nil => intro count skip d; rfl
  | cons r rs ih =>
    intro count skip d
    simp only [H5B2_iterate, List.map_cons, H5A_dense_walk]
    by_cases hs : 0 < skip
    · have hcb : H5A_dense_iterate_bt2_cb f attr_op r ⟨fheap, sh, count, skip, d⟩ =
          (H5_ITER_CONT, ⟨fheap, sh, count + 1, skip - 1, d⟩) := by
        simp only [H5A_dense_iterate_bt2_cb, hs, if_true]
      rw [hcb]
      simp only [hs, if_true, ne_eq, not_true_eq_false, if_false]
      exact ih _ _ _
    · simp only [hs, if_false]
      cases hr : H5A_dense_heap_op f fheap sh r with
      | none =>
        have hcb : H5A_dense_iterate_bt2_cb f attr_op r ⟨fheap, sh, count, skip, d⟩ =
            (H5_ITER_ERROR, ⟨fheap, sh, count, skip, d⟩) := by
          simp only [H5A_dense_iterate_bt2_cb, hs, if_false, hr]
        rw [hcb]
        simp
      | some a =>
        have hcb : H5A_dense_iterate_bt2_cb f attr_op r ⟨fheap, sh, count, skip, d⟩ =
            ((attr_op a d).1, ⟨fheap, sh, count + 1, skip, (attr_op a d).2⟩) := by
          simp only [H5A_dense_iterate_bt2_cb, hs, if_false, hr]
        rw [hcb]
        by_cases hz : (attr_op a d).1 = 0
        · simp only [hz, ne_eq, not_true_eq_false, if_false]
          exact ih _ _ _
        · simp only [ne_eq, hz, not_false_eq_true, if_true]

/-- The logging callback does not change the walk: return value, count,
remaining skip and the callback's own data are those of the plain callback,
and the log grows by the calls delivered. -/
theorem H5A_dense_walk_logged {σ : Type} (attr_op : H5A_t → σ → Int × σ)
    (reads : List (Option H5A_t)) :
    ∀ (count skip : Nat) (d : σ) (log : List (H5A_t × Int)),
      H5A_dense_walk (H5A_attr_op_logged attr_op) reads count skip (d, log) =
        ((H5A_dense_walk attr_op reads count skip d).1,
          (H5A_dense_walk attr_op reads count skip d).2.1,
          (H5A_dense_walk attr_op reads count skip d).2.2.1,
          ((H5A_dense_walk attr_op reads count skip d).2.2.2,
            log ++ H5A_dense_delivered attr_op reads skip d)) := by
  induction reads with
  | nil => intro count skip d log; simp [H5A_dense_walk, H5A_dense_delivered]
  | cons o rest ih =>
    intro count skip d log
    simp only [H5A_dense_walk, H5A_dense_delivered]
    by_cases hs : 0 < skip
    · simp only [hs, if_true]
      exact ih _ _ _ _
    · simp only [hs, if_false]
      cases o with
      | none => simp
      | some a =>
        simp only [H5A_attr_op_logged]
        by_cases hz : (attr_op a d).1 = 0
        · simp only [hz, ne_eq, not_true_eq_false, if_false]
          rw [ih]
          simp
        · simp only [ne_eq, hz, not_false_eq_true, if_true]

/-- The count of a walk is the number of records skipped plus the number of
calls delivered. -/
theorem H5A_dense_walk_count {σ : Type} (attr_op : H5A_t → σ → Int × σ)
    (reads : List (Option H5A_t)) :
    ∀ (count skip : Nat) (d : σ),
      (H5A_dense_walk attr_op reads count skip d).2.1 =
        count + min skip reads.length + (H5A_dense_delivered attr_op reads skip d).length := by
  induction reads with
  | nil => intro count skip d; simp [H5A_dense_walk, H5A_dense_delivered]
  | cons o rest ih =>
    intro count skip d
    simp only [H5A_dense_walk, H5A_dense_delivered]
    by_cases hs : 0 < skip
    · simp only [hs, if_true]
      rw [ih]
      simp only [List.length_cons]
      omega
    · simp only [hs, if_false]
      have h0 : skip = 0 := by omega
      subst h0
      cases o with
      | none => simp
      | some a =>
        by_cases hz : (attr_op a d).1 = 0
        · simp only [hz, ne_eq, not_true_eq_false, if_false]
          rw [ih]
          simp only [List.length_cons]
          omega
        · simp only [ne_eq, hz, not_false_eq_true, if_true]
          simp

/-- The attributes delivered by a walk are the attributes read for the
records that follow the skipped ones, up to some position. -/
theorem H5A_dense_delivered_prefix {σ : Type} (attr_op : H5A_t → σ → Int × σ)
    (reads : List (Option H5A_t)) :
    ∀ (skip : Nat) (d : σ),
      ∃ k, (H5A_dense_delivered attr_op reads skip d).map (fun x => some x.1) =
        (reads.drop skip).take k := by
  induction reads with
  | nil => intro skip d; exact ⟨0, by simp [H5A_dense_delivered]⟩
  | cons o rest ih =>
    intro skip d
    simp only [H5A_dense_delivered]
    by_cases hs : 0 < skip
    · simp only [hs, if_true]
      obtain ⟨k, hk⟩ := ih (skip - 1) d
      refine ⟨k, ?_⟩
      rw [hk]
      obtain ⟨s, rfl⟩ : ∃ s, skip = s + 1 := ⟨skip - 1, by omega⟩
      simp
    · simp only [hs, if_false]
      have h0 : skip = 0 := by omega
      subst h0
      cases o with
      | none => exact ⟨0, by simp⟩
      | some a =>
        by_cases hz : (attr_op a d).1 = 0
        · simp only [hz, ne_eq, not_true_eq_false, if_false]
          obtain ⟨k, hk⟩ := ih 0 (attr_op a d).2
          refine ⟨k + 1, ?_⟩
          simp only [List.map_cons, hk, List.drop_zero, List.take_succ_cons]
        · simp only [ne_eq, hz, not_false_eq_true, if_true]
          exact ⟨1, by simp⟩

/-- Every call a walk delivers before the last one returned zero. -/
theorem H5A_dense_delivered_dropLast {σ : Type} (attr_op : H5A_t → σ → Int × σ)
    (reads : List (Option H5A_t)) :
    ∀ (skip : Nat) (d : σ), ∀ x ∈ (H5A_dense_delivered attr_op reads skip d).dropLast,
      x.2 = 0 := by
  induction reads with
  | nil => intro skip d x hx; simp [H5A_dense_delivered] at hx
  | cons o rest ih =>
    intro skip d x hx
    simp only [H5A_dense_delivered] at hx
    by_cases hs : 0 < skip
    · simp only [hs, if_true] at hx
      exact ih _ _ x hx
    · simp only [hs, if_false] at hx
      cases o with
      | none => simp at hx
      | some a =>
        by_cases hz : (attr_op a d).1 = 0
        · simp only [hz, ne_eq, not_true_eq_false, if_false] at hx
          cases hrest : H5A_dense_delivered attr_op rest skip (attr_op a d).2 with
          | nil => simp [hrest] at hx
          | cons y ys =>
            rw [hrest, List.dropLast_cons₂] at hx
            rcases List.mem_cons.1 hx with rfl | hx
            · rfl
            · exact ih skip (attr_op a d).2 x (by rw [hrest]; exact hx)
        · simp only [ne_eq, hz, not_false_eq_true, if_true] at hx
          simp at hx

/-- When the last call a walk delivered returned a non-zero value, that value
is the return value of the walk. -/
theorem H5A_dense_delivered_getLast {σ : Type} (attr_op : H5A_t → σ → Int × σ)
    (reads : List (Option H5A_t)) :
    ∀ (count skip : Nat) (d : σ) (x : H5A_t × Int),
      (H5A_dense_delivered attr_op reads skip d).getLast? = some x → x.2 ≠ 0 →
      (H5A_dense_walk attr_op reads count skip d).1 = x.2 := by
  induction reads with
  | nil => intro count skip d x hx; simp [H5A_dense_delivered] at hx
  | cons o rest ih =>
    intro count skip d x hx hne
    simp only [H5A_dense_delivered] at hx
    simp only [H5A_dense_walk]
    by_cases hs : 0 < skip
    · simp only [hs, if_true] at hx ⊢
      exact ih _ _ _ x hx hne
    · simp only [hs, if_false] at hx ⊢
      cases o with
      | none => simp at hx
      | some a =>
        by_cases hz : (attr_op a d).1 = 0
        · simp only [hz, ne_eq, not_true_eq_false, if_false] at hx ⊢
          cases hrest : H5A_dense_delivered attr_op rest skip (attr_op a d).2 with
          | nil =>
            rw [hrest] at hx
            simp only [List.getLast?_singleton, Option.some.injEq] at hx
            rw [← hx] at hne
            exact absurd rfl hne
          | cons y ys =>
            rw [hrest, List.getLast?_cons_cons] at hx
            exact ih _ skip (attr_op a d).2 x (by rw [hrest]; exact hx) hne
        · simp only [ne_eq, hz, not_false_eq_true, if_true] at hx ⊢
          simp only [List.getLast?_singleton, Option.some.injEq] at hx
          rw [← hx]

/-- When every call a walk delivered returned zero and every record that
follows the skipped ones can be read, the walk returns zero and has delivered
all of them. -/
theorem H5A_dense_delivered_all {σ : Type} (attr_op : H5A_t → σ → Int × σ)
    (reads : List (Option H5A_t)) :
    ∀ (count skip : Nat) (d : σ),
      (∀ x ∈ H5A_dense_delivered attr_op reads skip d, x.2 = 0) →
      (∀ o ∈ reads.drop skip, o ≠ none) →
      (H5A_dense_walk attr_op reads count skip d).1 = 0 ∧
      (H5A_dense_delivered attr_op reads skip d).map (fun x => some x.1) = reads.drop skip := by
  induction reads with
  | nil => intro count skip d _ _; simp [H5A_dense_walk, H5A_dense_delivered]
  | cons o rest ih =>
    intro count skip d hall hread
    simp only [H5A_dense_delivered] at hall ⊢
    simp only [H5A_dense_walk]
    by_cases hs : 0 < skip
    · obtain ⟨s, rfl⟩ : ∃ s, skip = s + 1 := ⟨skip - 1, by omega⟩
      simp only [hs, if_true] at hall ⊢
      simp only [List.drop_succ_cons] at hread ⊢
      exact ih _ _ _ hall hread
    · have h0 : skip = 0 := by omega
      subst h0
      simp only [hs, if_false] at hall ⊢
      simp only [List.drop_zero] at hread ⊢
      cases o with
      | none => exact absurd rfl (hread none (List.mem_cons_self _ _))
      | some a =>
        by_cases hz : (attr_op a d).1 = 0
        · simp only [hz, ne_eq, not_true_eq_false, if_false] at hall ⊢
          have h := ih (count + 1) 0 (attr_op a d).2
            (fun x hx => hall x (List.mem_cons_of_mem _ hx))
            (by simpa using fun o ho => hread o (List.mem_cons_of_mem _ ho))
          simp only [List.drop_zero] at h
          exact ⟨h.1, by simp only [List.map_cons, h.2]⟩
        · simp only [ne_eq, hz, not_false_eq_true, if_true] at hall
          exact absurd (hall _ (List.mem_singleton_self _)) hz

/-- A positive return value of a walk is the value the last delivered call
returned. -/
theorem H5A_dense_walk_pos {σ : Type} (attr_op : H5A_t → σ → Int × σ)
    (reads : List (Option H5A_t)) :
    ∀ (count skip : Nat) (d : σ), 0 < (H5A_dense_walk attr_op reads count skip d).1 →
      ∃ x, (H5A_dense_delivered attr_op reads skip d).getLast? = some x ∧
        x.2 = (H5A_dense_walk attr_op reads count skip d).1 := by
  induction reads with
  | nil => intro count skip d h; simp [H5A_dense_walk] at h
  | cons o rest ih =>
    intro count skip d h
    simp only [H5A_dense_walk] at h ⊢
    simp only [H5A_dense_delivered]
    by_cases hs : 0 < skip
    · simp only [hs, if_true] at h ⊢
      exact ih _ _ _ h
    · simp only [hs, if_false] at h ⊢
      cases o with
      | none => simp at h
      | some a =>
        by_cases hz : (attr_op a d).1 = 0
        · simp only [hz, ne_eq, not_true_eq_false, if_false] at h ⊢
          obtain ⟨x, hx, hv⟩ := ih _ _ _ h
          refine ⟨x, ?_, hv⟩
          cases hrest : H5A_dense_delivered attr_op rest skip (attr_op a d).2 with
          | nil => rw [hrest] at hx; simp at hx
          | cons y ys => rw [List.getLast?_cons_cons, ← hrest]; exact hx
        · simp only [ne_eq, hz, not_false_eq_true, if_true] at h ⊢
          exact ⟨(a, (attr_op a d).1), by simp, rfl⟩

/-- An index that can be walked directly has a defined address. -/
theorem H5A_dense_index_recs_defined (f : H5F_t) (ainfo : H5O_ainfo_t) (idx_type : H5_index_t)
    (l : List H5A_dense_bt2_corder_rec_t) (hl : H5A_dense_index_recs f ainfo idx_type = some l) :
    (match idx_type with
      | H5_index_t.H5_INDEX_NAME => H5F_addr_defined ainfo.name_bt2_addr
      | H5_index_t.H5_INDEX_CRT_ORDER => H5F_addr_defined ainfo.corder_bt2_addr) = true := by
  cases idx_type with
  | H5_INDEX_NAME =>
    simp only [H5A_dense_index_recs, Option.map_eq_some'] at hl
    obtain ⟨recs, hrecs, -⟩ := hl
    obtain ⟨a, t, ha, -, -⟩ := (H5B2_name_recs_eq_some _ _ _).1 hrecs
    simp [H5F_addr_defined, ha]
  | H5_INDEX_CRT_ORDER =>
    simp only [H5A_dense_index_recs] at hl
    obtain ⟨a, t, ha, -, -⟩ := (H5B2_corder_recs_eq_some _ _ _).1 hl
    simp [H5F_addr_defined, ha]

/-- `H5A_dense_iterate` in native order over an existing index is the walk
over the attributes read for the records of that index. -/
theorem H5A_dense_iterate_direct {σ : Type} (f : H5F_t) (ainfo : H5O_ainfo_t)
    (idx_type : H5_index_t) (skip : Nat) (last_attr : Option Nat)
    (attr_op : H5A_t → σ → Int × σ) (d : σ) (fheap : Nat)
    (l : List H5A_dense_bt2_corder_rec_t)
    (h1 : H5HF_open f ainfo.fheap_addr = some fheap)
    (hl : H5A_dense_index_recs f ainfo idx_type = some l) :
    H5A_dense_iterate f ainfo idx_type H5_iter_order_t.H5_ITER_NATIVE skip last_attr attr_op d =
      ((H5A_dense_walk attr_op
          (l.map (H5A_dense_heap_op f fheap (H5A_dense_shared_fheap f))) 0 skip d).1,
        last_attr.map (fun _ => (H5A_dense_walk attr_op
          (l.map (H5A_dense_heap_op f fheap (H5A_dense_shared_fheap f))) 0 skip d).2.1),
        (H5A_dense_walk attr_op
          (l.map (H5A_dense_heap_op f fheap (H5A_dense_shared_fheap f))) 0 skip d).2.2.2) := by
  have hdef := H5A_dense_index_recs_defined f ainfo idx_type l hl
  unfold H5A_dense_iterate
  cases idx_type with
  | H5_INDEX_NAME =>
    simp only at hdef
    simp only [H5A_dense_index_recs] at hl
    simp only [if_true, hdef, and_self, h1, hl, H5B2_iterate_eq_walk]
  | H5_INDEX_CRT_ORDER =>
    simp only at hdef
    simp only [H5A_dense_index_recs] at hl
    simp only [if_true, hdef, and_self, h1, hl, H5B2_iterate_eq_walk]

/-- The direct walk of `H5A_dense_iterate` with the logging callback, in
terms of the walk with the plain callback and the calls delivered. -/
theorem H5A_dense_iterate_direct_logged {σ : Type} (f : H5F_t) (ainfo : H5O_ainfo_t)
    (idx_type : H5_index_t) (skip : Nat) (last_attr : Option Nat)
    (attr_op : H5A_t → σ → Int × σ) (d : σ) (fheap : Nat)
    (l : List H5A_dense_bt2_corder_rec_t)
    (h1 : H5HF_open f ainfo.fheap_addr = some fheap)
    (hl : H5A_dense_index_recs f ainfo idx_type = some l) :
    H5A_dense_iterate f ainfo idx_type H5_iter_order_t.H5_ITER_NATIVE skip last_attr
        (H5A_attr_op_logged attr_op) (d, []) =
      ((H5A_dense_walk attr_op
          (l.map (H5A_dense_heap_op f fheap (H5A_dense_shared_fheap f))) 0 skip d).1,
        last_attr.map (fun _ => (H5A_dense_walk attr_op
          (l.map (H5A_dense_heap_op f fheap (H5A_dense_shared_fheap f))) 0 skip d).2.1),
        (H5A_dense_walk attr_op
          (l.map (H5A_dense_heap_op f fheap (H5A_dense_shared_fheap f))) 0 skip d).2.2.2,
        H5A_dense_delivered attr_op
          (l.map (H5A_dense_heap_op f fheap (H5A_dense_shared_fheap f))) skip d) := by
  rw [H5A_dense_iterate_direct f ainfo idx_type skip last_attr _ _ fheap l h1 hl,
    H5A_dense_walk_logged]
  simp

/-- C12: in a direct index iteration by `H5A_dense_iterate` (native order over
an existing index), with any skip count and any callback, the value stored
through `last_attr` is the number of records skipped plus the number of
records delivered to the callback, however the walk ended; the attributes
delivered are those of records that follow the first `skip` records, so the
skipped records are counted and not delivered.  The log of the delivered
calls is kept by `H5A_attr_op_logged`, which leaves the return value, the
count and the callback's own data as the plain callback has them. -/
theorem H5A_dense_iterate_last_attr {σ : Type} (f : H5F_t) (ainfo : H5O_ainfo_t)
    (idx_type : H5_index_t) (skip v : Nat) (attr_op : H5A_t → σ → Int × σ) (d : σ)
    (fheap : Nat) (l : List H5A_dense_bt2_corder_rec_t)
    (h1 : H5HF_open f ainfo.fheap_addr = some fheap)
    (hl : H5A_dense_index_recs f ainfo idx_type = some l) :
    (H5A_dense_iterate f ainfo idx_type H5_iter_order_t.H5_ITER_NATIVE skip (some v)
        (H5A_attr_op_logged attr_op) (d, [])).2.1 =
      some (min skip l.length +
        (H5A_dense_iterate f ainfo idx_type H5_iter_order_t.H5_ITER_NATIVE skip (some v)
          (H5A_attr_op_logged attr_op) (d, [])).2.2.2.length) ∧
    (∃ k,
      (H5A_dense_iterate f ainfo idx_type H5_iter_order_t.H5_ITER_NATIVE skip (some v)
          (H5A_attr_op_logged attr_op) (d, [])).2.2.2.map (fun x => some x.1) =
        (((l.map (H5A_dense_heap_op f fheap (H5A_dense_shared_fheap f))).drop skip).take k)) ∧
    (H5A_dense_iterate f ainfo idx_type H5_iter_order_t.H5_ITER_NATIVE skip (some v)
        (H5A_attr_op_logged attr_op) (d, [])).1 =
      (H5A_dense_iterate f ainfo idx_type H5_iter_order_t.H5_ITER_NATIVE skip (some v)
        attr_op d).1 ∧
    (H5A_dense_iterate f ainfo idx_type H5_iter_order_t.H5_ITER_NATIVE skip (some v)
        (H5A_attr_op_logged attr_op) (d, [])).2.1 =
      (H5A_dense_iterate f ainfo idx_type H5_iter_order_t.H5_ITER_NATIVE skip (some v)
        attr_op d).2.1 ∧
    (H5A_dense_iterate f ainfo idx_type H5_iter_order_t.H5_ITER_NATIVE skip (some v)
        (H5A_attr_op_logged attr_op) (d, [])).2.2.1 =
      (H5A_dense_iterate f ainfo idx_type H5_iter_order_t.H5_ITER_NATIVE skip (some v)
        attr_op d).2.2 := by
  rw [H5A_dense_iterate_direct_logged f ainfo idx_type skip (some v) attr_op d fheap l h1 hl,
    H5A_dense_iterate_direct f ainfo idx_type skip (some v) attr_op d fheap l h1 hl]
  refine ⟨?_, H5A_dense_delivered_prefix attr_op _ skip d, rfl, rfl, rfl⟩
  simp only [Option.map_some', Option.some.injEq]
  rw [H5A_dense_walk_count]
  simp

theorem H5A_dense_iterate_last_attr_witness :
    (H5A_dense_iterate (H5A_ex_file3 true) (H5A_ex_ainfo1 true)
        H5_index_t.H5_INDEX_CRT_ORDER H5_iter_order_t.H5_ITER_NATIVE 1 (some 0)
        (H5A_attr_op_logged H5A_attr_op_names) ([], [])).2.1 =
      some (min 1 [(⟨0, ⟨false⟩, 0⟩ : H5A_dense_bt2_corder_rec_t), ⟨0, ⟨true⟩, 1⟩,
          ⟨1, ⟨false⟩, 2⟩].length +
        (H5A_dense_iterate (H5A_ex_file3 true) (H5A_ex_ainfo1 true)
          H5_index_t.H5_INDEX_CRT_ORDER H5_iter_order_t.H5_ITER_NATIVE 1 (some 0)
          (H5A_attr_op_logged H5A_attr_op_names) ([], [])).2.2.2.length) :=
  (H5A_dense_iterate_last_attr (H5A_ex_file3 true) (H5A_ex_ainfo1 true)
    H5_index_t.H5_INDEX_CRT_ORDER 1 0 H5A_attr_op_names [] 0
    [⟨0, ⟨false⟩, 0⟩, ⟨0, ⟨true⟩, 1⟩, ⟨1, ⟨false⟩, 2⟩] (by decide) (by decide)).1

/-- C13: in a direct index iteration by `H5A_dense_iterate`, every call
delivered to the callback before the last one returned zero, so no record is
delivered after a call that returned a non-zero value; when the last call
returned a non-zero value (positive for STOP, negative for ERROR),
`H5A_dense_iterate` returns that value, and a positive return value is always
the value of the last call; when every call returned zero and the records
after the skipped ones can be read, every one of them has been delivered and
the result is zero. -/
theorem H5A_dense_iterate_callback_result {σ : Type} (f : H5F_t) (ainfo : H5O_ainfo_t)
    (idx_type : H5_index_t) (skip : Nat) (last_attr : Option Nat)
    (attr_op : H5A_t → σ → Int × σ) (d : σ) (fheap : Nat)
    (l : List H5A_dense_bt2_corder_rec_t)
    (h1 : H5HF_open f ainfo.fheap_addr = some fheap)
    (hl : H5A_dense_index_recs f ainfo idx_type = some l) :
    (∀ x ∈ (H5A_dense_iterate f ainfo idx_type H5_iter_order_t.H5_ITER_NATIVE skip last_attr
        (H5A_attr_op_logged attr_op) (d, [])).2.2.2.dropLast, x.2 = 0) ∧
    (∀ x, (H5A_dense_iterate f ainfo idx_type H5_iter_order_t.H5_ITER_NATIVE skip last_attr
        (H5A_attr_op_logged attr_op) (d, [])).2.2.2.getLast? = some x → x.2 ≠ 0 →
      (H5A_dense_iterate f ainfo idx_type H5_iter_order_t.H5_ITER_NATIVE skip last_attr
        attr_op d).1 = x.2) ∧
    (0 < (H5A_dense_iterate f ainfo idx_type H5_iter_order_t.H5_ITER_NATIVE skip last_attr
        attr_op d).1 →
      ∃ x, (H5A_dense_iterate f ainfo idx_type H5_iter_order_t.H5_ITER_NATIVE skip last_attr
          (H5A_attr_op_logged attr_op) (d, [])).2.2.2.getLast? = some x ∧
        x.2 = (H5A_dense_iterate f ainfo idx_type H5_iter_order_t.H5_ITER_NATIVE skip last_attr
          attr_op d).1) ∧
    ((∀ x ∈ (H5A_dense_iterate f ainfo idx_type H5_iter_order_t.H5_ITER_NATIVE skip last_attr
        (H5A_attr_op_logged attr_op) (d, [])).2.2.2, x.2 = 0) →
      (∀ r ∈ l.drop skip, H5A_dense_heap_op f fheap (H5A_dense_shared_fheap f) r ≠ none) →
      (H5A_dense_iterate f ainfo idx_type H5_iter_order_t.H5_ITER_NATIVE skip last_attr
        attr_op d).1 = 0 ∧
      (H5A_dense_iterate f ainfo idx_type H5_iter_order_t.H5_ITER_NATIVE skip last_attr
          (H5A_attr_op_logged attr_op) (d, [])).2.2.2.map (fun x => some x.1) =
        (l.drop skip).map (H5A_dense_heap_op f fheap (H5A_dense_shared_fheap f))) := by
  rw [H5A_dense_iterate_direct_logged f ainfo idx_type skip last_attr attr_op d fheap l h1 hl,
    H5A_dense_iterate_direct f ainfo idx_type skip last_attr attr_op d fheap l h1 hl]
  refine ⟨H5A_dense_delivered_dropLast attr_op _ skip d,
    H5A_dense_delivered_getLast attr_op _ 0 skip d, H5A_dense_walk_pos attr_op _ 0 skip d, ?_⟩
  intro hall hread
  have h := H5A_dense_delivered_all attr_op
    (l.map (H5A_dense_heap_op f fheap (H5A_dense_shared_fheap f))) 0 skip d hall
    (by
      intro o ho
      rw [← List.map_drop] at ho
      obtain ⟨r, hr, rfl⟩ := List.mem_map.1 ho
      exact hread r hr)
  refine ⟨h.1, ?_⟩
  rw [List.map_drop]
  exact h.2

theorem H5A_dense_iterate_callback_result_witness :
    (H5A_dense_iterate (H5A_ex_file3 true) (H5A_ex_ainfo1 true)
        H5_index_t.H5_INDEX_CRT_ORDER H5_iter_order_t.H5_ITER_NATIVE 1 none
        H5A_attr_op_names []).1 = 0 :=
  ((H5A_dense_iterate_callback_result (H5A_ex_file3 true) (H5A_ex_ainfo1 true)
    H5_index_t.H5_INDEX_CRT_ORDER 1 none H5A_attr_op_names [] 0
    [⟨0, ⟨false⟩, 0⟩, ⟨0, ⟨true⟩, 1⟩, ⟨1, ⟨false⟩, 2⟩] (by decide) (by decide)).2.2.2
    (by decide) (by decide)).1

/-! ## Removal from a well-formed store -/

/-- In a list without duplicate keys, two members with the same key are the
same. -/
theorem List.eq_of_nodup_map {α β : Type} (g : α → β) (l : List α) (h : (l.map g).Nodup)
    (x y : α) (hx : x ∈ l) (hy : y ∈ l) (hxy : g x = g y) : x = y :=
  List.inj_on_of_nodup_map h hx hy hxy

/-- A record that reads as a name and carries the hash of what it reads is
located by a lookup of that name. -/
theorem H5A_dense_is_named_of_rec_name (f : H5F_t) (fheap : Nat) (name : String)
    (r : H5A_dense_bt2_name_rec_t)
    (hread : ∃ attr, H5A_dense_heap_op f fheap (H5A_dense_shared_fheap f) r.common = some attr ∧
      f.H5_checksum_lookup3 attr.name = r.hash)
    (hname : H5A_dense_rec_name f fheap r = some name) :
    H5A_dense_is_named f fheap name r = true := by
  obtain ⟨attr, hattr, hh⟩ := hread
  simp only [H5A_dense_rec_name, hattr, Option.map_some', Option.some.injEq] at hname
  simp only [H5A_dense_is_named, H5A_dense_rec_name, hattr, Option.map_some', Option.some.injEq,
    decide_eq_true_eq]
  exact ⟨by rw [← hh, hname], hname⟩

/-- The name a located record reads as. -/
theorem H5A_dense_rec_name_of_is_named (f : H5F_t) (fheap : Nat) (name : String)
    (r : H5A_dense_bt2_name_rec_t) (h : H5A_dense_is_named f fheap name r = true) :
    H5A_dense_rec_name f fheap r = some name := by
  simp only [H5A_dense_is_named, decide_eq_true_eq] at h
  exact h.2

/-- `H5A_dense_remove` of a name held by a well-formed store succeeds; it
takes the record of that name out of the name index and its mirror out of the
creation order index, and every other record reads as before. -/
theorem H5A_dense_remove_valid (f : H5F_t) (ainfo : H5O_ainfo_t) (name : String) (fheap : Nat)
    (recs : List H5A_dense_bt2_name_rec_t)
    (h1 : H5HF_open f ainfo.fheap_addr = some fheap)
    (hrecs : H5B2_name_recs f ainfo.name_bt2_addr = some recs)
    (hread : ∀ r ∈ recs, ∃ attr,
      H5A_dense_heap_op f fheap (H5A_dense_shared_fheap f) r.common = some attr ∧
      f.H5_checksum_lookup3 attr.name = r.hash)
    (hnodup : (recs.map (H5A_dense_rec_name f fheap)).Nodup)
    (hmirror : ∀ c, ainfo.corder_bt2_addr = some c →
      ∃ crecs, H5B2_corder_recs f (some c) = some crecs ∧ H5A_dense_mirror recs crecs)
    (r : H5A_dense_bt2_name_rec_t) (hr : r ∈ recs)
    (hname : H5A_dense_rec_name f fheap r = some name) :
    ∃ l1 l2 f2, recs = l1 ++ r :: l2 ∧
      H5A_dense_remove f ainfo name = (SUCCEED, f2) ∧
      H5HF_open f2 ainfo.fheap_addr = some fheap ∧
      H5B2_name_recs f2 ainfo.name_bt2_addr = some (l1 ++ l2) ∧
      H5A_dense_shrinks f f2 fheap name ∧
      (∀ x ∈ l1 ++ l2, H5A_dense_rec_name f fheap x ≠ some name) ∧
      (ainfo.corder_bt2_addr = none → f2.corder_bt2 = f.corder_bt2) ∧
      (∀ c crecs, ainfo.corder_bt2_addr = some c → H5B2_corder_recs f (some c) = some crecs →
        ∃ m1 m2, crecs = m1 ++ r.common :: m2 ∧
          H5B2_corder_recs f2 (some c) = some (m1 ++ m2) ∧
          ∀ y ∈ m1 ++ m2, y.corder ≠ r.corder) := by
  obtain ⟨a, t, ha, ht, htr⟩ := (H5B2_name_recs_eq_some _ _ _).1 hrecs
  subst htr
  have hnamed : H5A_dense_is_named f fheap name r = true :=
    H5A_dense_is_named_of_rec_name f fheap name r (hread r hr) hname
  have huniq : ∀ x ∈ t.recs, H5A_dense_is_named f fheap name x = true → x = r := by
    intro x hx hxn
    exact List.eq_of_nodup_map _ _ hnodup x r hx hr
      (by rw [H5A_dense_rec_name_of_is_named f fheap name x hxn, hname])
  rcases H5A_dense_remove_spec f ainfo name fheap a t h1 ha ht with
    ⟨-, hno | ⟨r1, hfind, c, hc, hnoc⟩⟩ |
    ⟨r1, attr, f2, hfind, hattr, hnm, hshr, hnb, hop, hcorder, hres⟩
  · rw [hno r hr] at hnamed
    cases hnamed
  · exfalso
    have hr1 : r1 ∈ t.recs := List.mem_of_find?_eq_some hfind
    obtain ⟨crecs, hcrecs, hperm, -⟩ := hmirror c hc
    obtain ⟨c1, ct, hc1, hct, hctr⟩ := (H5B2_corder_recs_eq_some _ _ _).1 hcrecs
    cases hc1
    have hmem : r1.common ∈ ct.recs := by
      rw [hctr]
      exact hperm.subset (List.mem_map_of_mem _ hr1)
    exact hnoc ct hct r1.common hmem rfl
  · have hr1 : r = r1 :=
      (huniq r1 (List.mem_of_find?_eq_some hfind) (List.find?_some hfind)).symm
    subst hr1
    obtain ⟨x, l1, l2, -, hpx, hsplit, herase⟩ := List.exists_of_eraseP hr hnamed
    have hx : r = x := (huniq x (by rw [hsplit]; simp) hpx).symm
    subst hx
    have hnd := hnodup
    rw [hsplit, List.map_append, List.map_cons] at hnd
    have hother : ∀ y ∈ l1 ++ l2, H5A_dense_rec_name f fheap y ≠ some name := by
      intro y hy hyn
      have h3 := List.nodup_middle.1 hnd
      rw [List.nodup_cons] at h3
      apply h3.1
      rw [hname, ← hyn, ← List.map_append]
      exact List.mem_map_of_mem _ hy
    refine ⟨l1, l2, _, hsplit, hres, ?_, ?_, ?_, hother, ?_, ?_⟩
    · rw [H5HF_open_set_name_bt2]
      exact (hop _).2 h1
    · rw [ha, H5B2_name_recs_set_name_bt2, H5B2_t.set_recs_recs, herase]
    · exact ⟨hshr.1, hshr.2.1, hshr.2.2.1, hshr.2.2.2⟩
    · intro hnone
      rcases hcorder with ⟨-, h⟩ | ⟨c, ct, hc, -⟩
      · exact h
      · rw [hnone] at hc
        cases hc
    · intro c crecs hc hcrecs
      rcases hcorder with ⟨hnone, -⟩ | ⟨c1, ct, hc1, hct, -, hf2⟩
      · rw [hnone] at hc
        cases hc
      · rw [hc] at hc1
        cases hc1
        obtain ⟨crecs1, hcrecs1, hperm, hcnd⟩ := hmirror c hc
        rw [hcrecs] at hcrecs1
        cases hcrecs1
        obtain ⟨c2, ct2, hc2, hct2, hctr⟩ := (H5B2_corder_recs_eq_some _ _ _).1 hcrecs
        cases hc2
        rw [hct] at hct2
        cases hct2
        subst hctr
        have hmem : r.common ∈ ct.recs := hperm.subset (List.mem_map_of_mem _ hr)
        obtain ⟨y, m1, m2, -, hpy, hsplit2, herase2⟩ :=
          List.exists_of_eraseP (p := fun x => decide (x.corder = r.corder)) hmem
            (by simp [H5A_dense_bt2_name_rec_t.common])
        have hy : y = r.common := by
          refine List.eq_of_nodup_map (fun c => c.corder) _ hcnd y r.common
            (by rw [hsplit2]; simp) hmem ?_
          simpa using hpy
        subst hy
        refine ⟨m1, m2, hsplit2, ?_, ?_⟩
        · simp only [H5B2_corder_recs_set_name_bt2]
          simp only [H5B2_corder_recs, hf2, H5F_t.set_corder_bt2_corder_bt2, if_true,
            H5B2_t.set_recs_recs, herase2]
        · intro z hz hzc
          have hcnd2 := hcnd
          rw [hsplit2, List.map_append, List.map_cons] at hcnd2
          have h3 := List.nodup_middle.1 hcnd2
          rw [List.nodup_cons] at h3
          apply h3.1
          have : r.common.corder = z.corder := by
            rw [hzc]; rfl
          rw [this, ← List.map_append]
          exact List.mem_map_of_mem (fun c => c.corder) hz

/-- The attribute read for a record carries the creation order of the
record. -/
theorem H5A_dense_heap_op_crt_idx (f : H5F_t) (fheap : Nat) (sh : Bool)
    (r : H5A_dense_bt2_corder_rec_t) (attr : H5A_t)
    (h : H5A_dense_heap_op f fheap sh r = some attr) : attr.crt_idx = r.corder := by
  unfold H5A_dense_heap_op at h
  split at h
  · cases h
  · simp only [Option.some.injEq] at h
    rw [← h]
    exact (H5A_dense_copy_fh_cb_fields _ _).2.1

/-- After `H5A_dense_remove` a well-formed store is well-formed. -/
theorem H5A_dense_remove_keeps_valid (f : H5F_t) (ainfo : H5O_ainfo_t) (name : String)
    (hv : H5A_dense_valid f ainfo = true) :
    H5A_dense_valid (H5A_dense_remove f ainfo name).2 ainfo = true := by
  obtain ⟨fheap, recs, h1, hrecs, hread, hnodup, hidx, hmirror⟩ :=
    (H5A_dense_valid_iff f ainfo).1 hv
  by_cases hex : ∃ r ∈ recs, H5A_dense_rec_name f fheap r = some name
  · obtain ⟨r, hr, hname⟩ := hex
    obtain ⟨l1, l2, f2, hsplit, hres, hopen2, hrecs2, hshr, hother, hcnone, hcsome⟩ :=
      H5A_dense_remove_valid f ainfo name fheap recs h1 hrecs hread hnodup hmirror r hr hname
    rw [hres]
    have hsub : ∀ x ∈ l1 ++ l2, x ∈ recs := by
      intro x hx
      rw [hsplit]
      simp only [List.mem_append, List.mem_cons] at hx ⊢
      tauto
    have hsame : ∀ x ∈ l1 ++ l2,
        H5A_dense_heap_op f2 fheap (H5A_dense_shared_fheap f2) x.common =
          H5A_dense_heap_op f fheap (H5A_dense_shared_fheap f) x.common := by
      intro x hx
      obtain ⟨attr, hattr, -⟩ := hread x (hsub x hx)
      rw [hattr]
      refine hshr.2.2.1 _ _ hattr ?_
      intro hn
      exact hother x hx (by simp [H5A_dense_rec_name, hattr, hn])
    rw [H5A_dense_valid_iff]
    refine ⟨fheap, l1 ++ l2, hopen2, hrecs2, ?_, ?_, hidx, ?_⟩
    · intro x hx
      obtain ⟨attr, hattr, hh⟩ := hread x (hsub x hx)
      exact ⟨attr, by rw [hsame x hx]; exact hattr, by rw [hshr.1]; exact hh⟩
    · have hmap : (l1 ++ l2).map (H5A_dense_rec_name f2 fheap) =
          (l1 ++ l2).map (H5A_dense_rec_name f fheap) := by
        apply List.map_congr_left
        intro x hx
        simp only [H5A_dense_rec_name, hsame x hx]
      rw [hmap]
      rw [hsplit, List.map_append, List.map_cons] at hnodup
      have h3 := List.nodup_middle.1 hnodup
      rw [List.nodup_cons] at h3
      rw [List.map_append]
      exact h3.2
    · intro c hc
      obtain ⟨crecs, hcrecs, hperm, hcnd⟩ := hmirror c hc
      obtain ⟨m1, m2, hsplit2, hcrecs2, -⟩ := hcsome c crecs hc hcrecs
      refine ⟨m1 ++ m2, hcrecs2, ?_, ?_⟩
      · rw [hsplit, hsplit2, List.map_append, List.map_cons] at hperm
        have h4 := (List.perm_middle.symm.trans hperm).trans List.perm_middle
        rw [List.map_append]
        exact h4.cons_inv
      · rw [hsplit2, List.map_append, List.map_cons] at hcnd
        have h3 := List.nodup_middle.1 hcnd
        rw [List.nodup_cons] at h3
        rw [List.map_append]
        exact h3.2
  · obtain ⟨a, t, ha, ht, htr⟩ := (H5B2_name_recs_eq_some _ _ _).1 hrecs
    rcases H5A_dense_remove_spec f ainfo name fheap a t h1 ha ht with
      ⟨hres, -⟩ | ⟨r1, attr, f2, hfind, -, -, -, -, -, -, -⟩
    · rw [hres]
      exact hv
    · exfalso
      apply hex
      refine ⟨r1, by rw [← htr]; exact List.mem_of_find?_eq_some hfind, ?_⟩
      exact H5A_dense_rec_name_of_is_named f fheap name r1 (List.find?_some hfind)

/-- The record behind an attribute returned by `H5A_dense_open`. -/
theorem H5A_dense_open_some (f : H5F_t) (ainfo : H5O_ainfo_t) (name : String) (fheap : Nat)
    (recs : List H5A_dense_bt2_name_rec_t) (attr : H5A_t)
    (h1 : H5HF_open f ainfo.fheap_addr = some fheap)
    (hrecs : H5B2_name_recs f ainfo.name_bt2_addr = some recs)
    (hopen : H5A_dense_open f ainfo name = some attr) :
    ∃ r ∈ recs, H5A_dense_rec_name f fheap r = some name ∧
      H5A_dense_heap_op f fheap (H5A_dense_shared_fheap f) r.common = some attr ∧
      attr.name = name ∧ attr.crt_idx = r.corder := by
  rw [H5A_dense_open_eq f ainfo name fheap recs h1 hrecs] at hopen
  cases hfind : recs.find? (H5A_dense_is_named f fheap name) with
  | none => rw [hfind] at hopen; cases hopen
  | some r =>
    rw [hfind] at hopen
    simp only [Option.some_bind] at hopen
    have hn := H5A_dense_rec_name_of_is_named f fheap name r (List.find?_some hfind)
    refine ⟨r, List.mem_of_find?_eq_some hfind, hn, hopen, ?_,
      H5A_dense_heap_op_crt_idx _ _ _ _ _ hopen⟩
    simpa [H5A_dense_rec_name, hopen] using hn

/-- No record reads as a name: `H5A_dense_exists` is `FALSE`. -/
theorem H5A_dense_exists_eq_false (f : H5F_t) (ainfo : H5O_ainfo_t) (name : String)
    (fheap : Nat) (recs : List H5A_dense_bt2_name_rec_t)
    (h1 : H5HF_open f ainfo.fheap_addr = some fheap)
    (hrecs : H5B2_name_recs f ainfo.name_bt2_addr = some recs)
    (hno : ∀ r ∈ recs, H5A_dense_rec_name f fheap r ≠ some name) :
    H5A_dense_exists f ainfo name = FALSE := by
  rw [H5A_dense_exists_eq f ainfo name fheap recs h1 hrecs]
  have : recs.find? (H5A_dense_is_named f fheap name) = none := by
    rw [List.find?_eq_none]
    intro r hr hn
    exact hno r hr (H5A_dense_rec_name_of_is_named f fheap name r hn)
  rw [this]
  rfl

/-- C7: in a well-formed store holding an attribute named `name` with creation
order `attr.crt_idx`, `H5A_dense_remove` of that name succeeds; afterwards
`H5A_dense_exists` of the name is `FALSE`, the name index is the old one with
the record of that attribute taken out, and the creation order index, when it
exists, is the old one with the record of that creation order taken out and
holds no record with that creation order; without a creation order index the
creation order indexes of the file are as before. -/
theorem H5A_dense_remove_effect (f : H5F_t) (ainfo : H5O_ainfo_t) (name : String)
    (attr : H5A_t) (hv : H5A_dense_valid f ainfo = true)
    (hopen : H5A_dense_open f ainfo name = some attr) :
    (H5A_dense_remove f ainfo name).1 = SUCCEED ∧
    H5A_dense_exists (H5A_dense_remove f ainfo name).2 ainfo name = FALSE ∧
    (∃ l1 r l2, H5B2_name_recs f ainfo.name_bt2_addr = some (l1 ++ r :: l2) ∧
      r.corder = attr.crt_idx ∧
      H5B2_name_recs (H5A_dense_remove f ainfo name).2 ainfo.name_bt2_addr = some (l1 ++ l2)) ∧
    (∀ c, ainfo.corder_bt2_addr = some c →
      ∃ m1 x m2, H5B2_corder_recs f (some c) = some (m1 ++ x :: m2) ∧
        x.corder = attr.crt_idx ∧
        H5B2_corder_recs (H5A_dense_remove f ainfo name).2 (some c) = some (m1 ++ m2) ∧
        ∀ y ∈ m1 ++ m2, y.corder ≠ attr.crt_idx) ∧
    (ainfo.corder_bt2_addr = none →
      (H5A_dense_remove f ainfo name).2.corder_bt2 = f.corder_bt2) := by
  obtain ⟨fheap, recs, h1, hrecs, hread, hnodup, hidx, hmirror⟩ :=
    (H5A_dense_valid_iff f ainfo).1 hv
  obtain ⟨r, hr, hname, hattr, -, hcrt⟩ :=
    H5A_dense_open_some f ainfo name fheap recs attr h1 hrecs hopen
  obtain ⟨l1, l2, f2, hsplit, hres, hopen2, hrecs2, hshr, hother, hcnone, hcsome⟩ :=
    H5A_dense_remove_valid f ainfo name fheap recs h1 hrecs hread hnodup hmirror r hr hname
  rw [hres]
  refine ⟨rfl, ?_, ⟨l1, r, l2, by rw [hrecs, hsplit], hcrt.symm, hrecs2⟩, ?_, hcnone⟩
  · refine H5A_dense_exists_eq_false f2 ainfo name fheap (l1 ++ l2) hopen2 hrecs2 ?_
    intro x hx hxn
    apply hother x hx
    cases hx2 : H5A_dense_heap_op f2 fheap (H5A_dense_shared_fheap f2) x.common with
    | none => simp [H5A_dense_rec_name, hx2] at hxn
    | some a2 =>
      have := hshr.2.2.2 _ _ hx2
      simp only [H5A_dense_rec_name, hx2, Option.map_some'] at hxn
      simp only [H5A_dense_rec_name, this, Option.map_some']
      exact hxn
  · intro c hc
    obtain ⟨crecs, hcrecs, -⟩ := hmirror c hc
    obtain ⟨m1, m2, hsplit2, hcrecs2, hno⟩ := hcsome c crecs hc hcrecs
    refine ⟨m1, r.common, m2, by rw [hcrecs, hsplit2], hcrt.symm, hcrecs2, ?_⟩
    rw [hcrt]
    exact hno

theorem H5A_dense_remove_effect_witness :
    (H5A_dense_remove (H5A_ex_file3 true) (H5A_ex_ainfo1 true) "a").1 = SUCCEED ∧
    H5A_dense_exists (H5A_dense_remove (H5A_ex_file3 true) (H5A_ex_ainfo1 true) "a").2
      (H5A_ex_ainfo1 true) "a" = FALSE :=
  have h := H5A_dense_remove_effect (H5A_ex_file3 true) (H5A_ex_ainfo1 true) "a"
    ⟨⟨H5O_share_type_t.H5O_SHARE_TYPE_SOHM, 0⟩, "a", 3, 1, [1, 2, 3]⟩ (by decide) (by decide)
  ⟨h.1, h.2.1⟩

/-! ## Inserting a name the store already holds -/

/-- `List.find?` with two predicates that agree on the members of the list. -/
theorem List.find?_congr_mem {α : Type} (p q : α → Bool) (l : List α)
    (h : ∀ x ∈ l, p x = q x) : l.find? p = l.find? q := by
  induction l with
  | nil => rfl
  | cons x xs ih =>
    simp only [List.find?_cons, h x (List.mem_cons_self _ _)]
    rw [ih (fun y hy => h y (List.mem_cons_of_mem _ hy))]

/-- `H5A_dense_insert` of a name the name index already holds fails with both
indexes untouched; what it stored before probing the name index stays. -/
theorem H5A_dense_insert_dup_name (f : H5F_t) (ainfo : H5O_ainfo_t) (attr : H5A_t)
    (fheap a : Nat) (t : H5B2_t H5A_dense_bt2_name_rec_t)
    (h1 : H5HF_open f ainfo.fheap_addr = some fheap) (ha : ainfo.name_bt2_addr = some a)
    (ht : f.name_bt2 a = some t)
    (hdup : ∃ r ∈ t.recs, H5A_dense_is_named f fheap attr.name r = true) :
    ∃ f2 attr1, H5A_dense_insert f ainfo attr = (FAIL, f2, attr1) ∧
      H5A_dense_grows f f2 fheap attr.name ∧ f2.name_bt2 = f.name_bt2 ∧
      f2.corder_bt2 = f.corder_bt2 ∧ H5HF_open f2 ainfo.fheap_addr = some fheap := by
  obtain ⟨f2, attr1, flg, id, -, hgrow, hnb2, hcb2, hopen2, -, -, -, hcases⟩ :=
    H5A_dense_insert_spec f ainfo attr fheap a t h1 ha ht
  rcases hcases with ⟨hres, -⟩ | ⟨hno, -⟩
  · exact ⟨f2, attr1, hres, hgrow, hnb2, hcb2, hopen2⟩
  · obtain ⟨r, hr, hn⟩ := hdup
    have := H5A_dense_is_named_mono f f2 fheap attr.name attr.name hgrow r hn
    rw [hno r hr] at this
    cases this

/-- Two files that hold the same indexes and read the records of these
indexes alike give the same results for `H5A_dense_open`, `H5A_dense_exists`,
`H5A_dense_build_table` and `H5A_dense_iterate`. -/
theorem H5A_dense_view_congr (f g : H5F_t) (ainfo : H5O_ainfo_t) (fheap : Nat)
    (recs : List H5A_dense_bt2_name_rec_t)
    (h1f : H5HF_open f ainfo.fheap_addr = some fheap)
    (h1g : H5HF_open g ainfo.fheap_addr = some fheap)
    (hnb : g.name_bt2 = f.name_bt2) (hcb : g.corder_bt2 = f.corder_bt2)
    (hh : g.H5_checksum_lookup3 = f.H5_checksum_lookup3)
    (hrecs : H5B2_name_recs f ainfo.name_bt2_addr = some recs)
    (hsame : ∀ r ∈ recs, H5A_dense_heap_op g fheap (H5A_dense_shared_fheap g) r.common =
      H5A_dense_heap_op f fheap (H5A_dense_shared_fheap f) r.common)
    (hcsame : ∀ crecs, H5B2_corder_recs f ainfo.corder_bt2_addr = some crecs →
      ∀ x ∈ crecs, H5A_dense_heap_op g fheap (H5A_dense_shared_fheap g) x =
        H5A_dense_heap_op f fheap (H5A_dense_shared_fheap f) x) :
    (∀ name, H5A_dense_open g ainfo name = H5A_dense_open f ainfo name) ∧
    (∀ name, H5A_dense_exists g ainfo name = H5A_dense_exists f ainfo name) ∧
    (∀ idx_type order, H5A_dense_build_table g ainfo idx_type order =
      H5A_dense_build_table f ainfo idx_type order) ∧
    (∀ (σ : Type) idx_type order skip last_attr (attr_op : H5A_t → σ → Int × σ) (d : σ),
      H5A_dense_iterate g ainfo idx_type order skip last_attr attr_op d =
        H5A_dense_iterate f ainfo idx_type order skip last_attr attr_op d) := by
  have hrecsg : H5B2_name_recs g ainfo.name_bt2_addr = some recs := by
    rw [← hrecs]
    simp only [H5B2_name_recs, hnb]
  have hcrecsg : H5B2_corder_recs g ainfo.corder_bt2_addr =
      H5B2_corder_recs f ainfo.corder_bt2_addr := by
    simp only [H5B2_corder_recs, hcb]
  have hnamed : ∀ name, ∀ r ∈ recs,
      H5A_dense_is_named g fheap name r = H5A_dense_is_named f fheap name r := by
    intro name r hr
    simp only [H5A_dense_is_named, H5A_dense_rec_name, hsame r hr, hh]
  have hfind : ∀ name, recs.find? (H5A_dense_is_named g fheap name) =
      recs.find? (H5A_dense_is_named f fheap name) :=
    fun name => List.find?_congr_mem _ _ recs (hnamed name)
  have hmap : (recs.map H5A_dense_bt2_name_rec_t.common).map
        (H5A_dense_heap_op g fheap (H5A_dense_shared_fheap g)) =
      (recs.map H5A_dense_bt2_name_rec_t.common).map
        (H5A_dense_heap_op f fheap (H5A_dense_shared_fheap f)) := by
    rw [List.map_map, List.map_map]
    apply List.map_congr_left
    intro r hr
    exact hsame r hr
  have htable : ∀ idx_type order, H5A_dense_build_table g ainfo idx_type order =
      H5A_dense_build_table f ainfo idx_type order := by
    intro idx_type order
    simp only [H5A_dense_build_table, h1f, h1g, hrecs, hrecsg, H5B2_iterate_eq_walk, hmap]
  refine ⟨?_, ?_, htable, ?_⟩
  · intro name
    rw [H5A_dense_open_eq f ainfo name fheap recs h1f hrecs,
      H5A_dense_open_eq g ainfo name fheap recs h1g hrecsg, hfind]
    cases hf : recs.find? (H5A_dense_is_named f fheap name) with
    | none => rfl
    | some r => exact hsame r (List.mem_of_find?_eq_some hf)
  · intro name
    rw [H5A_dense_exists_eq f ainfo name fheap recs h1f hrecs,
      H5A_dense_exists_eq g ainfo name fheap recs h1g hrecsg, hfind]
  · intro σ idx_type order skip last_attr attr_op d
    unfold H5A_dense_iterate
    cases idx_type with
    | H5_INDEX_NAME =>
      by_cases hord : order = H5_iter_order_t.H5_ITER_NATIVE
      · simp only [hord, if_true, htable, h1f, h1g, hrecs, hrecsg, H5B2_iterate_eq_walk,
          Option.map_some', hmap]
      · simp only [hord, if_false, false_and, htable]
    | H5_INDEX_CRT_ORDER =>
      simp only [htable, h1f, h1g, hcrecsg, H5B2_iterate_eq_walk]
      cases hc : H5B2_corder_recs f ainfo.corder_bt2_addr with
      | none => rfl
      | some crecs =>
        simp only
        have : crecs.map (H5A_dense_heap_op g fheap (H5A_dense_shared_fheap g)) =
            crecs.map (H5A_dense_heap_op f fheap (H5A_dense_shared_fheap f)) :=
          List.map_congr_left (hcsame crecs hc)
        rw [this]

/-- A file that has grown from a well-formed store without touching its
indexes gives the same results for `H5A_dense_open`, `H5A_dense_exists`,
`H5A_dense_build_table` and `H5A_dense_iterate`. -/
theorem H5A_dense_view_of_grows (f g : H5F_t) (ainfo : H5O_ainfo_t) (fheap : Nat) (nm : String)
    (hv : H5A_dense_valid f ainfo = true)
    (h1g : H5HF_open g ainfo.fheap_addr = some fheap)
    (hgrow : H5A_dense_grows f g fheap nm)
    (hnb : g.name_bt2 = f.name_bt2) (hcb : g.corder_bt2 = f.corder_bt2) :
    (∀ name, H5A_dense_open g ainfo name = H5A_dense_open f ainfo name) ∧
    (∀ name, H5A_dense_exists g ainfo name = H5A_dense_exists f ainfo name) ∧
    (∀ idx_type order, H5A_dense_build_table g ainfo idx_type order =
      H5A_dense_build_table f ainfo idx_type order) ∧
    (∀ (σ : Type) idx_type order skip last_attr (attr_op : H5A_t → σ → Int × σ) (d : σ),
      H5A_dense_iterate g ainfo idx_type order skip last_attr attr_op d =
        H5A_dense_iterate f ainfo idx_type order skip last_attr attr_op d) := by
  obtain ⟨fheap1, recs, h1, hrecs, hread, -, -, hmirror⟩ := (H5A_dense_valid_iff f ainfo).1 hv
  have hfh : fheap1 = fheap := by
    have h2 := (H5HF_open_eq_some g _ fheap).1 h1g
    have h3 := (H5HF_open_eq_some f _ fheap1).1 h1
    rcases h2 with ⟨h2, -⟩
    rcases h3 with ⟨h3, -⟩
    rw [h2] at h3
    cases h3
    rfl
  subst hfh
  have hsame : ∀ r ∈ recs,
      H5A_dense_heap_op g fheap1 (H5A_dense_shared_fheap g) r.common =
        H5A_dense_heap_op f fheap1 (H5A_dense_shared_fheap f) r.common := by
    intro r hr
    obtain ⟨attr, hattr, -⟩ := hread r hr
    rw [hattr]
    exact hgrow.2.2.1 _ _ hattr
  refine H5A_dense_view_congr f g ainfo fheap1 recs h1 h1g hnb hcb hgrow.1 hrecs hsame ?_
  intro crecs hcrecs x hx
  obtain ⟨c, t, hc, -, -⟩ := (H5B2_corder_recs_eq_some _ _ _).1 hcrecs
  obtain ⟨crecs1, hcrecs1, hperm, -⟩ := hmirror c hc
  rw [hc] at hcrecs
  rw [hcrecs] at hcrecs1
  cases hcrecs1
  obtain ⟨r, hr, rfl⟩ := List.mem_map.1 (hperm.symm.subset hx)
  exact hsame r hr

/-- In a well-formed store, `H5A_dense_exists` is `TRUE` for a name exactly
when a record of the name index is located by the lookup of that name. -/
theorem H5A_dense_exists_true (f : H5F_t) (ainfo : H5O_ainfo_t) (name : String) (fheap : Nat)
    (recs : List H5A_dense_bt2_name_rec_t)
    (h1 : H5HF_open f ainfo.fheap_addr = some fheap)
    (hrecs : H5B2_name_recs f ainfo.name_bt2_addr = some recs)
    (hex : H5A_dense_exists f ainfo name = TRUE) :
    ∃ r ∈ recs, H5A_dense_is_named f fheap name r = true := by
  rw [H5A_dense_exists_eq f ainfo name fheap recs h1 hrecs] at hex
  cases hf : recs.find? (H5A_dense_is_named f fheap name) with
  | none =>
    rw [hf] at hex
    simp at hex
  | some r => exact ⟨r, List.mem_of_find?_eq_some hf, List.find?_some hf⟩

/-- C3: in a well-formed store that holds an attribute named `attr.name`,
`H5A_dense_insert` of `attr` fails, and afterwards the name index and the
creation order index are those of before and `H5A_dense_open`,
`H5A_dense_exists` and `H5A_dense_iterate` return for every argument what
they returned before. -/
theorem H5A_dense_insert_existing_name (f : H5F_t) (ainfo : H5O_ainfo_t) (attr : H5A_t)
    (hv : H5A_dense_valid f ainfo = true)
    (hex : H5A_dense_exists f ainfo attr.name = TRUE) :
    (H5A_dense_insert f ainfo attr).1 = FAIL ∧
    (H5A_dense_insert f ainfo attr).2.1.name_bt2 = f.name_bt2 ∧
    (H5A_dense_insert f ainfo attr).2.1.corder_bt2 = f.corder_bt2 ∧
    (∀ name, H5A_dense_open (H5A_dense_insert f ainfo attr).2.1 ainfo name =
      H5A_dense_open f ainfo name) ∧
    (∀ name, H5A_dense_exists (H5A_dense_insert f ainfo attr).2.1 ainfo name =
      H5A_dense_exists f ainfo name) ∧
    (∀ (σ : Type) idx_type order skip last_attr (attr_op : H5A_t → σ → Int × σ) (d : σ),
      H5A_dense_iterate (H5A_dense_insert f ainfo attr).2.1 ainfo idx_type order skip last_attr
          attr_op d =
        H5A_dense_iterate f ainfo idx_type order skip last_attr attr_op d) := by
  obtain ⟨fheap, recs, h1, hrecs, -, -, -, -⟩ := (H5A_dense_valid_iff f ainfo).1 hv
  obtain ⟨a, t, ha, ht, htr⟩ := (H5B2_name_recs_eq_some _ _ _).1 hrecs
  subst htr
  obtain ⟨f2, attr1, hres, hgrow, hnb, hcb, hopen2⟩ :=
    H5A_dense_insert_dup_name f ainfo attr fheap a t h1 ha ht
      (H5A_dense_exists_true f ainfo attr.name fheap t.recs h1 hrecs hex)
  have hview := H5A_dense_view_of_grows f f2 ainfo fheap attr.name hv hopen2 hgrow hnb hcb
  rw [hres]
  exact ⟨rfl, hnb, hcb, hview.1, hview.2.1, hview.2.2.2⟩

theorem H5A_dense_insert_existing_name_witness :
    (H5A_dense_insert (H5A_ex_file3 true) (H5A_ex_ainfo1 true) (H5A_ex_attr "a" 7 [9])).1 =
      FAIL :=
  (H5A_dense_insert_existing_name (H5A_ex_file3 true) (H5A_ex_ainfo1 true)
    (H5A_ex_attr "a" 7 [9]) (by decide) (by decide)).1

/-! ## Renaming -/

/-- `H5A_dense_rename` up to the re-insertion of the renamed copy: when the
re-insertion fails, the call fails with the file the re-insertion left. -/
theorem H5A_dense_rename_insert_fails (f : H5F_t) (ainfo : H5O_ainfo_t)
    (old_name new_name : String) (fheap : Nat) (recs : List H5A_dense_bt2_name_rec_t)
    (h1 : H5HF_open f ainfo.fheap_addr = some fheap)
    (hrecs : H5B2_name_recs f ainfo.name_bt2_addr = some recs)
    (hex : H5A_dense_exists f ainfo old_name = TRUE) :
    ∃ r ∈ recs, ∃ copy : H5A_t, H5A_dense_is_named f fheap old_name r = true ∧
      copy.name = new_name ∧ copy.crt_idx = r.corder ∧
      ((H5A_dense_insert f ainfo copy).1 = FAIL →
        H5A_dense_rename f ainfo old_name new_name = (FAIL, (H5A_dense_insert f ainfo copy).2.1)) := by
  have hex2 := hex
  rw [H5A_dense_exists_eq f ainfo old_name fheap recs h1 hrecs] at hex2
  cases hf : recs.find? (H5A_dense_is_named f fheap old_name) with
  | none =>
    rw [hf] at hex2
    simp at hex2
  | some r =>
    obtain ⟨attr, hattr, -⟩ :=
      H5A_dense_is_named_heap_op f fheap old_name r (List.find?_some hf)
    have hfound : H5B2_find_name f ainfo.name_bt2_addr
        ⟨fheap, H5A_dense_shared_fheap f, old_name, f.H5_checksum_lookup3 old_name, ⟨false⟩, 0⟩ =
        some (r, attr) := by
      rw [H5B2_find_name_eq f ainfo.name_bt2_addr _ recs hrecs,
        H5A_dense_name_match_eq f _ rfl rfl]
      simp only [hf, Option.some_bind, hattr, Option.map_some']
    have hcrt := H5A_dense_heap_op_crt_idx _ _ _ _ _ hattr
    refine ⟨r, List.mem_of_find?_eq_some hf,
      { ({ (if H5O_msg_is_shared attr then
              { attr with sh_loc :=
                  { attr.sh_loc with type := H5O_share_type_t.H5O_SHARE_TYPE_UNSHARED } }
            else attr) with name := new_name } : H5A_t) with
        version := f.H5A_get_version
          ({ (if H5O_msg_is_shared attr then
              { attr with sh_loc :=
                  { attr.sh_loc with type := H5O_share_type_t.H5O_SHARE_TYPE_UNSHARED } }
            else attr) with name := new_name } : H5A_t) },
      List.find?_some hf, rfl, ?_, ?_⟩
    · simp only
      split
      · exact hcrt
      · exact hcrt
    · intro hfail
      unfold H5A_dense_rename
      simp only [h1, hfound]
      rw [if_pos (by rw [hfail]; decide)]

/-- C10 (as the code has it): in a well-formed store holding attributes named
`old_name` and `new_name`, `H5A_dense_rename` fails at the re-insertion of the
renamed copy; the name index and the creation order index are those of
before, and `H5A_dense_open` and `H5A_dense_exists` return for every name
what they returned before, so both attributes are still found unchanged. -/
theorem H5A_dense_rename_onto_existing (f : H5F_t) (ainfo : H5O_ainfo_t)
    (old_name new_name : String) (hv : H5A_dense_valid f ainfo = true)
    (hold : H5A_dense_exists f ainfo old_name = TRUE)
    (hnew : H5A_dense_exists f ainfo new_name = TRUE) :
    (H5A_dense_rename f ainfo old_name new_name).1 = FAIL ∧
    (H5A_dense_rename f ainfo old_name new_name).2.name_bt2 = f.name_bt2 ∧
    (H5A_dense_rename f ainfo old_name new_name).2.corder_bt2 = f.corder_bt2 ∧
    (∀ name, H5A_dense_open (H5A_dense_rename f ainfo old_name new_name).2 ainfo name =
      H5A_dense_open f ainfo name) ∧
    (∀ name, H5A_dense_exists (H5A_dense_rename f ainfo old_name new_name).2 ainfo name =
      H5A_dense_exists f ainfo name) := by
  obtain ⟨fheap, recs, h1, hrecs, -, -, -, -⟩ := (H5A_dense_valid_iff f ainfo).1 hv
  obtain ⟨r, -, copy, -, hcn, -, hren⟩ :=
    H5A_dense_rename_insert_fails f ainfo old_name new_name fheap recs h1 hrecs hold
  obtain ⟨a, t, ha, ht, htr⟩ := (H5B2_name_recs_eq_some _ _ _).1 hrecs
  subst htr
  obtain ⟨f2, attr1, hres, hgrow, hnb, hcb, hopen2⟩ :=
    H5A_dense_insert_dup_name f ainfo copy fheap a t h1 ha ht
      (by rw [hcn]; exact H5A_dense_exists_true f ainfo new_name fheap t.recs h1 hrecs hnew)
  have hview := H5A_dense_view_of_grows f f2 ainfo fheap copy.name hv hopen2 hgrow hnb hcb
  rw [hren (by rw [hres]), hres]
  exact ⟨rfl, hnb, hcb, hview.1, hview.2.1⟩

theorem H5A_dense_rename_onto_existing_witness :
    (H5A_dense_rename (H5A_ex_file3 false) (H5A_ex_ainfo1 false) "z" "m").1 = FAIL :=
  (H5A_dense_rename_onto_existing (H5A_ex_file3 false) (H5A_ex_ainfo1 false) "z" "m"
    (by decide) (by decide) (by decide)).1

/-- C10 fails as stated: in the example store, which holds "z", "a" and "m",
renaming "z" to "m" fails and leaves the object's heap with another content
than before, and renaming "a" to "m" fails and leaves the shared message
table with another content than before. -/
theorem H5A_dense_rename_onto_existing_mutates :
    H5A_dense_exists (H5A_ex_file3 false) (H5A_ex_ainfo1 false) "z" = TRUE ∧
    H5A_dense_exists (H5A_ex_file3 false) (H5A_ex_ainfo1 false) "a" = TRUE ∧
    H5A_dense_exists (H5A_ex_file3 false) (H5A_ex_ainfo1 false) "m" = TRUE ∧
    (H5A_dense_rename (H5A_ex_file3 false) (H5A_ex_ainfo1 false) "z" "m").1 = FAIL ∧
    (H5A_dense_rename (H5A_ex_file3 false) (H5A_ex_ainfo1 false) "z" "m").2.fheaps 0 ≠
      (H5A_ex_file3 false).fheaps 0 ∧
    (H5A_dense_rename (H5A_ex_file3 false) (H5A_ex_ainfo1 false) "a" "m").1 = FAIL ∧
    (H5A_dense_rename (H5A_ex_file3 false) (H5A_ex_ainfo1 false) "a" "m").2.sohm ≠
      (H5A_ex_file3 false).sohm := by
  decide

/-- C9 (what the code does): in a well-formed store with a creation order
index that holds an attribute named `old_name`, `H5A_dense_rename` fails for
every new name: the renamed copy is re-inserted with the creation order of
the attribute while the record of the attribute is still in the creation
order index. -/
theorem H5A_dense_rename_corder_fails (f : H5F_t) (ainfo : H5O_ainfo_t)
    (old_name new_name : String) (hv : H5A_dense_valid f ainfo = true)
    (hidx : ainfo.index_corder = true)
    (hold : H5A_dense_exists f ainfo old_name = TRUE) :
    (H5A_dense_rename f ainfo old_name new_name).1 = FAIL := by
  obtain ⟨fheap, recs, h1, hrecs, -, -, hdef, hmirror⟩ := (H5A_dense_valid_iff f ainfo).1 hv
  obtain ⟨r, hr, copy, -, -, hcrt, hren⟩ :=
    H5A_dense_rename_insert_fails f ainfo old_name new_name fheap recs h1 hrecs hold
  obtain ⟨a, t, ha, ht, htr⟩ := (H5B2_name_recs_eq_some _ _ _).1 hrecs
  subst htr
  have hfail : (H5A_dense_insert f ainfo copy).1 = FAIL := by
    obtain ⟨f2, attr1, flg, id, -, -, -, -, -, -, -, -, hcases⟩ :=
      H5A_dense_insert_spec f ainfo copy fheap a t h1 ha ht
    rcases hcases with ⟨hres, -⟩ | ⟨-, -, -, lt, hres⟩
    · rw [hres]
    · rcases hres with ⟨hfalse, -⟩ | ⟨-, ⟨hres, -⟩ | ⟨c, ct, ltc, -, hc, hct, hno, -⟩⟩
      · rw [hidx] at hfalse
        cases hfalse
      · rw [hres]
      · exfalso
        obtain ⟨crecs, hcrecs, hperm, -⟩ := hmirror c hc
        obtain ⟨c1, ct1, hc1, hct1, hctr⟩ := (H5B2_corder_recs_eq_some _ _ _).1 hcrecs
        cases hc1
        rw [hct] at hct1
        cases hct1
        have hmem : r.common ∈ ct.recs := by
          rw [hctr]
          exact hperm.subset (List.mem_map_of_mem _ hr)
        exact hno r.common hmem hcrt.symm
  rw [hren hfail]

theorem H5A_dense_rename_corder_fails_witness :
    H5A_dense_valid (H5A_ex_file3 true) (H5A_ex_ainfo1 true) = true ∧
    H5A_dense_exists (H5A_ex_file3 true) (H5A_ex_ainfo1 true) "a" = TRUE ∧
    H5A_dense_exists (H5A_ex_file3 true) (H5A_ex_ainfo1 true) "b" = FALSE ∧
    (H5A_dense_rename (H5A_ex_file3 true) (H5A_ex_ainfo1 true) "a" "b").1 = FAIL ∧
    H5A_dense_exists (H5A_dense_rename (H5A_ex_file3 true) (H5A_ex_ainfo1 true) "a" "b").2
      (H5A_ex_ainfo1 true) "a" = TRUE :=
  ⟨by decide, by decide, by decide,
    H5A_dense_rename_corder_fails (H5A_ex_file3 true) (H5A_ex_ainfo1 true) "a" "b"
      (by decide) (by decide) (by decide),
    by decide⟩

/-! ## Removal by position -/

/-- The two branches of `H5A_dense_remove_by_idx` by the index requested. -/
theorem H5A_dense_remove_by_idx_eq (f : H5F_t) (ainfo : H5O_ainfo_t)
    (order : H5_iter_order_t) (n : Nat) :
    (∀ c fheap, ainfo.corder_bt2_addr = some c → H5HF_open f ainfo.fheap_addr = some fheap →
      H5A_dense_remove_by_idx f ainfo H5_index_t.H5_INDEX_CRT_ORDER order n =
        H5B2_remove_by_idx_corder f (some c) order n
          (H5A_dense_remove_by_idx_bt2_cb
            (H5A_dense_remove_by_idx_udata f ainfo fheap H5_index_t.H5_INDEX_CRT_ORDER))) ∧
    (∀ a fheap, ainfo.name_bt2_addr = some a → H5HF_open f ainfo.fheap_addr = some fheap →
      H5A_dense_remove_by_idx f ainfo H5_index_t.H5_INDEX_NAME
          H5_iter_order_t.H5_ITER_NATIVE n =
        H5B2_remove_by_idx_name f (some a) H5_iter_order_t.H5_ITER_NATIVE n
          (H5A_dense_remove_by_idx_bt2_cb
            (H5A_dense_remove_by_idx_udata f ainfo fheap H5_index_t.H5_INDEX_NAME))) ∧
    (order ≠ H5_iter_order_t.H5_ITER_NATIVE →
      H5A_dense_remove_by_idx f ainfo H5_index_t.H5_INDEX_NAME order n =
        H5A_dense_remove_by_idx_table f ainfo H5_index_t.H5_INDEX_NAME order n) ∧
    (ainfo.corder_bt2_addr = none →
      H5A_dense_remove_by_idx f ainfo H5_index_t.H5_INDEX_CRT_ORDER order n =
        H5A_dense_remove_by_idx_table f ainfo H5_index_t.H5_INDEX_CRT_ORDER order n) := by
  refine ⟨?_, ?_, ?_, ?_⟩
  · intro c fheap hc h1
    unfold H5A_dense_remove_by_idx
    simp only [hc, H5F_addr_defined, Option.isSome_some, if_true, h1]
    rfl
  · intro a fheap ha h1
    unfold H5A_dense_remove_by_idx
    simp only [ha, H5F_addr_defined, Option.isSome_some, if_true, h1]
    rfl
  · intro hord
    unfold H5A_dense_remove_by_idx H5A_dense_remove_by_idx_table
    simp only [hord, if_false, H5F_addr_defined, Option.isSome_none, Bool.false_eq_true] <;> rfl
  · intro hc
    unfold H5A_dense_remove_by_idx H5A_dense_remove_by_idx_table
    simp only [hc, H5F_addr_defined, Option.isSome_none, Bool.false_eq_true, if_false] <;> rfl

/-- C16 (as the code has it): `H5A_dense_remove_by_idx` walks an index directly
whenever the requested kind has one: the creation order index, when it exists,
for `H5_INDEX_CRT_ORDER` in every order (increasing and decreasing included),
and the name index for `H5_INDEX_NAME` in native order; for every other
request it resolves the position through the table builder and removes the
attribute by name. -/
theorem H5A_dense_remove_by_idx_dispatch (f : H5F_t) (ainfo : H5O_ainfo_t)
    (order : H5_iter_order_t) (n : Nat) :
    (∀ c fheap, ainfo.corder_bt2_addr = some c → H5HF_open f ainfo.fheap_addr = some fheap →
      H5A_dense_remove_by_idx f ainfo H5_index_t.H5_INDEX_CRT_ORDER order n =
        H5B2_remove_by_idx_corder f (some c) order n
          (H5A_dense_remove_by_idx_bt2_cb
            (H5A_dense_remove_by_idx_udata f ainfo fheap H5_index_t.H5_INDEX_CRT_ORDER))) ∧
    (∀ a fheap, ainfo.name_bt2_addr = some a → H5HF_open f ainfo.fheap_addr = some fheap →
      H5A_dense_remove_by_idx f ainfo H5_index_t.H5_INDEX_NAME
          H5_iter_order_t.H5_ITER_NATIVE n =
        H5B2_remove_by_idx_name f (some a) H5_iter_order_t.H5_ITER_NATIVE n
          (H5A_dense_remove_by_idx_bt2_cb
            (H5A_dense_remove_by_idx_udata f ainfo fheap H5_index_t.H5_INDEX_NAME))) ∧
    (order ≠ H5_iter_order_t.H5_ITER_NATIVE →
      H5A_dense_remove_by_idx f ainfo H5_index_t.H5_INDEX_NAME order n =
        H5A_dense_remove_by_idx_table f ainfo H5_index_t.H5_INDEX_NAME order n) ∧
    (ainfo.corder_bt2_addr = none →
      H5A_dense_remove_by_idx f ainfo H5_index_t.H5_INDEX_CRT_ORDER order n =
        H5A_dense_remove_by_idx_table f ainfo H5_index_t.H5_INDEX_CRT_ORDER order n) :=
  H5A_dense_remove_by_idx_eq f ainfo order n

theorem H5A_dense_remove_by_idx_dispatch_witness :
    H5A_dense_remove_by_idx (H5A_ex_file3 true) (H5A_ex_ainfo1 true)
        H5_index_t.H5_INDEX_CRT_ORDER H5_iter_order_t.H5_ITER_INC 1 =
      H5B2_remove_by_idx_corder (H5A_ex_file3 true) (some 2) H5_iter_order_t.H5_ITER_INC 1
        (H5A_dense_remove_by_idx_bt2_cb
          (H5A_dense_remove_by_idx_udata (H5A_ex_file3 true) (H5A_ex_ainfo1 true) 0
            H5_index_t.H5_INDEX_CRT_ORDER)) :=
  (H5A_dense_remove_by_idx_dispatch (H5A_ex_file3 true) (H5A_ex_ainfo1 true)
    H5_iter_order_t.H5_ITER_INC 1).1 2 0 (by decide) (by decide)

/-- C16 fails as stated: after the failed rename of "a" to "b" in the example
store with a creation order index, the name index holds four records and the
creation order index three.  Position 3 in increasing creation order exists in
the table of the table builder, and resolving it through the table and
removing by name succeeds; `H5A_dense_remove_by_idx` for
`H5_INDEX_CRT_ORDER` and `H5_ITER_INC` fails, because it walks the creation
order index. -/
theorem H5A_dense_remove_by_idx_not_table :
    (H5A_ex_ainfo1 true).corder_bt2_addr = some 2 ∧
    (H5A_dense_remove_by_idx_table
      (H5A_dense_rename (H5A_ex_file3 true) (H5A_ex_ainfo1 true) "a" "b").2 (H5A_ex_ainfo1 true)
      H5_index_t.H5_INDEX_CRT_ORDER H5_iter_order_t.H5_ITER_INC 3).1 = SUCCEED ∧
    (H5A_dense_remove_by_idx
      (H5A_dense_rename (H5A_ex_file3 true) (H5A_ex_ainfo1 true) "a" "b").2 (H5A_ex_ainfo1 true)
      H5_index_t.H5_INDEX_CRT_ORDER H5_iter_order_t.H5_ITER_INC 3).1 = FAIL := by
  decide

/-- The walk of the table builder over records that can all be read collects
the attributes read, in the order of the records. -/
theorem H5A_dense_walk_collect (attrs : List H5A_t) :
    ∀ (count : Nat) (acc : List H5A_t),
      H5A_dense_walk (fun attr tbl => ((H5_ITER_CONT : Int), tbl ++ [attr])) (attrs.map some)
          count 0 acc =
        (H5_ITER_CONT, count + attrs.length, 0, acc ++ attrs) := by
  induction attrs with
  | nil => intro count acc; simp [H5A_dense_walk]
  | cons a rest ih =>
    intro count acc
    simp only [List.map_cons, H5A_dense_walk, Nat.lt_irrefl, if_false, ne_eq,
      not_true_eq_false]
    rw [ih]
    simp only [List.length_cons, List.append_assoc, List.singleton_append]
    congr 2
    omega

/-- The attributes read for records that can all be read. -/
theorem H5A_dense_reads_some (f : H5F_t) (fheap : Nat) (recs : List H5A_dense_bt2_name_rec_t)
    (hread : ∀ r ∈ recs, ∃ attr,
      H5A_dense_heap_op f fheap (H5A_dense_shared_fheap f) r.common = some attr ∧
      f.H5_checksum_lookup3 attr.name = r.hash) :
    ∃ attrs : List H5A_t,
      (recs.map H5A_dense_bt2_name_rec_t.common).map
        (H5A_dense_heap_op f fheap (H5A_dense_shared_fheap f)) = attrs.map some ∧
      attrs.length = recs.length ∧
      ∀ attr ∈ attrs, ∃ r ∈ recs,
        H5A_dense_heap_op f fheap (H5A_dense_shared_fheap f) r.common = some attr := by
  induction recs with
  | nil => exact ⟨[], rfl, rfl, by simp⟩
  | cons r rs ih =>
    obtain ⟨attrs, hmap, hlen, hmem⟩ := ih (fun x hx => hread x (List.mem_cons_of_mem _ hx))
    obtain ⟨attr, hattr, -⟩ := hread r (List.mem_cons_self _ _)
    refine ⟨attr :: attrs, by simp only [List.map_cons, hattr, hmap], by simp [hlen], ?_⟩
    intro x hx
    rcases List.mem_cons.1 hx with rfl | hx
    · exact ⟨r, List.mem_cons_self _ _, hattr⟩
    · obtain ⟨r1, hr1, h⟩ := hmem x hx
      exact ⟨r1, List.mem_cons_of_mem _ hr1, h⟩

/-- The table the table builder makes of a store whose records can all be
read: the attributes read, sorted. -/
theorem H5A_dense_build_table_valid (f : H5F_t) (ainfo : H5O_ainfo_t) (fheap : Nat)
    (recs : List H5A_dense_bt2_name_rec_t)
    (h1 : H5HF_open f ainfo.fheap_addr = some fheap)
    (hrecs : H5B2_name_recs f ainfo.name_bt2_addr = some recs)
    (hread : ∀ r ∈ recs, ∃ attr,
      H5A_dense_heap_op f fheap (H5A_dense_shared_fheap f) r.common = some attr ∧
      f.H5_checksum_lookup3 attr.name = r.hash)
    (idx_type : H5_index_t) (order : H5_iter_order_t) :
    ∃ attrs : List H5A_t,
      (recs.map H5A_dense_bt2_name_rec_t.common).map
        (H5A_dense_heap_op f fheap (H5A_dense_shared_fheap f)) = attrs.map some ∧
      attrs.length = recs.length ∧
      (∀ attr ∈ attrs, ∃ r ∈ recs,
        H5A_dense_heap_op f fheap (H5A_dense_shared_fheap f) r.common = some attr) ∧
      H5A_dense_build_table f ainfo idx_type order =
        some (H5A_attr_sort_table attrs idx_type order) := by
  obtain ⟨attrs, hmap, hlen, hmem⟩ := H5A_dense_reads_some f fheap recs hread
  refine ⟨attrs, hmap, hlen, hmem, ?_⟩
  simp only [H5A_dense_build_table, h1, hrecs, H5B2_iterate_eq_walk, hmap,
    H5A_dense_walk_collect]
  simp

/-- Sorting an attribute table keeps its entries. -/
theorem H5A_attr_sort_table_perm (atable : List H5A_t) (idx_type : H5_index_t)
    (order : H5_iter_order_t) : (H5A_attr_sort_table atable idx_type order).Perm atable := by
  unfold H5A_attr_sort_table
  cases idx_type <;> cases order <;> first | exact List.perm_insertionSort _ _ | exact List.Perm.refl _

/-- A position past the last attribute of a well-formed store: the removal by
position fails and returns the file as it was. -/
theorem H5A_dense_remove_by_idx_range (f : H5F_t) (ainfo : H5O_ainfo_t)
    (idx_type : H5_index_t) (order : H5_iter_order_t) (p : Nat)
    (recs : List H5A_dense_bt2_name_rec_t) (hv : H5A_dense_valid f ainfo = true)
    (hrecs : H5B2_name_recs f ainfo.name_bt2_addr = some recs) (hp : recs.length ≤ p) :
    H5A_dense_remove_by_idx f ainfo idx_type order p = (FAIL, f) := by
  obtain ⟨fheap, recs1, h1, hrecs1, hread, -, -, hmirror⟩ := (H5A_dense_valid_iff f ainfo).1 hv
  rw [hrecs] at hrecs1
  cases hrecs1
  obtain ⟨a, t, ha, ht, htr⟩ := (H5B2_name_recs_eq_some _ _ _).1 hrecs
  subst htr
  have htable : ∀ idx_type, H5A_dense_remove_by_idx_table f ainfo idx_type order p = (FAIL, f) := by
    intro idx_type
    obtain ⟨attrs, -, hlen, -, htbl⟩ :=
      H5A_dense_build_table_valid f ainfo fheap t.recs h1 hrecs hread idx_type order
    have hnone : (H5A_attr_sort_table attrs idx_type order)[p]? = none := by
      rw [List.getElem?_eq_none]
      rw [(H5A_attr_sort_table_perm attrs idx_type order).length_eq, hlen]
      exact hp
    simp only [H5A_dense_remove_by_idx_table, htbl, hnone]
  have hdisp := H5A_dense_remove_by_idx_eq f ainfo order p
  cases idx_type with
  | H5_INDEX_NAME =>
    by_cases hord : order = H5_iter_order_t.H5_ITER_NATIVE
    · subst hord
      rw [hdisp.2.1 a fheap ha h1]
      simp only [H5B2_remove_by_idx_name, ht, hp, if_true]
    · rw [hdisp.2.2.1 hord]
      exact htable _
  | H5_INDEX_CRT_ORDER =>
    cases hc : ainfo.corder_bt2_addr with
    | none =>
      rw [hdisp.2.2.2 hc]
      exact htable _
    | some c =>
      rw [hdisp.1 c fheap hc h1]
      obtain ⟨crecs, hcrecs, hperm, -⟩ := hmirror c hc
      obtain ⟨c1, ct, hc1, hct, hctr⟩ := (H5B2_corder_recs_eq_some _ _ _).1 hcrecs
      cases hc1
      have hlen : ct.recs.length ≤ p := by
        rw [hctr, ← hperm.length_eq, List.length_map]
        exact hp
      simp only [H5B2_remove_by_idx_corder, hct, hlen, if_true]

/-- C15: in a well-formed store holding `recs.length` attributes,
`H5A_dense_remove_by_idx` with a position that is not smaller than that
number fails for every index kind and every order, and returns the file as it
was: both indexes, the heap and the shared message table are unchanged. -/
theorem H5A_dense_remove_by_idx_out_of_range (f : H5F_t) (ainfo : H5O_ainfo_t)
    (idx_type : H5_index_t) (order : H5_iter_order_t) (p : Nat)
    (recs : List H5A_dense_bt2_name_rec_t) (hv : H5A_dense_valid f ainfo = true)
    (hrecs : H5B2_name_recs f ainfo.name_bt2_addr = some recs) (hp : recs.length ≤ p) :
    H5A_dense_remove_by_idx f ainfo idx_type order p = (FAIL, f) :=
  H5A_dense_remove_by_idx_range f ainfo idx_type order p recs hv hrecs hp

theorem H5A_dense_remove_by_idx_out_of_range_witness :
    H5A_dense_remove_by_idx (H5A_ex_file3 true) (H5A_ex_ainfo1 true)
        H5_index_t.H5_INDEX_CRT_ORDER H5_iter_order_t.H5_ITER_DEC 3 =
      (FAIL, H5A_ex_file3 true) :=
  H5A_dense_remove_by_idx_out_of_range (H5A_ex_file3 true) (H5A_ex_ainfo1 true)
    H5_index_t.H5_INDEX_CRT_ORDER H5_iter_order_t.H5_ITER_DEC 3
    [⟨0, ⟨true⟩, 1, 1⟩, ⟨1, ⟨false⟩, 2, 1⟩, ⟨0, ⟨false⟩, 0, 1⟩] (by decide) (by decide)
    (by decide)

/-- In a well-formed store `H5A_dense_open` of the name a record reads as
returns the attribute read for that record. -/
theorem H5A_dense_open_of_rec (f : H5F_t) (ainfo : H5O_ainfo_t) (name : String) (fheap : Nat)
    (recs : List H5A_dense_bt2_name_rec_t)
    (h1 : H5HF_open f ainfo.fheap_addr = some fheap)
    (hrecs : H5B2_name_recs f ainfo.name_bt2_addr = some recs)
    (hread : ∀ r ∈ recs, ∃ attr,
      H5A_dense_heap_op f fheap (H5A_dense_shared_fheap f) r.common = some attr ∧
      f.H5_checksum_lookup3 attr.name = r.hash)
    (hnodup : (recs.map (H5A_dense_rec_name f fheap)).Nodup)
    (r : H5A_dense_bt2_name_rec_t) (hr : r ∈ recs)
    (hname : H5A_dense_rec_name f fheap r = some name) :
    H5A_dense_open f ainfo name =
      H5A_dense_heap_op f fheap (H5A_dense_shared_fheap f) r.common := by
  rw [H5A_dense_open_eq f ainfo name fheap recs h1 hrecs]
  have hnamed := H5A_dense_is_named_of_rec_name f fheap name r (hread r hr) hname
  cases hf : recs.find? (H5A_dense_is_named f fheap name) with
  | none =>
    have := List.find?_eq_none.1 hf r hr
    rw [hnamed] at this
    exact absurd rfl this
  | some r1 =>
    have : r1 = r := List.eq_of_nodup_map _ _ hnodup r1 r (List.mem_of_find?_eq_some hf) hr
      (by rw [H5A_dense_rec_name_of_is_named f fheap name r1 (List.find?_some hf), hname])
    subst this
    rfl

/-- After the removal of a name from a well-formed store, `H5A_dense_exists`
of that name is `FALSE`. -/
theorem H5A_dense_exists_after_remove (f f2 : H5F_t) (ainfo : H5O_ainfo_t) (name : String)
    (fheap : Nat) (l : List H5A_dense_bt2_name_rec_t)
    (hopen2 : H5HF_open f2 ainfo.fheap_addr = some fheap)
    (hrecs2 : H5B2_name_recs f2 ainfo.name_bt2_addr = some l)
    (hshr : H5A_dense_shrinks f f2 fheap name)
    (hother : ∀ x ∈ l, H5A_dense_rec_name f fheap x ≠ some name) :
    H5A_dense_exists f2 ainfo name = FALSE := by
  refine H5A_dense_exists_eq_false f2 ainfo name fheap l hopen2 hrecs2 ?_
  intro x hx hxn
  apply hother x hx
  cases hx2 : H5A_dense_heap_op f2 fheap (H5A_dense_shared_fheap f2) x.common with
  | none => simp [H5A_dense_rec_name, hx2] at hxn
  | some a2 =>
    have := hshr.2.2.2 _ _ hx2
    simp only [H5A_dense_rec_name, hx2, Option.map_some'] at hxn
    simp only [H5A_dense_rec_name, this, Option.map_some']
    exact hxn

/-- C14: in a well-formed store and for every position `k` smaller than the
number of attributes, `H5A_dense_remove_by_idx` for `H5_INDEX_NAME`,
`H5_ITER_INC` and `k` succeeds and removes the attribute that is entry `k` of
the table `H5A_dense_build_table` builds for `H5_INDEX_NAME` and
`H5_ITER_INC` on the state before the call: the result is that of
`H5A_dense_remove` of its name, `H5A_dense_exists` of that name is `FALSE`
afterwards, every other name is opened as before, and the creation order
index, when it exists, holds no record with that attribute's creation order. -/
theorem H5A_dense_remove_by_idx_name_inc (f : H5F_t) (ainfo : H5O_ainfo_t) (k : Nat)
    (recs : List H5A_dense_bt2_name_rec_t) (hv : H5A_dense_valid f ainfo = true)
    (hrecs : H5B2_name_recs f ainfo.name_bt2_addr = some recs) (hk : k < recs.length) :
    ∃ tbl attr,
      H5A_dense_build_table f ainfo H5_index_t.H5_INDEX_NAME H5_iter_order_t.H5_ITER_INC =
        some tbl ∧
      tbl[k]? = some attr ∧
      H5A_dense_open f ainfo attr.name = some attr ∧
      H5A_dense_remove_by_idx f ainfo H5_index_t.H5_INDEX_NAME H5_iter_order_t.H5_ITER_INC k =
        (SUCCEED, (H5A_dense_remove f ainfo attr.name).2) ∧
      H5A_dense_exists
        (H5A_dense_remove_by_idx f ainfo H5_index_t.H5_INDEX_NAME
          H5_iter_order_t.H5_ITER_INC k).2 ainfo attr.name = FALSE ∧
      (∀ name, name ≠ attr.name →
        H5A_dense_open
          (H5A_dense_remove_by_idx f ainfo H5_index_t.H5_INDEX_NAME
            H5_iter_order_t.H5_ITER_INC k).2 ainfo name = H5A_dense_open f ainfo name) ∧
      (∀ c crecs2, ainfo.corder_bt2_addr = some c →
        H5B2_corder_recs
          (H5A_dense_remove_by_idx f ainfo H5_index_t.H5_INDEX_NAME
            H5_iter_order_t.H5_ITER_INC k).2 (some c) = some crecs2 →
        ∀ x ∈ crecs2, x.corder ≠ attr.crt_idx) := by
  obtain ⟨fheap, recs1, h1, hrecs1, hread, hnodup, -, hmirror⟩ :=
    (H5A_dense_valid_iff f ainfo).1 hv
  rw [hrecs] at hrecs1
  cases hrecs1
  obtain ⟨attrs, -, hlen, hmem, htbl⟩ :=
    H5A_dense_build_table_valid f ainfo fheap recs h1 hrecs hread
      H5_index_t.H5_INDEX_NAME H5_iter_order_t.H5_ITER_INC
  have hperm := H5A_attr_sort_table_perm attrs H5_index_t.H5_INDEX_NAME
    H5_iter_order_t.H5_ITER_INC
  have hklt : k < (H5A_attr_sort_table attrs H5_index_t.H5_INDEX_NAME
      H5_iter_order_t.H5_ITER_INC).length := by
    rw [hperm.length_eq, hlen]
    exact hk
  have hget := List.getElem?_eq_getElem hklt
  obtain ⟨r, hr, hattr⟩ := hmem _ (hperm.subset (List.getElem_mem hklt))
  have hname : H5A_dense_rec_name f fheap r = some
      ((H5A_attr_sort_table attrs H5_index_t.H5_INDEX_NAME H5_iter_order_t.H5_ITER_INC)[k]).name := by
    simp only [H5A_dense_rec_name, hattr, Option.map_some']
  obtain ⟨l1, l2, f2, -, hres, hopen2, hrecs2, hshr, hother, -, hcsome⟩ :=
    H5A_dense_remove_valid f ainfo _ fheap recs h1 hrecs hread hnodup hmirror r hr hname
  have hrbi : H5A_dense_remove_by_idx f ainfo H5_index_t.H5_INDEX_NAME
      H5_iter_order_t.H5_ITER_INC k = (SUCCEED, f2) := by
    rw [(H5A_dense_remove_by_idx_eq f ainfo H5_iter_order_t.H5_ITER_INC k).2.2.1 (by decide)]
    simp only [H5A_dense_remove_by_idx_table, htbl, hget, hres]
    rfl
  refine ⟨_, _, htbl, hget, ?_, ?_, ?_, ?_, ?_⟩
  · rw [H5A_dense_open_of_rec f ainfo _ fheap recs h1 hrecs hread hnodup r hr hname]
    exact hattr
  · rw [hrbi, hres]
  · rw [hrbi]
    exact H5A_dense_exists_after_remove f f2 ainfo _ fheap (l1 ++ l2) hopen2 hrecs2 hshr hother
  · intro name hne
    rw [hrbi]
    have := H5A_dense_remove_open_other f ainfo _ name hne
    rw [hres] at this
    exact this
  · intro c crecs2 hc hcrecs2 x hx
    rw [hrbi] at hcrecs2
    obtain ⟨crecs, hcrecs, -⟩ := hmirror c hc
    obtain ⟨m1, m2, -, hc2, hno⟩ := hcsome c crecs hc hcrecs
    simp only at hcrecs2
    rw [hc2] at hcrecs2
    cases hcrecs2
    rw [H5A_dense_heap_op_crt_idx _ _ _ _ _ hattr]
    exact hno x hx

theorem H5A_dense_remove_by_idx_name_inc_witness :
    ∃ tbl attr,
      H5A_dense_build_table (H5A_ex_file3 true) (H5A_ex_ainfo1 true) H5_index_t.H5_INDEX_NAME
        H5_iter_order_t.H5_ITER_INC = some tbl ∧
      tbl[1]? = some attr ∧
      H5A_dense_open (H5A_ex_file3 true) (H5A_ex_ainfo1 true) attr.name = some attr ∧
      H5A_dense_remove_by_idx (H5A_ex_file3 true) (H5A_ex_ainfo1 true) H5_index_t.H5_INDEX_NAME
          H5_iter_order_t.H5_ITER_INC 1 =
        (SUCCEED, (H5A_dense_remove (H5A_ex_file3 true) (H5A_ex_ainfo1 true) attr.name).2) :=
  have h := H5A_dense_remove_by_idx_name_inc (H5A_ex_file3 true) (H5A_ex_ainfo1 true) 1
    [⟨0, ⟨true⟩, 1, 1⟩, ⟨1, ⟨false⟩, 2, 1⟩, ⟨0, ⟨false⟩, 0, 1⟩] (by decide) (by decide)
    (by decide)
  match h with
  | ⟨tbl, attr, h1, h2, h3, h4, _⟩ => ⟨tbl, attr, h1, h2, h3, h4⟩

/-! ## Insertion into a well-formed store -/

/-- The outcomes of `H5A_dense_insert` on a well-formed store, for an
attribute whose creation order is not in the creation order index: either the
call fails and both indexes are as before, or it succeeds and the new record
is in both indexes; the records of before read as before. -/
theorem H5A_dense_insert_valid (f : H5F_t) (ainfo : H5O_ainfo_t) (attr : H5A_t) (fheap : Nat)
    (recs : List H5A_dense_bt2_name_rec_t)
    (h1 : H5HF_open f ainfo.fheap_addr = some fheap)
    (hrecs : H5B2_name_recs f ainfo.name_bt2_addr = some recs)
    (hread : ∀ r ∈ recs, ∃ attr,
      H5A_dense_heap_op f fheap (H5A_dense_shared_fheap f) r.common = some attr ∧
      f.H5_checksum_lookup3 attr.name = r.hash)
    (hidx : ainfo.index_corder = H5F_addr_defined ainfo.corder_bt2_addr)
    (hmirror : ∀ c, ainfo.corder_bt2_addr = some c →
      ∃ crecs, H5B2_corder_recs f (some c) = some crecs ∧ H5A_dense_mirror recs crecs)
    (hwf : H5A_shared_valid f attr = true)
    (hfresh : ∀ c crecs, ainfo.corder_bt2_addr = some c →
      H5B2_corder_recs f (some c) = some crecs → ∀ x ∈ crecs, x.corder ≠ attr.crt_idx) :
    H5HF_open (H5A_dense_insert f ainfo attr).2.1 ainfo.fheap_addr = some fheap ∧
    (H5A_dense_insert f ainfo attr).2.1.H5_checksum_lookup3 = f.H5_checksum_lookup3 ∧
    (∀ r ∈ recs,
      H5A_dense_heap_op (H5A_dense_insert f ainfo attr).2.1 fheap
          (H5A_dense_shared_fheap (H5A_dense_insert f ainfo attr).2.1) r.common =
        H5A_dense_heap_op f fheap (H5A_dense_shared_fheap f) r.common) ∧
    (((H5A_dense_insert f ainfo attr).1 = FAIL ∧
        H5B2_name_recs (H5A_dense_insert f ainfo attr).2.1 ainfo.name_bt2_addr = some recs ∧
        (H5A_dense_insert f ainfo attr).2.1.corder_bt2 = f.corder_bt2) ∨
      (∃ (new : H5A_dense_bt2_name_rec_t) (lt : H5A_dense_bt2_name_rec_t → Bool),
        (H5A_dense_insert f ainfo attr).1 = SUCCEED ∧
        new.corder = attr.crt_idx ∧ new.hash = f.H5_checksum_lookup3 attr.name ∧
        H5A_dense_heap_op (H5A_dense_insert f ainfo attr).2.1 fheap
            (H5A_dense_shared_fheap (H5A_dense_insert f ainfo attr).2.1) new.common =
          some (H5A_dense_copy_fh_cb (H5O_msg_encode attr) new.common) ∧
        (∀ r ∈ recs, H5A_dense_rec_name f fheap r ≠ some attr.name) ∧
        H5B2_name_recs (H5A_dense_insert f ainfo attr).2.1 ainfo.name_bt2_addr =
          some (H5B2_insert_sorted lt new recs) ∧
        (ainfo.corder_bt2_addr = none →
          (H5A_dense_insert f ainfo attr).2.1.corder_bt2 = f.corder_bt2) ∧
        (∀ c crecs, ainfo.corder_bt2_addr = some c →
          H5B2_corder_recs f (some c) = some crecs →
          ∃ ltc : H5A_dense_bt2_corder_rec_t → Bool,
            (∀ r, ltc r = decide (attr.crt_idx < r.corder)) ∧
            H5B2_corder_recs (H5A_dense_insert f ainfo attr).2.1 (some c) =
              some (H5B2_insert_sorted ltc new.common crecs)))) := by
  obtain ⟨a, t, ha, ht, htr⟩ := (H5B2_name_recs_eq_some _ _ _).1 hrecs
  subst htr
  obtain ⟨f2, attr1, flg, id, -, hgrow, hnb2, hcb2, hopen2, -, -, -, hcases⟩ :=
    H5A_dense_insert_spec f ainfo attr fheap a t h1 ha ht
  have hsame2 : ∀ r ∈ t.recs,
      H5A_dense_heap_op f2 fheap (H5A_dense_shared_fheap f2) r.common =
        H5A_dense_heap_op f fheap (H5A_dense_shared_fheap f) r.common := by
    intro r hr
    obtain ⟨ar, har, -⟩ := hread r hr
    rw [har]
    exact hgrow.2.2.1 _ _ har
  have hrecs2 : H5B2_name_recs f2 ainfo.name_bt2_addr = some t.recs := by
    rw [H5B2_name_recs_eq_some]
    exact ⟨a, t, ha, by rw [hnb2]; exact ht, rfl⟩
  rcases hcases with ⟨hres, -⟩ | ⟨hno, -, hnew, lt, hres⟩
  · rw [hres]
    exact ⟨hopen2, hgrow.1, hsame2, Or.inl ⟨rfl, hrecs2, hcb2⟩⟩
  · have hnew' := hnew hwf
    have hfreshname : ∀ r ∈ t.recs, H5A_dense_rec_name f fheap r ≠ some attr.name := by
      intro r hr hrn
      have h3 := H5A_dense_is_named_mono f f2 fheap attr.name attr.name hgrow r
        (H5A_dense_is_named_of_rec_name f fheap attr.name r (hread r hr) hrn)
      rw [hno r hr] at h3
      cases h3
    rcases hres with ⟨hfalse, hres⟩ | ⟨htrue, ⟨-, hdup⟩ | ⟨c, ct, ltc, hltc, hc, hct, -, hres⟩⟩
    · have hnone : ainfo.corder_bt2_addr = none := by
        rw [hfalse] at hidx
        cases hca : ainfo.corder_bt2_addr with
        | none => rfl
        | some c => rw [hca] at hidx; simp [H5F_addr_defined] at hidx
      rw [hres]
      refine ⟨by simpa using hopen2, hgrow.1, hsame2, Or.inr ⟨⟨id, flg, attr.crt_idx,
        f.H5_checksum_lookup3 attr.name⟩, lt, rfl, rfl, rfl, hnew', hfreshname, ?_, ?_, ?_⟩⟩
      · rw [ha]
        exact H5B2_name_recs_set_name_bt2 _ _ _
      · intro _
        exact hcb2
      · intro c crecs hc
        rw [hnone] at hc
        cases hc
    · exfalso
      have hsome : ∃ c, ainfo.corder_bt2_addr = some c := by
        rw [htrue] at hidx
        cases hca : ainfo.corder_bt2_addr with
        | none => rw [hca] at hidx; simp [H5F_addr_defined] at hidx
        | some c => exact ⟨c, rfl⟩
      obtain ⟨c, hc⟩ := hsome
      obtain ⟨crecs, hcrecs, -⟩ := hmirror c hc
      obtain ⟨c1, ct, hc1, hct, hctr⟩ := (H5B2_corder_recs_eq_some _ _ _).1 hcrecs
      cases hc1
      obtain ⟨r, hr, hrc⟩ := hdup c ct hc hct
      exact hfresh c crecs hc hcrecs r (by rw [← hctr]; exact hr) hrc
    · rw [hres]
      refine ⟨by simpa using hopen2, hgrow.1, hsame2, Or.inr ⟨⟨id, flg, attr.crt_idx,
        f.H5_checksum_lookup3 attr.name⟩, lt, rfl, rfl, rfl, hnew', hfreshname, ?_, ?_, ?_⟩⟩
      · rw [ha]
        simp
      · intro hnone
        rw [hnone] at hc
        cases hc
      · intro c1 crecs hc1 hcrecs
        rw [hc] at hc1
        cases hc1
        obtain ⟨c2, ct2, hc2, hct2, hctr⟩ := (H5B2_corder_recs_eq_some _ _ _).1 hcrecs
        cases hc2
        rw [hct] at hct2
        cases hct2
        refine ⟨ltc, hltc, ?_⟩
        rw [← hctr]
        simp [H5A_dense_bt2_name_rec_t.common]

/-- After `H5A_dense_insert` of an attribute whose creation order is not in
the creation order index, a well-formed store is well-formed, whatever the
outcome of the insertion. -/
theorem H5A_dense_insert_keeps_valid (f : H5F_t) (ainfo : H5O_ainfo_t) (attr : H5A_t)
    (hv : H5A_dense_valid f ainfo = true) (hwf : H5A_shared_valid f attr = true)
    (hfresh : ∀ c crecs, ainfo.corder_bt2_addr = some c →
      H5B2_corder_recs f (some c) = some crecs → ∀ x ∈ crecs, x.corder ≠ attr.crt_idx) :
    H5A_dense_valid (H5A_dense_insert f ainfo attr).2.1 ainfo = true := by
  obtain ⟨fheap, recs, h1, hrecs, hread, hnodup, hidx, hmirror⟩ :=
    (H5A_dense_valid_iff f ainfo).1 hv
  obtain ⟨hopen2, hhash, hsame, hcase⟩ :=
    H5A_dense_insert_valid f ainfo attr fheap recs h1 hrecs hread hidx hmirror hwf hfresh
  generalize H5A_dense_insert f ainfo attr = res at hopen2 hhash hsame hcase ⊢
  obtain ⟨st, g, attr1⟩ := res
  simp only at hopen2 hhash hsame hcase ⊢
  have hnm : ∀ r ∈ recs, H5A_dense_rec_name g fheap r = H5A_dense_rec_name f fheap r := by
    intro r hr
    simp only [H5A_dense_rec_name, hsame r hr]
  have hread2 : ∀ r ∈ recs, ∃ attr,
      H5A_dense_heap_op g fheap (H5A_dense_shared_fheap g) r.common = some attr ∧
      g.H5_checksum_lookup3 attr.name = r.hash := by
    intro r hr
    obtain ⟨ar, har, hh⟩ := hread r hr
    exact ⟨ar, by rw [hsame r hr]; exact har, by rw [hhash]; exact hh⟩
  have hnodup2 : (recs.map (H5A_dense_rec_name g fheap)).Nodup := by
    rw [List.map_congr_left hnm]
    exact hnodup
  rw [H5A_dense_valid_iff]
  rcases hcase with ⟨-, hrecs2, hcb⟩ |
    ⟨new, lt, -, hcorder, hnewhash, hnew, hfreshname, hrecs2, -, hcsome⟩
  · refine ⟨fheap, recs, hopen2, hrecs2, hread2, hnodup2, hidx, ?_⟩
    intro c hc
    obtain ⟨crecs, hcrecs, hm⟩ := hmirror c hc
    exact ⟨crecs, by simpa only [H5B2_corder_recs, hcb] using hcrecs, hm⟩
  · have hperm := H5B2_insert_sorted_perm lt new recs
    have hnewname : H5A_dense_rec_name g fheap new = some attr.name := by
      simp only [H5A_dense_rec_name, hnew, Option.map_some',
        (H5A_dense_copy_fh_cb_fields _ _).1]
      rfl
    refine ⟨fheap, _, hopen2, hrecs2, ?_, ?_, hidx, ?_⟩
    · intro r hr
      rcases List.mem_cons.1 (hperm.subset hr) with rfl | hr
      · refine ⟨_, hnew, ?_⟩
        rw [hhash, hnewhash, (H5A_dense_copy_fh_cb_fields _ _).1]
        rfl
      · exact hread2 r hr
    · rw [(hperm.map _).nodup_iff, List.map_cons, List.nodup_cons]
      refine ⟨?_, hnodup2⟩
      intro hmem
      obtain ⟨r, hr, hrn⟩ := List.mem_map.1 hmem
      rw [hnm r hr, hnewname] at hrn
      exact hfreshname r hr hrn
    · intro c hc
      obtain ⟨crecs, hcrecs, hpm, hcnd⟩ := hmirror c hc
      obtain ⟨ltc, -, hcrecs2⟩ := hcsome c crecs hc hcrecs
      have hperm2 := H5B2_insert_sorted_perm ltc new.common crecs
      refine ⟨_, hcrecs2, ?_, ?_⟩
      · exact ((hperm.map _).trans (by
          rw [List.map_cons]
          exact hpm.cons _)).trans hperm2.symm
      · rw [(hperm2.map _).nodup_iff, List.map_cons, List.nodup_cons]
        refine ⟨?_, hcnd⟩
        intro hmem
        obtain ⟨x, hx, hxc⟩ := List.mem_map.1 hmem
        apply hfresh c crecs hc hcrecs x hx
        rw [hxc]
        exact hcorder

/-! ## Removal by position through an index -/

/-- Erasing the first member that satisfies a predicate erases position `n`
when the member at position `n` is the only one that satisfies it. -/
theorem List.eraseP_eq_eraseIdx_of_unique {α : Type} (p : α → Bool) :
    ∀ (l : List α) (n : Nat) (hn : n < l.length), l.Nodup → p l[n] = true →
      (∀ x ∈ l, p x = true → x = l[n]) → l.eraseP p = l.eraseIdx n
  | [], n, hn, _, _, _ => by simp at hn
  | x :: xs, 0, _, _, hp, _ => by
    simp only [List.getElem_cons_zero] at hp
    simp [List.eraseP_cons, hp]
  | x :: xs, n + 1, hn, hnd, hp, hu => by
    simp only [List.getElem_cons_succ] at hp hu
    have hnx : p x = false := by
      cases hpx : p x with
      | false => rfl
      | true =>
        exfalso
        have := hu x (List.mem_cons_self _ _) hpx
        rw [List.nodup_cons] at hnd
        apply hnd.1
        rw [this]
        exact List.getElem_mem _
    simp only [List.eraseP_cons, hnx, cond_false, List.eraseIdx_cons_succ,
      List.cons.injEq, true_and]
    exact List.eraseP_eq_eraseIdx_of_unique p xs n (by simpa using hn)
      (List.nodup_cons.1 hnd).2 hp
      (fun y hy hpy => hu y (List.mem_cons_of_mem _ hy) hpy)

/-- `H5SM_delete` reads the shared location only through its heap ID. -/
theorem H5SM_delete_heap_id (f : H5F_t) (s1 s2 : H5O_shared_t) (h : s1.heap_id = s2.heap_id) :
    H5SM_delete f s1 = H5SM_delete f s2 := by
  unfold H5SM_delete
  rw [h]

/-- On a readable record the callback of the removal by position in the name
index does what the callback of the removal by name does. -/
theorem H5A_dense_remove_by_idx_bt2_cb_name (f : H5F_t) (ainfo : H5O_ainfo_t) (fheap : Nat)
    (r : H5A_dense_bt2_name_rec_t) (attr : H5A_t) (name : String)
    (hattr : H5A_dense_heap_op f fheap (H5A_dense_shared_fheap f) r.common = some attr) :
    H5A_dense_remove_by_idx_bt2_cb
        (H5A_dense_remove_by_idx_udata f ainfo fheap H5_index_t.H5_INDEX_NAME) f r.common =
      H5A_dense_remove_bt2_cb
        ⟨⟨fheap, H5A_dense_shared_fheap f, name, f.H5_checksum_lookup3 name, ⟨false⟩, 0⟩,
          ainfo.corder_bt2_addr⟩ f r attr := by
  unfold H5A_dense_remove_by_idx_bt2_cb H5A_dense_remove_bt2_cb H5A_dense_remove_by_idx_udata
  cases hca : ainfo.corder_bt2_addr with
  | none =>
    cases hsh : r.flags.SHARED with
    | false =>
      simp only [if_true, H5F_addr_defined, Option.isSome_none, Bool.false_or,
        H5A_dense_bt2_name_rec_t.common, hsh, Bool.not_false, Bool.false_eq_true, if_false]
      simp only [H5A_dense_bt2_name_rec_t.common] at hattr
      simp only [hattr]
      rfl
    | true =>
      simp only [if_true, H5F_addr_defined, Option.isSome_none, Bool.false_or,
        H5A_dense_bt2_name_rec_t.common, hsh, Bool.not_true, Bool.false_eq_true, if_false]
      have hid : attr.sh_loc.heap_id = (H5SM_reconstitute r.id).heap_id := by
        rw [H5A_dense_heap_op_eq_some] at hattr
        obtain ⟨obj, -, hao⟩ := hattr
        rw [hao, H5A_dense_copy_fh_cb_sh_loc obj r.common hsh]
        rfl
      rw [H5SM_delete_heap_id f _ _ hid]
  | some c =>
    simp only [if_true, H5F_addr_defined, Option.isSome_some, Bool.true_or, hattr]
    cases H5B2_remove_corder f (some c) attr.crt_idx with
    | none => simp
    | some f1 =>
      simp only
      rw [if_neg (by decide)]
      rfl

/-- The lookup of the name a record of a well-formed store reads as locates
that record. -/
theorem H5A_dense_find_of_rec (f : H5F_t) (fheap : Nat) (name : String)
    (recs : List H5A_dense_bt2_name_rec_t)
    (hread : ∀ r ∈ recs, ∃ attr,
      H5A_dense_heap_op f fheap (H5A_dense_shared_fheap f) r.common = some attr ∧
      f.H5_checksum_lookup3 attr.name = r.hash)
    (hnodup : (recs.map (H5A_dense_rec_name f fheap)).Nodup)
    (r : H5A_dense_bt2_name_rec_t) (hr : r ∈ recs)
    (hname : H5A_dense_rec_name f fheap r = some name) :
    recs.find? (H5A_dense_is_named f fheap name) = some r := by
  have hnamed := H5A_dense_is_named_of_rec_name f fheap name r (hread r hr) hname
  cases hf : recs.find? (H5A_dense_is_named f fheap name) with
  | none =>
    have := List.find?_eq_none.1 hf r hr
    rw [hnamed] at this
    exact absurd rfl this
  | some r1 =>
    have : r1 = r := List.eq_of_nodup_map _ _ hnodup r1 r (List.mem_of_find?_eq_some hf) hr
      (by rw [H5A_dense_rec_name_of_is_named f fheap name r1 (List.find?_some hf), hname])
    rw [this]

/-- In a well-formed store, `H5A_dense_remove_by_idx` through the name index
in native order does what `H5A_dense_remove` does for the name of the
attribute at that position of the name index. -/
theorem H5A_dense_remove_by_idx_name_native (f : H5F_t) (ainfo : H5O_ainfo_t) (n : Nat)
    (fheap : Nat) (recs : List H5A_dense_bt2_name_rec_t)
    (h1 : H5HF_open f ainfo.fheap_addr = some fheap)
    (hrecs : H5B2_name_recs f ainfo.name_bt2_addr = some recs)
    (hread : ∀ r ∈ recs, ∃ attr,
      H5A_dense_heap_op f fheap (H5A_dense_shared_fheap f) r.common = some attr ∧
      f.H5_checksum_lookup3 attr.name = r.hash)
    (hnodup : (recs.map (H5A_dense_rec_name f fheap)).Nodup)
    (hn : n < recs.length) :
    ∃ attr, H5A_dense_heap_op f fheap (H5A_dense_shared_fheap f) (recs[n]).common = some attr ∧
      H5A_dense_remove_by_idx f ainfo H5_index_t.H5_INDEX_NAME H5_iter_order_t.H5_ITER_NATIVE n =
        H5A_dense_remove f ainfo attr.name := by
  obtain ⟨a, t, ha, ht, htr⟩ := (H5B2_name_recs_eq_some _ _ _).1 hrecs
  subst htr
  have hr : t.recs[n] ∈ t.recs := List.getElem_mem hn
  obtain ⟨attr, hattr, -⟩ := hread _ hr
  have hname : H5A_dense_rec_name f fheap t.recs[n] = some attr.name := by
    simp only [H5A_dense_rec_name, hattr, Option.map_some']
  have hfind := H5A_dense_find_of_rec f fheap attr.name t.recs hread hnodup _ hr hname
  refine ⟨attr, hattr, ?_⟩
  rw [(H5A_dense_remove_by_idx_eq f ainfo H5_iter_order_t.H5_ITER_NATIVE n).2.1 a fheap ha h1,
    H5A_dense_remove_eq f ainfo attr.name fheap a t h1 ha ht _ attr hfind hattr _ rfl]
  have herase : t.recs.eraseP (H5A_dense_is_named f fheap attr.name) = t.recs.eraseIdx n := by
    refine List.eraseP_eq_eraseIdx_of_unique _ t.recs n hn (List.Nodup.of_map _ hnodup)
      (List.find?_some hfind) ?_
    intro x hx hpx
    exact List.eq_of_nodup_map _ _ hnodup x _ hx hr
      (by rw [H5A_dense_rec_name_of_is_named f fheap attr.name x hpx, hname])
  have hidx : H5B2_idx H5_iter_order_t.H5_ITER_NATIVE t.recs.length n = n := by
    simp [H5B2_idx]
  simp only [H5B2_remove_by_idx_name, ht, Nat.not_le.2 hn, if_false, hidx,
    List.getElem?_eq_getElem hn,
    H5A_dense_remove_by_idx_bt2_cb_name f ainfo fheap _ attr attr.name hattr, herase]
  rfl

/-- Giving back a shared reference does not look at the indexes. -/
theorem H5SM_delete_set_name_bt2 (f : H5F_t) (a : Nat)
    (t : Option (H5B2_t H5A_dense_bt2_name_rec_t)) (s : H5O_shared_t) :
    H5SM_delete (f.set_name_bt2 a t) s = (H5SM_delete f s).map (fun g => g.set_name_bt2 a t) := by
  unfold H5SM_delete
  simp only [H5F_t.set_name_bt2_sohm]
  split
  · split <;> rfl
  · rfl

theorem H5SM_delete_set_corder_bt2 (f : H5F_t) (c : Nat)
    (t : Option (H5B2_t H5A_dense_bt2_corder_rec_t)) (s : H5O_shared_t) :
    H5SM_delete (f.set_corder_bt2 c t) s =
      (H5SM_delete f s).map (fun g => g.set_corder_bt2 c t) := by
  unfold H5SM_delete
  simp only [H5F_t.set_corder_bt2_sohm]
  split
  · split <;> rfl
  · rfl

/-- Releasing a heap object does not look at the indexes. -/
theorem H5HF_remove_set_name_bt2 (f : H5F_t) (a : Nat)
    (t : Option (H5B2_t H5A_dense_bt2_name_rec_t)) (attr : H5A_t) (fheap id : Nat) :
    H5HF_remove (H5O_attr_delete (f.set_name_bt2 a t) attr) fheap id =
      (H5HF_remove (H5O_attr_delete f attr) fheap id).map (fun g => g.set_name_bt2 a t) := by
  unfold H5HF_remove H5O_attr_delete
  simp only [H5F_t.set_name_bt2_fheaps]
  cases f.fheaps fheap with
  | none => rfl
  | some h =>
    simp only
    cases H5HF_read h id with
    | none => rfl
    | some _ => rfl

theorem H5HF_remove_set_corder_bt2 (f : H5F_t) (c : Nat)
    (t : Option (H5B2_t H5A_dense_bt2_corder_rec_t)) (attr : H5A_t) (fheap id : Nat) :
    H5HF_remove (H5O_attr_delete (f.set_corder_bt2 c t) attr) fheap id =
      (H5HF_remove (H5O_attr_delete f attr) fheap id).map (fun g => g.set_corder_bt2 c t) := by
  unfold H5HF_remove H5O_attr_delete
  simp only [H5F_t.set_corder_bt2_fheaps]
  cases f.fheaps fheap with
  | none => rfl
  | some h =>
    simp only
    cases H5HF_read h id with
    | none => rfl
    | some _ => rfl

/-- The position the B-tree uses for position `n` in an order is in range
when `n` is. -/
theorem H5B2_idx_lt (order : H5_iter_order_t) (nrec n : Nat) (hn : n < nrec) :
    H5B2_idx order nrec n < nrec := by
  unfold H5B2_idx
  split
  · omega
  · exact hn

/-- Releasing the storage of a readable record succeeds; the result in terms
of the two collaborators. -/
theorem H5A_dense_release_some (f : H5F_t) (fheap : Nat) (x : H5A_dense_bt2_corder_rec_t)
    (attr : H5A_t)
    (hattr : H5A_dense_heap_op f fheap (H5A_dense_shared_fheap f) x = some attr) :
    ∃ g : H5F_t,
      (x.flags.SHARED = true → H5SM_delete f attr.sh_loc = some g) ∧
      (x.flags.SHARED = false → H5HF_remove (H5O_attr_delete f attr) fheap x.id = some g) := by
  obtain ⟨g, hrel, -⟩ := H5A_dense_release_spec f f fheap x attr hattr rfl rfl rfl rfl
  refine ⟨g, ?_, ?_⟩
  · intro hs
    simp only [hs, if_true] at hrel
    cases hd : H5SM_delete f attr.sh_loc with
    | none => rw [hd] at hrel; cases hrel
    | some g1 =>
      rw [hd] at hrel
      simp only [Prod.mk.injEq, true_and] at hrel
      rw [hrel]
  · intro hs
    simp only [hs, Bool.false_eq_true, if_false] at hrel
    cases hd : H5HF_remove (H5O_attr_delete f attr) fheap x.id with
    | none => rw [hd] at hrel; cases hrel
    | some g1 =>
      rw [hd] at hrel
      simp only [Prod.mk.injEq, true_and] at hrel
      rw [hrel]

/-- In a well-formed store, `H5A_dense_remove_by_idx` through the creation
order index, in any order, does what `H5A_dense_remove` does for the name of
the attribute at that position of the creation order index. -/
theorem H5A_dense_remove_by_idx_corder_direct (f : H5F_t) (ainfo : H5O_ainfo_t)
    (order : H5_iter_order_t) (n : Nat) (fheap : Nat)
    (recs : List H5A_dense_bt2_name_rec_t) (c : Nat) (crecs : List H5A_dense_bt2_corder_rec_t)
    (h1 : H5HF_open f ainfo.fheap_addr = some fheap)
    (hrecs : H5B2_name_recs f ainfo.name_bt2_addr = some recs)
    (hread : ∀ r ∈ recs, ∃ attr,
      H5A_dense_heap_op f fheap (H5A_dense_shared_fheap f) r.common = some attr ∧
      f.H5_checksum_lookup3 attr.name = r.hash)
    (hnodup : (recs.map (H5A_dense_rec_name f fheap)).Nodup)
    (hc : ainfo.corder_bt2_addr = some c)
    (hcrecs : H5B2_corder_recs f (some c) = some crecs)
    (hm : H5A_dense_mirror recs crecs) (hn : n < crecs.length) :
    ∃ x attr, crecs[H5B2_idx order crecs.length n]? = some x ∧
      H5A_dense_heap_op f fheap (H5A_dense_shared_fheap f) x = some attr ∧
      H5A_dense_remove_by_idx f ainfo H5_index_t.H5_INDEX_CRT_ORDER order n =
        H5A_dense_remove f ainfo attr.name := by
  obtain ⟨a, t, ha, ht, htr⟩ := (H5B2_name_recs_eq_some _ _ _).1 hrecs
  subst htr
  obtain ⟨c1, ct, hc1, hct, hctr⟩ := (H5B2_corder_recs_eq_some _ _ _).1 hcrecs
  cases hc1
  subst hctr
  obtain ⟨hperm, hcnd⟩ := hm
  have hi := H5B2_idx_lt order ct.recs.length n hn
  have hxm : ct.recs[H5B2_idx order ct.recs.length n] ∈ ct.recs := List.getElem_mem hi
  obtain ⟨r, hr, hrx⟩ := List.mem_map.1 (hperm.symm.subset hxm)
  obtain ⟨attr, hattr, -⟩ := hread r hr
  have hname : H5A_dense_rec_name f fheap r = some attr.name := by
    simp only [H5A_dense_rec_name, hattr, Option.map_some']
  have hfind := H5A_dense_find_of_rec f fheap attr.name t.recs hread hnodup r hr hname
  have hget := List.getElem?_eq_getElem hi
  rw [← hrx] at hget
  refine ⟨r.common, attr, hget, hattr, ?_⟩
  obtain ⟨g, hgs, hgu⟩ := H5A_dense_release_some f fheap r.common attr hattr
  have hcrt : attr.crt_idx = r.corder := H5A_dense_heap_op_crt_idx _ _ _ _ _ hattr
  -- the mirrored record is the only one with that creation order
  have herase : ct.recs.eraseP (fun y => decide (y.corder = attr.crt_idx)) =
      ct.recs.eraseIdx (H5B2_idx order ct.recs.length n) := by
    refine List.eraseP_eq_eraseIdx_of_unique _ ct.recs _ hi (List.Nodup.of_map _ hcnd) ?_ ?_
    · rw [← hrx, hcrt]
      simp [H5A_dense_bt2_name_rec_t.common]
    · intro y hy hpy
      refine List.eq_of_nodup_map (fun c => c.corder) _ hcnd y _ hy hxm ?_
      rw [← hrx]
      simp only [decide_eq_true_eq] at hpy
      show y.corder = r.corder
      rw [hpy, hcrt]
  -- the removal by name
  have hrhs : H5A_dense_remove f ainfo attr.name =
      (SUCCEED, (g.set_corder_bt2 c (some (ct.set_recs
        (ct.recs.eraseP (fun y => decide (y.corder = attr.crt_idx)))))).set_name_bt2 a
        (some (t.set_recs (t.recs.eraseP (H5A_dense_is_named f fheap attr.name))))) := by
    have hcb : H5A_dense_remove_bt2_cb
        ⟨⟨fheap, H5A_dense_shared_fheap f, attr.name, f.H5_checksum_lookup3 attr.name, ⟨false⟩,
          0⟩, ainfo.corder_bt2_addr⟩ f r attr =
        (SUCCEED, g.set_corder_bt2 c (some (ct.set_recs
          (ct.recs.eraseP (fun y => decide (y.corder = attr.crt_idx)))))) := by
      have hrm : H5B2_remove_corder f (some c) attr.crt_idx =
          some (f.set_corder_bt2 c (some (ct.set_recs
            (ct.recs.eraseP (fun y => decide (y.corder = attr.crt_idx)))))) := by
        rcases H5B2_remove_corder_spec f c ct attr.crt_idx hct with ⟨hno, -⟩ | ⟨-, h⟩
        · exact absurd (by rw [← hrx, hcrt]; rfl) (hno _ hxm)
        · exact h
      unfold H5A_dense_remove_bt2_cb
      simp only [hc, H5F_addr_defined, Option.isSome_some, if_true, hrm]
      cases hsh : r.flags.SHARED with
      | true =>
        simp only [if_true, H5SM_delete_set_corder_bt2, hgs hsh, Option.map_some']
      | false =>
        simp only [Bool.false_eq_true, if_false, H5HF_remove_set_corder_bt2]
        have := hgu hsh
        simp only [H5A_dense_bt2_name_rec_t.common] at this
        simp only [this, Option.map_some']
    rw [H5A_dense_remove_eq f ainfo attr.name fheap a t h1 ha ht r attr hfind hattr _ hcb]
    rfl
  -- the removal by position
  have hother : H5B2_remove_name f (some a)
      ⟨fheap, H5A_dense_shared_fheap f, attr.name, f.H5_checksum_lookup3 attr.name, ⟨false⟩, 0⟩
      none =
      (SUCCEED, f.set_name_bt2 a (some (t.set_recs
        (t.recs.eraseP (H5A_dense_is_named f fheap attr.name))))) := by
    have hrecs1 : H5B2_name_recs f (some a) = some t.recs := by
      rw [H5B2_name_recs_eq_some]; exact ⟨a, t, rfl, ht, rfl⟩
    simp only [H5B2_remove_name, ht]
    rw [H5B2_find_name_eq f (some a) _ t.recs hrecs1, H5A_dense_name_match_eq f _ rfl rfl]
    simp only [hfind, Option.some_bind, hattr, Option.map_some']
    rfl
  have hcb2 : H5A_dense_remove_by_idx_bt2_cb
      (H5A_dense_remove_by_idx_udata f ainfo fheap H5_index_t.H5_INDEX_CRT_ORDER) f r.common =
      (SUCCEED, g.set_name_bt2 a (some (t.set_recs
        (t.recs.eraseP (H5A_dense_is_named f fheap attr.name))))) := by
    have hud : H5A_dense_remove_by_idx_udata f ainfo fheap H5_index_t.H5_INDEX_CRT_ORDER =
        ⟨fheap, H5A_dense_shared_fheap f, H5_index_t.H5_INDEX_CRT_ORDER, some a⟩ := by
      unfold H5A_dense_remove_by_idx_udata
      rw [ha]
      rfl
    rw [hud]
    unfold H5A_dense_remove_by_idx_bt2_cb
    simp only [H5F_addr_defined, Option.isSome_some, Bool.true_or, if_true, hattr, hother]
    rw [if_neg (by decide)]
    cases hsh : r.flags.SHARED with
    | true =>
      have hsh' : r.common.flags.SHARED = true := hsh
      simp only [hsh', if_true, H5SM_delete_set_name_bt2, hgs hsh, Option.map_some']
    | false =>
      have hsh' : r.common.flags.SHARED = false := hsh
      simp only [hsh', Bool.false_eq_true, if_false, H5HF_remove_set_name_bt2, hgu hsh,
        Option.map_some']
  rw [hrhs, (H5A_dense_remove_by_idx_eq f ainfo order n).1 c fheap hc h1]
  simp only [H5B2_remove_by_idx_corder, hct, Nat.not_le.2 hn, if_false, hget, hcb2, herase]
  rfl

/-! ## The mirror invariant -/

/-- The file `H5A_dense_remove_by_idx` returns is the file it was given or
the file `H5A_dense_remove` returns for some name. -/
theorem H5A_dense_remove_by_idx_cases (f : H5F_t) (ainfo : H5O_ainfo_t) (idx_type : H5_index_t)
    (order : H5_iter_order_t) (n : Nat) (hv : H5A_dense_valid f ainfo = true) :
    (H5A_dense_remove_by_idx f ainfo idx_type order n).2 = f ∨
    ∃ name, (H5A_dense_remove_by_idx f ainfo idx_type order n).2 =
      (H5A_dense_remove f ainfo name).2 := by
  obtain ⟨fheap, recs, h1, hrecs, hread, hnodup, -, hmirror⟩ :=
    (H5A_dense_valid_iff f ainfo).1 hv
  have htable : ∀ idx_type,
      (H5A_dense_remove_by_idx_table f ainfo idx_type order n).2 = f ∨
      ∃ name, (H5A_dense_remove_by_idx_table f ainfo idx_type order n).2 =
        (H5A_dense_remove f ainfo name).2 := by
    intro idx_type
    unfold H5A_dense_remove_by_idx_table
    cases H5A_dense_build_table f ainfo idx_type order with
    | none => left; rfl
    | some atable =>
      simp only
      cases atable[n]? with
      | none => left; rfl
      | some attr =>
        right
        refine ⟨attr.name, ?_⟩
        simp only
        split <;> rfl
  by_cases hn : n < recs.length
  · have hdisp := H5A_dense_remove_by_idx_eq f ainfo order n
    cases idx_type with
    | H5_INDEX_NAME =>
      by_cases hord : order = H5_iter_order_t.H5_ITER_NATIVE
      · subst hord
        obtain ⟨attr, -, heq⟩ :=
          H5A_dense_remove_by_idx_name_native f ainfo n fheap recs h1 hrecs hread hnodup hn
        exact Or.inr ⟨attr.name, by rw [heq]⟩
      · rw [hdisp.2.2.1 hord]
        exact htable _
    | H5_INDEX_CRT_ORDER =>
      cases hc : ainfo.corder_bt2_addr with
      | none =>
        rw [hdisp.2.2.2 hc]
        exact htable _
      | some c =>
        obtain ⟨crecs, hcrecs, hm⟩ := hmirror c hc
        have hn2 : n < crecs.length := by
          rw [← hm.1.length_eq, List.length_map]
          exact hn
        obtain ⟨x, attr, -, -, heq⟩ :=
          H5A_dense_remove_by_idx_corder_direct f ainfo order n fheap recs c crecs h1 hrecs
            hread hnodup hc hcrecs hm hn2
        exact Or.inr ⟨attr.name, by rw [heq]⟩
  · left
    rw [H5A_dense_remove_by_idx_range f ainfo idx_type order n recs hv hrecs (Nat.not_lt.1 hn)]

/-- After `H5A_dense_remove_by_idx` a well-formed store is well-formed. -/
theorem H5A_dense_remove_by_idx_keeps_valid (f : H5F_t) (ainfo : H5O_ainfo_t)
    (idx_type : H5_index_t) (order : H5_iter_order_t) (n : Nat)
    (hv : H5A_dense_valid f ainfo = true) :
    H5A_dense_valid (H5A_dense_remove_by_idx f ainfo idx_type order n).2 ainfo = true := by
  rcases H5A_dense_remove_by_idx_cases f ainfo idx_type order n hv with h | ⟨name, h⟩
  · rw [h]
    exact hv
  · rw [h]
    exact H5A_dense_remove_keeps_valid f ainfo name hv

/-- The store `H5A_dense_create` makes is well-formed. -/
theorem H5A_dense_create_valid (f : H5F_t) (ainfo : H5O_ainfo_t)
    (h : ainfo.index_corder = true) :
    H5A_dense_valid (H5A_dense_create f ainfo).2.1 (H5A_dense_create f ainfo).2.2 = true ∧
    (H5A_dense_create f ainfo).2.2.index_corder = true := by
  have hval : H5A_dense_create f ainfo =
      (SUCCEED, (H5B2_create_corder (H5B2_create_name (H5HF_create f).1 H5A_NAME_BT2_NODE_SIZE
          (4 + 4 + 1 + f.H5O_FHEAP_ID_LEN) H5A_NAME_BT2_SPLIT_PERC H5A_NAME_BT2_MERGE_PERC).1
          H5A_CORDER_BT2_NODE_SIZE (4 + 1 + f.H5O_FHEAP_ID_LEN) H5A_CORDER_BT2_SPLIT_PERC
          H5A_CORDER_BT2_MERGE_PERC).1,
        ⟨true, some f.eoa, some (f.eoa + 1), some (f.eoa + 1 + 1)⟩) := by
    unfold H5A_dense_create
    simp only [h, if_true]
    rfl
  rw [hval]
  refine ⟨?_, rfl⟩
  rw [H5A_dense_valid_iff]
  refine ⟨f.eoa, [], ?_, ?_, ?_, List.nodup_nil, rfl, ?_⟩
  · simp [H5HF_open, H5B2_create_corder, H5B2_create_name, H5HF_create, H5F_t.set_fheap,
      H5F_t.set_name_bt2, H5F_t.set_corder_bt2]
  · simp [H5B2_name_recs, H5B2_create_corder, H5B2_create_name, H5HF_create, H5F_t.set_fheap,
      H5F_t.set_name_bt2, H5F_t.set_corder_bt2]
  · intro r hr
    cases hr
  · intro c hc
    simp only [Option.some.injEq] at hc
    subst hc
    refine ⟨[], ?_, List.Perm.refl _, List.nodup_nil⟩
    simp [H5B2_corder_recs, H5B2_create_corder, H5B2_create_name, H5HF_create,
      H5F_t.set_fheap, H5F_t.set_name_bt2, H5F_t.set_corder_bt2]

/-! ## Iteration in creation order -/

/-- A key larger than every key of the index goes to the end. -/
theorem H5B2_insert_sorted_append {ρ : Type} (lt : ρ → Bool) (new : ρ) :
    ∀ l : List ρ, (∀ r ∈ l, lt r = false) → H5B2_insert_sorted lt new l = l ++ [new]
  | [], _ => rfl
  | r :: rs, h => by
    simp only [H5B2_insert_sorted, h r (List.mem_cons_self _ _), Bool.false_eq_true, if_false,
      List.cons_append, List.cons.injEq, true_and]
    exact H5B2_insert_sorted_append lt new rs (fun x hx => h x (List.mem_cons_of_mem _ hx))

/-- Splitting an alignment of two lists at a member of the first. -/
theorem List.forall₂_split {α β : Type} (R : α → β → Prop) :
    ∀ (m1 : List α) (x : α) (m2 : List α) (l : List β),
      List.Forall₂ R (m1 ++ x :: m2) l →
      ∃ p1 a p2, l = p1 ++ a :: p2 ∧ List.Forall₂ R m1 p1 ∧ R x a ∧ List.Forall₂ R m2 p2
  | [], x, m2, l, h => by
    cases h with
    | cons hxa hrest => exact ⟨[], _, _, rfl, List.Forall₂.nil, hxa, hrest⟩
  | y :: m1, x, m2, l, h => by
    cases h with
    | cons hyb hrest =>
      obtain ⟨p1, a, p2, hl, h1, hx, h2⟩ := List.forall₂_split R m1 x m2 _ hrest
      exact ⟨_ :: p1, a, p2, by rw [hl]; rfl, List.Forall₂.cons hyb h1, hx, h2⟩

/-- The walk of the collecting callback over records aligned with a list of
attributes delivers what the records read as. -/
theorem H5A_dense_walk_reads_as (f : H5F_t) (fheap : Nat)
    (crecs : List H5A_dense_bt2_corder_rec_t) (attrs : List H5A_t)
    (h : List.Forall₂ (H5A_dense_reads_as f fheap) crecs attrs) :
    ∃ delivered : List H5A_t,
      crecs.map (H5A_dense_heap_op f fheap (H5A_dense_shared_fheap f)) = delivered.map some ∧
      delivered.map H5O_msg_encode = attrs.map H5O_msg_encode ∧
      delivered.map (fun a => a.crt_idx) = attrs.map (fun a => a.crt_idx) := by
  induction h with
  | nil => exact ⟨[], rfl, rfl, rfl⟩
  | @cons x a xs as hxa _ ih =>
    obtain ⟨d, hd1, hd2, hd3⟩ := ih
    have hf := H5A_dense_copy_fh_cb_fields (H5O_msg_encode a) x
    refine ⟨H5A_dense_copy_fh_cb (H5O_msg_encode a) x :: d, ?_, ?_, ?_⟩
    · simp only [List.map_cons, hxa.1, hd1]
    · simp only [List.map_cons, hd2, List.cons.injEq, and_true]
      show H5O_msg_encode (H5A_dense_copy_fh_cb (H5O_msg_encode a) x) = H5O_msg_encode a
      unfold H5O_msg_encode at hf ⊢
      simp only [hf.1, hf.2.2.1, hf.2.2.2]
    · simp only [List.map_cons, hd3, List.cons.injEq, and_true]
      rw [hf.2.1]
      exact hxa.2

/-- `H5A_dense_iterate` by creation order in native order with the collecting
callback, over a creation order index aligned with a list of attributes:
the result is zero and the attributes are delivered in the order of the
list. -/
theorem H5A_dense_iterate_reads_as (f : H5F_t) (ainfo : H5O_ainfo_t) (fheap : Nat)
    (crecs : List H5A_dense_bt2_corder_rec_t) (attrs : List H5A_t)
    (h1 : H5HF_open f ainfo.fheap_addr = some fheap)
    (hcrecs : H5B2_corder_recs f ainfo.corder_bt2_addr = some crecs)
    (hal : List.Forall₂ (H5A_dense_reads_as f fheap) crecs attrs) :
    ∃ delivered : List H5A_t,
      H5A_dense_iterate f ainfo H5_index_t.H5_INDEX_CRT_ORDER H5_iter_order_t.H5_ITER_NATIVE 0
        none H5A_attr_op_collect [] = (0, none, delivered) ∧
      delivered.map H5O_msg_encode = attrs.map H5O_msg_encode ∧
      delivered.map (fun a => a.crt_idx) = attrs.map (fun a => a.crt_idx) := by
  obtain ⟨d, hd1, hd2, hd3⟩ := H5A_dense_walk_reads_as f fheap crecs attrs hal
  refine ⟨d, ?_, hd2, hd3⟩
  rw [H5A_dense_iterate_direct f ainfo H5_index_t.H5_INDEX_CRT_ORDER 0 none _ _ fheap crecs h1
    hcrecs, hd1]
  have := H5A_dense_walk_collect d 0 []
  unfold H5A_attr_op_collect
  rw [this]
  simp

/-- An alignment of two lists carries over to a weaker relation on the
members of the first. -/
theorem List.forall₂_imp_mem {α β : Type} (R S : α → β → Prop) (l1 : List α) (l2 : List β)
    (h : List.Forall₂ R l1 l2) :
    (∀ x ∈ l1, ∀ a, R x a → S x a) → List.Forall₂ S l1 l2 := by
  induction h with
  | nil => intro _; exact List.Forall₂.nil
  | @cons x a xs as hxa _ ih =>
    intro himp
    exact List.Forall₂.cons (himp x (List.mem_cons_self _ _) a hxa)
      (ih (fun y hy b hb => himp y (List.mem_cons_of_mem _ hy) b hb))

/-- Every member of the first of two aligned lists has a partner in the
second. -/
theorem List.forall₂_exists_right {α β : Type} (R : α → β → Prop) (l1 : List α) (l2 : List β)
    (h : List.Forall₂ R l1 l2) : ∀ x ∈ l1, ∃ a ∈ l2, R x a := by
  induction h with
  | nil => intro x hx; cases hx
  | @cons y a ys as hya _ ih =>
    intro x hx
    rcases List.mem_cons.1 hx with rfl | hx
    · exact ⟨a, List.mem_cons_self _ _, hya⟩
    · obtain ⟨b, hb, hr⟩ := ih x hx
      exact ⟨b, List.mem_cons_of_mem _ hb, hr⟩

/-- One successful insertion with a creation order larger than all that are in
a well-formed store with a creation order index: the store stays well-formed
and the creation order index, aligned with the attributes inserted so far,
gets the new record at its end. -/
theorem H5A_dense_insert_aligned (f : H5F_t) (ainfo : H5O_ainfo_t) (attr : H5A_t)
    (pre : List H5A_t) (fheap : Nat) (crecs : List H5A_dense_bt2_corder_rec_t)
    (hv : H5A_dense_valid f ainfo = true)
    (h1 : H5HF_open f ainfo.fheap_addr = some fheap)
    (hcrecs : H5B2_corder_recs f ainfo.corder_bt2_addr = some crecs)
    (hal : List.Forall₂ (H5A_dense_reads_as f fheap) crecs pre)
    (hun : H5O_msg_is_shared attr = false)
    (hlt : ∀ p ∈ pre, p.crt_idx < attr.crt_idx)
    (hok : ¬ (H5A_dense_insert f ainfo attr).1 < 0) :
    H5A_dense_valid (H5A_dense_insert f ainfo attr).2.1 ainfo = true ∧
    H5HF_open (H5A_dense_insert f ainfo attr).2.1 ainfo.fheap_addr = some fheap ∧
    ∃ x, H5B2_corder_recs (H5A_dense_insert f ainfo attr).2.1 ainfo.corder_bt2_addr =
        some (crecs ++ [x]) ∧
      List.Forall₂ (H5A_dense_reads_as (H5A_dense_insert f ainfo attr).2.1 fheap)
        (crecs ++ [x]) (pre ++ [attr]) := by
  obtain ⟨fheap1, recs, h1', hrecs, hread, hnodup, hdef, hmirror⟩ :=
    (H5A_dense_valid_iff f ainfo).1 hv
  rw [h1] at h1'
  cases h1'
  obtain ⟨c, t, hc, -, -⟩ := (H5B2_corder_recs_eq_some _ _ _).1 hcrecs
  have hwf : H5A_shared_valid f attr = true := by
    simp only [H5A_shared_valid, hun, Bool.false_eq_true, if_false]
  have hcless : ∀ x ∈ crecs, x.corder < attr.crt_idx := by
    intro x hx
    obtain ⟨p, hp, hr⟩ := List.forall₂_exists_right _ _ _ hal x hx
    rw [hr.2]
    exact hlt p hp
  have hfresh : ∀ c1 crecs1, ainfo.corder_bt2_addr = some c1 →
      H5B2_corder_recs f (some c1) = some crecs1 → ∀ x ∈ crecs1, x.corder ≠ attr.crt_idx := by
    intro c1 crecs1 hc1 hcr x hx
    rw [← hc1, hcrecs] at hcr
    cases hcr
    exact Nat.ne_of_lt (hcless x hx)
  refine ⟨H5A_dense_insert_keeps_valid f ainfo attr hv hwf hfresh, ?_⟩
  obtain ⟨hopen2, -, hsame, hcase⟩ :=
    H5A_dense_insert_valid f ainfo attr fheap recs h1 hrecs hread hdef hmirror hwf hfresh
  refine ⟨hopen2, ?_⟩
  rcases hcase with ⟨hfail, -⟩ | ⟨new, lt, -, hcorder, -, hnew, -, -, -, hcsome⟩
  · exfalso
    apply hok
    rw [hfail]
    decide
  · obtain ⟨ltc, hltc, hcrecs2⟩ := hcsome c crecs hc (by rw [← hc]; exact hcrecs)
    have happ : H5B2_insert_sorted ltc new.common crecs = crecs ++ [new.common] := by
      apply H5B2_insert_sorted_append
      intro x hx
      rw [hltc x]
      simp only [decide_eq_false_iff_not, Nat.not_lt]
      exact Nat.le_of_lt (hcless x hx)
    rw [happ] at hcrecs2
    refine ⟨new.common, by rw [hc]; exact hcrecs2, ?_⟩
    obtain ⟨crecs1, hcrecs1, hperm, -⟩ := hmirror c hc
    rw [← hc, hcrecs] at hcrecs1
    cases hcrecs1
    refine List.rel_append ?_ (List.Forall₂.cons ⟨hnew, hcorder⟩ List.Forall₂.nil)
    refine List.forall₂_imp_mem _ _ _ _ hal ?_
    intro x hx a hxa
    obtain ⟨r, hr, rfl⟩ := List.mem_map.1 (hperm.symm.subset hx)
    exact ⟨by rw [hsame r hr]; exact hxa.1, hxa.2⟩

/-- A successful sequence of insertions with increasing creation orders, all
larger than those in a well-formed store with a creation order index: the
store stays well-formed and the creation order index is aligned with the
attributes in the order of their insertion. -/
theorem H5A_dense_insert_all_aligned (ainfo : H5O_ainfo_t) (fheap : Nat) :
    ∀ (attrs : List H5A_t) (f : H5F_t) (pre : List H5A_t)
      (crecs : List H5A_dense_bt2_corder_rec_t),
      H5A_dense_valid f ainfo = true →
      H5HF_open f ainfo.fheap_addr = some fheap →
      H5B2_corder_recs f ainfo.corder_bt2_addr = some crecs →
      List.Forall₂ (H5A_dense_reads_as f fheap) crecs pre →
      (∀ a ∈ attrs, H5O_msg_is_shared a = false) →
      (pre ++ attrs).Pairwise (fun a b => a.crt_idx < b.crt_idx) →
      (H5A_dense_insert_all f ainfo attrs).1 = SUCCEED →
      H5A_dense_valid (H5A_dense_insert_all f ainfo attrs).2 ainfo = true ∧
      H5HF_open (H5A_dense_insert_all f ainfo attrs).2 ainfo.fheap_addr = some fheap ∧
      ∃ crecs2,
        H5B2_corder_recs (H5A_dense_insert_all f ainfo attrs).2 ainfo.corder_bt2_addr =
          some crecs2 ∧
        List.Forall₂ (H5A_dense_reads_as (H5A_dense_insert_all f ainfo attrs).2 fheap) crecs2
          (pre ++ attrs)
  | [], f, pre, crecs, hv, h1, hcrecs, hal, _, _, _ => by
    simp only [H5A_dense_insert_all, List.append_nil]
    exact ⟨hv, h1, crecs, hcrecs, hal⟩
  | attr :: rest, f, pre, crecs, hv, h1, hcrecs, hal, hun, hpw, hok => by
    simp only [H5A_dense_insert_all] at hok ⊢
    by_cases hlt0 : (H5A_dense_insert f ainfo attr).1 < 0
    · simp only [hlt0, if_true] at hok
      exact absurd hok FAIL_ne_SUCCEED
    · simp only [hlt0, if_false] at hok ⊢
      have hlt : ∀ p ∈ pre, p.crt_idx < attr.crt_idx := by
        intro p hp
        exact (List.pairwise_append.1 hpw).2.2 p hp attr (List.mem_cons_self _ _)
      obtain ⟨hv2, hopen2, x, hcrecs2, hal2⟩ :=
        H5A_dense_insert_aligned f ainfo attr pre fheap crecs hv h1 hcrecs hal
          (hun attr (List.mem_cons_self _ _)) hlt hlt0
      have := H5A_dense_insert_all_aligned ainfo fheap rest
        (H5A_dense_insert f ainfo attr).2.1 (pre ++ [attr]) (crecs ++ [x]) hv2 hopen2 hcrecs2
        hal2 (fun a ha => hun a (List.mem_cons_of_mem _ ha))
        (by simpa [List.append_assoc] using hpw) hok
      simpa [List.append_assoc] using this

/-- Every member of the second of two aligned lists has a partner in the
first. -/
theorem List.forall₂_exists_left {α β : Type} (R : α → β → Prop) (l1 : List α) (l2 : List β)
    (h : List.Forall₂ R l1 l2) : ∀ a ∈ l2, ∃ x ∈ l1, R x a := by
  induction h with
  | nil => intro a ha; cases ha
  | @cons y b ys bs hyb _ ih =>
    intro a ha
    rcases List.mem_cons.1 ha with rfl | ha
    · exact ⟨y, List.mem_cons_self _ _, hyb⟩
    · obtain ⟨x, hx, hr⟩ := ih a ha
      exact ⟨x, List.mem_cons_of_mem _ hx, hr⟩

/-- Removing a name from a well-formed store whose creation order index is
aligned with a list of attributes: the removal succeeds and the creation
order index is aligned with the list without one attribute of that name, the
others in their order. -/
theorem H5A_dense_remove_aligned (f : H5F_t) (ainfo : H5O_ainfo_t) (name : String)
    (attrs : List H5A_t) (fheap : Nat) (crecs : List H5A_dense_bt2_corder_rec_t)
    (hv : H5A_dense_valid f ainfo = true)
    (h1 : H5HF_open f ainfo.fheap_addr = some fheap)
    (hcrecs : H5B2_corder_recs f ainfo.corder_bt2_addr = some crecs)
    (hal : List.Forall₂ (H5A_dense_reads_as f fheap) crecs attrs)
    (hmem : name ∈ attrs.map (fun a => a.name)) :
    (H5A_dense_remove f ainfo name).1 = SUCCEED ∧
    H5HF_open (H5A_dense_remove f ainfo name).2 ainfo.fheap_addr = some fheap ∧
    ∃ p1 a p2 m, attrs = p1 ++ a :: p2 ∧ a.name = name ∧
      H5B2_corder_recs (H5A_dense_remove f ainfo name).2 ainfo.corder_bt2_addr = some m ∧
      List.Forall₂ (H5A_dense_reads_as (H5A_dense_remove f ainfo name).2 fheap) m
        (p1 ++ p2) := by
  obtain ⟨fheap1, recs, h1', hrecs, hread, hnodup, -, hmirror⟩ :=
    (H5A_dense_valid_iff f ainfo).1 hv
  rw [h1] at h1'
  cases h1'
  obtain ⟨c, t, hc, -, -⟩ := (H5B2_corder_recs_eq_some _ _ _).1 hcrecs
  rw [hc] at hcrecs
  obtain ⟨crecs1, hcrecs1, hperm, hcnd⟩ := hmirror c hc
  rw [hcrecs] at hcrecs1
  cases hcrecs1
  obtain ⟨a0, ha0, hn0⟩ := List.mem_map.1 hmem
  obtain ⟨x0, hx0, hr0⟩ := List.forall₂_exists_left _ _ _ hal a0 ha0
  obtain ⟨r, hr, hrx⟩ := List.mem_map.1 (hperm.symm.subset hx0)
  have hname : H5A_dense_rec_name f fheap r = some name := by
    simp only [H5A_dense_rec_name, hrx, hr0.1, Option.map_some',
      (H5A_dense_copy_fh_cb_fields _ _).1]
    exact congrArg some hn0
  obtain ⟨l1, l2, f2, -, hres, hopen2, hrecs2, hshr, hother, -, hcsome⟩ :=
    H5A_dense_remove_valid f ainfo name fheap recs h1 hrecs hread hnodup hmirror r hr hname
  obtain ⟨m1, m2, hsplit, hcrecs2, -⟩ := hcsome c crecs hc hcrecs
  have hv2 := H5A_dense_remove_keeps_valid f ainfo name hv
  rw [hres] at hv2 ⊢
  simp only at hv2
  obtain ⟨fheap2, recs2, h12, hrecs2', -, -, -, hmirror2⟩ := (H5A_dense_valid_iff f2 ainfo).1 hv2
  rw [hrecs2] at hrecs2'
  cases hrecs2'
  obtain ⟨crecs3, hcrecs3, hperm2, -⟩ := hmirror2 c hc
  rw [hcrecs2] at hcrecs3
  cases hcrecs3
  rw [hsplit] at hal
  obtain ⟨p1, a, p2, hattrs, hal1, hxa, hal2⟩ := List.forall₂_split _ m1 r.common m2 attrs hal
  have hkeep : ∀ x ∈ m1 ++ m2, ∀ b, H5A_dense_reads_as f fheap x b →
      H5A_dense_reads_as f2 fheap x b := by
    intro x hx b hxb
    obtain ⟨y, hy, hyx⟩ := List.mem_map.1 (hperm2.symm.subset hx)
    refine ⟨hshr.2.2.1 _ _ hxb.1 ?_, hxb.2⟩
    intro hnm
    apply hother y hy
    simp only [H5A_dense_rec_name, hyx, hxb.1, Option.map_some', hnm]
  refine ⟨rfl, hopen2, p1, a, p2, m1 ++ m2, hattrs, ?_, by rw [hc]; exact hcrecs2, ?_⟩
  · have h3 : H5A_dense_rec_name f fheap r = some a.name := by
      simp only [H5A_dense_rec_name, hxa.1, Option.map_some',
        (H5A_dense_copy_fh_cb_fields _ _).1]
      rfl
    rw [hname] at h3
    exact (Option.some.inj h3).symm
  · exact List.forall₂_imp_mem _ _ _ _ (List.rel_append hal1 hal2) hkeep

/-- C11: in a store created with order indexing, after a successful sequence
of insertions of attributes with strictly increasing creation orders (in any
order of their names; the attributes are handed in unshared),
`H5A_dense_iterate` by creation order in native order with skip 0 and a
callback that always continues returns zero and delivers the attributes in
the order of their insertion (same serialized form, same creation order);
`H5A_dense_remove` of the name of one of them succeeds, and afterwards the
same iteration delivers the other attributes in their original order. -/
theorem H5A_dense_iterate_insertion_order (f0 : H5F_t) (ainfo0 : H5O_ainfo_t)
    (attrs : List H5A_t) (hidx : ainfo0.index_corder = true)
    (hun : ∀ a ∈ attrs, H5O_msg_is_shared a = false)
    (hinc : attrs.Pairwise (fun a b => a.crt_idx < b.crt_idx))
    (hok : (H5A_dense_insert_all (H5A_dense_create f0 ainfo0).2.1
      (H5A_dense_create f0 ainfo0).2.2 attrs).1 = SUCCEED) :
    (∃ delivered : List H5A_t,
      H5A_dense_iterate
        (H5A_dense_insert_all (H5A_dense_create f0 ainfo0).2.1
          (H5A_dense_create f0 ainfo0).2.2 attrs).2
        (H5A_dense_create f0 ainfo0).2.2 H5_index_t.H5_INDEX_CRT_ORDER
        H5_iter_order_t.H5_ITER_NATIVE 0 none H5A_attr_op_collect [] = (0, none, delivered) ∧
      delivered.map H5O_msg_encode = attrs.map H5O_msg_encode ∧
      delivered.map (fun a => a.crt_idx) = attrs.map (fun a => a.crt_idx)) ∧
    (∀ name ∈ attrs.map (fun a => a.name),
      (H5A_dense_remove
        (H5A_dense_insert_all (H5A_dense_create f0 ainfo0).2.1
          (H5A_dense_create f0 ainfo0).2.2 attrs).2
        (H5A_dense_create f0 ainfo0).2.2 name).1 = SUCCEED ∧
      ∃ (p1 : List H5A_t) (a : H5A_t) (p2 delivered : List H5A_t),
        attrs = p1 ++ a :: p2 ∧ a.name = name ∧
        H5A_dense_iterate
          (H5A_dense_remove
            (H5A_dense_insert_all (H5A_dense_create f0 ainfo0).2.1
              (H5A_dense_create f0 ainfo0).2.2 attrs).2
            (H5A_dense_create f0 ainfo0).2.2 name).2
          (H5A_dense_create f0 ainfo0).2.2 H5_index_t.H5_INDEX_CRT_ORDER
          H5_iter_order_t.H5_ITER_NATIVE 0 none H5A_attr_op_collect [] = (0, none, delivered) ∧
        delivered.map H5O_msg_encode = (p1 ++ p2).map H5O_msg_encode ∧
        delivered.map (fun a => a.crt_idx) = (p1 ++ p2).map (fun a => a.crt_idx)) := by
  obtain ⟨hv0, -⟩ := H5A_dense_create_valid f0 ainfo0 hidx
  obtain ⟨fheap, recs0, h10, hrecs0, -, -, hdef0, hmirror0⟩ :=
    (H5A_dense_valid_iff _ _).1 hv0
  have hc0 : ∃ c, (H5A_dense_create f0 ainfo0).2.2.corder_bt2_addr = some c ∧
      H5B2_corder_recs (H5A_dense_create f0 ainfo0).2.1 (some c) = some [] := by
    obtain ⟨-, -, ⟨a, t, -, -, -, -, hct⟩, -, -⟩ := H5A_dense_create_addrs_aux f0 ainfo0
    obtain ⟨c, ct, hc, hct2, hnil, -⟩ := hct hidx
    exact ⟨c, hc, by rw [H5B2_corder_recs_eq_some]; exact ⟨c, ct, rfl, hct2, hnil⟩⟩
  obtain ⟨c, hc, hcrecs0⟩ := hc0
  obtain ⟨hv, h1, crecs, hcrecs, hal⟩ :=
    H5A_dense_insert_all_aligned (H5A_dense_create f0 ainfo0).2.2 fheap attrs
      (H5A_dense_create f0 ainfo0).2.1 [] [] hv0 h10 (by rw [hc]; exact hcrecs0)
      List.Forall₂.nil hun (by simpa using hinc) hok
  simp only [List.nil_append] at hal
  refine ⟨H5A_dense_iterate_reads_as _ _ fheap crecs attrs h1 hcrecs hal, ?_⟩
  intro name hname
  obtain ⟨hrm, hopen2, p1, a, p2, m, hattrs, han, hcrecs2, hal2⟩ :=
    H5A_dense_remove_aligned _ _ name attrs fheap crecs hv h1 hcrecs hal hname
  obtain ⟨d, hd1, hd2, hd3⟩ :=
    H5A_dense_iterate_reads_as _ _ fheap m (p1 ++ p2) hopen2 hcrecs2 hal2
  exact ⟨hrm, p1, a, p2, d, hattrs, han, hd1, hd2, hd3⟩

theorem H5A_dense_iterate_insertion_order_witness :
    ∃ delivered : List H5A_t,
      H5A_dense_iterate
        (H5A_dense_insert_all (H5A_dense_create H5A_ex_file (H5A_ex_ainfo true)).2.1
          (H5A_dense_create H5A_ex_file (H5A_ex_ainfo true)).2.2
          [H5A_ex_attr "z" 0 [1], H5A_ex_attr "a" 1 [1, 2, 3], H5A_ex_attr "m" 2 []]).2
        (H5A_dense_create H5A_ex_file (H5A_ex_ainfo true)).2.2 H5_index_t.H5_INDEX_CRT_ORDER
        H5_iter_order_t.H5_ITER_NATIVE 0 none H5A_attr_op_collect [] = (0, none, delivered) ∧
      delivered.map H5O_msg_encode =
        [H5A_ex_attr "z" 0 [1], H5A_ex_attr "a" 1 [1, 2, 3], H5A_ex_attr "m" 2 []].map
          H5O_msg_encode ∧
      delivered.map (fun a => a.crt_idx) =
        [H5A_ex_attr "z" 0 [1], H5A_ex_attr "a" 1 [1, 2, 3], H5A_ex_attr "m" 2 []].map
          (fun a => a.crt_idx) :=
  (H5A_dense_iterate_insertion_order H5A_ex_file (H5A_ex_ainfo true)
    [H5A_ex_attr "z" 0 [1], H5A_ex_attr "a" 1 [1, 2, 3], H5A_ex_attr "m" 2 []] rfl
    (by decide) (by decide) (by decide)).1

/-! ## Heap handles -/

/-- C20 (what the code does): when `H5HF_create` has succeeded and
`H5HF_get_heap_addr` fails, `H5A_dense_create` returns `FAIL` with the heap
handle acquired and `H5HF_close` never called on it, whatever the other
calls would do; the same when, in a debugging build, `H5HF_get_id_len`
fails.  When all calls succeed the handle is closed once. -/
theorem H5A_dense_create_handle_not_closed (b1 b2 b3 b4 b5 b6 : Bool) :
    H5A_dense_create_handles true false b1 b2 b3 b4 b5 b6 =
      (FAIL, [H5HF_handle_event.acquired]) ∧
    H5A_dense_create_handles true true false false b3 b4 b5 b6 =
      (FAIL, [H5HF_handle_event.acquired]) ∧
    H5A_dense_create_handles true true b1 true true true b5 true =
      (SUCCEED, [H5HF_handle_event.acquired, H5HF_handle_event.closed]) := by
  refine ⟨?_, ?_, ?_⟩
  · rfl
  · rfl
  · cases b1 <;> cases b5 <;> rfl

/-! ## Reference counts of shared messages -/

/-- `H5SM_try_share` keeps every live slot referenced. -/
theorem H5SM_try_share_live (f : H5F_t) (attr : H5A_t) (flags : H5O_mesg_flags)
    (h : H5SM_live f) : H5SM_live (H5SM_try_share f attr flags).1 := by
  unfold H5SM_try_share
  split
  · split
    · rename_i i _
      intro j e hj
      simp only [List.getElem?_set] at hj
      split at hj
      · split at hj
        · simp only [Option.some.injEq] at hj
          rw [← hj]
          simp only
          split <;> omega
        · cases hj
      · exact h j e hj
    · intro j e hj
      simp only [List.getElem?_append] at hj
      split at hj
      · exact h j e hj
      · by_cases hz : j - f.sohm.length = 0
        · simp only [hz, List.getElem?_cons_zero, Option.some.injEq] at hj
          rw [← hj]
        · obtain ⟨k, hk⟩ : ∃ k, j - f.sohm.length = k + 1 := ⟨j - f.sohm.length - 1, by omega⟩
          simp [hk] at hj
  · exact h

/-- `H5SM_delete` keeps every live slot referenced. -/
theorem H5SM_delete_live (f g : H5F_t) (s : H5O_shared_t) (h : H5SM_live f)
    (hd : H5SM_delete f s = some g) : H5SM_live g := by
  unfold H5SM_delete at hd
  split at hd
  · rename_i e0 he0
    split at hd
    · simp only [Option.some.injEq] at hd
      subst hd
      intro j e hj
      simp only [List.getElem?_set] at hj
      split at hj
      · split at hj
        · cases hj
        · cases hj
      · exact h j e hj
    · rename_i hrc
      simp only [Option.some.injEq] at hd
      subst hd
      intro j e hj
      simp only [List.getElem?_set] at hj
      split at hj
      · split at hj
        · simp only [Option.some.injEq] at hj
          rw [← hj]
          simp only
          omega
        · cases hj
      · exact h j e hj
  · cases hd

/-- Whether the live slots are referenced depends on the shared message table
only. -/
theorem H5SM_live_congr (f g : H5F_t) (h : g.sohm = f.sohm) (hf : H5SM_live f) :
    H5SM_live g := by
  intro i e hi
  rw [h] at hi
  exact hf i e hi

theorem H5HF_insert_sohm (f g : H5F_t) (fheap : Nat) (obj : H5A_mesg) (id : Nat)
    (h : H5HF_insert f fheap obj = some (g, id)) : g.sohm = f.sohm := by
  unfold H5HF_insert at h
  split at h
  · cases h
  · simp only [Option.some.injEq, Prod.mk.injEq] at h
    rw [← h.1]
    rfl

theorem H5HF_remove_sohm (f g : H5F_t) (fheap id : Nat)
    (h : H5HF_remove f fheap id = some g) : g.sohm = f.sohm := by
  unfold H5HF_remove at h
  split at h
  · cases h
  · split at h
    · cases h
    · simp only [Option.some.injEq] at h
      rw [← h]
      rfl

theorem H5B2_insert_name_sohm (f g : H5F_t) (addr : haddr_t) (udata : H5A_bt2_ud_common_t)
    (id : Nat) (h : H5B2_insert_name f addr udata id = some g) : g.sohm = f.sohm := by
  unfold H5B2_insert_name at h
  split at h
  · cases h
  · split at h
    · cases h
    · split at h
      · cases h
      · simp only [Option.some.injEq] at h
        rw [← h]
        rfl

theorem H5B2_insert_corder_sohm (f g : H5F_t) (addr : haddr_t) (udata : H5A_bt2_ud_common_t)
    (id : Nat) (h : H5B2_insert_corder f addr udata id = some g) : g.sohm = f.sohm := by
  unfold H5B2_insert_corder at h
  split at h
  · cases h
  · split at h
    · cases h
    · split at h
      · cases h
      · simp only [Option.some.injEq] at h
        rw [← h]
        rfl

theorem H5B2_remove_corder_sohm (f g : H5F_t) (addr : haddr_t) (corder : Nat)
    (h : H5B2_remove_corder f addr corder = some g) : g.sohm = f.sohm := by
  unfold H5B2_remove_corder at h
  split at h
  · cases h
  · split at h
    · cases h
    · split at h
      · simp only [Option.some.injEq] at h
        rw [← h]
        rfl
      · cases h

/-- `H5A_dense_insert` keeps every live slot of the shared message table
referenced. -/
theorem H5A_dense_insert_live (f : H5F_t) (ainfo : H5O_ainfo_t) (attr : H5A_t)
    (h : H5SM_live f) : H5SM_live (H5A_dense_insert f ainfo attr).2.1 := by
  have h1 : H5SM_live (H5A_dense_insert_share f attr).1 := by
    unfold H5A_dense_insert_share
    split
    · split
      · exact h
      · exact H5SM_try_share_live f attr _ h
    · exact h
  rw [H5A_dense_insert_eq]
  split
  · exact h1
  · split
    · exact h1
    · rename_i fheap _ f2 id hst
      have h2 : H5SM_live f2 := by
        refine H5SM_live_congr _ f2 ?_ h1
        unfold H5A_dense_insert_store at hst
        split at hst
        · simp only [Option.some.injEq, Prod.mk.injEq] at hst
          rw [← hst.1]
        · split at hst
          · cases hst
          · exact H5HF_insert_sohm _ _ _ _ _ hst
      split
      · exact h2
      · rename_i f3 hin
        have h3 : H5SM_live f3 := H5SM_live_congr _ f3 (H5B2_insert_name_sohm _ _ _ _ _ hin) h2
        split
        · split
          · exact h3
          · rename_i f4 hic
            exact H5SM_live_congr _ f4 (H5B2_insert_corder_sohm _ _ _ _ _ hic) h3
        · exact h3

/-- The removal callback keeps every live slot of the shared message table
referenced. -/
theorem H5A_dense_remove_bt2_cb_live (udata : H5A_bt2_ud_rm_t) (f : H5F_t)
    (record : H5A_dense_bt2_name_rec_t) (attr : H5A_t) (h : H5SM_live f) :
    H5SM_live (H5A_dense_remove_bt2_cb udata f record attr).2 := by
  have key : ∀ f1 : H5F_t, H5SM_live f1 →
      H5SM_live (if record.flags.SHARED = true then
          (match H5SM_delete f1 attr.sh_loc with
           | none => ((FAIL, f1) : herr_t × H5F_t)
           | some f2 => (SUCCEED, f2))
        else
          (match H5HF_remove (H5O_attr_delete f1 attr) udata.common.fheap record.id with
           | none => (FAIL, H5O_attr_delete f1 attr)
           | some f3 => (SUCCEED, f3))).2 := by
    intro f1 h1
    by_cases hs : record.flags.SHARED = true
    · simp only [hs, if_true]
      cases hd : H5SM_delete f1 attr.sh_loc with
      | none => exact h1
      | some f2 => exact H5SM_delete_live f1 f2 _ h1 hd
    · simp only [hs, if_false]
      cases hr : H5HF_remove (H5O_attr_delete f1 attr) udata.common.fheap record.id with
      | none => exact H5SM_live_congr f1 _ rfl h1
      | some f3 =>
        exact H5SM_live_congr _ f3 (H5HF_remove_sohm _ _ _ _ hr) (H5SM_live_congr f1 _ rfl h1)
  unfold H5A_dense_remove_bt2_cb
  by_cases hdef : H5F_addr_defined udata.corder_bt2_addr = true
  · simp only [hdef, if_true]
    cases hrm : H5B2_remove_corder f udata.corder_bt2_addr attr.crt_idx with
    | none => exact h
    | some f1 =>
      exact key f1 (H5SM_live_congr _ f1 (H5B2_remove_corder_sohm _ _ _ _ hrm) h)
  · simp only [hdef, if_false]
    exact key f h

/-- `H5A_dense_remove` keeps every live slot of the shared message table
referenced. -/
theorem H5A_dense_remove_live (f : H5F_t) (ainfo : H5O_ainfo_t) (name : String)
    (h : H5SM_live f) : H5SM_live (H5A_dense_remove f ainfo name).2 := by
  unfold H5A_dense_remove
  cases h1 : H5HF_open f ainfo.fheap_addr with
  | none => exact h
  | some fheap =>
    simp only
    unfold H5B2_remove_name
    cases ha : ainfo.name_bt2_addr with
    | none => exact h
    | some a =>
      simp only
      cases ht : f.name_bt2 a with
      | none => exact h
      | some t =>
        simp only
        cases hfn : H5B2_find_name f (some a)
            ⟨fheap, H5A_dense_shared_fheap f, name, f.H5_checksum_lookup3 name, ⟨false⟩, 0⟩ with
        | none => exact h
        | some found =>
          simp only
          split
          · exact H5A_dense_remove_bt2_cb_live _ f _ _ h
          · exact H5SM_live_congr _ _ rfl (H5A_dense_remove_bt2_cb_live _ f _ _ h)

/-! ## Writing an attribute of a well-formed store -/

/-- `H5B2_replace` replaces the record the lookup locates. -/
theorem H5B2_replace_of_find {ρ : Type} (p : ρ → Bool) (x : ρ) :
    ∀ l : List ρ, l.find? p = some x →
      ∃ l1 l2, l = l1 ++ x :: l2 ∧ ∀ new : ρ, H5B2_replace p new l = l1 ++ new :: l2
  | [], h => by simp at h
  | y :: ys, h => by
    by_cases hy : p y = true
    · simp only [List.find?_cons, hy, Option.some.injEq] at h
      subst h
      exact ⟨[], ys, rfl, fun new => by simp [H5B2_replace, hy]⟩
    · have hy' : p y = false := by simpa using hy
      simp only [List.find?_cons, hy'] at h
      obtain ⟨l1, l2, hl, hr⟩ := H5B2_replace_of_find p x ys h
      exact ⟨y :: l1, l2, by rw [hl]; rfl, fun new => by simp [H5B2_replace, hy', hr new]⟩

/-- The slots of the shared message table after `H5SM_try_share` has accepted
an attribute: every live slot stays live with its message, and the slot the
attribute is shared in, when it was live before, has one reference more. -/
theorem H5SM_try_share_slots (f : H5F_t) (attr : H5A_t)
    (hacc : (H5SM_try_share f attr { SHARED := false }).2.2.SHARED = true) :
    ∀ (j : Nat) (e0 : H5SM_mesg_t), f.sohm[j]? = some (some e0) →
      ∃ e1 : H5SM_mesg_t,
        (H5SM_try_share f attr { SHARED := false }).1.sohm[j]? = some (some e1) ∧
        e1.mesg = e0.mesg ∧
        (j = (H5SM_try_share f attr { SHARED := false }).2.1.sh_loc.heap_id →
          e1.ref_count = e0.ref_count + 1) := by
  intro j e0 hj
  unfold H5SM_try_share at hacc ⊢
  by_cases hc : (f.attr_sharable && f.H5SM_can_share (H5O_msg_encode attr)) = true
  · simp only [hc, if_true] at hacc ⊢
    cases hl : H5SM_lookup (H5O_msg_encode attr) f.sohm with
    | some i =>
      obtain ⟨e, he, hm⟩ := H5SM_lookup_some _ _ _ hl
      simp only [he]
      by_cases hji : j = i
      · subst hji
        rw [hj] at he
        simp only [Option.some.injEq] at he
        subst he
        have hlt : j < f.sohm.length := by
          by_contra hge
          rw [List.getElem?_eq_none (Nat.not_lt.1 hge)] at hj
          cases hj
        refine ⟨⟨H5O_msg_encode attr, e0.ref_count + 1⟩, ?_, hm.symm, fun _ => rfl⟩
        simp [List.getElem?_set, hlt]
      · refine ⟨e0, ?_, rfl, fun h => absurd h hji⟩
        simp only [List.getElem?_set]
        rw [if_neg (fun h => hji h.symm)]
        exact hj
    | none =>
      have hlt : j < f.sohm.length := by
        by_contra hge
        rw [List.getElem?_eq_none (Nat.not_lt.1 hge)] at hj
        cases hj
      refine ⟨e0, ?_, rfl, ?_⟩
      · simp only [List.getElem?_append_left hlt]
        exact hj
      · intro h
        simp only at h
        omega
  · simp only [hc, if_false] at hacc
    cases hacc

/-- A well-formed store stays well formed when one record of the name index
is rewritten in place, keeping its hash, its flags and its creation order,
the rewritten record reads as an attribute of the same name, the other
records read as before, and the mirrored record of the creation order index
is rewritten the same way. -/
theorem H5A_dense_valid_of_replace (f g : H5F_t) (ainfo : H5O_ainfo_t) (fheap : Nat)
    (l1 l2 : List H5A_dense_bt2_name_rec_t) (rec rec1 : H5A_dense_bt2_name_rec_t)
    (hopen : H5HF_open g ainfo.fheap_addr = some fheap)
    (hhash : g.H5_checksum_lookup3 = f.H5_checksum_lookup3)
    (hrecs : H5B2_name_recs g ainfo.name_bt2_addr = some (l1 ++ rec1 :: l2))
    (hreads : ∀ r ∈ l1 ++ rec :: l2, ∃ attr,
      H5A_dense_heap_op f fheap (H5A_dense_shared_fheap f) r.common = some attr ∧
      f.H5_checksum_lookup3 attr.name = r.hash)
    (hnodup : ((l1 ++ rec :: l2).map (H5A_dense_rec_name f fheap)).Nodup)
    (hidx : ainfo.index_corder = H5F_addr_defined ainfo.corder_bt2_addr)
    (hkeep : ∀ r ∈ l1 ++ l2,
      H5A_dense_heap_op g fheap (H5A_dense_shared_fheap g) r.common =
        H5A_dense_heap_op f fheap (H5A_dense_shared_fheap f) r.common)
    (hrec1 : ∃ a a1, H5A_dense_heap_op f fheap (H5A_dense_shared_fheap f) rec.common = some a ∧
      H5A_dense_heap_op g fheap (H5A_dense_shared_fheap g) rec1.common = some a1 ∧
      a1.name = a.name)
    (hh1 : rec1.hash = rec.hash) (hc1 : rec1.corder = rec.corder)
    (hmirror : ∀ c, ainfo.corder_bt2_addr = some c →
      ∃ m1 m2, H5A_dense_mirror (l1 ++ rec :: l2) (m1 ++ rec.common :: m2) ∧
        H5B2_corder_recs g (some c) = some (m1 ++ rec1.common :: m2)) :
    H5A_dense_valid g ainfo = true := by
  rw [H5A_dense_valid_iff]
  obtain ⟨a, a1, ha, ha1, hname⟩ := hrec1
  have hnm1 : H5A_dense_rec_name g fheap rec1 = H5A_dense_rec_name f fheap rec := by
    simp only [H5A_dense_rec_name, ha, ha1, Option.map_some', hname]
  have hnm : ∀ r ∈ l1 ++ l2, H5A_dense_rec_name g fheap r = H5A_dense_rec_name f fheap r := by
    intro r hr
    simp only [H5A_dense_rec_name, hkeep r hr]
  refine ⟨fheap, l1 ++ rec1 :: l2, hopen, hrecs, ?_, ?_, hidx, ?_⟩
  · intro r hr
    rw [List.mem_append, List.mem_cons] at hr
    rcases hr with hr | hr | hr
    · rw [hkeep r (List.mem_append_left _ hr), hhash]
      exact hreads r (List.mem_append_left _ hr)
    · subst hr
      obtain ⟨a', ha', hha⟩ := hreads rec (by simp)
      rw [ha] at ha'
      cases ha'
      exact ⟨a1, ha1, by rw [hhash, hname, hha, hh1]⟩
    · rw [hkeep r (List.mem_append_right _ hr), hhash]
      exact hreads r (List.mem_append_right _ (List.mem_cons_of_mem _ hr))
  · have heq : (l1 ++ rec1 :: l2).map (H5A_dense_rec_name g fheap) =
        (l1 ++ rec :: l2).map (H5A_dense_rec_name f fheap) := by
      simp only [List.map_append, List.map_cons, hnm1]
      congr 1
      · exact List.map_congr_left (fun r hr => hnm r (List.mem_append_left _ hr))
      · congr 1
        exact List.map_congr_left (fun r hr => hnm r (List.mem_append_right _ hr))
    rw [heq]
    exact hnodup
  · intro c hc
    obtain ⟨m1, m2, ⟨hperm, hnd⟩, hg⟩ := hmirror c hc
    refine ⟨m1 ++ rec1.common :: m2, hg, ?_, ?_⟩
    · simp only [List.map_append, List.map_cons] at hperm ⊢
      have h1 := (List.perm_middle.symm.trans hperm).trans List.perm_middle
      have h2 := h1.cons_inv
      exact (List.perm_middle.trans (h2.cons rec1.common)).trans List.perm_middle.symm
    · have : (m1 ++ rec1.common :: m2).map (fun c => c.corder) =
          (m1 ++ rec.common :: m2).map (fun c => c.corder) := by
        simp [H5A_dense_bt2_name_rec_t.common, hc1]
      rw [this]
      exact hnd

/-- Reading a record in a later state of the file in which the object's heap
is as before and the record's slot of the shared message table still holds
its message. -/
theorem H5A_dense_heap_op_of_slot (f g : H5F_t) (fheap : Nat)
    (r : H5A_dense_bt2_corder_rec_t) (a : H5A_t)
    (hs : g.attr_sharable = f.attr_sharable) (hf : g.fheaps fheap = f.fheaps fheap)
    (hkeep : r.flags.SHARED = true → ∀ e : H5SM_mesg_t, f.sohm[r.id]? = some (some e) →
      ∃ e' : H5SM_mesg_t, g.sohm[r.id]? = some (some e') ∧ e'.mesg = e.mesg)
    (h : H5A_dense_heap_op f fheap (H5A_dense_shared_fheap f) r = some a) :
    H5A_dense_heap_op g fheap (H5A_dense_shared_fheap g) r = some a := by
  rw [H5A_dense_heap_op_eq_some] at h ⊢
  obtain ⟨obj, hobj, ha⟩ := h
  refine ⟨obj, ?_, ha⟩
  by_cases hsh : r.flags.SHARED = true
  · simp only [hsh, if_true] at hobj ⊢
    rw [H5HF_op_shared_eq_some] at hobj ⊢
    obtain ⟨h1, e, he, hm⟩ := hobj
    obtain ⟨e', he', hm'⟩ := hkeep hsh e he
    exact ⟨hs.trans h1, e', he', hm'.trans hm⟩
  · simp only [hsh] at hobj ⊢
    simpa [H5HF_op, hf] using hobj

/-- What `H5O_attr_update_shared` does to an attribute whose shared location
is a live slot holding a message of that name, in a file whose live slots are
all referenced: either it fails and leaves the file as it was, or it
succeeds, and then only the shared message table and the object header log
have changed, the shared location returned is a live slot holding the
attribute's message, messages of other names are where they were, and the
live slots are all referenced. -/
theorem H5O_attr_update_shared_spec (f : H5F_t) (attr : H5A_t) (e0 : H5SM_mesg_t)
    (hl : H5SM_live f) (he0 : f.sohm[attr.sh_loc.heap_id]? = some (some e0))
    (hnm : e0.mesg.name = attr.name) :
    ((H5O_attr_update_shared f attr).1 = FAIL ∧ (H5O_attr_update_shared f attr).2.1 = f) ∨
    ((H5O_attr_update_shared f attr).1 = SUCCEED ∧
      (H5O_attr_update_shared f attr).2.2.crt_idx = attr.crt_idx ∧
      (H5O_attr_update_shared f attr).2.1 =
        { f with sohm := (H5O_attr_update_shared f attr).2.1.sohm,
                 oh_log := (H5O_attr_update_shared f attr).2.1.oh_log } ∧
      (∃ e : H5SM_mesg_t,
        (H5O_attr_update_shared f attr).2.1.sohm[
          (H5O_attr_update_shared f attr).2.2.sh_loc.heap_id]? = some (some e) ∧
        e.mesg = H5O_msg_encode attr) ∧
      (∀ (j : Nat) (e : H5SM_mesg_t), f.sohm[j]? = some (some e) → e.mesg.name ≠ attr.name →
        ∃ e' : H5SM_mesg_t, (H5O_attr_update_shared f attr).2.1.sohm[j]? = some (some e') ∧
          e'.mesg = e.mesg) ∧
      H5SM_live (H5O_attr_update_shared f attr).2.1) := by
  have hspec := H5SM_try_share_spec f
    { attr with sh_loc := { attr.sh_loc with type := H5O_share_type_t.H5O_SHARE_TYPE_UNSHARED } } 0
  have hslots := H5SM_try_share_slots f
    { attr with sh_loc := { attr.sh_loc with type := H5O_share_type_t.H5O_SHARE_TYPE_UNSHARED } }
  have hlive := H5SM_try_share_live f
    { attr with sh_loc := { attr.sh_loc with type := H5O_share_type_t.H5O_SHARE_TYPE_UNSHARED } }
    { SHARED := false } hl
  unfold H5O_attr_update_shared
  simp only
  generalize H5SM_try_share f
    { attr with sh_loc := { attr.sh_loc with type := H5O_share_type_t.H5O_SHARE_TYPE_UNSHARED } }
    { SHARED := false } = sh at hspec hslots hlive
  obtain ⟨hf1, -, hattr1, hacc, hdecl⟩ := hspec
  by_cases hS : sh.2.2.SHARED = false
  · left
    rw [if_pos hS]
    have := hdecl hS
    subst this
    exact ⟨rfl, rfl⟩
  · right
    have hS' : sh.2.2.SHARED = true := by simpa using hS
    rw [if_neg hS]
    obtain ⟨-, e, he, hm⟩ := hacc hS'
    have hrc : H5SM_get_refcount sh.1 sh.2.1.sh_loc = some e.ref_count := by
      simp [H5SM_get_refcount, he]
    simp only [hrc]
    obtain ⟨e1, he1, hm1, hrc1⟩ := hslots hS' attr.sh_loc.heap_id e0 he0
    generalize hf1' : (if e.ref_count = 1 then H5O_attr_link sh.1 sh.2.1 else sh.1) = f1
    have hf1s : f1.sohm = sh.1.sohm := by
      rw [← hf1']
      split <;> rfl
    have hf1f : f1 = { f with sohm := f1.sohm, oh_log := f1.oh_log } := by
      rw [← hf1']
      split
      · rw [hf1]; rfl
      · rw [hf1]
    have hf1l : H5SM_live f1 := H5SM_live_congr sh.1 f1 hf1s hlive
    have he1' : f1.sohm[attr.sh_loc.heap_id]? = some (some e1) := by rw [hf1s]; exact he1
    obtain ⟨f2, hdel, hf2, hcases⟩ := H5SM_delete_spec f1 attr.sh_loc e1 he1'
    simp only [hdel]
    have hcrt : sh.2.1.crt_idx = attr.crt_idx := by rw [hattr1]
    have hlt : attr.sh_loc.heap_id < sh.1.sohm.length := by
      by_contra hge
      rw [List.getElem?_eq_none (Nat.not_lt.1 hge)] at he1
      cases he1
    refine ⟨by first | rfl | trivial, hcrt, ?_, ?_, ?_, H5SM_delete_live f1 f2 attr.sh_loc hf1l hdel⟩
    · rw [hf2, hf1f]
    · by_cases hi : sh.2.1.sh_loc.heap_id = attr.sh_loc.heap_id
      · have hee : e1 = e := by
          rw [hi, he1] at he
          simpa using he
        have hrc2 : 2 ≤ e1.ref_count := by
          have := hl _ _ he0
          have := hrc1 hi.symm
          omega
        have hs2 : f2.sohm = f1.sohm.set attr.sh_loc.heap_id
            (some ⟨e1.mesg, e1.ref_count - 1⟩) := by
          unfold H5SM_delete at hdel
          simp only [he1', if_neg (by omega : ¬ e1.ref_count ≤ 1), Option.some.injEq] at hdel
          rw [← hdel]
        refine ⟨⟨e1.mesg, e1.ref_count - 1⟩, ?_, ?_⟩
        · rw [hs2, hi, hf1s]
          simp [List.getElem?_set, hlt]
        · rw [hee, hm]
          rfl
      · refine ⟨e, ?_, by rw [hm]; rfl⟩
        rcases hcases with hc | hc <;>
        · rw [hc, hf1s, List.getElem?_set, if_neg (fun h => hi h.symm)]
          exact he
    · intro j ej hj hne
      have hjk : attr.sh_loc.heap_id ≠ j := by
        intro h
        rw [h, hj] at he0
        simp only [Option.some.injEq] at he0
        rw [← he0] at hnm
        exact hne hnm
      obtain ⟨ej', hej', hmj, -⟩ := hslots hS' j ej hj
      refine ⟨ej', ?_, hmj⟩
      rcases hcases with hc | hc <;>
      · rw [hc, hf1s, List.getElem?_set, if_neg hjk]
        exact hej'

theorem List.ne_of_nodup_map_middle {α β : Type} (φ : α → β) (l1 l2 : List α) (x : α)
    (h : ((l1 ++ x :: l2).map φ).Nodup) : ∀ r ∈ l1 ++ l2, φ r ≠ φ x := by
  intro r hr heq
  rw [List.map_append, List.map_cons, List.nodup_middle, List.nodup_cons] at h
  apply h.1
  rw [← List.map_append, ← heq]
  exact List.mem_map_of_mem φ hr

/-- `H5A_dense_write` in a store whose heap and name index are there: the
lookup of the attribute's name, the callback on the located record, and the
record as the callback leaves it put in the place of the located one. -/
theorem H5A_dense_write_eq (f : H5F_t) (ainfo : H5O_ainfo_t) (attr : H5A_t) (fheap a : Nat)
    (t : H5B2_t H5A_dense_bt2_name_rec_t)
    (hopen : H5HF_open f ainfo.fheap_addr = some fheap)
    (ha : ainfo.name_bt2_addr = some a) (ht : f.name_bt2 a = some t) :
    H5A_dense_write f ainfo attr =
      match t.recs.find? (H5A_dense_is_named f fheap attr.name) with
      | none => (FAIL, f, attr)
      | some rec =>
        if (H5A_dense_write_bt2_cb
              { fheap := fheap, shared_fheap := H5A_dense_shared_fheap f, attr := attr,
                corder_bt2_addr := ainfo.corder_bt2_addr } f rec).1 < 0 then
          (FAIL,
           (H5A_dense_write_bt2_cb
              { fheap := fheap, shared_fheap := H5A_dense_shared_fheap f, attr := attr,
                corder_bt2_addr := ainfo.corder_bt2_addr } f rec).2.1,
           (H5A_dense_write_bt2_cb
              { fheap := fheap, shared_fheap := H5A_dense_shared_fheap f, attr := attr,
                corder_bt2_addr := ainfo.corder_bt2_addr } f rec).2.2.2.2)
        else
          (SUCCEED,
           (H5A_dense_write_bt2_cb
              { fheap := fheap, shared_fheap := H5A_dense_shared_fheap f, attr := attr,
                corder_bt2_addr := ainfo.corder_bt2_addr } f rec).2.1.set_name_bt2 a
             (some (t.set_recs (H5B2_replace (H5A_dense_is_named f fheap attr.name)
               (H5A_dense_write_bt2_cb
                { fheap := fheap, shared_fheap := H5A_dense_shared_fheap f, attr := attr,
                  corder_bt2_addr := ainfo.corder_bt2_addr } f rec).2.2.1 t.recs))),
           (H5A_dense_write_bt2_cb
              { fheap := fheap, shared_fheap := H5A_dense_shared_fheap f, attr := attr,
                corder_bt2_addr := ainfo.corder_bt2_addr } f rec).2.2.2.2) := by
  simp only [H5A_dense_write, hopen, H5B2_modify_name, ha, ht]
  rw [H5A_dense_name_match_eq f _ rfl rfl]
  rfl

/-- `H5B2_modify` on the creation order index rewrites the heap ID of the
first record carrying the creation order. -/
theorem H5B2_modify_corder_spec (f : H5F_t) (c : Nat) (ct : H5B2_t H5A_dense_bt2_corder_rec_t)
    (corder id : Nat) (x : H5A_dense_bt2_corder_rec_t) (hct : f.corder_bt2 c = some ct)
    (hfind : ct.recs.find? (fun r => decide (r.corder = corder)) = some x) :
    ∃ m1 m2, ct.recs = m1 ++ x :: m2 ∧
      H5B2_modify_corder f (some c) corder id =
        some (f.set_corder_bt2 c (some (ct.set_recs (m1 ++ { x with id := id } :: m2)))) := by
  obtain ⟨m1, m2, hm, hrep⟩ := H5B2_replace_of_find _ x ct.recs hfind
  refine ⟨m1, m2, hm, ?_⟩
  simp only [H5B2_modify_corder, hct, H5A_dense_btree2_corder_compare_pred, hfind,
    H5A_dense_write_bt2_cb2, hrep]
  rfl

/-- The write callback on a record that is not shared: it fails leaving the
file as it was, or overwrites the record's object in the heap and leaves the
record as it was. -/
theorem H5A_dense_write_bt2_cb_unshared (op_data : H5A_bt2_od_wrt_t) (f : H5F_t)
    (rec : H5A_dense_bt2_name_rec_t) (hsh : rec.flags.SHARED = false) :
    ((H5A_dense_write_bt2_cb op_data f rec).1 = FAIL ∧
      (H5A_dense_write_bt2_cb op_data f rec).2.1 = f) ∨
    ((H5A_dense_write_bt2_cb op_data f rec).1 = SUCCEED ∧
      (H5A_dense_write_bt2_cb op_data f rec).2.2.1 = rec ∧
      ∃ h : H5HF_t, f.fheaps op_data.fheap = some h ∧
        (H5A_dense_write_bt2_cb op_data f rec).2.1 =
          f.set_fheap op_data.fheap
            (some (h.set rec.id (some (H5O_msg_encode op_data.attr))))) := by
  unfold H5A_dense_write_bt2_cb
  rw [if_neg (by simp [hsh])]
  by_cases hz : f.H5O_msg_raw_size op_data.attr = 0
  · rw [if_pos hz]
    exact Or.inl ⟨rfl, rfl⟩
  · rw [if_neg hz]
    cases hlen : H5HF_get_obj_len f op_data.fheap rec.id with
    | none => exact Or.inl ⟨rfl, rfl⟩
    | some obj_len =>
      simp only
      by_cases hne : obj_len ≠ f.H5O_msg_raw_size op_data.attr
      · rw [if_pos hne]
        exact Or.inl ⟨rfl, rfl⟩
      · rw [if_neg hne]
        unfold H5HF_write
        cases hh : f.fheaps op_data.fheap with
        | none => exact Or.inl ⟨rfl, rfl⟩
        | some h =>
          simp only
          cases hr : H5HF_read h rec.id with
          | none => exact Or.inl ⟨rfl, rfl⟩
          | some o =>
            simp only
            by_cases hsz : H5HF_obj_size f (H5O_msg_encode op_data.attr) = H5HF_obj_size f o
            · rw [if_pos hsz]
              exact Or.inr ⟨rfl, rfl, h, rfl, rfl⟩
            · rw [if_neg hsz]
              exact Or.inl ⟨rfl, rfl⟩

/-- Reading a slot of a heap after another slot has been overwritten. -/
theorem H5HF_read_set_ne (h : H5HF_t) (id id' : Nat) (o : Option H5A_mesg) (hne : id ≠ id') :
    H5HF_read (h.set id o) id' = H5HF_read h id' := by
  unfold H5HF_read
  rw [List.getElem?_set, if_neg hne]

/-- Reading a record after an object of the heap has been overwritten: a
shared record, and a record with another heap ID, read as before. -/
theorem H5A_dense_heap_op_set_ne (f g : H5F_t) (fheap : Nat) (h : H5HF_t)
    (o : Option H5A_mesg) (id : Nat) (r : H5A_dense_bt2_corder_rec_t)
    (hs : g.attr_sharable = f.attr_sharable) (hsohm : g.sohm = f.sohm)
    (hf : f.fheaps fheap = some h) (hg : g.fheaps fheap = some (h.set id o))
    (hne : r.flags.SHARED = false → id ≠ r.id) :
    H5A_dense_heap_op g fheap (H5A_dense_shared_fheap g) r =
      H5A_dense_heap_op f fheap (H5A_dense_shared_fheap f) r := by
  unfold H5A_dense_heap_op
  rw [H5A_dense_shared_fheap_congr f g hs hsohm]
  by_cases hsh : r.flags.SHARED = true
  · simp only [hsh, if_true, H5HF_op_shared, hsohm]
  · have hsh' : r.flags.SHARED = false := by simpa using hsh
    simp only [hsh', H5HF_op, hf, hg, H5HF_read_set_ne h id r.id o (hne hsh'),
      Bool.false_eq_true, if_false]

/-- Reading the object a heap slot has been overwritten with. -/
theorem H5HF_read_set_self (h : H5HF_t) (id : Nat) (o o' : H5A_mesg)
    (hr : H5HF_read h id = some o) : H5HF_read (h.set id (some o')) id = some o' := by
  unfold H5HF_read at hr ⊢
  have hlt : id < h.length := by
    by_contra hge
    rw [List.getElem?_eq_none (Nat.not_lt.1 hge)] at hr
    cases hr
  simp [List.getElem?_set, hlt]

/-- `H5A_dense_write` keeps a well-formed store well formed, and the live
slots of the shared message table referenced, when the attribute written
carries the creation order and the shared location of the attribute the store
holds under its name. -/
theorem H5A_dense_write_valid (f : H5F_t) (ainfo : H5O_ainfo_t) (attr : H5A_t)
    (hv : H5A_dense_valid f ainfo = true) (hl : H5SM_live f)
    (hattr : ∀ stored, H5A_dense_open f ainfo attr.name = some stored →
      attr.crt_idx = stored.crt_idx ∧ attr.sh_loc = stored.sh_loc) :
    H5A_dense_valid (H5A_dense_write f ainfo attr).2.1 ainfo = true ∧
      H5SM_live (H5A_dense_write f ainfo attr).2.1 := by
  obtain ⟨fheap, recs, hopen, hrecs, hreads, hnodup, hidx, hmirror⟩ :=
    (H5A_dense_valid_iff f ainfo).1 hv
  obtain ⟨a, t, ha, ht, htr⟩ := (H5B2_name_recs_eq_some _ _ _).1 hrecs
  rw [H5A_dense_write_eq f ainfo attr fheap a t hopen ha ht]
  cases hfind : t.recs.find? (H5A_dense_is_named f fheap attr.name) with
  | none => exact ⟨hv, hl⟩
  | some rec =>
    simp only
    obtain ⟨l1, l2, hl12, hrep⟩ := H5B2_replace_of_find _ rec t.recs hfind
    rw [htr] at hl12
    subst hl12
    have hmem : rec ∈ l1 ++ rec :: l2 := by simp
    have hnamed := List.find?_some hfind
    simp only [H5A_dense_is_named, decide_eq_true_eq] at hnamed
    obtain ⟨hhash, hname⟩ := hnamed
    obtain ⟨stored, hst, hsth⟩ := hreads rec hmem
    have hstn : stored.name = attr.name := by
      simpa [H5A_dense_rec_name, hst] using hname
    have hopn : H5A_dense_open f ainfo attr.name = some stored := by
      rw [H5A_dense_open_eq f ainfo attr.name fheap _ hopen hrecs, ← htr, hfind]
      exact hst
    obtain ⟨hcrt, hshloc⟩ := hattr stored hopn
    have hother : ∀ r ∈ l1 ++ l2, ∃ ar,
        H5A_dense_heap_op f fheap (H5A_dense_shared_fheap f) r.common = some ar ∧
        ar.name ≠ attr.name := by
      intro r hr
      have hr' : r ∈ l1 ++ rec :: l2 := by
        rw [List.mem_append] at hr ⊢
        rcases hr with hr | hr
        · exact Or.inl hr
        · exact Or.inr (List.mem_cons_of_mem _ hr)
      obtain ⟨ar, har, -⟩ := hreads r hr'
      refine ⟨ar, har, fun hn => ?_⟩
      apply List.ne_of_nodup_map_middle _ l1 l2 rec hnodup r hr
      rw [hname]
      simp [H5A_dense_rec_name, har, hn]
    have hmir0 : ∀ c, ainfo.corder_bt2_addr = some c →
        ∃ ct, f.corder_bt2 c = some ct ∧ H5A_dense_mirror (l1 ++ rec :: l2) ct.recs ∧
          ct.recs.find? (fun r => decide (r.corder = attr.crt_idx)) = some rec.common := by
      intro c hc
      obtain ⟨crecs, hcrecs, hmir⟩ := hmirror c hc
      obtain ⟨c', ct, hc', hct, hctr⟩ := (H5B2_corder_recs_eq_some _ _ _).1 hcrecs
      cases hc'
      have hin : rec.common ∈ crecs :=
        hmir.1.subset (List.mem_map_of_mem _ hmem)
      have hfx : ct.recs.find? (fun r => decide (r.corder = attr.crt_idx)) = some rec.common := by
        cases hf : ct.recs.find? (fun r => decide (r.corder = attr.crt_idx)) with
        | none =>
          rw [List.find?_eq_none] at hf
          have := hf rec.common (by rw [hctr]; exact hin)
          rw [hcrt, (H5A_dense_heap_op_crt_idx f fheap _ _ _ hst)] at this
          simp at this
        | some x =>
          have hx := List.find?_some hf
          have hxm := List.mem_of_find?_eq_some hf
          rw [hctr] at hxm
          simp only [decide_eq_true_eq] at hx
          have : x = rec.common := by
            apply List.eq_of_nodup_map _ crecs hmir.2 x rec.common hxm hin
            show x.corder = rec.corder
            rw [hx, hcrt, (H5A_dense_heap_op_crt_idx f fheap _ _ _ hst)]
            rfl
          rw [this]
      refine ⟨ct, hct, ?_, hfx⟩
      rw [hctr]
      exact hmir
    by_cases hshr : rec.flags.SHARED = true
    · have hobj : ∃ e0 : H5SM_mesg_t, f.attr_sharable = true ∧
          f.sohm[rec.id]? = some (some e0) ∧
          stored = H5A_dense_copy_fh_cb e0.mesg rec.common := by
        have hst' := hst
        rw [H5A_dense_heap_op_eq_some] at hst'
        obtain ⟨obj, hobj, hso⟩ := hst'
        have : rec.common.flags.SHARED = true := hshr
        simp only [this, if_true] at hobj
        rw [H5HF_op_shared_eq_some] at hobj
        obtain ⟨h1, e, he, hm⟩ := hobj
        exact ⟨e, h1, he, by rw [hm]; exact hso⟩
      obtain ⟨e0, hsharable, he0, hso⟩ := hobj
      have hid : attr.sh_loc.heap_id = rec.id := by
        rw [hshloc, hso]
        exact H5A_dense_copy_fh_cb_sh_loc _ _ hshr
      have hnm0 : e0.mesg.name = attr.name := by
        rw [← hstn, hso, (H5A_dense_copy_fh_cb_fields _ _).1]
      have huspec := H5O_attr_update_shared_spec f attr e0 hl (by rw [hid]; exact he0) hnm0
      unfold H5A_dense_write_bt2_cb
      simp only [hshr, if_true]
      generalize H5O_attr_update_shared f attr = u at huspec ⊢
      rcases huspec with ⟨hu1, hu2⟩ | ⟨hu1, hcrt2, hf2, ⟨e', he', hme'⟩, hkeep2, hlive2⟩
      · have hlt : u.1 < 0 := by rw [hu1]; decide
        simp only [hlt, if_true, hu2]
        exact ⟨hv, hl⟩
      · have hnlt : ¬ u.1 < 0 := by rw [hu1]; decide
        simp only [hnlt, if_false]
        have hff : u.2.1.fheaps = f.fheaps := by rw [hf2]
        have hfh : u.2.1.H5_checksum_lookup3 = f.H5_checksum_lookup3 := by rw [hf2]
        have hfs : u.2.1.attr_sharable = f.attr_sharable := by rw [hf2]
        have hfn : u.2.1.name_bt2 = f.name_bt2 := by rw [hf2]
        have hfc : u.2.1.corder_bt2 = f.corder_bt2 := by rw [hf2]
        have key : ∀ G : H5F_t, G.fheaps = f.fheaps →
            G.H5_checksum_lookup3 = f.H5_checksum_lookup3 →
            G.attr_sharable = f.attr_sharable → G.sohm = u.2.1.sohm →
            G.name_bt2 a = some (t.set_recs
              (l1 ++ { rec with id := u.2.2.sh_loc.heap_id } :: l2)) →
            (∀ c, ainfo.corder_bt2_addr = some c →
              ∃ m1 m2, H5A_dense_mirror (l1 ++ rec :: l2) (m1 ++ rec.common :: m2) ∧
                H5B2_corder_recs G (some c) =
                  some (m1 ++ { rec.common with id := u.2.2.sh_loc.heap_id } :: m2)) →
            H5A_dense_valid G ainfo = true ∧ H5SM_live G := by
          intro G hGf hGh hGs hGsohm hGn hGc
          refine ⟨?_, H5SM_live_congr u.2.1 G hGsohm hlive2⟩
          refine H5A_dense_valid_of_replace f G ainfo fheap l1 l2 rec
            { rec with id := u.2.2.sh_loc.heap_id } ?_ hGh ?_ hreads hnodup hidx ?_ ?_ rfl rfl hGc
          · rw [H5HF_open_congr f G _ hGf]
            exact hopen
          · rw [H5B2_name_recs_eq_some]
            exact ⟨a, _, ha, hGn, rfl⟩
          · intro r hr
            obtain ⟨ar, har, hne⟩ := hother r hr
            rw [har]
            refine H5A_dense_heap_op_of_slot f G fheap r.common ar hGs (by rw [hGf]) ?_ har
            intro hrs e he
            have hen : e.mesg.name = ar.name := by
              have har' := har
              rw [H5A_dense_heap_op_eq_some] at har'
              obtain ⟨obj, hobj, hao⟩ := har'
              simp only [hrs, if_true] at hobj
              rw [H5HF_op_shared_eq_some] at hobj
              obtain ⟨-, e2, he2, hm2⟩ := hobj
              rw [he] at he2
              simp only [Option.some.injEq] at he2
              rw [hao, (H5A_dense_copy_fh_cb_fields _ _).1, ← hm2, he2]
            rw [hGsohm]
            exact hkeep2 r.common.id e he (by rw [hen]; exact hne)
          · refine ⟨stored, H5A_dense_copy_fh_cb (H5O_msg_encode attr)
              ({ rec with id := u.2.2.sh_loc.heap_id } : H5A_dense_bt2_name_rec_t).common,
              hst, ?_, ?_⟩
            · rw [H5A_dense_heap_op_eq_some]
              refine ⟨H5O_msg_encode attr, ?_, rfl⟩
              have : ({ rec with id := u.2.2.sh_loc.heap_id } :
                  H5A_dense_bt2_name_rec_t).common.flags.SHARED = true := hshr
              simp only [this, if_true]
              rw [H5HF_op_shared_eq_some]
              refine ⟨hGs.trans hsharable, e', ?_, hme'⟩
              rw [hGsohm]
              exact he'
            · rw [(H5A_dense_copy_fh_cb_fields _ _).1, hstn]
              rfl
        cases hc : ainfo.corder_bt2_addr with
        | none =>
          simp only [H5F_addr_defined, Option.isSome_none, Bool.false_eq_true, if_false, hrep]
          refine key _ (by simp [hff]) (by simp [hfh]) (by simp [hfs]) (by simp) (by simp) ?_
          intro c hc'
          rw [hc] at hc'
          cases hc'
        | some c =>
          obtain ⟨ct, hct, hmir, hfx⟩ := hmir0 c hc
          have hct' : u.2.1.corder_bt2 c = some ct := by rw [hfc]; exact hct
          rw [← hcrt2] at hfx
          obtain ⟨m1, m2, hm, hmod⟩ := H5B2_modify_corder_spec u.2.1 c ct u.2.2.crt_idx
            u.2.2.sh_loc.heap_id rec.common hct' hfx
          rw [hm] at hmir
          simp only [H5F_addr_defined, Option.isSome_some, if_true, hmod, hrep]
          refine key _ (by simp [hff]) (by simp [hfh]) (by simp [hfs]) (by simp) (by simp) ?_
          intro c2 hc2
          rw [hc] at hc2
          cases hc2
          refine ⟨m1, m2, hmir, ?_⟩
          rw [H5B2_corder_recs_eq_some]
          exact ⟨c, ct.set_recs (m1 ++ { rec.common with id := u.2.2.sh_loc.heap_id } :: m2),
            rfl, by simp, rfl⟩
    · have hshr' : rec.flags.SHARED = false := by simpa using hshr
      have hcases := H5A_dense_write_bt2_cb_unshared
        { fheap := fheap, shared_fheap := H5A_dense_shared_fheap f, attr := attr,
          corder_bt2_addr := ainfo.corder_bt2_addr } f rec hshr'
      generalize H5A_dense_write_bt2_cb
        { fheap := fheap, shared_fheap := H5A_dense_shared_fheap f, attr := attr,
          corder_bt2_addr := ainfo.corder_bt2_addr } f rec = r at hcases ⊢
      rcases hcases with ⟨h1, h2⟩ | ⟨h1, h2, h, hh, h3⟩
      · rw [if_pos (by rw [h1]; decide)]
        simp only [h2]
        exact ⟨hv, hl⟩
      · rw [if_neg (by rw [h1]; decide)]
        simp only [h2, h3, hrep]
        have hh' : f.fheaps fheap = some h := hh
        have hobj : ∃ o, H5HF_read h rec.id = some o ∧ stored = H5A_dense_copy_fh_cb o rec.common := by
          rw [H5A_dense_heap_op_eq_some] at hst
          obtain ⟨obj, hobj, hso⟩ := hst
          have : rec.common.flags.SHARED = false := hshr'
          simp only [this, H5HF_op, hh', Bool.false_eq_true, if_false] at hobj
          exact ⟨obj, hobj, hso⟩
        obtain ⟨o, ho, hso⟩ := hobj
        refine ⟨?_, H5SM_live_congr f _ rfl hl⟩
        refine H5A_dense_valid_of_replace f _ ainfo fheap l1 l2 rec rec ?_ rfl ?_ hreads hnodup
          hidx ?_ ?_ rfl rfl ?_
        · rw [H5HF_open_eq_some] at hopen ⊢
          exact ⟨hopen.1, h.set rec.id (some (H5O_msg_encode attr)), by simp⟩
        · rw [H5B2_name_recs_eq_some]
          exact ⟨a, t.set_recs (l1 ++ rec :: l2), ha, by simp, rfl⟩
        · intro r hr
          obtain ⟨ar, har, hne⟩ := hother r hr
          refine H5A_dense_heap_op_set_ne f _ fheap h (some (H5O_msg_encode attr)) rec.id r.common
            rfl rfl hh' (by simp) ?_
          intro hrs hid
          apply hne
          rw [H5A_dense_heap_op_eq_some] at har
          obtain ⟨obj, hobj, hao⟩ := har
          simp only [hrs, H5HF_op, hh', Bool.false_eq_true, if_false] at hobj
          have hid' : rec.id = r.id := hid
          have hobj' : H5HF_read h r.id = some obj := hobj
          rw [← hid', ho] at hobj'
          cases hobj'
          rw [hao, (H5A_dense_copy_fh_cb_fields _ _).1, ← hstn, hso,
            (H5A_dense_copy_fh_cb_fields _ _).1]
        · refine ⟨stored, H5A_dense_copy_fh_cb (H5O_msg_encode attr) rec.common, hst, ?_, ?_⟩
          · rw [H5A_dense_heap_op_eq_some]
            refine ⟨H5O_msg_encode attr, ?_, rfl⟩
            have : rec.common.flags.SHARED = false := hshr'
            simp only [this, H5HF_op, Bool.false_eq_true, if_false]
            simp only [H5F_t.set_name_bt2_fheaps, H5F_t.set_fheap_fheaps, if_true]
            exact H5HF_read_set_self h rec.id o _ ho
          · rw [(H5A_dense_copy_fh_cb_fields _ _).1, hstn]
            rfl
        · intro c hc
          obtain ⟨ct, hct, hmir, hfx⟩ := hmir0 c hc
          obtain ⟨m1, m2, hm, -⟩ := H5B2_replace_of_find _ rec.common ct.recs hfx
          rw [hm] at hmir
          refine ⟨m1, m2, hmir, ?_⟩
          rw [H5B2_corder_recs_eq_some]
          exact ⟨c, ct, rfl, by simpa using hct, hm⟩

/-- `H5A_dense_remove_by_idx` keeps every live slot of the shared message
table referenced. -/
theorem H5A_dense_remove_by_idx_live (f : H5F_t) (ainfo : H5O_ainfo_t) (idx_type : H5_index_t)
    (order : H5_iter_order_t) (n : Nat) (hv : H5A_dense_valid f ainfo = true)
    (h : H5SM_live f) : H5SM_live (H5A_dense_remove_by_idx f ainfo idx_type order n).2 := by
  rcases H5A_dense_remove_by_idx_cases f ainfo idx_type order n hv with h1 | ⟨name, h1⟩
  · rw [h1]
    exact h
  · rw [h1]
    exact H5A_dense_remove_live f ainfo name h

/-- `H5A_dense_create` leaves the shared message table as it was. -/
theorem H5A_dense_create_sohm (f : H5F_t) (ainfo : H5O_ainfo_t) :
    (H5A_dense_create f ainfo).2.1.sohm = f.sohm := by
  unfold H5A_dense_create
  by_cases h : ainfo.index_corder = true
  · simp only [h, if_true]
    rfl
  · simp only [h]
    rfl

/-! ## The states of a store with a creation order index -/

/-- Every state of a store with a creation order index is well-formed, and
its live shared messages all have a reference. -/
theorem H5A_dense_reachable_valid (f : H5F_t) (ainfo : H5O_ainfo_t)
    (h : H5A_dense_reachable f ainfo) :
    H5A_dense_valid f ainfo = true ∧ ainfo.index_corder = true ∧ H5SM_live f := by
  induction h with
  | create f ainfo h hl =>
    exact ⟨(H5A_dense_create_valid f ainfo h).1, (H5A_dense_create_valid f ainfo h).2,
      H5SM_live_congr f _ (H5A_dense_create_sohm f ainfo) hl⟩
  | insert f ainfo attr _ hwf hfresh ih =>
    exact ⟨H5A_dense_insert_keeps_valid f ainfo attr ih.1 hwf hfresh, ih.2.1,
      H5A_dense_insert_live f ainfo attr ih.2.2⟩
  | write f ainfo attr _ hattr ih =>
    exact ⟨(H5A_dense_write_valid f ainfo attr ih.1 ih.2.2 hattr).1, ih.2.1,
      (H5A_dense_write_valid f ainfo attr ih.1 ih.2.2 hattr).2⟩
  | remove f ainfo name _ ih =>
    exact ⟨H5A_dense_remove_keeps_valid f ainfo name ih.1, ih.2.1,
      H5A_dense_remove_live f ainfo name ih.2.2⟩
  | remove_by_idx f ainfo idx_type order n _ ih =>
    exact ⟨H5A_dense_remove_by_idx_keeps_valid f ainfo idx_type order n ih.1, ih.2.1,
      H5A_dense_remove_by_idx_live f ainfo idx_type order n ih.1 ih.2.2⟩

/-- C4 (as the code has it): in every state reached from `H5A_dense_create`
with order indexing, in a file whose live shared messages all have a
reference, by calls, successful or failed, of `H5A_dense_insert` (of an
attribute whose creation order is not in the creation order index and which,
when it arrives shared, refers to its own shared message), `H5A_dense_write`
(of an attribute carrying the creation order and the shared location of the
attribute the store holds under its name), `H5A_dense_remove` and
`H5A_dense_remove_by_idx`, both indexes exist, the records of the creation
order index are the records of the name index (same heap ID, same flags, same
creation order) up to their order, and no creation order occurs twice. -/
theorem H5A_dense_mirror_invariant (f : H5F_t) (ainfo : H5O_ainfo_t)
    (h : H5A_dense_reachable f ainfo) :
    ∃ recs crecs, H5B2_name_recs f ainfo.name_bt2_addr = some recs ∧
      H5B2_corder_recs f ainfo.corder_bt2_addr = some crecs ∧
      (recs.map H5A_dense_bt2_name_rec_t.common).Perm crecs ∧
      (crecs.map (fun c => c.corder)).Nodup := by
  obtain ⟨hv, hidx, -⟩ := H5A_dense_reachable_valid f ainfo h
  obtain ⟨fheap, recs, -, hrecs, -, -, hdef, hmirror⟩ := (H5A_dense_valid_iff f ainfo).1 hv
  rw [hidx] at hdef
  cases hc : ainfo.corder_bt2_addr with
  | none => rw [hc] at hdef; simp [H5F_addr_defined] at hdef
  | some c =>
    obtain ⟨crecs, hcrecs, hm⟩ := hmirror c hc
    exact ⟨recs, crecs, hrecs, hcrecs, hm.1, hm.2⟩

theorem H5A_dense_mirror_invariant_witness :
    ∃ recs crecs,
      H5B2_name_recs
        (H5A_dense_remove
          (H5A_dense_write
            (H5A_dense_insert (H5A_dense_create H5A_ex_file (H5A_ex_ainfo true)).2.1
              (H5A_dense_create H5A_ex_file (H5A_ex_ainfo true)).2.2
              (H5A_ex_attr "z" 0 [1, 2])).2.1
            (H5A_dense_create H5A_ex_file (H5A_ex_ainfo true)).2.2
            { H5A_ex_attr "z" 0 [7, 8] with sh_loc := H5SM_reconstitute 0 }).2.1
          (H5A_dense_create H5A_ex_file (H5A_ex_ainfo true)).2.2 "q").2
        (H5A_dense_create H5A_ex_file (H5A_ex_ainfo true)).2.2.name_bt2_addr = some recs ∧
      H5B2_corder_recs
        (H5A_dense_remove
          (H5A_dense_write
            (H5A_dense_insert (H5A_dense_create H5A_ex_file (H5A_ex_ainfo true)).2.1
              (H5A_dense_create H5A_ex_file (H5A_ex_ainfo true)).2.2
              (H5A_ex_attr "z" 0 [1, 2])).2.1
            (H5A_dense_create H5A_ex_file (H5A_ex_ainfo true)).2.2
            { H5A_ex_attr "z" 0 [7, 8] with sh_loc := H5SM_reconstitute 0 }).2.1
          (H5A_dense_create H5A_ex_file (H5A_ex_ainfo true)).2.2 "q").2
        (H5A_dense_create H5A_ex_file (H5A_ex_ainfo true)).2.2.corder_bt2_addr = some crecs ∧
      (recs.map H5A_dense_bt2_name_rec_t.common).Perm crecs ∧
      (crecs.map (fun c => c.corder)).Nodup :=
  H5A_dense_mirror_invariant _ _
    (H5A_dense_reachable.remove _ _ "q"
      (H5A_dense_reachable.write _ _
        { H5A_ex_attr "z" 0 [7, 8] with sh_loc := H5SM_reconstitute 0 }
        (H5A_dense_reachable.insert _ _ (H5A_ex_attr "z" 0 [1, 2])
          (H5A_dense_reachable.create H5A_ex_file (H5A_ex_ainfo true) rfl
            (by
              intro i e hi
              have hs : H5A_ex_file.sohm = [] := rfl
              rw [hs] at hi
              simp at hi))
          (by decide)
          (by
            intro c crecs hc hcrecs x hx
            have hc2 : c = 2 := by
              have : (H5A_dense_create H5A_ex_file (H5A_ex_ainfo true)).2.2.corder_bt2_addr =
                  some 2 := by decide
              rw [this] at hc
              exact (Option.some.inj hc).symm
            subst hc2
            have : H5B2_corder_recs (H5A_dense_create H5A_ex_file (H5A_ex_ainfo true)).2.1
                (some 2) = some [] := by decide
            rw [this] at hcrecs
            cases hcrecs
            cases hx))
        (by
          intro stored hs
          have hopen : H5A_dense_open
              (H5A_dense_insert (H5A_dense_create H5A_ex_file (H5A_ex_ainfo true)).2.1
                (H5A_dense_create H5A_ex_file (H5A_ex_ainfo true)).2.2
                (H5A_ex_attr "z" 0 [1, 2])).2.1
              (H5A_dense_create H5A_ex_file (H5A_ex_ainfo true)).2.2 "z" =
              some { H5A_ex_attr "z" 0 [1, 2] with sh_loc := H5SM_reconstitute 0 } := by
            decide
          have hs2 : some ({ H5A_ex_attr "z" 0 [1, 2] with sh_loc := H5SM_reconstitute 0 } :
              H5A_t) = some stored := hopen.symm.trans hs
          cases hs2
          exact ⟨rfl, rfl⟩)))

/-- C4 fails as stated, in the store created with order indexing in the
example file.  First, "z" is inserted with creation order 0 and then "y" with
the same creation order; the second insertion fails at the creation order
index after its record has gone into the name index, so the name index holds
two records and the creation order index one.  Second, "z" (creation order 0)
and "a" (creation order 1) are inserted, both shared, and "a" is written with
an attribute carrying creation order 0; the write succeeds, the name index
record of "a" takes the new heap ID 2, and the creation order index puts that
heap ID into the record with creation order 0, which is the record of "z". -/
theorem H5A_dense_mirror_broken :
    (H5A_dense_insert (H5A_dense_create H5A_ex_file (H5A_ex_ainfo true)).2.1
      (H5A_ex_ainfo1 true) (H5A_ex_attr "z" 0 [1])).1 = SUCCEED ∧
    (H5A_dense_insert
      (H5A_dense_insert (H5A_dense_create H5A_ex_file (H5A_ex_ainfo true)).2.1
        (H5A_ex_ainfo1 true) (H5A_ex_attr "z" 0 [1])).2.1
      (H5A_ex_ainfo1 true) (H5A_ex_attr "y" 0 [2])).1 = FAIL ∧
    (H5B2_name_recs
      (H5A_dense_insert
        (H5A_dense_insert (H5A_dense_create H5A_ex_file (H5A_ex_ainfo true)).2.1
          (H5A_ex_ainfo1 true) (H5A_ex_attr "z" 0 [1])).2.1
        (H5A_ex_ainfo1 true) (H5A_ex_attr "y" 0 [2])).2.1
      (H5A_ex_ainfo1 true).name_bt2_addr).map List.length = some 2 ∧
    (H5B2_corder_recs
      (H5A_dense_insert
        (H5A_dense_insert (H5A_dense_create H5A_ex_file (H5A_ex_ainfo true)).2.1
          (H5A_ex_ainfo1 true) (H5A_ex_attr "z" 0 [1])).2.1
        (H5A_ex_ainfo1 true) (H5A_ex_attr "y" 0 [2])).2.1
      (H5A_ex_ainfo1 true).corder_bt2_addr).map List.length = some 1 ∧
    (H5A_dense_write
      (H5A_dense_insert
        (H5A_dense_insert (H5A_dense_create H5A_ex_file (H5A_ex_ainfo true)).2.1
          (H5A_ex_ainfo1 true) (H5A_ex_attr "z" 0 [1, 2])).2.1
        (H5A_ex_ainfo1 true) (H5A_ex_attr "a" 1 [3, 4])).2.1
      (H5A_ex_ainfo1 true)
      { H5A_ex_attr "a" 0 [7, 8] with sh_loc := H5SM_reconstitute 1 }).1 = SUCCEED ∧
    (H5B2_name_recs
      (H5A_dense_write
        (H5A_dense_insert
          (H5A_dense_insert (H5A_dense_create H5A_ex_file (H5A_ex_ainfo true)).2.1
            (H5A_ex_ainfo1 true) (H5A_ex_attr "z" 0 [1, 2])).2.1
          (H5A_ex_ainfo1 true) (H5A_ex_attr "a" 1 [3, 4])).2.1
        (H5A_ex_ainfo1 true)
        { H5A_ex_attr "a" 0 [7, 8] with sh_loc := H5SM_reconstitute 1 }).2.1
      (H5A_ex_ainfo1 true).name_bt2_addr).map
        (fun l => l.map H5A_dense_bt2_name_rec_t.common) =
      some [{ id := 2, flags := { SHARED := true }, corder := 1 },
            { id := 0, flags := { SHARED := true }, corder := 0 }] ∧
    H5B2_corder_recs
      (H5A_dense_write
        (H5A_dense_insert
          (H5A_dense_insert (H5A_dense_create H5A_ex_file (H5A_ex_ainfo true)).2.1
            (H5A_ex_ainfo1 true) (H5A_ex_attr "z" 0 [1, 2])).2.1
          (H5A_ex_ainfo1 true) (H5A_ex_attr "a" 1 [3, 4])).2.1
        (H5A_ex_ainfo1 true)
        { H5A_ex_attr "a" 0 [7, 8] with sh_loc := H5SM_reconstitute 1 }).2.1
      (H5A_ex_ainfo1 true).corder_bt2_addr =
      some [{ id := 2, flags := { SHARED := true }, corder := 0 },
            { id := 1, flags := { SHARED := true }, corder := 1 }] := by
  decide


/-! ## Direct chunk write -/

/-- `H5DO_write_chunk` returns `FAIL` on every path. -/
theorem H5DO_write_chunk_fails (lib : H5DO_lib) (calls : List H5DO_call) (dset_id dxpl_id : hid_t)
    (filters : Nat) (offset : Option (List Nat)) (data_size : Nat) (buf : Option (List Nat)) :
    (H5DO_write_chunk lib calls dset_id dxpl_id filters offset data_size buf).1 = FAIL := by
  unfold H5DO_write_chunk
  simp only
  repeat' split
  all_goals rfl

/-- The calls `H5DO_write_chunk` makes come after the calls made before, and
none of them is an `H5Pclose` or an `H5Pcreate`. -/
theorem H5DO_write_chunk_calls (lib : H5DO_lib) (calls : List H5DO_call) (dset_id dxpl_id : hid_t)
    (filters : Nat) (offset : Option (List Nat)) (data_size : Nat) (buf : Option (List Nat)) :
    ∃ made : List H5DO_call,
      (H5DO_write_chunk lib calls dset_id dxpl_id filters offset data_size buf).2 =
        calls ++ made ∧
      (∀ id, H5DO_call.H5Pclose id ∉ made) ∧ H5DO_call.H5Pcreate ∉ made := by
  unfold H5DO_write_chunk
  simp only
  repeat' split
  all_goals
    simp only [List.append_assoc, List.append_cancel_left_eq]
    exact ⟨_, rfl, by simp, by simp⟩

/-- C21 (what the code does): `H5DOwrite_chunk` returns `FAIL` whatever its
arguments are and whatever the library calls return, so also when the
arguments are valid and every property list and dataset call succeeds. -/
theorem H5DOwrite_chunk_always_fails (lib : H5DO_lib) (calls : List H5DO_call)
    (dset_id dxpl_id : hid_t) (filters : Nat) (offset : Option (List Nat)) (data_size : Nat)
    (buf : Option (List Nat)) :
    (H5DOwrite_chunk lib calls dset_id dxpl_id filters offset data_size buf).1 = FAIL ∧
    (H5DOwrite_chunk H5DO_ex_lib [] 1 H5P_DEFAULT 0 (some [0, 0]) 4 (some [1, 2, 3, 4])).1 < 0 := by
  refine ⟨?_, by decide⟩
  unfold H5DOwrite_chunk
  simp only
  repeat' split
  all_goals rfl

/-- C27: called with a negative dataset identifier, a `NULL` buffer, a `NULL`
offset or a data size of 0, `H5DOwrite_chunk` returns a negative value and
makes no library call: no property list is created, no transfer property is
set and nothing is written to the dataset. -/
theorem H5DOwrite_chunk_rejects_invalid (lib : H5DO_lib) (calls : List H5DO_call)
    (dset_id dxpl_id : hid_t) (filters : Nat) (offset : Option (List Nat)) (data_size : Nat)
    (buf : Option (List Nat))
    (h : dset_id < 0 ∨ buf = none ∨ offset = none ∨ data_size = 0) :
    (H5DOwrite_chunk lib calls dset_id dxpl_id filters offset data_size buf).1 < 0 ∧
    (H5DOwrite_chunk lib calls dset_id dxpl_id filters offset data_size buf).2 = calls := by
  unfold H5DOwrite_chunk
  by_cases h1 : dset_id < 0
  · rw [if_pos h1]
    exact ⟨by show (FAIL : Int) < 0; decide, rfl⟩
  · rw [if_neg h1]
    by_cases h2 : buf.isNone = true
    · rw [if_pos h2]
      exact ⟨by show (FAIL : Int) < 0; decide, rfl⟩
    · rw [if_neg h2]
      by_cases h3 : offset.isNone = true
      · rw [if_pos h3]
        exact ⟨by show (FAIL : Int) < 0; decide, rfl⟩
      · rw [if_neg h3]
        by_cases h4 : data_size = 0
        · rw [if_pos h4]
          exact ⟨by show (FAIL : Int) < 0; decide, rfl⟩
        · exfalso
          rcases h with h | h | h | h
          · exact h1 h
          · exact h2 (by rw [h]; rfl)
          · exact h3 (by rw [h]; rfl)
          · exact h4 h

theorem H5DOwrite_chunk_rejects_invalid_witness :
    (0 < 0 ∨ (some [1] : Option (List Nat)) = none ∨ (none : Option (List Nat)) = none ∨ 4 = 0) ∧
    (H5DOwrite_chunk H5DO_ex_lib [] 0 H5P_DEFAULT 0 none 4 (some [1])).1 < 0 ∧
    (H5DOwrite_chunk H5DO_ex_lib [] 0 H5P_DEFAULT 0 none 4 (some [1])).2 = [] :=
  ⟨Or.inr (Or.inr (Or.inl rfl)),
    H5DOwrite_chunk_rejects_invalid H5DO_ex_lib [] 0 H5P_DEFAULT 0 none 4 (some [1])
      (Or.inr (Or.inr (Or.inl rfl)))⟩

/-- C28 (what the code does): called with valid arguments, `H5DOwrite_chunk`
never calls `H5Pclose`, whatever the library calls return: when `dxpl_id` is
`H5P_DEFAULT` the first call it makes is the `H5Pcreate` of its own property
list, and no call after it closes that list; a property list of the caller
is not closed either. -/
theorem H5DOwrite_chunk_dxpl_not_closed (lib : H5DO_lib) (calls : List H5DO_call)
    (dset_id dxpl_id : hid_t) (filters : Nat) (offset buf : List Nat) (data_size : Nat)
    (hd : 0 ≤ dset_id) (hs : data_size ≠ 0) :
    ∃ made : List H5DO_call,
      (H5DOwrite_chunk lib calls dset_id dxpl_id filters (some offset) data_size (some buf)).2 =
        calls ++ made ∧
      (dxpl_id = H5P_DEFAULT → ∃ rest, made = H5DO_call.H5Pcreate :: rest) ∧
      ∀ id, H5DO_call.H5Pclose id ∉ made := by
  unfold H5DOwrite_chunk
  rw [if_neg (not_lt.2 hd), if_neg (by simp), if_neg (by simp), if_neg hs]
  simp only
  by_cases hdx : H5P_DEFAULT = dxpl_id
  · subst hdx
    rw [if_pos rfl]
    simp only
    obtain ⟨made, hm, hcl, -⟩ := H5DO_write_chunk_calls lib (calls ++ [H5DO_call.H5Pcreate])
      dset_id (lib.H5Pcreate calls) filters (some offset) data_size (some buf)
    have hf : (H5DO_write_chunk lib (calls ++ [H5DO_call.H5Pcreate])
        dset_id (lib.H5Pcreate calls) filters (some offset) data_size (some buf)).1 < 0 := by
      rw [H5DO_write_chunk_fails]
      decide
    rw [if_pos hf, hm]
    refine ⟨H5DO_call.H5Pcreate :: made, by simp, fun _ => ⟨made, rfl⟩, ?_⟩
    intro id hmem
    rcases List.mem_cons.1 hmem with h | h
    · cases h
    · exact hcl id h
  · rw [if_neg hdx]
    simp only
    obtain ⟨made, hm, hcl, -⟩ := H5DO_write_chunk_calls lib calls
      dset_id dxpl_id filters (some offset) data_size (some buf)
    have hf : (H5DO_write_chunk lib calls
        dset_id dxpl_id filters (some offset) data_size (some buf)).1 < 0 := by
      rw [H5DO_write_chunk_fails]
      decide
    rw [if_pos hf, hm]
    exact ⟨made, rfl, fun h => absurd h.symm hdx, hcl⟩

theorem H5DOwrite_chunk_dxpl_not_closed_witness :
    (0 : hid_t) ≤ 1 ∧ (4 : Nat) ≠ 0 ∧
    ∃ made : List H5DO_call,
      (H5DOwrite_chunk H5DO_ex_lib [] 1 H5P_DEFAULT 0 (some [0, 0]) 4 (some [1, 2, 3, 4])).2 =
        [] ++ made ∧
      (H5P_DEFAULT = H5P_DEFAULT → ∃ rest, made = H5DO_call.H5Pcreate :: rest) ∧
      ∀ id, H5DO_call.H5Pclose id ∉ made :=
  ⟨by decide, by decide,
    H5DOwrite_chunk_dxpl_not_closed H5DO_ex_lib [] 1 H5P_DEFAULT 0 [0, 0] [1, 2, 3, 4] 4
      (by decide) (by decide)⟩

/-! ## Renaming onto the same name -/

/-- C29: in a well-formed store holding an attribute named `a`,
`H5A_dense_rename` from `a` to `a` fails: the renamed copy, which carries the
name `a`, is handed to `H5A_dense_insert` while the record of the original is
in the name index, that insertion fails, and the call returns the file the
insertion left.  The name index is as before, and afterwards `H5A_dense_exists`
is still `TRUE` for `a` and `H5A_dense_open` still returns the attribute it
returned before. -/
theorem H5A_dense_rename_same_name (f : H5F_t) (ainfo : H5O_ainfo_t) (a : String)
    (hv : H5A_dense_valid f ainfo = true) (hex : H5A_dense_exists f ainfo a = TRUE) :
    (H5A_dense_rename f ainfo a a).1 = FAIL ∧
    (∃ copy : H5A_t, copy.name = a ∧ (H5A_dense_insert f ainfo copy).1 = FAIL ∧
      H5A_dense_rename f ainfo a a = (FAIL, (H5A_dense_insert f ainfo copy).2.1)) ∧
    (H5A_dense_rename f ainfo a a).2.name_bt2 = f.name_bt2 ∧
    H5A_dense_exists (H5A_dense_rename f ainfo a a).2 ainfo a = TRUE ∧
    ∃ attr, H5A_dense_open f ainfo a = some attr ∧ attr.name = a ∧
      H5A_dense_open (H5A_dense_rename f ainfo a a).2 ainfo a = some attr := by
  obtain ⟨fheap, recs, h1, hrecs, hread, hnodup, -, -⟩ := (H5A_dense_valid_iff f ainfo).1 hv
  obtain ⟨r, -, copy, -, hcn, -, hren⟩ :=
    H5A_dense_rename_insert_fails f ainfo a a fheap recs h1 hrecs hex
  obtain ⟨b, t, hb, ht, htr⟩ := (H5B2_name_recs_eq_some _ _ _).1 hrecs
  subst htr
  obtain ⟨r0, hr0, hnamed0⟩ := H5A_dense_exists_true f ainfo a fheap t.recs h1 hrecs hex
  obtain ⟨f2, attr1, hres, hgrow, hnb, hcb, hopen2⟩ :=
    H5A_dense_insert_dup_name f ainfo copy fheap b t h1 hb ht
      (by rw [hcn]; exact ⟨r0, hr0, hnamed0⟩)
  have hview := H5A_dense_view_of_grows f f2 ainfo fheap copy.name hv hopen2 hgrow hnb hcb
  have hfail : (H5A_dense_insert f ainfo copy).1 = FAIL := by rw [hres]
  obtain ⟨attr, hattr, hname⟩ := H5A_dense_is_named_heap_op f fheap a r0 hnamed0
  have hop : H5A_dense_open f ainfo a = some attr := by
    rw [H5A_dense_open_of_rec f ainfo a fheap t.recs h1 hrecs hread hnodup r0 hr0
      (H5A_dense_rec_name_of_is_named f fheap a r0 hnamed0)]
    exact hattr
  rw [hren hfail]
  refine ⟨rfl, ⟨copy, hcn, hfail, rfl⟩, ?_, ?_, attr, hop, hname, ?_⟩
  · rw [hres]
    exact hnb
  · rw [hres]
    simp only
    rw [hview.2.1 a]
    exact hex
  · rw [hres]
    simp only
    rw [hview.1 a]
    exact hop

theorem H5A_dense_rename_same_name_witness :
    (H5A_dense_rename (H5A_ex_file3 false) (H5A_ex_ainfo1 false) "z" "z").1 = FAIL :=
  (H5A_dense_rename_same_name (H5A_ex_file3 false) (H5A_ex_ainfo1 false) "z"
    (by decide) (by decide)).1

/-! ## What a failed insertion leaves behind -/

/-- `H5A_dense_insert` of a name the name index already holds, step by step:
the sharing step and the storing step are done, the insertion into the name
index fails, and the call returns the file as the storing step left it. -/
theorem H5A_dense_insert_dup_exact (f : H5F_t) (ainfo : H5O_ainfo_t) (attr : H5A_t)
    (fheap a : Nat) (t : H5B2_t H5A_dense_bt2_name_rec_t)
    (h1 : H5HF_open f ainfo.fheap_addr = some fheap) (ha : ainfo.name_bt2_addr = some a)
    (ht : f.name_bt2 a = some t)
    (hdup : ∃ r ∈ t.recs, H5A_dense_is_named f fheap attr.name r = true) :
    ((H5A_dense_insert_share f attr).2.2.SHARED = true →
      H5A_dense_insert f ainfo attr =
        (FAIL, (H5A_dense_insert_share f attr).1, (H5A_dense_insert_share f attr).2.1)) ∧
    ((H5A_dense_insert_share f attr).2.2.SHARED = false → f.H5O_msg_raw_size attr ≠ 0 →
      ∃ h, f.fheaps fheap = some h ∧
        H5A_dense_insert f ainfo attr =
          (FAIL, f.set_fheap fheap (some (h ++ [some (H5O_msg_encode attr)])), attr)) := by
  obtain ⟨hs1, hs2, hs3, -, hs5⟩ := H5A_dense_insert_share_spec f attr fheap
  rw [H5A_dense_insert_eq]
  generalize H5A_dense_insert_share f attr = sh at hs1 hs2 hs3 hs5 ⊢
  obtain ⟨f1, attr1, flg⟩ := sh
  simp only at hs1 hs2 hs3 hs5 ⊢
  have hfh : f1.fheaps = f.fheaps := by rw [hs1]
  have hnb : f1.name_bt2 = f.name_bt2 := by rw [hs1]
  have hhash : f1.H5_checksum_lookup3 = f.H5_checksum_lookup3 := by rw [hs1]
  have hshr : f1.attr_sharable = f.attr_sharable := by rw [hs1]
  have hopen1 : H5HF_open f1 ainfo.fheap_addr = some fheap := by
    rw [H5HF_open_congr f f1 _ hfh]; exact h1
  have hname : attr1.name = attr.name := by rw [hs3]
  rw [hopen1]
  simp only
  have key : ∀ f2 id, H5A_dense_insert_store f1 fheap attr1 flg = some (f2, id) →
      H5B2_insert_name f2 ainfo.name_bt2_addr
        (H5A_dense_insert_udata f f1 fheap attr1 flg) id = none := by
    intro f2 id hst
    obtain ⟨hg2, hcase⟩ := H5A_dense_insert_store_spec f1 f2 fheap attr1 flg id hst
    rw [hname] at hg2
    have hgrow : H5A_dense_grows f f2 fheap attr.name := H5A_dense_grows_trans _ _ _ _ _ hs2 hg2
    have hnb2 : f2.name_bt2 = f.name_bt2 := by
      rcases hcase with ⟨_, e, _⟩ | ⟨_, hp, _, e, _⟩
      · rw [e]; exact hnb
      · rw [e]; exact hnb
    have hsohm2 : f2.sohm = f1.sohm := by
      rcases hcase with ⟨_, e, _⟩ | ⟨_, hp, _, e, _⟩
      · rw [e]
      · rw [e]; rfl
    have hshr2 : f2.attr_sharable = f1.attr_sharable := by
      rcases hcase with ⟨_, e, _⟩ | ⟨_, hp, _, e, _⟩
      · rw [e]
      · rw [e]; rfl
    have hhash2 : f2.H5_checksum_lookup3 = f1.H5_checksum_lookup3 := by
      rcases hcase with ⟨_, e, _⟩ | ⟨_, hp, _, e, _⟩
      · rw [e]
      · rw [e]; rfl
    have ht2 : f2.name_bt2 a = some t := by rw [hnb2]; exact ht
    have hmatch : H5A_dense_name_match f2 (H5A_dense_insert_udata f f1 fheap attr1 flg) =
        H5A_dense_is_named f2 fheap attr.name := by
      have := H5A_dense_name_match_eq f2 (H5A_dense_insert_udata f f1 fheap attr1 flg) ?_ ?_
      · rw [this]
        simp only [H5A_dense_insert_udata, hname]
      · simp only [H5A_dense_insert_udata, H5A_dense_shared_fheap, H5SM_type_shared,
          H5SM_get_fheap_addr, hsohm2, hshr2, hshr]
      · simp only [H5A_dense_insert_udata, hhash2, hhash]
    rw [ha]
    rcases H5B2_insert_name_spec f2 a t (H5A_dense_insert_udata f f1 fheap attr1 flg) id ht2 with
      ⟨-, hins⟩ | ⟨hno, -⟩
    · exact hins
    · exfalso
      obtain ⟨r, hr, hn⟩ := hdup
      have := H5A_dense_is_named_mono f f2 fheap attr.name attr.name hgrow r hn
      rw [hmatch] at hno
      rw [hno r hr] at this
      cases this
  constructor
  · intro hflg
    have hst : H5A_dense_insert_store f1 fheap attr1 flg = some (f1, attr1.sh_loc.heap_id) := by
      simp [H5A_dense_insert_store, hflg]
    rw [hst]
    simp only
    rw [key _ _ hst]
  · intro hflg hz
    obtain ⟨e1, e2⟩ := hs5 hflg
    subst e1
    subst e2
    obtain ⟨-, h, hh⟩ := (H5HF_open_eq_some f1 _ fheap).1 h1
    have hst : H5A_dense_insert_store f1 fheap attr1 flg =
        some (f1.set_fheap fheap (some (h ++ [some (H5O_msg_encode attr1)])), h.length) := by
      simp [H5A_dense_insert_store, hflg, hz, H5HF_insert, hh]
    refine ⟨h, hh, ?_⟩
    rw [hst]
    simp only
    rw [key _ _ hst]

/-- The reference count `H5SM_try_share` leaves in the slot it has shared an
attribute in: one more than the slot had, or 1 for a slot that was not
there. -/
theorem H5SM_try_share_count (f : H5F_t) (attr : H5A_t)
    (hacc : (H5SM_try_share f attr { SHARED := false }).2.2.SHARED = true) :
    ∃ e : H5SM_mesg_t,
      (H5SM_try_share f attr { SHARED := false }).1.sohm[
        (H5SM_try_share f attr { SHARED := false }).2.1.sh_loc.heap_id]? = some (some e) ∧
      e.mesg = H5O_msg_encode attr ∧
      e.ref_count =
        (match f.sohm[(H5SM_try_share f attr { SHARED := false }).2.1.sh_loc.heap_id]? with
         | some (some e0) => e0.ref_count + 1
         | _ => 1) := by
  unfold H5SM_try_share at hacc ⊢
  by_cases hc : (f.attr_sharable && f.H5SM_can_share (H5O_msg_encode attr)) = true
  · simp only [hc, if_true] at hacc ⊢
    cases hl : H5SM_lookup (H5O_msg_encode attr) f.sohm with
    | some i =>
      obtain ⟨e, he, -⟩ := H5SM_lookup_some _ _ _ hl
      have hlt : i < f.sohm.length := by
        by_contra hge
        rw [List.getElem?_eq_none (Nat.not_lt.1 hge)] at he
        cases he
      simp only [he]
      exact ⟨⟨H5O_msg_encode attr, e.ref_count + 1⟩, by simp [List.getElem?_set, hlt], rfl, rfl⟩
    | none =>
      simp only
      refine ⟨⟨H5O_msg_encode attr, 1⟩, by simp, rfl, ?_⟩
      simp
  · simp only [hc, if_false] at hacc
    cases hacc

/-- An unshared record of a well-formed store refers to a slot of the heap. -/
theorem H5A_dense_unshared_id_lt (f : H5F_t) (fheap : Nat) (h : H5HF_t)
    (x : H5A_dense_bt2_corder_rec_t) (a : H5A_t) (hh : f.fheaps fheap = some h)
    (hx : H5A_dense_heap_op f fheap (H5A_dense_shared_fheap f) x = some a)
    (hs : x.flags.SHARED = false) : x.id < h.length := by
  rw [H5A_dense_heap_op_eq_some] at hx
  obtain ⟨obj, hobj, -⟩ := hx
  simp only [hs, Bool.false_eq_true, if_false, H5HF_op, hh, H5HF_read] at hobj
  by_contra hge
  rw [List.getElem?_eq_none (Nat.not_lt.1 hge)] at hobj
  cases hobj

/-- C30: in a well-formed store that holds an attribute named `attr.name`,
`H5A_dense_insert` of `attr` fails and what it stored before probing the name
index stays.  When the sharing step leaves the attribute unshared (and its
size is not 0), the heap holds one more object afterwards, the encoding of
`attr` in a new last slot, while the name index is as before and no unshared
record of the name index or of the creation order index refers to that slot.
When the shared message table newly accepts the attribute, the table is
afterwards as `H5SM_try_share` left it: the slot returned as the shared
location holds the attribute's message with one reference more than the slot
had before, or with 1 reference when the slot was not there. -/
theorem H5A_dense_insert_not_undone (f : H5F_t) (ainfo : H5O_ainfo_t) (attr : H5A_t)
    (hv : H5A_dense_valid f ainfo = true)
    (hex : H5A_dense_exists f ainfo attr.name = TRUE) :
    (H5A_dense_insert f ainfo attr).1 = FAIL ∧
    ((H5A_dense_insert_share f attr).2.2.SHARED = false → f.H5O_msg_raw_size attr ≠ 0 →
      ∃ fheap h recs, H5HF_open f ainfo.fheap_addr = some fheap ∧ f.fheaps fheap = some h ∧
        (H5A_dense_insert f ainfo attr).2.1.fheaps fheap =
          some (h ++ [some (H5O_msg_encode attr)]) ∧
        H5B2_name_recs f ainfo.name_bt2_addr = some recs ∧
        H5B2_name_recs (H5A_dense_insert f ainfo attr).2.1 ainfo.name_bt2_addr = some recs ∧
        (∀ r ∈ recs, r.flags.SHARED = false → r.id < h.length) ∧
        (∀ c crecs, ainfo.corder_bt2_addr = some c →
          H5B2_corder_recs (H5A_dense_insert f ainfo attr).2.1 (some c) = some crecs →
          ∀ x ∈ crecs, x.flags.SHARED = false → x.id < h.length)) ∧
    (f.attr_sharable = true → H5O_msg_is_shared attr = false →
      (H5SM_try_share f attr { SHARED := false }).2.2.SHARED = true →
      (H5A_dense_insert f ainfo attr).2.1.sohm =
        (H5SM_try_share f attr { SHARED := false }).1.sohm ∧
      (H5A_dense_insert f ainfo attr).2.2 = (H5SM_try_share f attr { SHARED := false }).2.1 ∧
      ∃ e : H5SM_mesg_t,
        (H5A_dense_insert f ainfo attr).2.1.sohm[
          (H5A_dense_insert f ainfo attr).2.2.sh_loc.heap_id]? = some (some e) ∧
        e.mesg = H5O_msg_encode attr ∧
        e.ref_count =
          (match f.sohm[(H5A_dense_insert f ainfo attr).2.2.sh_loc.heap_id]? with
           | some (some e0) => e0.ref_count + 1
           | _ => 1)) := by
  obtain ⟨fheap, recs, h1, hrecs, hread, -, -, hmirror⟩ := (H5A_dense_valid_iff f ainfo).1 hv
  obtain ⟨a, t, ha, ht, htr⟩ := (H5B2_name_recs_eq_some _ _ _).1 hrecs
  subst htr
  have hdup := H5A_dense_exists_true f ainfo attr.name fheap t.recs h1 hrecs hex
  obtain ⟨hT, hF⟩ := H5A_dense_insert_dup_exact f ainfo attr fheap a t h1 ha ht hdup
  refine ⟨?_, ?_, ?_⟩
  · obtain ⟨f2, attr1, hres, -⟩ := H5A_dense_insert_dup_name f ainfo attr fheap a t h1 ha ht hdup
    rw [hres]
  · intro hflg hz
    obtain ⟨h, hh, hres⟩ := hF hflg hz
    rw [hres]
    refine ⟨fheap, h, t.recs, h1, hh, by simp, hrecs, ?_, ?_, ?_⟩
    · rw [H5B2_name_recs_eq_some]
      exact ⟨a, t, ha, by simpa using ht, rfl⟩
    · intro r hr hs
      obtain ⟨ar, har, -⟩ := hread r hr
      exact H5A_dense_unshared_id_lt f fheap h r.common ar hh har hs
    · intro c crecs hc hcrecs x hx hs
      obtain ⟨crecs0, hcrecs0, hm⟩ := hmirror c hc
      have : crecs = crecs0 := by
        have e : H5B2_corder_recs
            (f.set_fheap fheap (some (h ++ [some (H5O_msg_encode attr)]))) (some c) =
            H5B2_corder_recs f (some c) := rfl
        rw [e, hcrecs0] at hcrecs
        exact (Option.some.inj hcrecs).symm
      subst this
      obtain ⟨r, hr, rfl⟩ := List.mem_map.1 (hm.1.symm.subset hx)
      obtain ⟨ar, har, -⟩ := hread r hr
      exact H5A_dense_unshared_id_lt f fheap h r.common ar hh har hs
  · intro hs hi hacc
    have hval : H5A_dense_insert_share f attr = H5SM_try_share f attr { SHARED := false } := by
      simp [H5A_dense_insert_share, H5SM_type_shared, hs, hi]
    rw [hT (by rw [hval]; exact hacc), hval]
    exact ⟨rfl, rfl, H5SM_try_share_count f attr hacc⟩

theorem H5A_dense_insert_not_undone_witness :
    H5A_dense_valid (H5A_ex_file3 true) (H5A_ex_ainfo1 true) = true ∧
    H5A_dense_exists (H5A_ex_file3 true) (H5A_ex_ainfo1 true) (H5A_ex_attr "z" 9 [5]).name = TRUE ∧
    (H5A_dense_insert (H5A_ex_file3 true) (H5A_ex_ainfo1 true) (H5A_ex_attr "z" 9 [5])).1 = FAIL ∧
    ∃ fheap h recs, H5HF_open (H5A_ex_file3 true) (H5A_ex_ainfo1 true).fheap_addr = some fheap ∧
      (H5A_ex_file3 true).fheaps fheap = some h ∧
      (H5A_dense_insert (H5A_ex_file3 true) (H5A_ex_ainfo1 true)
        (H5A_ex_attr "z" 9 [5])).2.1.fheaps fheap =
        some (h ++ [some (H5O_msg_encode (H5A_ex_attr "z" 9 [5]))]) ∧
      H5B2_name_recs (H5A_ex_file3 true) (H5A_ex_ainfo1 true).name_bt2_addr = some recs ∧
      H5B2_name_recs (H5A_dense_insert (H5A_ex_file3 true) (H5A_ex_ainfo1 true)
        (H5A_ex_attr "z" 9 [5])).2.1 (H5A_ex_ainfo1 true).name_bt2_addr = some recs ∧
      (∀ r ∈ recs, r.flags.SHARED = false → r.id < h.length) ∧
      (∀ c crecs, (H5A_ex_ainfo1 true).corder_bt2_addr = some c →
        H5B2_corder_recs (H5A_dense_insert (H5A_ex_file3 true) (H5A_ex_ainfo1 true)
          (H5A_ex_attr "z" 9 [5])).2.1 (some c) = some crecs →
        ∀ x ∈ crecs, x.flags.SHARED = false → x.id < h.length) :=
  ⟨by decide, by decide,
    (H5A_dense_insert_not_undone (H5A_ex_file3 true) (H5A_ex_ainfo1 true)
      (H5A_ex_attr "z" 9 [5]) (by decide) (by decide)).1,
    (H5A_dense_insert_not_undone (H5A_ex_file3 true) (H5A_ex_ainfo1 true)
      (H5A_ex_attr "z" 9 [5]) (by decide) (by decide)).2.1 (by decide) (by decide)⟩

/-! ## Positional removal through an index and removal by name -/

/-- C26: in a well-formed store, `H5A_dense_remove_by_idx` on its direct path
returns what `H5A_dense_remove` returns (status and file, so both indexes, the
heap, the shared message table with its reference counts) for the name of the
attribute at the position: through the name index in native order this is the
attribute read through record `n` of the name index, through the creation
order index, in any order, the attribute read through the record at position
`n` of that index counted in that order.  In both cases the call succeeds,
the record leaves the name index, and the record of the creation order index
with the same heap ID, flags and creation order leaves that index. -/
theorem H5A_dense_remove_by_idx_direct_equiv (f : H5F_t) (ainfo : H5O_ainfo_t) (n : Nat)
    (fheap : Nat) (recs : List H5A_dense_bt2_name_rec_t)
    (hv : H5A_dense_valid f ainfo = true)
    (h1 : H5HF_open f ainfo.fheap_addr = some fheap)
    (hrecs : H5B2_name_recs f ainfo.name_bt2_addr = some recs) :
    (n < recs.length →
      ∃ r attr l1 l2, recs[n]? = some r ∧ recs = l1 ++ r :: l2 ∧
        H5A_dense_heap_op f fheap (H5A_dense_shared_fheap f) r.common = some attr ∧
        H5A_dense_remove_by_idx f ainfo H5_index_t.H5_INDEX_NAME
          H5_iter_order_t.H5_ITER_NATIVE n = H5A_dense_remove f ainfo attr.name ∧
        (H5A_dense_remove f ainfo attr.name).1 = SUCCEED ∧
        H5B2_name_recs (H5A_dense_remove f ainfo attr.name).2 ainfo.name_bt2_addr =
          some (l1 ++ l2) ∧
        ∀ c crecs, ainfo.corder_bt2_addr = some c → H5B2_corder_recs f (some c) = some crecs →
          ∃ m1 m2, crecs = m1 ++ r.common :: m2 ∧
            H5B2_corder_recs (H5A_dense_remove f ainfo attr.name).2 (some c) =
              some (m1 ++ m2)) ∧
    (∀ order c crecs, ainfo.corder_bt2_addr = some c →
      H5B2_corder_recs f (some c) = some crecs → n < crecs.length →
      ∃ r attr l1 l2 m1 m2, crecs[H5B2_idx order crecs.length n]? = some r.common ∧
        recs = l1 ++ r :: l2 ∧ crecs = m1 ++ r.common :: m2 ∧
        H5A_dense_heap_op f fheap (H5A_dense_shared_fheap f) r.common = some attr ∧
        H5A_dense_remove_by_idx f ainfo H5_index_t.H5_INDEX_CRT_ORDER order n =
          H5A_dense_remove f ainfo attr.name ∧
        (H5A_dense_remove f ainfo attr.name).1 = SUCCEED ∧
        H5B2_name_recs (H5A_dense_remove f ainfo attr.name).2 ainfo.name_bt2_addr =
          some (l1 ++ l2) ∧
        H5B2_corder_recs (H5A_dense_remove f ainfo attr.name).2 (some c) = some (m1 ++ m2)) := by
  obtain ⟨fheap0, recs0, h10, hrecs0, hread, hnodup, -, hmirror⟩ :=
    (H5A_dense_valid_iff f ainfo).1 hv
  rw [h1] at h10
  cases h10
  rw [hrecs] at hrecs0
  cases hrecs0
  constructor
  · intro hn
    obtain ⟨attr, hattr, heq⟩ :=
      H5A_dense_remove_by_idx_name_native f ainfo n fheap recs h1 hrecs hread hnodup hn
    have hr : recs[n] ∈ recs := List.getElem_mem hn
    have hname : H5A_dense_rec_name f fheap recs[n] = some attr.name := by
      simp only [H5A_dense_rec_name, hattr, Option.map_some']
    obtain ⟨l1, l2, f2, hl, hres, -, hrecs2, -, -, -, hco⟩ :=
      H5A_dense_remove_valid f ainfo attr.name fheap recs h1 hrecs hread hnodup hmirror
        recs[n] hr hname
    refine ⟨recs[n], attr, l1, l2, List.getElem?_eq_getElem hn, hl, hattr, heq, ?_, ?_, ?_⟩
    · rw [hres]
    · rw [hres]
      exact hrecs2
    · intro c crecs hc hcrecs
      obtain ⟨m1, m2, hm, hc2, -⟩ := hco c crecs hc hcrecs
      exact ⟨m1, m2, hm, by rw [hres]; exact hc2⟩
  · intro order c crecs hc hcrecs hn
    obtain ⟨crecs0, hcrecs0, hm⟩ := hmirror c hc
    rw [hcrecs] at hcrecs0
    cases hcrecs0
    obtain ⟨x, attr, hx, hattr, heq⟩ :=
      H5A_dense_remove_by_idx_corder_direct f ainfo order n fheap recs c crecs h1 hrecs hread
        hnodup hc hcrecs hm hn
    have hxm : x ∈ crecs := List.getElem?_mem hx
    obtain ⟨r, hr, hrx⟩ := List.mem_map.1 (hm.1.symm.subset hxm)
    subst hrx
    have hname : H5A_dense_rec_name f fheap r = some attr.name := by
      simp only [H5A_dense_rec_name, hattr, Option.map_some']
    obtain ⟨l1, l2, f2, hl, hres, -, hrecs2, -, -, -, hco⟩ :=
      H5A_dense_remove_valid f ainfo attr.name fheap recs h1 hrecs hread hnodup hmirror
        r hr hname
    obtain ⟨m1, m2, hmm, hc2, -⟩ := hco c crecs hc hcrecs
    refine ⟨r, attr, l1, l2, m1, m2, hx, hl, hmm, hattr, heq, ?_, ?_, ?_⟩
    · rw [hres]
    · rw [hres]
      exact hrecs2
    · rw [hres]
      exact hc2

theorem H5A_dense_remove_by_idx_direct_equiv_witness :
    H5A_dense_valid (H5A_ex_file3 true) (H5A_ex_ainfo1 true) = true ∧
    ∃ (r : H5A_dense_bt2_name_rec_t) (attr : H5A_t),
      H5A_dense_remove_by_idx (H5A_ex_file3 true) (H5A_ex_ainfo1 true)
        H5_index_t.H5_INDEX_NAME H5_iter_order_t.H5_ITER_NATIVE 1 =
        H5A_dense_remove (H5A_ex_file3 true) (H5A_ex_ainfo1 true) attr.name ∧
      r.corder = attr.crt_idx := by
  refine ⟨by decide, ?_⟩
  have h := (H5A_dense_remove_by_idx_direct_equiv (H5A_ex_file3 true) (H5A_ex_ainfo1 true) 1 0
    [⟨0, ⟨true⟩, 1, 1⟩, ⟨1, ⟨false⟩, 2, 1⟩, ⟨0, ⟨false⟩, 0, 1⟩]
    (by decide) (by decide) (by decide)).1 (by decide)
  obtain ⟨r, attr, -, -, -, -, hattr, heq, -⟩ := h
  exact ⟨r, attr, heq, (H5A_dense_heap_op_crt_idx _ _ _ _ _ hattr).symm⟩

/-! ## The log of component reference adjustments -/

theorem H5HF_insert_oh_log (f g : H5F_t) (fheap : Nat) (obj : H5A_mesg) (id : Nat)
    (h : H5HF_insert f fheap obj = some (g, id)) : g.oh_log = f.oh_log := by
  unfold H5HF_insert at h
  split at h
  · cases h
  · simp only [Option.some.injEq, Prod.mk.injEq] at h
    rw [← h.1]
    rfl

theorem H5HF_remove_oh_log (f g : H5F_t) (fheap id : Nat)
    (h : H5HF_remove f fheap id = some g) : g.oh_log = f.oh_log := by
  unfold H5HF_remove at h
  split at h
  · cases h
  · split at h
    · cases h
    · simp only [Option.some.injEq] at h
      rw [← h]
      rfl

theorem H5B2_insert_name_oh_log (f g : H5F_t) (addr : haddr_t) (udata : H5A_bt2_ud_common_t)
    (id : Nat) (h : H5B2_insert_name f addr udata id = some g) : g.oh_log = f.oh_log := by
  unfold H5B2_insert_name at h
  split at h
  · cases h
  · split at h
    · cases h
    · split at h
      · cases h
      · simp only [Option.some.injEq] at h
        rw [← h]
        rfl

theorem H5B2_insert_corder_oh_log (f g : H5F_t) (addr : haddr_t) (udata : H5A_bt2_ud_common_t)
    (id : Nat) (h : H5B2_insert_corder f addr udata id = some g) : g.oh_log = f.oh_log := by
  unfold H5B2_insert_corder at h
  split at h
  · cases h
  · split at h
    · cases h
    · split at h
      · cases h
      · simp only [Option.some.injEq] at h
        rw [← h]
        rfl

theorem H5B2_remove_corder_oh_log (f g : H5F_t) (addr : haddr_t) (corder : Nat)
    (h : H5B2_remove_corder f addr corder = some g) : g.oh_log = f.oh_log := by
  unfold H5B2_remove_corder at h
  split at h
  · cases h
  · split at h
    · cases h
    · split at h
      · simp only [Option.some.injEq] at h
        rw [← h]
        rfl
      · cases h

theorem H5SM_delete_oh_log (f g : H5F_t) (s : H5O_shared_t)
    (h : H5SM_delete f s = some g) : g.oh_log = f.oh_log := by
  unfold H5SM_delete at h
  split at h
  · split at h
    · simp only [Option.some.injEq] at h
      rw [← h]
    · simp only [Option.some.injEq] at h
      rw [← h]
  · cases h

/-- `H5A_dense_insert` makes no adjustment of component references. -/
theorem H5A_dense_insert_oh_log (f : H5F_t) (ainfo : H5O_ainfo_t) (attr : H5A_t) :
    (H5A_dense_insert f ainfo attr).2.1.oh_log = f.oh_log := by
  have h1 : (H5A_dense_insert_share f attr).1.oh_log = f.oh_log := by
    rw [(H5A_dense_insert_share_spec f attr 0).1]
  rw [H5A_dense_insert_eq]
  split
  · exact h1
  · split
    · exact h1
    · rename_i fheap _ f2 id hst
      have h2 : f2.oh_log = f.oh_log := by
        rw [← h1]
        unfold H5A_dense_insert_store at hst
        split at hst
        · simp only [Option.some.injEq, Prod.mk.injEq] at hst
          rw [← hst.1]
        · split at hst
          · cases hst
          · exact H5HF_insert_oh_log _ _ _ _ _ hst
      split
      · exact h2
      · rename_i f3 hin
        have h3 : f3.oh_log = f.oh_log := (H5B2_insert_name_oh_log _ _ _ _ _ hin).trans h2
        split
        · split
          · exact h3
          · rename_i f4 hic
            exact (H5B2_insert_corder_oh_log _ _ _ _ _ hic).trans h3
        · exact h3

/-- The removal callback adjusts component references at most once, by an
`H5O_attr_delete`. -/
theorem H5A_dense_remove_bt2_cb_oh_log (udata : H5A_bt2_ud_rm_t) (f : H5F_t)
    (record : H5A_dense_bt2_name_rec_t) (attr : H5A_t) :
    ∃ dels : List H5O_attr_event, (∀ e ∈ dels, e.is_delete = true) ∧
      (H5A_dense_remove_bt2_cb udata f record attr).2.oh_log = dels ++ f.oh_log := by
  have key : ∀ f1 : H5F_t, f1.oh_log = f.oh_log →
      ∃ dels : List H5O_attr_event, (∀ e ∈ dels, e.is_delete = true) ∧
        (if record.flags.SHARED = true then
          (match H5SM_delete f1 attr.sh_loc with
           | none => ((FAIL, f1) : herr_t × H5F_t)
           | some f2 => (SUCCEED, f2))
        else
          (match H5HF_remove (H5O_attr_delete f1 attr) udata.common.fheap record.id with
           | none => (FAIL, H5O_attr_delete f1 attr)
           | some f3 => (SUCCEED, f3))).2.oh_log = dels ++ f.oh_log := by
    intro f1 h1
    by_cases hs : record.flags.SHARED = true
    · simp only [hs, if_true]
      cases hd : H5SM_delete f1 attr.sh_loc with
      | none => exact ⟨[], by simp, h1⟩
      | some f2 => exact ⟨[], by simp, (H5SM_delete_oh_log f1 f2 _ hd).trans h1⟩
    · have hs' : record.flags.SHARED = false := by simpa using hs
      simp only [hs', Bool.false_eq_true, if_false]
      refine ⟨[H5O_attr_event.delete attr], by simp [H5O_attr_event.is_delete], ?_⟩
      cases hr : H5HF_remove (H5O_attr_delete f1 attr) udata.common.fheap record.id with
      | none => simp [H5O_attr_delete, h1]
      | some f3 =>
        simp only
        rw [H5HF_remove_oh_log _ f3 _ _ hr]
        simp [H5O_attr_delete, h1]
  unfold H5A_dense_remove_bt2_cb
  by_cases hdef : H5F_addr_defined udata.corder_bt2_addr = true
  · simp only [hdef, if_true]
    cases hrm : H5B2_remove_corder f udata.corder_bt2_addr attr.crt_idx with
    | none => exact ⟨[], by simp, rfl⟩
    | some f1 => exact key f1 (H5B2_remove_corder_oh_log _ f1 _ _ hrm)
  · simp only [hdef, if_false]
    exact key f rfl

/-- `H5A_dense_remove` adjusts component references at most once, by an
`H5O_attr_delete`. -/
theorem H5A_dense_remove_oh_log (f : H5F_t) (ainfo : H5O_ainfo_t) (name : String) :
    ∃ dels : List H5O_attr_event, (∀ e ∈ dels, e.is_delete = true) ∧
      (H5A_dense_remove f ainfo name).2.oh_log = dels ++ f.oh_log := by
  unfold H5A_dense_remove
  cases h1 : H5HF_open f ainfo.fheap_addr with
  | none => exact ⟨[], by simp, rfl⟩
  | some fheap =>
    simp only
    unfold H5B2_remove_name
    cases ha : ainfo.name_bt2_addr with
    | none => exact ⟨[], by simp, rfl⟩
    | some a =>
      simp only
      cases ht : f.name_bt2 a with
      | none => exact ⟨[], by simp, rfl⟩
      | some t =>
        simp only
        cases hfn : H5B2_find_name f (some a)
            ⟨fheap, H5A_dense_shared_fheap f, name, f.H5_checksum_lookup3 name, ⟨false⟩, 0⟩ with
        | none => exact ⟨[], by simp, rfl⟩
        | some found =>
          simp only
          split
          · exact H5A_dense_remove_bt2_cb_oh_log _ f _ _
          · exact H5A_dense_remove_bt2_cb_oh_log _ f _ _

/-! ## The extra reference taken by `H5A_dense_rename` -/

/-- `H5A_dense_rename` from the re-insertion of the renamed copy on. -/
theorem H5A_dense_rename_eq (f : H5F_t) (ainfo : H5O_ainfo_t) (old_name new_name : String)
    (copy : H5A_t) (hcopy : H5A_dense_rename_copy f ainfo old_name new_name = some copy) :
    H5A_dense_rename f ainfo old_name new_name =
      if (H5A_dense_insert f ainfo copy).1 < 0 then (FAIL, (H5A_dense_insert f ainfo copy).2.1)
      else
        match (if H5O_msg_is_shared (H5A_dense_insert f ainfo copy).2.2 then
            match H5SM_get_refcount (H5A_dense_insert f ainfo copy).2.1
                (H5A_dense_insert f ainfo copy).2.2.sh_loc with
            | none => none
            | some attr_rc =>
              if attr_rc = 1 then
                some (H5O_attr_link (H5A_dense_insert f ainfo copy).2.1
                  (H5A_dense_insert f ainfo copy).2.2)
              else some (H5A_dense_insert f ainfo copy).2.1
          else some (H5O_attr_link (H5A_dense_insert f ainfo copy).2.1
            (H5A_dense_insert f ainfo copy).2.2)) with
        | none => (FAIL, (H5A_dense_insert f ainfo copy).2.1)
        | some f2 =>
          if (H5A_dense_remove f2 ainfo old_name).1 < 0 then
            (FAIL, (H5A_dense_remove f2 ainfo old_name).2)
          else (SUCCEED, (H5A_dense_remove f2 ainfo old_name).2) := by
  unfold H5A_dense_rename_copy at hcopy
  unfold H5A_dense_rename
  cases h1 : H5HF_open f ainfo.fheap_addr with
  | none => rw [h1] at hcopy; cases hcopy
  | some fheap =>
    rw [h1] at hcopy
    cases hfn : H5B2_find_name f ainfo.name_bt2_addr
        ⟨fheap, H5A_dense_shared_fheap f, old_name, f.H5_checksum_lookup3 old_name, ⟨false⟩, 0⟩ with
    | none =>
      simp only [hfn] at hcopy
      cases hcopy
    | some found =>
      simp only [hfn, Option.some.injEq] at hcopy
      subst hcopy
      simp only [hfn]
      first
        | done
        | rfl

/-- C22: in `H5A_dense_rename`, once the renamed copy has been re-inserted
successfully, `H5O_attr_link` is called on the re-inserted copy when that copy
is not shared or is shared with reference count 1, and then the old attribute
is removed from the file in which the reference has been taken; the log of
component reference adjustments afterwards is the log of before the call with
that one `H5O_attr_link` on top and, above it, only what the removal of the
old attribute released.  When the copy is shared with reference count 2 or
more, no `H5O_attr_link` is called: the old attribute is removed from the
file the re-insertion left, and the log gains only what that removal
released. -/
theorem H5A_dense_rename_link (f : H5F_t) (ainfo : H5O_ainfo_t) (old_name new_name : String)
    (copy : H5A_t) (hcopy : H5A_dense_rename_copy f ainfo old_name new_name = some copy)
    (hins : (H5A_dense_insert f ainfo copy).1 = SUCCEED) :
    ((H5O_msg_is_shared (H5A_dense_insert f ainfo copy).2.2 = false ∨
        (H5O_msg_is_shared (H5A_dense_insert f ainfo copy).2.2 = true ∧
          H5SM_get_refcount (H5A_dense_insert f ainfo copy).2.1
            (H5A_dense_insert f ainfo copy).2.2.sh_loc = some 1)) →
      H5A_dense_rename f ainfo old_name new_name =
        (if (H5A_dense_remove (H5O_attr_link (H5A_dense_insert f ainfo copy).2.1
              (H5A_dense_insert f ainfo copy).2.2) ainfo old_name).1 < 0 then
          (FAIL, (H5A_dense_remove (H5O_attr_link (H5A_dense_insert f ainfo copy).2.1
              (H5A_dense_insert f ainfo copy).2.2) ainfo old_name).2)
         else
          (SUCCEED, (H5A_dense_remove (H5O_attr_link (H5A_dense_insert f ainfo copy).2.1
              (H5A_dense_insert f ainfo copy).2.2) ainfo old_name).2)) ∧
      ∃ dels : List H5O_attr_event, (∀ e ∈ dels, e.is_delete = true) ∧
        (H5A_dense_rename f ainfo old_name new_name).2.oh_log =
          dels ++ H5O_attr_event.link (H5A_dense_insert f ainfo copy).2.2 :: f.oh_log) ∧
    (H5O_msg_is_shared (H5A_dense_insert f ainfo copy).2.2 = true →
      ∀ rc, H5SM_get_refcount (H5A_dense_insert f ainfo copy).2.1
          (H5A_dense_insert f ainfo copy).2.2.sh_loc = some rc → 2 ≤ rc →
      H5A_dense_rename f ainfo old_name new_name =
        (if (H5A_dense_remove (H5A_dense_insert f ainfo copy).2.1 ainfo old_name).1 < 0 then
          (FAIL, (H5A_dense_remove (H5A_dense_insert f ainfo copy).2.1 ainfo old_name).2)
         else
          (SUCCEED, (H5A_dense_remove (H5A_dense_insert f ainfo copy).2.1 ainfo old_name).2)) ∧
      ∃ dels : List H5O_attr_event, (∀ e ∈ dels, e.is_delete = true) ∧
        (H5A_dense_rename f ainfo old_name new_name).2.oh_log = dels ++ f.oh_log) := by
  have heq := H5A_dense_rename_eq f ainfo old_name new_name copy hcopy
  have hlog := H5A_dense_insert_oh_log f ainfo copy
  have hnlt : ¬ (H5A_dense_insert f ainfo copy).1 < 0 := by rw [hins]; decide
  rw [if_neg hnlt] at heq
  generalize H5A_dense_insert f ainfo copy = ins at heq hlog
  have hfile : ∀ g : H5F_t,
      (if (H5A_dense_remove g ainfo old_name).1 < 0 then
          ((FAIL, (H5A_dense_remove g ainfo old_name).2) : herr_t × H5F_t)
        else (SUCCEED, (H5A_dense_remove g ainfo old_name).2)).2 =
        (H5A_dense_remove g ainfo old_name).2 := by
    intro g
    split <;> rfl
  constructor
  · intro hcase
    have hlinked : (if H5O_msg_is_shared ins.2.2 then
          match H5SM_get_refcount ins.2.1 ins.2.2.sh_loc with
          | none => none
          | some attr_rc =>
            if attr_rc = 1 then some (H5O_attr_link ins.2.1 ins.2.2) else some ins.2.1
        else some (H5O_attr_link ins.2.1 ins.2.2)) = some (H5O_attr_link ins.2.1 ins.2.2) := by
      rcases hcase with hns | ⟨hsh, hrc⟩
      · simp [hns]
      · simp [hsh, hrc]
    rw [hlinked] at heq
    simp only at heq
    refine ⟨heq, ?_⟩
    rw [heq, hfile]
    obtain ⟨dels, hd, hl⟩ := H5A_dense_remove_oh_log (H5O_attr_link ins.2.1 ins.2.2) ainfo old_name
    refine ⟨dels, hd, ?_⟩
    rw [hl]
    simp only [H5O_attr_link, hlog]
  · intro hsh rc hrc h2
    have hlinked : (if H5O_msg_is_shared ins.2.2 then
          match H5SM_get_refcount ins.2.1 ins.2.2.sh_loc with
          | none => none
          | some attr_rc =>
            if attr_rc = 1 then some (H5O_attr_link ins.2.1 ins.2.2) else some ins.2.1
        else some (H5O_attr_link ins.2.1 ins.2.2)) = some ins.2.1 := by
      have : rc ≠ 1 := by omega
      simp [hsh, hrc, this]
    rw [hlinked] at heq
    simp only at heq
    refine ⟨heq, ?_⟩
    rw [heq, hfile]
    obtain ⟨dels, hd, hl⟩ := H5A_dense_remove_oh_log ins.2.1 ainfo old_name
    exact ⟨dels, hd, by rw [hl, hlog]⟩

theorem H5A_dense_rename_link_witness :
    H5A_dense_rename_copy (H5A_ex_file3 false) (H5A_ex_ainfo1 false) "z" "y" =
      some (H5A_ex_attr "y" 0 [1]) ∧
    (H5A_dense_insert (H5A_ex_file3 false) (H5A_ex_ainfo1 false) (H5A_ex_attr "y" 0 [1])).1 =
      SUCCEED ∧
    H5O_msg_is_shared (H5A_dense_insert (H5A_ex_file3 false) (H5A_ex_ainfo1 false)
      (H5A_ex_attr "y" 0 [1])).2.2 = false ∧
    ∃ dels : List H5O_attr_event, (∀ e ∈ dels, e.is_delete = true) ∧
      (H5A_dense_rename (H5A_ex_file3 false) (H5A_ex_ainfo1 false) "z" "y").2.oh_log =
        dels ++ H5O_attr_event.link (H5A_dense_insert (H5A_ex_file3 false) (H5A_ex_ainfo1 false)
          (H5A_ex_attr "y" 0 [1])).2.2 :: (H5A_ex_file3 false).oh_log :=
  ⟨by decide, by decide, by decide,
    ((H5A_dense_rename_link (H5A_ex_file3 false) (H5A_ex_ainfo1 false) "z" "y"
      (H5A_ex_attr "y" 0 [1]) (by decide) (by decide)).1 (Or.inl (by decide))).2⟩

/-! ## What `H5A_dense_remove` releases -/

/-- `H5B2_remove` on the creation order index changes that index only. -/
theorem H5B2_remove_corder_frame (f g : H5F_t) (addr : haddr_t) (corder : Nat)
    (h : H5B2_remove_corder f addr corder = some g) :
    g.fheaps = f.fheaps ∧ g.name_bt2 = f.name_bt2 ∧
    g.H5_checksum_lookup3 = f.H5_checksum_lookup3 ∧ g.attr_sharable = f.attr_sharable := by
  unfold H5B2_remove_corder at h
  split at h
  · cases h
  · split at h
    · cases h
    · split at h
      · simp only [Option.some.injEq] at h
        rw [← h]
        exact ⟨rfl, rfl, rfl, rfl⟩
      · cases h

/-- `H5SM_delete` on a live slot: the slot is freed when its reference count
is at most 1 and keeps its message with one reference less otherwise; nothing
else of the file changes. -/
theorem H5SM_delete_exact (f g : H5F_t) (s : H5O_shared_t) (h : H5SM_delete f s = some g) :
    ∃ e : H5SM_mesg_t, f.sohm[s.heap_id]? = some (some e) ∧
      g = { f with sohm := (f.sohm.set s.heap_id
        (if e.ref_count ≤ 1 then none else some ⟨e.mesg, e.ref_count - 1⟩)) } := by
  unfold H5SM_delete at h
  cases hg : f.sohm[s.heap_id]? with
  | none => simp [hg] at h
  | some o =>
    cases o with
    | none => simp [hg] at h
    | some e =>
      simp only [hg] at h
      refine ⟨e, rfl, ?_⟩
      by_cases hrc : e.ref_count ≤ 1
      · simp only [hrc, if_true, Option.some.injEq] at h ⊢
        exact h.symm
      · simp only [hrc, if_false, Option.some.injEq] at h ⊢
        exact h.symm

/-- `H5HF_remove` frees the slot of a stored object; nothing else of the file
changes. -/
theorem H5HF_remove_exact (f g : H5F_t) (fheap id : Nat) (h : H5HF_remove f fheap id = some g) :
    ∃ (hp : H5HF_t) (o : H5A_mesg), f.fheaps fheap = some hp ∧ H5HF_read hp id = some o ∧
      g = f.set_fheap fheap (some (hp.set id none)) := by
  unfold H5HF_remove at h
  cases hh : f.fheaps fheap with
  | none => simp [hh] at h
  | some hp =>
    simp only [hh] at h
    cases hr : H5HF_read hp id with
    | none => simp [hr] at h
    | some o =>
      simp only [hr, Option.some.injEq] at h
      exact ⟨hp, o, rfl, hr, h.symm⟩

/-- The removal callback when it succeeds: after the creation order index has
been updated, a `SHARED` record gives its reference back through
`H5SM_delete`, and any other record has its components released and its heap
slot freed. -/
theorem H5A_dense_remove_bt2_cb_exact (udata : H5A_bt2_ud_rm_t) (f : H5F_t)
    (record : H5A_dense_bt2_name_rec_t) (attr : H5A_t)
    (hok : ¬ (H5A_dense_remove_bt2_cb udata f record attr).1 < 0) :
    ∃ f1 : H5F_t, f1.sohm = f.sohm ∧ f1.fheaps = f.fheaps ∧ f1.oh_log = f.oh_log ∧
      f1.name_bt2 = f.name_bt2 ∧ f1.H5_checksum_lookup3 = f.H5_checksum_lookup3 ∧
      f1.attr_sharable = f.attr_sharable ∧
      (record.flags.SHARED = true →
        H5SM_delete f1 attr.sh_loc = some (H5A_dense_remove_bt2_cb udata f record attr).2) ∧
      (record.flags.SHARED = false →
        H5HF_remove (H5O_attr_delete f1 attr) udata.common.fheap record.id =
          some (H5A_dense_remove_bt2_cb udata f record attr).2) := by
  have key : ∀ f1 : H5F_t,
      ¬ (if record.flags.SHARED = true then
          (match H5SM_delete f1 attr.sh_loc with
           | none => ((FAIL, f1) : herr_t × H5F_t)
           | some f2 => (SUCCEED, f2))
        else
          (match H5HF_remove (H5O_attr_delete f1 attr) udata.common.fheap record.id with
           | none => (FAIL, H5O_attr_delete f1 attr)
           | some f3 => (SUCCEED, f3))).1 < 0 →
      (record.flags.SHARED = true →
        H5SM_delete f1 attr.sh_loc = some (if record.flags.SHARED = true then
          (match H5SM_delete f1 attr.sh_loc with
           | none => ((FAIL, f1) : herr_t × H5F_t)
           | some f2 => (SUCCEED, f2))
        else
          (match H5HF_remove (H5O_attr_delete f1 attr) udata.common.fheap record.id with
           | none => (FAIL, H5O_attr_delete f1 attr)
           | some f3 => (SUCCEED, f3))).2) ∧
      (record.flags.SHARED = false →
        H5HF_remove (H5O_attr_delete f1 attr) udata.common.fheap record.id =
          some (if record.flags.SHARED = true then
          (match H5SM_delete f1 attr.sh_loc with
           | none => ((FAIL, f1) : herr_t × H5F_t)
           | some f2 => (SUCCEED, f2))
        else
          (match H5HF_remove (H5O_attr_delete f1 attr) udata.common.fheap record.id with
           | none => (FAIL, H5O_attr_delete f1 attr)
           | some f3 => (SUCCEED, f3))).2) := by
    intro f1 hok1
    by_cases hs : record.flags.SHARED = true
    · simp only [hs, if_true] at hok1 ⊢
      refine ⟨fun _ => ?_, fun h => by simp at h⟩
      cases hd : H5SM_delete f1 attr.sh_loc with
      | none =>
        rw [hd] at hok1
        exact absurd (by decide : (FAIL : Int) < 0) hok1
      | some f2 => rfl
    · have hs' : record.flags.SHARED = false := by simpa using hs
      simp only [hs', Bool.false_eq_true, if_false] at hok1 ⊢
      refine ⟨fun h => by simp at h, fun _ => ?_⟩
      cases hd : H5HF_remove (H5O_attr_delete f1 attr) udata.common.fheap record.id with
      | none =>
        rw [hd] at hok1
        exact absurd (by decide : (FAIL : Int) < 0) hok1
      | some f3 => rfl
  unfold H5A_dense_remove_bt2_cb at hok ⊢
  by_cases hdef : H5F_addr_defined udata.corder_bt2_addr = true
  · simp only [hdef, if_true] at hok ⊢
    cases hrm : H5B2_remove_corder f udata.corder_bt2_addr attr.crt_idx with
    | none =>
      rw [hrm] at hok
      exact absurd (by decide : (FAIL : Int) < 0) hok
    | some f1 =>
      rw [hrm] at hok
      simp only at hok ⊢
      obtain ⟨e1, e2, e3, e4⟩ := H5B2_remove_corder_frame _ f1 _ _ hrm
      exact ⟨f1, H5B2_remove_corder_sohm _ f1 _ _ hrm, e1,
        H5B2_remove_corder_oh_log _ f1 _ _ hrm, e2, e3, e4, key f1 hok⟩
  · simp only [hdef, if_false] at hok ⊢
    exact ⟨f, rfl, rfl, rfl, rfl, rfl, rfl, key f hok⟩

/-- `H5A_dense_open` on a store gives the same result in two files that hold
the same heaps and the same name index of that store and read every record
alike. -/
theorem H5A_dense_open_congr_at (f g : H5F_t) (ainfo : H5O_ainfo_t) (name : String)
    (hfh : g.fheaps = f.fheaps) (hhash : g.H5_checksum_lookup3 = f.H5_checksum_lookup3)
    (hnb : ∀ b, ainfo.name_bt2_addr = some b → g.name_bt2 b = f.name_bt2 b)
    (hop : ∀ fheap r, H5A_dense_heap_op g fheap (H5A_dense_shared_fheap g) r =
      H5A_dense_heap_op f fheap (H5A_dense_shared_fheap f) r) :
    H5A_dense_open g ainfo name = H5A_dense_open f ainfo name := by
  unfold H5A_dense_open
  rw [H5HF_open_congr f g _ hfh]
  cases H5HF_open f ainfo.fheap_addr with
  | none => rfl
  | some fheap =>
    simp only
    have hm : H5A_dense_name_match g
        ⟨fheap, H5A_dense_shared_fheap g, name, g.H5_checksum_lookup3 name, ⟨false⟩, 0⟩ =
        H5A_dense_name_match f
        ⟨fheap, H5A_dense_shared_fheap f, name, f.H5_checksum_lookup3 name, ⟨false⟩, 0⟩ := by
      funext r
      rw [Bool.eq_iff_iff, H5A_dense_name_match_iff, H5A_dense_name_match_iff]
      simp only [hhash, hop]
    have hfn : H5B2_find_name g ainfo.name_bt2_addr
        ⟨fheap, H5A_dense_shared_fheap g, name, g.H5_checksum_lookup3 name, ⟨false⟩, 0⟩ =
        H5B2_find_name f ainfo.name_bt2_addr
        ⟨fheap, H5A_dense_shared_fheap f, name, f.H5_checksum_lookup3 name, ⟨false⟩, 0⟩ := by
      unfold H5B2_find_name
      cases hb : ainfo.name_bt2_addr with
      | none => rfl
      | some b =>
        simp only
        rw [hnb b hb, hm]
        cases f.name_bt2 b with
        | none => rfl
        | some t =>
          simp only
          cases t.recs.find? (H5A_dense_name_match f
            ⟨fheap, H5A_dense_shared_fheap f, name, f.H5_checksum_lookup3 name, ⟨false⟩, 0⟩) with
          | none => rfl
          | some rec =>
            simp only [hop]
    rw [hfn]

/-- Encoding the attribute read through a record gives the object read. -/
theorem H5O_msg_encode_copy_fh_cb (obj : H5A_mesg) (r : H5A_dense_bt2_corder_rec_t) :
    H5O_msg_encode (H5A_dense_copy_fh_cb obj r) = obj := by
  obtain ⟨h1, -, h3, h4⟩ := H5A_dense_copy_fh_cb_fields obj r
  cases obj
  simp only [H5O_msg_encode, h1, h3, h4]

/-- Two files with the same heaps whose shared message tables hold the same
messages in the same live slots read every record alike. -/
theorem H5A_dense_heap_op_eq_of_slots (f g : H5F_t)
    (hs : g.attr_sharable = f.attr_sharable) (hfh : g.fheaps = f.fheaps)
    (hfg : ∀ (j : Nat) (e : H5SM_mesg_t), f.sohm[j]? = some (some e) →
      ∃ e' : H5SM_mesg_t, g.sohm[j]? = some (some e') ∧ e'.mesg = e.mesg)
    (hgf : ∀ (j : Nat) (e : H5SM_mesg_t), g.sohm[j]? = some (some e) →
      ∃ e' : H5SM_mesg_t, f.sohm[j]? = some (some e') ∧ e'.mesg = e.mesg) :
    ∀ fheap r, H5A_dense_heap_op g fheap (H5A_dense_shared_fheap g) r =
      H5A_dense_heap_op f fheap (H5A_dense_shared_fheap f) r := by
  intro fheap r
  cases hf : H5A_dense_heap_op f fheap (H5A_dense_shared_fheap f) r with
  | some a =>
    exact H5A_dense_heap_op_of_slot f g fheap r a hs (by rw [hfh]) (fun _ e he => hfg _ e he) hf
  | none =>
    cases hg : H5A_dense_heap_op g fheap (H5A_dense_shared_fheap g) r with
    | none => rfl
    | some a =>
      have := H5A_dense_heap_op_of_slot g f fheap r a hs.symm (by rw [hfh])
        (fun _ e he => hgf _ e he) hg
      rw [hf] at this
      cases this

/-- C23: `H5A_dense_remove` of the attribute a record of a well-formed store
reads as succeeds and releases storage by the record's flag.  For a record
flagged `SHARED` the slot of the shared message table the record refers to
loses one reference (it is freed when it had at most 1), and the heaps and
the log of component releases are as before.  For any other record the
attribute's components are released (one `H5O_attr_delete` in the log), the
heap slot of the record, which held the attribute's encoding, is freed, no
other heap slot changes and the shared message table is as before.  When the
slot of a `SHARED` record has 2 or more references, it keeps its message with
one reference less, and `H5A_dense_open` on every store with another name
index gives what it gave before, so an attribute of another object that
refers to the same slot is still opened. -/
theorem H5A_dense_remove_releases (f : H5F_t) (ainfo : H5O_ainfo_t) (fheap : Nat)
    (recs : List H5A_dense_bt2_name_rec_t) (r : H5A_dense_bt2_name_rec_t) (attr : H5A_t)
    (hv : H5A_dense_valid f ainfo = true)
    (h1 : H5HF_open f ainfo.fheap_addr = some fheap)
    (hrecs : H5B2_name_recs f ainfo.name_bt2_addr = some recs) (hr : r ∈ recs)
    (hattr : H5A_dense_heap_op f fheap (H5A_dense_shared_fheap f) r.common = some attr) :
    (H5A_dense_remove f ainfo attr.name).1 = SUCCEED ∧
    (r.flags.SHARED = true →
      attr.sh_loc.heap_id = r.id ∧
      (H5A_dense_remove f ainfo attr.name).2.fheaps = f.fheaps ∧
      (H5A_dense_remove f ainfo attr.name).2.oh_log = f.oh_log ∧
      ∃ e : H5SM_mesg_t, f.sohm[r.id]? = some (some e) ∧ e.mesg = H5O_msg_encode attr ∧
        (H5A_dense_remove f ainfo attr.name).2.sohm =
          f.sohm.set r.id (if e.ref_count ≤ 1 then none else some ⟨e.mesg, e.ref_count - 1⟩)) ∧
    (r.flags.SHARED = false →
      (H5A_dense_remove f ainfo attr.name).2.sohm = f.sohm ∧
      (H5A_dense_remove f ainfo attr.name).2.oh_log = H5O_attr_event.delete attr :: f.oh_log ∧
      ∃ h : H5HF_t, f.fheaps fheap = some h ∧ H5HF_read h r.id = some (H5O_msg_encode attr) ∧
        (H5A_dense_remove f ainfo attr.name).2.fheaps =
          (f.set_fheap fheap (some (h.set r.id none))).fheaps) ∧
    (r.flags.SHARED = true → ∀ e : H5SM_mesg_t, f.sohm[r.id]? = some (some e) →
      2 ≤ e.ref_count →
      (H5A_dense_remove f ainfo attr.name).2.sohm[r.id]? =
        some (some ⟨e.mesg, e.ref_count - 1⟩) ∧
      ∀ ainfoB : H5O_ainfo_t, ainfoB.name_bt2_addr ≠ ainfo.name_bt2_addr → ∀ name2,
        H5A_dense_open (H5A_dense_remove f ainfo attr.name).2 ainfoB name2 =
          H5A_dense_open f ainfoB name2) := by
  obtain ⟨fheap0, recs0, h10, hrecs0, hread, hnodup, -, hmirror⟩ :=
    (H5A_dense_valid_iff f ainfo).1 hv
  rw [h1] at h10
  cases h10
  rw [hrecs] at hrecs0
  cases hrecs0
  have hname : H5A_dense_rec_name f fheap r = some attr.name := by
    simp only [H5A_dense_rec_name, hattr, Option.map_some']
  obtain ⟨a, t, ha, ht, htr⟩ := (H5B2_name_recs_eq_some _ _ _).1 hrecs
  subst htr
  have hfind := H5A_dense_find_of_rec f fheap attr.name t.recs hread hnodup r hr hname
  have heq := H5A_dense_remove_eq f ainfo attr.name fheap a t h1 ha ht r attr hfind hattr _ rfl
  obtain ⟨l1, l2, f2, -, hres, -⟩ :=
    H5A_dense_remove_valid f ainfo attr.name fheap t.recs h1 hrecs hread hnodup hmirror r hr hname
  have hok : ¬ (H5A_dense_remove_bt2_cb
      ⟨⟨fheap, H5A_dense_shared_fheap f, attr.name, f.H5_checksum_lookup3 attr.name, ⟨false⟩, 0⟩,
        ainfo.corder_bt2_addr⟩ f r attr).1 < 0 := by
    intro hlt
    rw [if_pos hlt, hres] at heq
    cases heq
  obtain ⟨f1, hs1, hf1, hl1, hn1, hh1, ha1, hS, hU⟩ :=
    H5A_dense_remove_bt2_cb_exact _ f r attr hok
  rw [if_neg hok] at heq
  rw [heq]
  generalize H5A_dense_remove_bt2_cb
      ⟨⟨fheap, H5A_dense_shared_fheap f, attr.name, f.H5_checksum_lookup3 attr.name, ⟨false⟩, 0⟩,
        ainfo.corder_bt2_addr⟩ f r attr = cb at hS hU
  obtain ⟨obj, hobj, hao⟩ := (H5A_dense_heap_op_eq_some _ _ _ _ _).1 hattr
  have henc : H5O_msg_encode attr = obj := by rw [hao]; exact H5O_msg_encode_copy_fh_cb obj _
  have hshared : r.flags.SHARED = true →
      attr.sh_loc.heap_id = r.id ∧
      ∃ e : H5SM_mesg_t, f.sohm[r.id]? = some (some e) ∧ e.mesg = H5O_msg_encode attr ∧
        cb.2 = { f1 with sohm := (f.sohm.set r.id
          (if e.ref_count ≤ 1 then none else some ⟨e.mesg, e.ref_count - 1⟩)) } := by
    intro hs
    have hid : attr.sh_loc.heap_id = r.id := by
      rw [hao]
      exact H5A_dense_copy_fh_cb_sh_loc obj r.common hs
    obtain ⟨e, he, hg⟩ := H5SM_delete_exact f1 cb.2 _ (hS hs)
    rw [hs1, hid] at he
    rw [hs1, hid] at hg
    have hrs : r.common.flags.SHARED = true := hs
    simp only [hrs, if_true] at hobj
    obtain ⟨-, e2, he2, hm2⟩ := (H5HF_op_shared_eq_some f _ _).1 hobj
    have he2' : f.sohm[r.id]? = some (some e2) := he2
    rw [he] at he2'
    simp only [Option.some.injEq] at he2'
    subst he2'
    exact ⟨hid, e, he, by rw [henc, hm2], hg⟩
  refine ⟨rfl, ?_, ?_, ?_⟩
  · intro hs
    obtain ⟨hid, e, he, hm, hg⟩ := hshared hs
    refine ⟨hid, ?_, ?_, e, he, hm, ?_⟩
    · simp only [H5F_t.set_name_bt2_fheaps]
      rw [hg]
      exact hf1
    · show cb.2.oh_log = f.oh_log
      rw [hg]
      exact hl1
    · show cb.2.sohm = _
      rw [hg]
  · intro hs
    obtain ⟨hp, o, hh, hro, hg⟩ := H5HF_remove_exact _ cb.2 _ _ (hU hs)
    have hh' : f.fheaps fheap = some hp := by
      have : f1.fheaps fheap = some hp := hh
      rw [hf1] at this
      exact this
    have hrs : r.common.flags.SHARED = false := hs
    simp only [hrs, Bool.false_eq_true, if_false, H5HF_op, hh'] at hobj
    have hro' : H5HF_read hp r.id = some obj := hobj
    refine ⟨?_, ?_, hp, hh', by rw [henc]; exact hro', ?_⟩
    · show cb.2.sohm = f.sohm
      rw [hg]
      exact hs1
    · show cb.2.oh_log = _
      rw [hg]
      show H5O_attr_event.delete attr :: f1.oh_log = _
      rw [hl1]
    · simp only [H5F_t.set_name_bt2_fheaps]
      rw [hg]
      funext b
      simp only [H5F_t.set_fheap_fheaps]
      show (if b = fheap then _ else f1.fheaps b) = _
      rw [hf1]
  · intro hs e he h2
    obtain ⟨-, e', he', -, hg⟩ := hshared hs
    rw [he] at he'
    simp only [Option.some.injEq] at he'
    subst he'
    have hlt : r.id < f.sohm.length := by
      by_contra hge
      rw [List.getElem?_eq_none (Nat.not_lt.1 hge)] at he
      cases he
    have hnle : ¬ e.ref_count ≤ 1 := by omega
    rw [if_neg hnle] at hg
    have hsohm : (cb.2.set_name_bt2 a
        (some (t.set_recs (t.recs.eraseP (H5A_dense_is_named f fheap attr.name))))).sohm =
        f.sohm.set r.id (some ⟨e.mesg, e.ref_count - 1⟩) := by
      show cb.2.sohm = _
      rw [hg]
    refine ⟨?_, ?_⟩
    · simp only
      rw [hsohm]
      simp [List.getElem?_set, hlt]
    · intro ainfoB hne name2
      simp only
      refine H5A_dense_open_congr_at f _ ainfoB name2 ?_ ?_ ?_ ?_
      · simp only [H5F_t.set_name_bt2_fheaps]
        rw [hg]
        exact hf1
      · simp only [H5F_t.set_name_bt2_hash]
        rw [hg]
        exact hh1
      · intro b hb
        have hba : b ≠ a := by
          intro h
          apply hne
          rw [hb, ha, h]
        simp only [H5F_t.set_name_bt2_name_bt2, if_neg hba]
        rw [hg]
        show f1.name_bt2 b = _
        rw [hn1]
      · refine H5A_dense_heap_op_eq_of_slots f _ ?_ ?_ ?_ ?_
        · simp only [H5F_t.set_name_bt2_attr_sharable]
          rw [hg]
          exact ha1
        · simp only [H5F_t.set_name_bt2_fheaps]
          rw [hg]
          exact hf1
        · intro j ej hj
          rw [hsohm]
          by_cases hji : r.id = j
          · subst hji
            rw [he] at hj
            simp only [Option.some.injEq] at hj
            subst hj
            exact ⟨⟨e.mesg, e.ref_count - 1⟩, by simp [List.getElem?_set, hlt], rfl⟩
          · exact ⟨ej, by rw [List.getElem?_set, if_neg hji]; exact hj, rfl⟩
        · intro j ej hj
          rw [hsohm] at hj
          by_cases hji : r.id = j
          · subst hji
            simp only [List.getElem?_set, hlt, if_true, Option.some.injEq] at hj
            subst hj
            exact ⟨e, he, rfl⟩
          · rw [List.getElem?_set, if_neg hji] at hj
            exact ⟨ej, hj, rfl⟩

theorem H5A_dense_remove_releases_witness :
    H5A_dense_valid H5A_ex_file_two H5A_ex_ainfoA = true ∧
    H5A_ex_file_two.sohm[0]? = some (some ⟨⟨3, "a", [1, 2, 3]⟩, 2⟩) ∧
    (H5A_dense_remove H5A_ex_file_two H5A_ex_ainfoA "a").1 = SUCCEED ∧
    (H5A_dense_remove H5A_ex_file_two H5A_ex_ainfoA "a").2.sohm[0]? =
      some (some ⟨⟨3, "a", [1, 2, 3]⟩, 1⟩) ∧
    H5A_dense_open (H5A_dense_remove H5A_ex_file_two H5A_ex_ainfoA "a").2 H5A_ex_ainfoB "a" =
      H5A_dense_open H5A_ex_file_two H5A_ex_ainfoB "a" ∧
    H5A_dense_open H5A_ex_file_two H5A_ex_ainfoB "a" =
      some { H5A_ex_attr "a" 0 [1, 2, 3] with sh_loc := H5SM_reconstitute 0 } :=
  have h := H5A_dense_remove_releases H5A_ex_file_two H5A_ex_ainfoA 0
    [⟨0, ⟨true⟩, 0, 1⟩] ⟨0, ⟨true⟩, 0, 1⟩
    { H5A_ex_attr "a" 0 [1, 2, 3] with sh_loc := H5SM_reconstitute 0 }
    (by decide) (by decide) (by decide) (by decide) (by decide)
  have h4 := h.2.2.2 rfl ⟨⟨3, "a", [1, 2, 3]⟩, 2⟩ (by decide) (by decide)
  ⟨by decide, by decide, h.1, h4.1, h4.2 H5A_ex_ainfoB (by decide) "a", by decide⟩

/-! ## The steps of `H5A_dense_delete` -/

/-- The release of one record leaves the heaps and both indexes alone. -/
theorem H5A_dense_delete_release_frame (fheap : Nat) (f : H5F_t)
    (r : H5A_dense_bt2_name_rec_t) :
    (H5A_dense_delete_release fheap f r).fheaps = f.fheaps ∧
    (H5A_dense_delete_release fheap f r).name_bt2 = f.name_bt2 ∧
    (H5A_dense_delete_release fheap f r).corder_bt2 = f.corder_bt2 := by
  unfold H5A_dense_delete_release
  split
  · split
    · exact ⟨rfl, rfl, rfl⟩
    · exact ⟨rfl, rfl, rfl⟩
  · split
    · exact ⟨rfl, rfl, rfl⟩
    · exact ⟨rfl, rfl, rfl⟩

/-- The releases of a list of records leave the heaps and both indexes
alone. -/
theorem H5A_dense_delete_release_foldl_frame (fheap : Nat) :
    ∀ (l : List H5A_dense_bt2_name_rec_t) (f : H5F_t),
      (l.foldl (H5A_dense_delete_release fheap) f).fheaps = f.fheaps ∧
      (l.foldl (H5A_dense_delete_release fheap) f).name_bt2 = f.name_bt2 ∧
      (l.foldl (H5A_dense_delete_release fheap) f).corder_bt2 = f.corder_bt2
  | [], _ => ⟨rfl, rfl, rfl⟩
  | r :: rs, f => by
    obtain ⟨h1, h2, h3⟩ := H5A_dense_delete_release_foldl_frame fheap rs
      (H5A_dense_delete_release fheap f r)
    obtain ⟨e1, e2, e3⟩ := H5A_dense_delete_release_frame fheap f r
    simp only [List.foldl_cons]
    exact ⟨h1.trans e1, h2.trans e2, h3.trans e3⟩

/-- The deletion callback on a record whose storage is there succeeds and
releases what `H5A_dense_delete_release` says. -/
theorem H5A_dense_delete_bt2_cb_eq (fheap : Nat) (f : H5F_t) (r : H5A_dense_bt2_name_rec_t)
    (hS : r.flags.SHARED = true → ∃ e : H5SM_mesg_t, f.sohm[r.id]? = some (some e))
    (hU : r.flags.SHARED = false → ∃ obj, H5HF_op f fheap r.id = some obj) :
    H5A_dense_delete_bt2_cb fheap f r = (SUCCEED, H5A_dense_delete_release fheap f r) := by
  unfold H5A_dense_delete_bt2_cb H5A_dense_delete_release
  by_cases hs : r.flags.SHARED = true
  · obtain ⟨e, he⟩ := hS hs
    simp only [hs, if_true, he]
    by_cases hrc : e.ref_count ≤ 1
    · simp [H5SM_delete, H5SM_reconstitute, he, hrc]
    · simp [H5SM_delete, H5SM_reconstitute, he, hrc]
  · have hs' : r.flags.SHARED = false := by simpa using hs
    obtain ⟨obj, ho⟩ := hU hs'
    simp only [hs', Bool.false_eq_true, if_false, ho]
    rfl

/-- The per-record pass of the deletion over records that read as attributes
of pairwise different names: every callback succeeds, and the pass releases
the records one after the other. -/
theorem H5B2_delete_loop_release (f0 : H5F_t) (fheap : Nat) :
    ∀ (l : List H5A_dense_bt2_name_rec_t) (f : H5F_t),
      f.fheaps = f0.fheaps →
      (∀ r ∈ l, ∃ attr,
        H5A_dense_heap_op f0 fheap (H5A_dense_shared_fheap f0) r.common = some attr) →
      (l.map (H5A_dense_rec_name f0 fheap)).Nodup →
      (∀ r ∈ l, r.flags.SHARED = true → f.sohm[r.id]? = f0.sohm[r.id]?) →
      H5B2_delete_loop (H5A_dense_delete_bt2_cb fheap) l f =
        (SUCCEED, l.foldl (H5A_dense_delete_release fheap) f)
  | [], _, _, _, _, _ => rfl
  | r :: rs, f, hfh, hreads, hnd, hslots => by
    obtain ⟨attr, hattr⟩ := hreads r (List.mem_cons_self _ _)
    obtain ⟨obj, hobj, hao⟩ := (H5A_dense_heap_op_eq_some _ _ _ _ _).1 hattr
    have hcb : H5A_dense_delete_bt2_cb fheap f r =
        (SUCCEED, H5A_dense_delete_release fheap f r) := by
      refine H5A_dense_delete_bt2_cb_eq fheap f r ?_ ?_
      · intro hs
        have hrs : r.common.flags.SHARED = true := hs
        simp only [hrs, if_true] at hobj
        obtain ⟨-, e, he, -⟩ := (H5HF_op_shared_eq_some f0 _ _).1 hobj
        refine ⟨e, ?_⟩
        rw [hslots r (List.mem_cons_self _ _) hs]
        exact he
      · intro hs
        have hrs : r.common.flags.SHARED = false := hs
        simp only [hrs, Bool.false_eq_true, if_false] at hobj
        refine ⟨obj, ?_⟩
        simp only [H5HF_op, hfh]
        exact hobj
    simp only [H5B2_delete_loop, hcb, List.foldl_cons]
    rw [if_neg (by decide)]
    simp only [List.map_cons, List.nodup_cons] at hnd
    refine H5B2_delete_loop_release f0 fheap rs _ ?_ ?_ hnd.2 ?_
    · rw [(H5A_dense_delete_release_frame fheap f r).1, hfh]
    · intro x hx
      exact hreads x (List.mem_cons_of_mem _ hx)
    · intro x hx hxs
      rw [← hslots x (List.mem_cons_of_mem _ hx) hxs]
      unfold H5A_dense_delete_release
      by_cases hs : r.flags.SHARED = true
      · have hne : r.id ≠ x.id := by
          intro hid
          apply hnd.1
          obtain ⟨ax, hax⟩ := hreads x (List.mem_cons_of_mem _ hx)
          obtain ⟨objx, hobjx, haox⟩ := (H5A_dense_heap_op_eq_some _ _ _ _ _).1 hax
          have hrs : r.common.flags.SHARED = true := hs
          have hxs' : x.common.flags.SHARED = true := hxs
          simp only [hrs, if_true] at hobj
          simp only [hxs', if_true] at hobjx
          have hid' : x.common.id = r.common.id := hid.symm
          rw [hid', hobj] at hobjx
          simp only [Option.some.injEq] at hobjx
          have hnm : H5A_dense_rec_name f0 fheap r = H5A_dense_rec_name f0 fheap x := by
            simp only [H5A_dense_rec_name, hattr, hax, Option.map_some', hao, haox,
              H5A_dense_copy_fh_cb_name, hobjx]
          rw [hnm]
          exact List.mem_map_of_mem _ hx
        simp only [hs, if_true]
        split
        · simp only [List.getElem?_set, if_neg hne]
        · rfl
      · have hs' : r.flags.SHARED = false := by simpa using hs
        simp only [hs', Bool.false_eq_true, if_false]
        split <;> rfl

/-- C24 (as the code has it): on a well-formed store `H5A_dense_delete`
succeeds.  The per-record pass visits the records of the name index once each,
in index order, and every callback succeeds: for a record flagged `SHARED` the
shared reference is decremented, for any other record the attribute is decoded
and its components are released; the heap is left as it is, so no heap slot
is freed per record.  Then the name index is destroyed, then the creation
order index (when the descriptor has one) in the file the first step returned
and with no per-record callback, then the heap in the file the second step
returned, and the three addresses of the descriptor are undefined. -/
theorem H5A_dense_delete_steps (f : H5F_t) (ainfo : H5O_ainfo_t) (fheap a : Nat)
    (recs : List H5A_dense_bt2_name_rec_t)
    (hv : H5A_dense_valid f ainfo = true)
    (h1 : H5HF_open f ainfo.fheap_addr = some fheap)
    (ha : ainfo.name_bt2_addr = some a)
    (hrecs : H5B2_name_recs f ainfo.name_bt2_addr = some recs) :
    H5B2_delete_loop (H5A_dense_delete_bt2_cb fheap) recs f =
      (SUCCEED, recs.foldl (H5A_dense_delete_release fheap) f) ∧
    (recs.foldl (H5A_dense_delete_release fheap) f).fheaps = f.fheaps ∧
    H5B2_delete_name f ainfo.name_bt2_addr (H5A_dense_delete_bt2_cb fheap) =
      (SUCCEED, (recs.foldl (H5A_dense_delete_release fheap) f).set_name_bt2 a none) ∧
    (∀ c, ainfo.corder_bt2_addr = some c →
      H5B2_delete_corder
        ((recs.foldl (H5A_dense_delete_release fheap) f).set_name_bt2 a none) (some c) =
        some (((recs.foldl (H5A_dense_delete_release fheap) f).set_name_bt2 a
          none).set_corder_bt2 c none) ∧
      H5HF_delete (((recs.foldl (H5A_dense_delete_release fheap) f).set_name_bt2 a
          none).set_corder_bt2 c none) ainfo.fheap_addr =
        some ((((recs.foldl (H5A_dense_delete_release fheap) f).set_name_bt2 a
          none).set_corder_bt2 c none).set_fheap fheap none) ∧
      H5A_dense_delete f ainfo =
        (SUCCEED, (((recs.foldl (H5A_dense_delete_release fheap) f).set_name_bt2 a
          none).set_corder_bt2 c none).set_fheap fheap none,
          ⟨ainfo.index_corder, none, none, none⟩)) ∧
    (ainfo.corder_bt2_addr = none →
      H5HF_delete ((recs.foldl (H5A_dense_delete_release fheap) f).set_name_bt2 a none)
          ainfo.fheap_addr =
        some (((recs.foldl (H5A_dense_delete_release fheap) f).set_name_bt2 a
          none).set_fheap fheap none) ∧
      H5A_dense_delete f ainfo =
        (SUCCEED, ((recs.foldl (H5A_dense_delete_release fheap) f).set_name_bt2 a
          none).set_fheap fheap none, ⟨ainfo.index_corder, none, none, none⟩)) := by
  obtain ⟨fheap0, recs0, h10, hrecs0, hread, hnodup, -, hmirror⟩ :=
    (H5A_dense_valid_iff f ainfo).1 hv
  rw [h1] at h10
  cases h10
  rw [hrecs] at hrecs0
  cases hrecs0
  obtain ⟨a', t, ha', ht, htr⟩ := (H5B2_name_recs_eq_some _ _ _).1 hrecs
  rw [ha] at ha'
  cases ha'
  subst htr
  have hloop := H5B2_delete_loop_release f fheap t.recs f rfl
    (fun r hr => (hread r hr).imp (fun _ h => h.1)) hnodup (fun _ _ _ => rfl)
  obtain ⟨hpf, hpn, hpc⟩ := H5A_dense_delete_release_foldl_frame fheap t.recs f
  have hname : H5B2_delete_name f ainfo.name_bt2_addr (H5A_dense_delete_bt2_cb fheap) =
      (SUCCEED, (t.recs.foldl (H5A_dense_delete_release fheap) f).set_name_bt2 a none) := by
    simp only [H5B2_delete_name, ha, ht, hloop]
    rw [if_neg (by decide)]
  obtain ⟨hfa, hp, hhp⟩ := (H5HF_open_eq_some f _ fheap).1 h1
  refine ⟨hloop, hpf, hname, ?_, ?_⟩
  · intro c hc
    obtain ⟨crecs, hcrecs, -⟩ := hmirror c hc
    obtain ⟨c', ct, hc', hct, -⟩ := (H5B2_corder_recs_eq_some _ _ _).1 hcrecs
    cases hc'
    have hco : H5B2_delete_corder
        ((t.recs.foldl (H5A_dense_delete_release fheap) f).set_name_bt2 a none) (some c) =
        some (((t.recs.foldl (H5A_dense_delete_release fheap) f).set_name_bt2 a
          none).set_corder_bt2 c none) := by
      simp only [H5B2_delete_corder, H5F_t.set_name_bt2_corder_bt2, hpc, hct]
    have hhd : H5HF_delete (((t.recs.foldl (H5A_dense_delete_release fheap) f).set_name_bt2 a
          none).set_corder_bt2 c none) ainfo.fheap_addr =
        some ((((t.recs.foldl (H5A_dense_delete_release fheap) f).set_name_bt2 a
          none).set_corder_bt2 c none).set_fheap fheap none) := by
      simp only [H5HF_delete, hfa, H5F_t.set_corder_bt2_fheaps, H5F_t.set_name_bt2_fheaps, hpf,
        hhp]
    refine ⟨hco, hhd, ?_⟩
    rw [hfa] at hhd
    unfold H5A_dense_delete
    simp only [h1, hname]
    rw [if_neg (by decide)]
    simp only [hc, H5F_addr_defined, Option.isSome_some, if_true, hco, hfa, hhd]
  · intro hc
    have hhd : H5HF_delete ((t.recs.foldl (H5A_dense_delete_release fheap) f).set_name_bt2 a
          none) ainfo.fheap_addr =
        some (((t.recs.foldl (H5A_dense_delete_release fheap) f).set_name_bt2 a
          none).set_fheap fheap none) := by
      simp only [H5HF_delete, hfa, H5F_t.set_name_bt2_fheaps, hpf, hhp]
    refine ⟨hhd, ?_⟩
    rw [hfa] at hhd
    unfold H5A_dense_delete
    simp only [h1, hname]
    rw [if_neg (by decide)]
    simp only [hc, H5F_addr_defined, Option.isSome_none, Bool.false_eq_true, if_false, hfa, hhd]

theorem H5A_dense_delete_steps_witness :
    H5A_dense_valid (H5A_ex_file3 true) (H5A_ex_ainfo1 true) = true ∧
    H5B2_delete_loop (H5A_dense_delete_bt2_cb 0)
      [⟨0, ⟨true⟩, 1, 1⟩, ⟨1, ⟨false⟩, 2, 1⟩, ⟨0, ⟨false⟩, 0, 1⟩] (H5A_ex_file3 true) =
      (SUCCEED, ([⟨0, ⟨true⟩, 1, 1⟩, ⟨1, ⟨false⟩, 2, 1⟩, ⟨0, ⟨false⟩, 0, 1⟩] :
        List H5A_dense_bt2_name_rec_t).foldl (H5A_dense_delete_release 0) (H5A_ex_file3 true)) :=
  ⟨by decide,
    (H5A_dense_delete_steps (H5A_ex_file3 true) (H5A_ex_ainfo1 true) 0 1
      [⟨0, ⟨true⟩, 1, 1⟩, ⟨1, ⟨false⟩, 2, 1⟩, ⟨0, ⟨false⟩, 0, 1⟩]
      (by decide) (by decide) (by decide) (by decide)).1⟩

/-- C24 fails as stated: in the example store, which holds "z" and "m" in
the heap and "a" shared, the deletion callback on the record of "z" (not
`SHARED`, heap ID 0) succeeds and releases the components of "z", and the heap
still holds "z" in slot 0; after the whole per-record pass and the
destruction of the name index, the heap still holds both of its objects. -/
theorem H5A_dense_delete_keeps_heap_slots :
    (H5A_dense_delete_bt2_cb 0 (H5A_ex_file3 true) ⟨0, ⟨false⟩, 0, 1⟩).1 = SUCCEED ∧
    (H5A_dense_delete_bt2_cb 0 (H5A_ex_file3 true) ⟨0, ⟨false⟩, 0, 1⟩).2.oh_log =
      [H5O_attr_event.delete (H5A_ex_attr "z" 0 [1])] ∧
    H5HF_op (H5A_dense_delete_bt2_cb 0 (H5A_ex_file3 true) ⟨0, ⟨false⟩, 0, 1⟩).2 0 0 =
      some ⟨3, "z", [1]⟩ ∧
    (H5B2_delete_name (H5A_ex_file3 true) (H5A_ex_ainfo1 true).name_bt2_addr
      (H5A_dense_delete_bt2_cb 0)).1 = SUCCEED ∧
    (H5B2_delete_name (H5A_ex_file3 true) (H5A_ex_ainfo1 true).name_bt2_addr
      (H5A_dense_delete_bt2_cb 0)).2.fheaps 0 =
      some [some ⟨3, "z", [1]⟩, some ⟨3, "m", []⟩] ∧
    (H5A_dense_delete (H5A_ex_file3 true) (H5A_ex_ainfo1 true)).1 = SUCCEED := by
  decide

/-! ## Agreement of the indexes after `H5A_dense_write` -/

/-- A write callback on a record that is not shared fails, leaving the file
as it was, when the encoding of the attribute does not have the length of the
stored object. -/
theorem H5A_dense_write_bt2_cb_other_length (op_data : H5A_bt2_od_wrt_t) (f : H5F_t)
    (rec : H5A_dense_bt2_name_rec_t) (hsh : rec.flags.SHARED = false) (len : Nat)
    (hlen : H5HF_get_obj_len f op_data.fheap rec.id = some len)
    (hne : len ≠ f.H5O_msg_raw_size op_data.attr) :
    (H5A_dense_write_bt2_cb op_data f rec).1 = FAIL ∧
    (H5A_dense_write_bt2_cb op_data f rec).2.1 = f := by
  unfold H5A_dense_write_bt2_cb
  rw [if_neg (by simp [hsh])]
  by_cases hz : f.H5O_msg_raw_size op_data.attr = 0
  · rw [if_pos hz]
    exact ⟨rfl, rfl⟩
  · rw [if_neg hz, hlen]
    simp only
    rw [if_pos hne]
    exact ⟨rfl, rfl⟩

